import Mathlib

/-!
# The MUF interpreter and dispatcher (`interp.c`)

A shallow embedding of the value operations, the frame, the pools and the
instruction dispatcher of `src/fbmuck/src/interp.c`, followed by the theorems
that settle the properties stated about them.

Conventions of the embedding.

* C `int` values are `Int`: the stack heights, indices and counts the theorems
  are about move by one and stay inside the 32-bit range (stack heights are
  bounded by `STACK_SIZE`).
* A pointer to a heap object (`struct shared_string *`, `stk_array *`,
  `struct prog_addr *`) is a `Nat` naming a cell of the heap; a pointer that may
  be `NULL` is an `Option`.  `free` marks the cell as freed.
* A pointer into compiled code (`struct inst *pc`) is a `Nat` code address, `0`
  being `NULL`; `pc + 1` is the next instruction.
* A C array indexed by an `int` is a function on `Int`.
* Linked lists are `List`s, the head of the list being the head node.
* Objects that are deep-copied by the code (procedure metadata, lock
  expressions) are carried by value.
-/

namespace Interp

/-! ## Values -/

/-- The `double` payload of a FLOAT value, by its IEEE-754 fields.  The only
operation the interpreter core applies to it is the comparison with `0.0`. -/
structure double where
  sign : Bool
  exponent : Nat
  mantissa : Nat
deriving DecidableEq, Repr

/-- The comparison `x == 0.0` of C: true for both signed zeros, false for
every other value (NaN included). -/
def double.eq_zero (x : double) : Bool := x.exponent == 0 && x.mantissa == 0

/-- A lock expression (`struct boolexp`), carried by value.  The constant
`TRUE_BOOLEXP` is the null pointer, `none` in `tagged.PROG_LOCK`. -/
inductive boolexp where
  | BOOLEXP_CONST (thing : Int)
  | BOOLEXP_PROP (name : String) (value : String)
  | BOOLEXP_NOT (sub1 : boolexp)
  | BOOLEXP_AND (sub1 sub2 : boolexp)
  | BOOLEXP_OR (sub1 sub2 : boolexp)
deriving DecidableEq, Repr

/-- Procedure metadata, `struct muf_proc_data`. -/
structure muf_proc_data where
  procname : String
  vars : Int
  args : Int
  varnames : Option (List String)
deriving DecidableEq, Repr

/-- The tag of a value, `inst.type`. -/
inductive prog_type where
  | PROG_CLEARED | PROG_PRIMITIVE | PROG_INTEGER | PROG_FLOAT | PROG_OBJECT
  | PROG_VAR | PROG_LVAR | PROG_SVAR
  | PROG_LVAR_AT | PROG_LVAR_AT_CLEAR | PROG_LVAR_BANG
  | PROG_SVAR_AT | PROG_SVAR_AT_CLEAR | PROG_SVAR_BANG
  | PROG_TRY | PROG_IF | PROG_EXEC | PROG_JMP
  | PROG_STRING | PROG_FUNCTION | PROG_LOCK | PROG_ADD | PROG_MARK | PROG_ARRAY
deriving DecidableEq, Repr

/-- The tag of a value together with the member of the `data` union that the
tag selects.  A CLEARED value keeps the name of the file that cleared it where
the payload was (`oper->data.addr = (struct prog_addr *) file`). -/
inductive tagged where
  | PROG_CLEARED (file : String)
  | PROG_PRIMITIVE (number : Int)
  | PROG_INTEGER (number : Int)
  | PROG_FLOAT (fnumber : double)
  | PROG_OBJECT (objref : Int)
  | PROG_VAR (number : Int)
  | PROG_LVAR (number : Int)
  | PROG_SVAR (number : Int)
  | PROG_LVAR_AT (number : Int)
  | PROG_LVAR_AT_CLEAR (number : Int)
  | PROG_LVAR_BANG (number : Int)
  | PROG_SVAR_AT (number : Int)
  | PROG_SVAR_AT_CLEAR (number : Int)
  | PROG_SVAR_BANG (number : Int)
  | PROG_TRY (call : Nat)
  | PROG_IF (call : Nat)
  | PROG_EXEC (call : Nat)
  | PROG_JMP (call : Nat)
  | PROG_STRING (string : Option Nat)
  | PROG_FUNCTION (mufproc : Option muf_proc_data)
  | PROG_LOCK (lock : Option boolexp)
  | PROG_ADD (addr : Nat)
  | PROG_MARK
  | PROG_ARRAY (array : Option Nat)
deriving DecidableEq, Repr

/-- A value or instruction, `struct inst`: source line, tag and payload. -/
structure inst where
  line : Int
  data : tagged
deriving DecidableEq, Repr

/-- The field `type` of a `struct inst`. -/
def inst.type (p : inst) : prog_type :=
  match p.data with
  | .PROG_CLEARED _ => .PROG_CLEARED
  | .PROG_PRIMITIVE _ => .PROG_PRIMITIVE
  | .PROG_INTEGER _ => .PROG_INTEGER
  | .PROG_FLOAT _ => .PROG_FLOAT
  | .PROG_OBJECT _ => .PROG_OBJECT
  | .PROG_VAR _ => .PROG_VAR
  | .PROG_LVAR _ => .PROG_LVAR
  | .PROG_SVAR _ => .PROG_SVAR
  | .PROG_LVAR_AT _ => .PROG_LVAR_AT
  | .PROG_LVAR_AT_CLEAR _ => .PROG_LVAR_AT_CLEAR
  | .PROG_LVAR_BANG _ => .PROG_LVAR_BANG
  | .PROG_SVAR_AT _ => .PROG_SVAR_AT
  | .PROG_SVAR_AT_CLEAR _ => .PROG_SVAR_AT_CLEAR
  | .PROG_SVAR_BANG _ => .PROG_SVAR_BANG
  | .PROG_TRY _ => .PROG_TRY
  | .PROG_IF _ => .PROG_IF
  | .PROG_EXEC _ => .PROG_EXEC
  | .PROG_JMP _ => .PROG_JMP
  | .PROG_STRING _ => .PROG_STRING
  | .PROG_FUNCTION _ => .PROG_FUNCTION
  | .PROG_LOCK _ => .PROG_LOCK
  | .PROG_ADD _ => .PROG_ADD
  | .PROG_MARK => .PROG_MARK
  | .PROG_ARRAY _ => .PROG_ARRAY

/-- The sentinel object reference `NOTHING`. -/
def NOTHING : Int := -1

/-! ## The heap of shared objects -/

/-- A shared string, `struct shared_string`: reference count and text. -/
structure shared_string where
  links : Int
  data : String
  freed : Bool
deriving DecidableEq, Repr

/-- A shared array, `stk_array`: reference count, number of items, whether it
is a packed list (`type == ARRAY_PACKED`) and its key/value pairs. -/
structure stk_array where
  links : Int
  items : Int
  packed : Bool
  elems : List (inst × inst)
  freed : Bool
deriving DecidableEq, Repr

/-- A shared code address, `struct prog_addr`: reference count, the program it
points into and the instruction it points at. -/
structure prog_addr where
  links : Int
  progref : Int
  data : Nat
deriving DecidableEq, Repr

/-- An entry of a program's PUBLIC table, `struct publics`. -/
structure publics where
  subname : String
  mlev : Int
  addr : Nat
deriving DecidableEq, Repr

/-- The program-specific part of a database object, `PROGRAM_SP(x)`: instance
count, compiled code (`0` when the program is not compiled), entry point,
PUBLIC table and profiling use count. -/
structure program_specific where
  instances : Int
  code : Nat
  start : Nat
  pubs : List publics
  prof_uses : Int
deriving DecidableEq, Repr

/-- A line written by `log_status` when a slot is cleared twice: the file and
line of the second clear and those recorded by the first. -/
structure reclear_warning where
  file : String
  line : Int
  prev_file : String
  prev_line : Int
deriving DecidableEq, Repr

/-- The memory the value operations work on. -/
structure heap where
  strings : Nat → shared_string
  next_string : Nat
  arrays : Nat → stk_array
  next_array : Nat
  addrs : Nat → prog_addr
  progs : Int → program_specific
  status_log : List reclear_warning

/-- Assignment to one cell of a heap, `f[i] = v`. -/
def setN {α : Type} (f : Nat → α) (i : Nat) (v : α) : Nat → α :=
  fun j => if j = i then v else f j

/-- Assignment to one element of a C array, `f[i] = v`. -/
def setI {α : Type} (f : Int → α) (i : Int) (v : α) : Int → α :=
  fun j => if j = i then v else f j

/-- Modelled from the spec: the macro `PROGRAM_INC_INSTANCES` is declared in a
header that is not part of the source; the program's instance count goes up by
one ("increments the target's instance count"). -/
def PROGRAM_INC_INSTANCES (h : heap) (x : Int) : heap :=
  { h with progs := setI h.progs x { (h.progs x) with instances := (h.progs x).instances + 1 } }

/-- Modelled from the spec: the macro `PROGRAM_DEC_INSTANCES` is declared in a
header that is not part of the source; the program's instance count goes down
by one ("decrements ... program instance count"). -/
def PROGRAM_DEC_INSTANCES (h : heap) (x : Int) : heap :=
  { h with progs := setI h.progs x { (h.progs x) with instances := (h.progs x).instances - 1 } }

/-- Modelled from the spec: `array_free` is defined outside the source; for an
array the clear "decrements refcount and frees at zero".  A null array is left
alone. -/
def array_free (h : heap) (a : Option Nat) : heap :=
  match a with
  | none => h
  | some i =>
    let c := h.arrays i
    let c1 : stk_array := { c with links := c.links - 1, freed := c.freed || (c.links - 1 == 0) }
    { h with arrays := setN h.arrays i c1 }

/-- The function `false_inst`: whether a value counts as false. -/
def false_inst (h : heap) (p : inst) : Bool :=
  (match p.data with
    | .PROG_STRING s =>
      (match s with
        | none => true
        | some i => (h.strings i).data == "")
    | _ => false)
  || (p.type == .PROG_MARK)
  || (match p.data with
    | .PROG_ARRAY a =>
      (match a with
        | none => true
        | some i => (h.arrays i).items == 0)
    | _ => false)
  || (match p.data with
    | .PROG_LOCK l => l == none
    | _ => false)
  || (match p.data with
    | .PROG_INTEGER n => n == 0
    | _ => false)
  || (match p.data with
    | .PROG_FLOAT f => f.eq_zero
    | _ => false)
  || (match p.data with
    | .PROG_OBJECT d => d == NOTHING
    | _ => false)

/-- The function `copyinst(from, to)`: the new content of `*to` and the heap
after the copy.  `*to = *from` copies the line, the tag and the payload; shared
objects get one more link, an address also one more instance of its program;
procedure metadata and lock expressions are duplicated. -/
def copyinst (h : heap) (src : inst) : heap × inst :=
  match src.data with
  | .PROG_FUNCTION (some m) =>
    (h, { src with data := .PROG_FUNCTION (some
      { procname := m.procname, vars := m.vars, args := m.args,
        varnames := some ((List.range m.vars.toNat).map
          (fun j => (m.varnames.getD []).getD j "")) }) })
  | .PROG_STRING (some i) =>
    let c1 : shared_string := { (h.strings i) with links := (h.strings i).links + 1 }
    ({ h with strings := setN h.strings i c1 }, src)
  | .PROG_ARRAY (some i) =>
    let c1 : stk_array := { (h.arrays i) with links := (h.arrays i).links + 1 }
    ({ h with arrays := setN h.arrays i c1 }, src)
  | .PROG_ADD a =>
    let c1 : prog_addr := { (h.addrs a) with links := (h.addrs a).links + 1 }
    let h1 : heap := { h with addrs := setN h.addrs a c1 }
    (PROGRAM_INC_INSTANCES h1 (h1.addrs a).progref, src)
  | .PROG_LOCK (some l) => (h, { src with data := .PROG_LOCK (some l) })
  | _ => (h, src)

/-- The function `RCLEAR(oper, file, line)`: the new content of `*oper` and the
heap after the clear.  A slot that is already CLEARED is reported with
`log_status` (the `assert(0)` that follows stops a debugging build) and the
function returns without touching anything else. -/
def RCLEAR (h : heap) (oper : inst) (file : String) (line : Int) : heap × inst :=
  let cleared : inst := { line := line, data := .PROG_CLEARED file }
  match oper.data with
  | .PROG_CLEARED prev =>
    ({ h with status_log := h.status_log ++
        [{ file := file, line := line, prev_file := prev, prev_line := oper.line }] }, oper)
  | .PROG_ADD a =>
    let h1 := PROGRAM_DEC_INSTANCES h (h.addrs a).progref
    let c1 : prog_addr := { (h1.addrs a) with links := (h1.addrs a).links - 1 }
    ({ h1 with addrs := setN h1.addrs a c1 }, cleared)
  | .PROG_STRING (some i) =>
    let c := h.strings i
    let c1 : shared_string := { c with links := c.links - 1, freed := c.freed || (c.links - 1 == 0) }
    ({ h with strings := setN h.strings i c1 }, cleared)
  | .PROG_ARRAY a => (array_free h a, cleared)
  | _ => (h, cleared)

/-- The macro `CLEAR(oper)`, `RCLEAR(oper, __FILE__, __LINE__)`: every use in
`interp.c` is given the line of the source it stands on. -/
def CLEAR (h : heap) (oper : inst) (line : Int) : heap × inst :=
  RCLEAR h oper "interp.c" line

/-- Modelled from the spec: `alloc_prog_string` is defined outside the source;
it makes the shared string that carries a text ("the error message as a string
(or null if none)"): a fresh cell with one link, and the null string for an
empty text. -/
def alloc_prog_string (h : heap) (s : String) : heap × Option Nat :=
  if s = "" then (h, none)
  else
    let cell : shared_string := { links := 1, data := s, freed := false }
    ({ h with strings := setN h.strings h.next_string cell, next_string := h.next_string + 1 },
      some h.next_string)

/-! ## Frames -/

/-- An entry of the system stack, `struct stack_addr`: the program and the code
address to return to. -/
structure stack_addr where
  progref : Int
  offset : Nat
deriving DecidableEq, Repr

/-- A node of the try stack, `struct tryvars`. -/
structure tryvars where
  depth : Int
  call_level : Int
  for_count : Int
  addr : Nat
deriving DecidableEq, Repr

/-- A node of the for stack, `struct forvars` (the field `end` is `end_`). -/
structure forvars where
  didfirst : Int
  cur : inst
  end_ : inst
  step : Int
deriving DecidableEq, Repr

/-- The program-local variables of one program, `struct localvars`. -/
structure localvars where
  prog : Int
  lvars : Int → inst

/-- One level of scoped variables, `struct scopedvar_t`. -/
structure scopedvar_t where
  count : Int
  varnames : Option (List String)
  vars : Int → inst

/-- The debugger state of a frame, `fr->brkpt`. -/
structure debuggerdata where
  debugging : Bool
  force_debugging : Bool
  bypass : Bool
  isread : Bool
  showstack : Bool
  dosyspop : Bool
  lastlisted : Int
  lastcmd : Option String
  breaknum : Int
  lastproglisted : Int
  proglines : Bool
  count : Int
  temp : Int → Int
  level : Int → Int
  line : Int → Int
  linecount : Int → Int
  pc : Int → Nat
  pccount : Int → Int
  prog : Int → Int
  lastline : Int
  lastpc : Nat

/-- A frame, `struct frame`: one running program invocation (the field
`variables` is `variables_`).  The link `next`
of the free list is carried by the free list itself, the profiling clocks are
left out. -/
structure frame where
  pid : Int
  descr : Int
  multitask : Int
  perms : Int
  already_created : Int
  been_background : Bool
  trig : Int
  timercount : Int
  instcnt : Int
  skip_declare : Bool
  wantsblanks : Bool
  caller_top : Int
  caller_st : Int → Int
  system_top : Int
  system_st : Int → stack_addr
  argument_top : Int
  argument_st : Int → inst
  waitees : List Int
  waiters : List Int
  fors_top : Int
  fors_st : List forvars
  trys_top : Int
  trys_st : List tryvars
  errorstr : Option String
  errorinst : Option String
  errorprog : Int
  errorline : Int
  rndbuf : Bool
  dlogids : List String
  pc : Nat
  writeonly : Bool
  level : Int
  svars : List scopedvar_t
  lvars : List localvars
  variables_ : Int → inst
  brkpt : debuggerdata

/-- A call of an external collaborator (scheduler, event bus, I/O, log), kept
in the order in which the calls are made. -/
inductive effect where
  | notify_nolisten (player : Int) (msg : String)
  | interp_err (player program : Int) (pc : Nat) (origprog : Int) (msg1 msg2 : String)
  | muf_backtrace (player program : Int)
  | PLAYER_SET_BLOCK (player : Int) (block : Bool)
  | PLAYER_SET_CURR_PROG (player program : Int)
  | add_muf_delay_event (delay descr player program : Int) (fr : Nat) (mode : String)
  | add_muf_read_event (descr player program : Int) (fr : Nat)
  | muf_event_register_specific (player program : Int) (fr : Nat) (events : List String)
  | muf_event_add (fr : Nat) (name : String) (value : inst)
  | muf_event_purge (fr : Nat)
  | muf_dlog_purge (fr : Nat)
  | dequeue_timers (pid : Int)
  | delete_seed (fr : Nat)
  | log_status (msg : String)
  | debug_inst (player : Int) (pc : Nat)
  | list_proglines (player program : Int) (line : Int)
  | ts_useobject (program : Int)
deriving DecidableEq, Repr

/-- The process-wide state: the heap, the frames (a frame pointer is a `Nat`),
the free-frame list, the two node pools with their boundary pointers, the
static error counter `err`, `interp_depth`, `top_pid` and the calls made to the
external collaborators.

A boundary pointer (`last_for`, `last_try`) is the position in the pool of the
link it points at: `0` is `&for_pool` and `k + 1` is the `next` field of the
node at position `k`. -/
structure machine where
  mem : heap
  frames : Nat → frame
  free_frames_list : List Nat
  for_pool : List forvars
  last_for : Nat
  try_pool : List tryvars
  last_try : Nat
  err : Int
  interp_depth : Int
  top_pid : Int
  already_created : Int
  nargs : Int
  out : List effect

/-- The value `ERROR_DIE_NOW` of `err`. -/
def ERROR_DIE_NOW : Int := -1

/-- The numbers of the primitives the dispatcher handles itself, in the order of
the first entries of `prim_func` (entry `n - 1` serves primitive `n`). -/
def IN_JMP : Int := 1
def IN_READ : Int := 2
def IN_SLEEP : Int := 3
def IN_CALL : Int := 4
def IN_EXECUTE : Int := 5
def IN_RET : Int := 6
def IN_EVENT_WAITFOR : Int := 7
def IN_CATCH : Int := 8
def IN_CATCH_DETAILED : Int := 9

/-- The multitask modes of a frame. -/
def PREEMPT : Int := 0
def FOREGROUND : Int := 1
def BACKGROUND : Int := 2

/-- The type of a database object, `Typeof(x)`. -/
inductive object_type where
  | TYPE_ROOM | TYPE_THING | TYPE_EXIT | TYPE_PLAYER | TYPE_PROGRAM | TYPE_GARBAGE
deriving DecidableEq, Repr

/-- The object flags the interpreter core tests. -/
inductive object_flag where
  | STICKY | HAVEN | ZOMBIE | DARK | BUILDER | READMODE
deriving DecidableEq, Repr

/-- The local variables of `interp_loop`: its arguments and registers.  `arg`
and `sys` point at the stacks of the frame and are read through it. -/
structure locals where
  player : Int
  program : Int
  fr : Nat
  rettyp : Int
  pc : Nat
  atop : Int
  stop : Int
  instr_count : Int
  mlev : Int
  writeonly : Bool
  i : Int

/-- What the external collaborators and the configuration provide: constants of
headers that are not part of the source, the object database, the compiler, the
code memory, the scheduler's frame lookup and the primitive library. -/
structure env where
  STACK_SIZE : Int
  MAX_VAR : Int
  db_top : Int
  tp_max_instr_count : Int
  tp_max_ml4_preempt_count : Int
  tp_instr_slice : Int
  tp_free_frames_pool : Int
  Typeof : Int → object_type
  OWNER : Int → Int
  FLAGS : Int → object_flag → Bool
  MLevel : Int → Int
  TrueWizard : Int → Bool
  Linkable : Int → Bool
  controls : Int → Int → Bool
  can_link_to : Int → Int → Bool
  online : Int → Bool
  ProgMLevel : frame → Int → Int
  ProgUID : Int → frame → Int → Int
  code : Nat → inst
  do_compile : Int → program_specific → program_specific
  string_compare : String → String → Int
  insttotext : frame → Nat → Int → String
  timequeue_pid_frame : Int → Option Nat
  array_is_homogenous : Option stk_array → prog_type → Bool
  array_event_names : heap → Option stk_array → List (Option String)
  instno_debug_line : Int
  prim_func : Int → machine → locals → machine × Int

/-- What `interp_loop` returns: `NULL`, the constant `(struct inst *) 1`, or a
pointer to the static `retval`. -/
inductive retval where
  | null
  | one
  | value (v : inst)
deriving DecidableEq, Repr

/-- How one pass through the body of the dispatcher loop ends: the loop goes
on, `interp_loop` returns, or the C code has no defined behaviour (it
dereferences a null pointer). -/
inductive outcome where
  | next (m : machine) (l : locals)
  | ret (m : machine) (rv : retval)
  | undefined (m : machine)

/-! ## Variable stores -/

/-- The loop `while (count-- > 0) CLEAR(&vars[count]);`: the slots
`count - 1` down to `0` are cleared, each by the `CLEAR` of source line `line`. -/
def clear_down (line : Int) : Nat → heap → (Int → inst) → heap × (Int → inst)
  | 0, h, vars => (h, vars)
  | n + 1, h, vars =>
    let r := CLEAR h (vars n) line
    clear_down line n r.1 (setI vars n r.2)

/-- The loop `for (i = from; i < from + n; i++) CLEAR(&st[i]);`. -/
def clear_up (line : Int) : Nat → Int → heap → (Int → inst) → heap × (Int → inst)
  | 0, _, h, st => (h, st)
  | n + 1, i, h, st =>
    let r := CLEAR h (st i) line
    clear_up line n (i + 1) r.1 (setI st i r.2)

/-- The search `while (tmp && tmp->prog != prog) tmp = tmp->next;` of
`localvars_get`: the record found, if any, and the list without it. -/
def localvars_find (prog : Int) : List localvars → Option (localvars × List localvars)
  | [] => none
  | r :: rest =>
    if r.prog = prog then some (r, rest)
    else
      match localvars_find prog rest with
      | none => none
      | some (t, others) => some (t, r :: others)

/-- The function `localvars_get(fr, prog)`: the record of `prog` is taken out of
the list, or created with all slots the integer 0, and put at the head. -/
def localvars_get (fr : frame) (prog : Int) : frame :=
  match localvars_find prog fr.lvars with
  | some (tmp, others) => { fr with lvars := tmp :: others }
  | none =>
    { fr with lvars :=
        { prog := prog, lvars := fun _ => { line := 0, data := .PROG_INTEGER 0 } } :: fr.lvars }

/-- The function `localvar_freeall(fr)` on the heap: every slot of every record
is cleared (source line 148) and the records are freed. -/
def localvar_freeall (e : env) : List localvars → heap → heap
  | [], h => h
  | ptr :: nxt, h => localvar_freeall e nxt (clear_down 148 e.MAX_VAR.toNat h ptr.lvars).1

/-- The function `scopedvar_addlevel(fr, pc, count)`: a new level with `count`
slots, all the integer 0, that borrows the variable names of the procedure. -/
def scopedvar_addlevel (fr : frame) (varnames : Option (List String)) (count : Int) : frame :=
  { fr with svars :=
      { count := count, varnames := varnames,
        vars := fun _ => { line := 0, data := .PROG_INTEGER 0 } } :: fr.svars }

/-- The function `scopedvar_poplevel(fr)` on the heap and the scoped stack: the
top level is taken off and its slots are cleared (source line 226); the result
is 0 when there was no level. -/
def scopedvar_poplevel (h : heap) (svars : List scopedvar_t) : heap × List scopedvar_t × Int :=
  match svars with
  | [] => (h, [], 0)
  | tmp :: rest => ((clear_down 226 tmp.count.toNat h tmp.vars).1, rest, 1)

/-- The function `scopedvar_freeall(fr)`: `while (scopedvar_poplevel(fr)) ;`. -/
def scopedvar_freeall : List scopedvar_t → heap → heap
  | [], h => h
  | tmp :: rest, h => scopedvar_freeall rest (clear_down 226 tmp.count.toNat h tmp.vars).1

/-- The walk `while (svinfo && level-- > 0) svinfo = svinfo->next;`: the level
reached and its position in the stack. -/
def scopedvar_walk : List scopedvar_t → Int → Nat → Option (Nat × scopedvar_t)
  | [], _, _ => none
  | s :: rest, level, k =>
    if level > 0 then scopedvar_walk rest (level - 1) (k + 1) else some (k, s)

/-- The function `scopedvar_get(fr, level, varnum)`: the slot it returns a
pointer to, as the position of the level in the stack and the slot number, or
`none` for `NULL`. -/
def scopedvar_get (fr : Option frame) (level varnum : Int) : Option (Nat × Int) :=
  match scopedvar_walk (match fr with | some f => f.svars | none => []) level 0 with
  | none => none
  | some (k, svinfo) =>
    if varnum < 0 ∨ varnum ≥ svinfo.count then none else some (k, varnum)

/-! ## Pools of for- and try-nodes -/

/-- The node a pool link points at, by its position; `none` is `NULL`. -/
def pool_node (len k : Nat) : Option Nat := if k < len then some k else none

/-- The function `push_try(trystack)`: a node is taken from the head of the
pool, or allocated when the pool is empty, and linked in front of the stack.
The result is the new stack, the pool and the boundary pointer. -/
def push_try (trystack : List tryvars) (try_pool : List tryvars) (last_try : Nat) :
    List tryvars × List tryvars × Nat :=
  match try_pool with
  | [] => ({ depth := 0, call_level := 0, for_count := 0, addr := 0 } :: trystack, [], last_try)
  | nu :: rest =>
    let last :=
      if pool_node try_pool.length last_try = pool_node try_pool.length 1 then 0
      else last_try - 1
    (nu :: trystack, rest, last)

/-- The function `pop_try(trystack)`: the head node goes to the head of the
pool. -/
def pop_try (trystack : List tryvars) (try_pool : List tryvars) (last_try : Nat) :
    List tryvars × List tryvars × Nat :=
  match trystack with
  | [] => ([], try_pool, last_try)
  | t :: newstack => (newstack, t :: try_pool, last_try + 1)

/-- The function `push_for(forstack)`. -/
def push_for (forstack : List forvars) (for_pool : List forvars) (last_for : Nat) :
    List forvars × List forvars × Nat :=
  match for_pool with
  | [] =>
    ({ didfirst := 0, cur := { line := 0, data := .PROG_INTEGER 0 },
       end_ := { line := 0, data := .PROG_INTEGER 0 }, step := 0 } :: forstack, [], last_for)
  | nu :: rest =>
    let last :=
      if pool_node for_pool.length last_for = pool_node for_pool.length 1 then 0
      else last_for - 1
    (nu :: forstack, rest, last)

/-- The function `pop_for(forstack)`: the head node goes to the head of the
pool. -/
def pop_for (forstack : List forvars) (for_pool : List forvars) (last_for : Nat) :
    List forvars × List forvars × Nat :=
  match forstack with
  | [] => ([], for_pool, last_for)
  | f :: newstack => (newstack, f :: for_pool, last_for + 1)

/-- The function `purge_for_pool()`: the nodes from the boundary on are freed
and the boundary goes back to the pool head. -/
def purge_for_pool (m : machine) : machine :=
  { m with for_pool := m.for_pool.take m.last_for, last_for := 0 }

/-- The function `purge_try_pool()`. -/
def purge_try_pool (m : machine) : machine :=
  { m with try_pool := m.try_pool.take m.last_try, last_try := 0 }

/-! ## Frame cleanup -/

/-- The removal `for (curptr = &list; *curptr; curptr = &(*curptr)->next)
if ((*curptr)->pid == pid) { unlink; break; }` of the first entry for `pid`. -/
def unlink_pid (pid : Int) : List Int → List Int
  | [] => []
  | c :: rest => if c = pid then rest else c :: unlink_pid pid rest

/-- The first loop of `watchpid_process(fr)`, over the waitees of `fr`. -/
def watchpid_waitees (e : env) (fp : Nat) : List Int → machine → machine
  | [], m => m
  | cur :: next, m =>
    let fr := m.frames fp
    let m1 : machine := { m with frames := setN m.frames fp { fr with waitees := next } }
    match e.timequeue_pid_frame cur with
    | none => watchpid_waitees e fp next m1
    | some g =>
      let other := m1.frames g
      watchpid_waitees e fp next
        { m1 with frames := setN m1.frames g
                    { other with waiters := unlink_pid (m1.frames fp).pid other.waiters } }

/-- The second loop of `watchpid_process(fr)`, over the waiters of `fr`: each
live waiter is sent the event `PROC.EXIT.<pid>` carrying the pid. -/
def watchpid_waiters (e : env) (fp : Nat) : List Int → machine → machine
  | [], m => m
  | cur :: next, m =>
    let fr := m.frames fp
    let m1 : machine := { m with frames := setN m.frames fp { fr with waiters := next } }
    match e.timequeue_pid_frame cur with
    | none => watchpid_waiters e fp next m1
    | some g =>
      let other := m1.frames g
      watchpid_waiters e fp next
        { m1 with
            frames := setN m1.frames g
              { other with waitees := unlink_pid (m1.frames fp).pid other.waitees },
            out := m1.out ++ [.muf_event_add g ("PROC.EXIT." ++ toString (m1.frames fp).pid)
              { line := 0, data := .PROG_INTEGER (m1.frames fp).pid }] }

/-- The function `watchpid_process(fr)` for a frame pointer that is not null. -/
def watchpid_process (e : env) (m : machine) (fp : Nat) : machine :=
  let m1 := watchpid_waitees e fp (m.frames fp).waitees m
  watchpid_waiters e fp (m1.frames fp).waiters m1

/-- The loop of `prog_clean` over the caller chain:
`for (i = 1; i <= fr->caller.top; i++) PROGRAM_DEC_INSTANCES(fr->caller.st[i]);`. -/
def dec_callers (st : Int → Int) : Nat → Int → heap → heap
  | 0, _, h => h
  | n + 1, i, h => dec_callers st n (i + 1) (PROGRAM_DEC_INSTANCES h (st i))

/-- The loop of `prog_clean` over the for stack: `cur` and `end` of every node
are cleared (source lines 811 and 812). -/
def clear_fors : List forvars → heap → heap × List forvars
  | [], h => (h, [])
  | f :: rest, h =>
    let r1 := CLEAR h f.cur 811
    let r2 := CLEAR r1.1 f.end_ 812
    let r := clear_fors rest r2.1
    (r.1, { f with cur := r1.2, end_ := r2.2 } :: r.2)

/-- The function `prog_clean(fr)` for a frame pointer that is not null. -/
def prog_clean (e : env) (m : machine) (fp : Nat) : machine :=
  if fp ∈ m.free_frames_list then
    { m with out := m.out ++ [.log_status
        "WARNING: prog_clean(): tried to free an already freed program frame !  Ignored."] }
  else
    let m1 := watchpid_process e m fp
    let fr := m1.frames fp
    let a := clear_up 791 fr.argument_top.toNat 0 m1.mem fr.argument_st
    let h2 := dec_callers fr.caller_st fr.caller_top.toNat 1 a.1
    let v := clear_up 802 e.MAX_VAR.toNat 0 h2 fr.variables_
    let h4 := localvar_freeall e fr.lvars v.1
    let h5 := scopedvar_freeall fr.svars h4
    let f := clear_fors fr.fors_st h5
    let for_pool := if fr.fors_st = [] then m1.for_pool else f.2 ++ m1.for_pool
    let last_for :=
      if fr.fors_st = [] then m1.last_for
      else if m1.last_for = 0 then fr.fors_st.length else m1.last_for + fr.fors_st.length
    let try_pool := if fr.trys_st = [] then m1.try_pool else fr.trys_st ++ m1.try_pool
    let last_try :=
      if fr.trys_st = [] then m1.last_try
      else if m1.last_try = 0 then fr.trys_st.length else m1.last_try + fr.trys_st.length
    let fr1 : frame :=
      { fr with
          system_top := 0, argument_st := a.2, variables_ := v.2, lvars := [], svars := [],
          fors_st := [], fors_top := if fr.fors_st = [] then fr.fors_top else 0,
          trys_st := [], trys_top := if fr.trys_st = [] then fr.trys_top else 0,
          argument_top := 0, pc := 0,
          brkpt := { fr.brkpt with proglines := false } }
    { m1 with
        mem := f.1, frames := setN m1.frames fp fr1,
        for_pool := for_pool, last_for := last_for, try_pool := try_pool, last_try := last_try,
        out := m1.out ++ (if fr.rndbuf then [effect.delete_seed fp] else []) ++
          [.muf_dlog_purge fp, .dequeue_timers fr.pid, .muf_event_purge fp],
        free_frames_list := fp :: m1.free_frames_list,
        err := 0 }

/-- The function `reload(fr, atop, stop)`. -/
def reload (fr : frame) (atop stop : Int) : frame :=
  { fr with argument_top := atop, system_top := stop }

/-- The function `interp_err`: the error counter goes up and the error is shown
to the player and recorded on the programs (one external call here). -/
def interp_err (m : machine) (player program : Int) (pc : Nat) (origprog : Int)
    (msg1 msg2 : String) : machine :=
  { m with err := m.err + 1,
           out := m.out ++ [.interp_err player program pc origprog msg1 msg2] }

/-- The statement `CLEAR(arg + k)` on the operand stack of frame `fp`. -/
def CLEAR_arg (m : machine) (fp : Nat) (k : Int) (line : Int) : machine :=
  let fr := m.frames fp
  let r := CLEAR m.mem (fr.argument_st k) line
  { m with mem := r.1, frames := setN m.frames fp { fr with argument_st := setI fr.argument_st k r.2 } }

/-- The function `do_abort_loop`; `clinst1` and `clinst2` point into the operand
stack and are given by their index, `none` being `NULL`. -/
def do_abort_loop (e : env) (m : machine) (player program : Int) (msg : String) (fp : Nat)
    (pc : Nat) (atop stop : Int) (clinst1 clinst2 : Option Int) : machine :=
  let fr := m.frames fp
  let m1 : machine :=
    if fr.trys_top ≠ 0 then
      let fr1 : frame :=
        { fr with
            errorstr := some msg,
            errorinst := if pc ≠ 0 then some (e.insttotext fr pc program) else none,
            errorline := if pc ≠ 0 then (e.code pc).line else -1,
            errorprog := program }
      { m with frames := setN m.frames fp fr1, err := m.err + 1 }
    else m
  let m2 := match clinst1 with
    | some k => CLEAR_arg m1 fp k 1001
    | none => m1
  let m3 := match clinst2 with
    | some k => CLEAR_arg m2 fp k 1003
    | none => m2
  let m4 : machine :=
    { m3 with frames := setN m3.frames fp { reload (m3.frames fp) atop stop with pc := pc } }
  if (m4.frames fp).trys_top = 0 then
    let m5 : machine :=
      if pc ≠ 0 then
        let m50 := interp_err m4 player program pc ((m4.frames fp).caller_st 1)
          (e.insttotext (m4.frames fp) pc program) msg
        if e.controls player program then
          { m50 with out := m50.out ++ [.muf_backtrace player program] }
        else m50
      else { m4 with out := m4.out ++ [.notify_nolisten player msg] }
    let m6 : machine := { m5 with interp_depth := m5.interp_depth - 1 }
    let m7 := prog_clean e m6 fp
    { m7 with out := m7.out ++ [.PLAYER_SET_BLOCK player false] }
  else m4

/-- Modelled from the spec: the macro `abort_loop(S, C1, C2)` is declared in a
header that is not part of the source.  It calls the abort helper
`do_abort_loop` with the registers of the dispatcher; with a try-frame the
error flag has been raised and control leaves the switch for the error unwind,
without one the frame has been cleaned and `interp_loop` returns null. -/
def abort_loop (e : env) (m : machine) (l : locals) (S : String) (C1 C2 : Option Int) :
    outcome :=
  let m1 := do_abort_loop e m l.player l.program S l.fr l.pc l.atop l.stop C1 C2
  if (m1.frames l.fr).trys_top ≠ 0 then .next m1 l else .ret m1 .null

/-- Modelled from the spec: the macro `abort_loop_hard(S, C1, C2)` is declared in
a header that is not part of the source.  A hard error cannot be caught: the
try stack is hidden from the abort helper, which therefore reports the error
and cleans the frame, the count of try-frames is put back, and `interp_loop`
returns null. -/
def abort_loop_hard (e : env) (m : machine) (l : locals) (S : String) (C1 C2 : Option Int) :
    outcome :=
  let tmp := (m.frames l.fr).trys_top
  let m0 : machine := { m with frames := setN m.frames l.fr { (m.frames l.fr) with trys_top := 0 } }
  let m1 := do_abort_loop e m0 l.player l.program S l.fr l.pc l.atop l.stop C1 C2
  .ret { m1 with frames := setN m1.frames l.fr { (m1.frames l.fr) with trys_top := tmp } } .null

/-! ## The dispatcher -/

/-- Replace the frame `fp`. -/
def set_frame (m : machine) (fp : Nat) (f : frame) : machine :=
  { m with frames := setN m.frames fp f }

/-- The field `fr->trys.st->depth`; the try stack has a head node whenever
`fr->trys.top` is not 0. -/
def frame.try_depth (fr : frame) : Int :=
  match fr.trys_st with
  | [] => 0
  | t :: _ => t.depth

/-- The test `fr->trys.top && atop - fr->trys.st->depth < n` that guards every
pop of the dispatcher. -/
def try_protect (fr : frame) (atop n : Int) : Bool :=
  fr.trys_top != 0 && decide (atop - fr.try_depth < n)

/-- The function `valid_object`. -/
def valid_object (e : env) (oper : inst) : Bool :=
  match oper.data with
  | .PROG_OBJECT objref =>
    !(objref ≥ e.db_top || objref < 0 || e.Typeof objref == .TYPE_GARBAGE)
  | _ => false

/-- The instructions that push themselves (`PROG_INTEGER` ... `PROG_ARRAY`). -/
def exec_push (e : env) (m : machine) (l : locals) : outcome :=
  if l.atop ≥ e.STACK_SIZE then abort_loop e m l "Stack overflow." none none
  else
    let fr := m.frames l.fr
    let r := copyinst m.mem (e.code l.pc)
    .next { m with mem := r.1,
                   frames := setN m.frames l.fr { fr with argument_st := setI fr.argument_st l.atop r.2 } }
      { l with pc := l.pc + 1, atop := l.atop + 1 }

/-- Write into slot `n` of the head record of the program-local list. -/
def lvars_head_set (lvars : List localvars) (n : Int) (v : inst) : List localvars :=
  match lvars with
  | [] => []
  | lv :: rest => { lv with lvars := setI lv.lvars n v } :: rest

/-- Read slot `n` of the head record of the program-local list. -/
def lvars_head_get (lvars : List localvars) (n : Int) : inst :=
  match lvars with
  | [] => { line := 0, data := .PROG_INTEGER 0 }
  | lv :: _ => lv.lvars n

/-- The instructions `PROG_LVAR_AT` and `PROG_LVAR_AT_CLEAR`. -/
def exec_LVAR_AT (e : env) (m : machine) (l : locals) (number : Int) (is_clear : Bool) :
    outcome :=
  if l.atop ≥ e.STACK_SIZE then abort_loop e m l "Stack overflow." none none
  else if number ≥ e.MAX_VAR ∨ number < 0 then
    abort_loop e m l "Scoped variable number out of range." none none
  else
    let fr := localvars_get (m.frames l.fr) l.program
    let tmp := lvars_head_get fr.lvars number
    let r := copyinst m.mem tmp
    let fr1 : frame := { fr with argument_st := setI fr.argument_st l.atop r.2 }
    if is_clear then
      let c := CLEAR r.1 tmp 1259
      let fr2 : frame :=
        { fr1 with lvars := lvars_head_set fr1.lvars number { c.2 with data := .PROG_INTEGER 0 } }
      .next (set_frame { m with mem := c.1 } l.fr fr2) { l with pc := l.pc + 1, atop := l.atop + 1 }
    else
      .next (set_frame { m with mem := r.1 } l.fr fr1) { l with pc := l.pc + 1, atop := l.atop + 1 }

/-- The instruction `PROG_LVAR_BANG`. -/
def exec_LVAR_BANG (e : env) (m : machine) (l : locals) (number : Int) : outcome :=
  if l.atop < 1 then abort_loop e m l "Stack Underflow." none none
  else if try_protect (m.frames l.fr) l.atop 1 then
    abort_loop e m l "Stack protection fault." none none
  else if number ≥ e.MAX_VAR ∨ number < 0 then
    abort_loop e m l "Scoped variable number out of range." none none
  else
    let fr := localvars_get (m.frames l.fr) l.program
    let c := CLEAR m.mem (lvars_head_get fr.lvars number) 1284
    let atop := l.atop - 1
    let fr1 : frame := { fr with lvars := lvars_head_set fr.lvars number (fr.argument_st atop) }
    .next (set_frame { m with mem := c.1 } l.fr fr1) { l with pc := l.pc + 1, atop := atop }

/-- Write into slot `n` of the level at position `k` of the scoped stack. -/
def svars_set : List scopedvar_t → Nat → Int → inst → List scopedvar_t
  | [], _, _, _ => []
  | s :: rest, 0, n, v => { s with vars := setI s.vars n v } :: rest
  | s :: rest, k + 1, n, v => s :: svars_set rest k n v

/-- Read slot `n` of the level at position `k` of the scoped stack. -/
def svars_get : List scopedvar_t → Nat → Int → inst
  | [], _, _ => { line := 0, data := .PROG_INTEGER 0 }
  | s :: _, 0, n => s.vars n
  | _ :: rest, k + 1, n => svars_get rest k n

/-- The instructions `PROG_SVAR_AT` and `PROG_SVAR_AT_CLEAR`. -/
def exec_SVAR_AT (e : env) (m : machine) (l : locals) (number : Int) (is_clear : Bool) :
    outcome :=
  if l.atop ≥ e.STACK_SIZE then abort_loop e m l "Stack overflow." none none
  else
    let fr := m.frames l.fr
    match scopedvar_get (some fr) 0 number with
    | none => abort_loop e m l "Scoped variable number out of range." none none
    | some (k, n) =>
      let tmp := svars_get fr.svars k n
      let r := copyinst m.mem tmp
      let fr1 : frame := { fr with argument_st := setI fr.argument_st l.atop r.2 }
      if is_clear then
        let c := CLEAR r.1 tmp 1306
        let fr2 : frame :=
          { fr1 with svars := svars_set fr1.svars k n { c.2 with data := .PROG_INTEGER 0 } }
        .next (set_frame { m with mem := c.1 } l.fr fr2)
          { l with pc := l.pc + 1, atop := l.atop + 1 }
      else
        .next (set_frame { m with mem := r.1 } l.fr fr1)
          { l with pc := l.pc + 1, atop := l.atop + 1 }

/-- The instruction `PROG_SVAR_BANG`. -/
def exec_SVAR_BANG (e : env) (m : machine) (l : locals) (number : Int) : outcome :=
  if l.atop < 1 then abort_loop e m l "Stack Underflow." none none
  else if try_protect (m.frames l.fr) l.atop 1 then
    abort_loop e m l "Stack protection fault." none none
  else
    let fr := m.frames l.fr
    match scopedvar_get (some fr) 0 number with
    | none => abort_loop e m l "Scoped variable number out of range." none none
    | some (k, n) =>
      let c := CLEAR m.mem (svars_get fr.svars k n) 1329
      let atop := l.atop - 1
      let fr1 : frame := { fr with svars := svars_set fr.svars k n (fr.argument_st atop) }
      .next (set_frame { m with mem := c.1 } l.fr fr1) { l with pc := l.pc + 1, atop := atop }

/-- The loop `while (i-->0) { ... }` of `PROG_FUNCTION`, entered with `i = n`:
the arguments are popped into the slots `n - 1` down to `0` of the top scoped
level. -/
def function_args (e : env) : Nat → machine → locals → outcome
  | 0, m, l => .next m l
  | i + 1, m, l =>
    let l1 : locals := { l with atop := l.atop - 1 }
    let fr := m.frames l.fr
    match scopedvar_get (some fr) 0 i with
    | none =>
      abort_loop_hard e m l1
        "Internal error: Scoped variable number out of range in FUNCTION init."
        (some l1.atop) none
    | some (k, n) =>
      let c := CLEAR m.mem (svars_get fr.svars k n) 1354
      let r := copyinst c.1 (fr.argument_st l1.atop)
      let c1 := CLEAR r.1 (fr.argument_st l1.atop) 1356
      let fr1 : frame :=
        { fr with svars := svars_set fr.svars k n r.2,
                  argument_st := setI fr.argument_st l1.atop c1.2 }
      function_args e i (set_frame { m with mem := c1.1 } l.fr fr1) l1

/-- The instruction `PROG_FUNCTION`. -/
def exec_FUNCTION (e : env) (m : machine) (l : locals) (mufproc : Option muf_proc_data) :
    outcome :=
  match mufproc with
  | none => .undefined m
  | some p =>
    if l.atop < p.args then abort_loop e m l "Stack Underflow." none none
    else if try_protect (m.frames l.fr) l.atop p.args then
      abort_loop e m l "Stack protection fault." none none
    else
      let fr := m.frames l.fr
      let fr1 : frame :=
        if fr.skip_declare then { fr with skip_declare := false }
        else scopedvar_addlevel fr p.varnames p.vars
      match function_args e p.args.toNat (set_frame m l.fr fr1) l with
      | .next m1 l1 => .next m1 { l1 with pc := l1.pc + 1 }
      | other => other

/-- The instruction `PROG_IF`. -/
def exec_IF (e : env) (m : machine) (l : locals) (call : Nat) : outcome :=
  if l.atop < 1 then abort_loop e m l "Stack Underflow." none none
  else if try_protect (m.frames l.fr) l.atop 1 then
    abort_loop e m l "Stack protection fault." none none
  else
    let atop := l.atop - 1
    let temp1 := (m.frames l.fr).argument_st atop
    let pc := if false_inst m.mem temp1 then call else l.pc + 1
    .next (CLEAR_arg m l.fr atop 1372) { l with atop := atop, pc := pc }

/-- The instruction `PROG_EXEC`. -/
def exec_EXEC (e : env) (m : machine) (l : locals) (call : Nat) : outcome :=
  if l.stop ≥ e.STACK_SIZE then abort_loop e m l "System Stack Overflow" none none
  else
    let fr := m.frames l.fr
    let fr1 : frame :=
      { fr with system_st := setI fr.system_st l.stop { progref := l.program, offset := l.pc + 1 },
                skip_declare := false }
    .next (set_frame m l.fr fr1) { l with stop := l.stop + 1, pc := call }

/-- The instruction `PROG_JMP`. -/
def exec_PROG_JMP (m : machine) (l : locals) (call : Nat) : outcome :=
  .next m { l with pc := call }

/-- The instruction `PROG_TRY`. -/
def exec_TRY (e : env) (m : machine) (l : locals) (call : Nat) : outcome :=
  if l.atop < 1 then abort_loop e m l "Stack Underflow." none none
  else if try_protect (m.frames l.fr) l.atop 1 then
    abort_loop e m l "Stack protection fault." none none
  else
    let l1 : locals := { l with atop := l.atop - 1 }
    let fr := m.frames l.fr
    match (fr.argument_st l1.atop).data with
    | .PROG_INTEGER number =>
      if number < 0 then
        abort_loop e m l1 "Argument is not a positive integer." (some l1.atop) none
      else if try_protect fr l1.atop number then
        abort_loop e m l1 "Stack protection fault." none none
      else if number > l1.atop then abort_loop e m l1 "Stack Underflow." (some l1.atop) none
      else
        let p := push_try fr.trys_st m.try_pool m.last_try
        let st : List tryvars :=
          match p.1 with
          | [] => []
          | t :: rest =>
            { t with depth := l1.atop - number, call_level := l1.stop, for_count := 0,
                     addr := call } :: rest
        let fr1 : frame := { fr with trys_top := fr.trys_top + 1, trys_st := st }
        let m1 : machine :=
          { m with frames := setN m.frames l.fr fr1, try_pool := p.2.1, last_try := p.2.2 }
        .next (CLEAR_arg m1 l.fr l1.atop 1411) { l1 with pc := l1.pc + 1 }
    | _ => abort_loop e m l1 "Argument is not a positive integer." (some l1.atop) none

/-- The test `progref >= db_top || progref < 0 || Typeof(progref) != TYPE_PROGRAM`
for an address that does not lie in a program. -/
def invalid_program (e : env) (progref : Int) : Bool :=
  progref ≥ e.db_top || progref < 0 || e.Typeof progref != .TYPE_PROGRAM

/-- The primitive `IN_JMP`. -/
def exec_JMP (e : env) (m : machine) (l : locals) : outcome :=
  if l.atop < 1 then abort_loop e m l "Stack underflow.  Missing address." none none
  else if try_protect (m.frames l.fr) l.atop 1 then
    abort_loop e m l "Stack protection fault." none none
  else
    let l1 : locals := { l with atop := l.atop - 1 }
    let fr := m.frames l.fr
    match (fr.argument_st l1.atop).data with
    | .PROG_ADD a =>
      let addr := m.mem.addrs a
      if invalid_program e addr.progref then
        abort_loop_hard e m l1 "Internal error.  Invalid address." (some l1.atop) none
      else if l1.program ≠ addr.progref then
        abort_loop e m l1 "Destination outside current program." (some l1.atop) none
      else
        let fr1 : frame :=
          if (e.code addr.data).type = .PROG_FUNCTION then { fr with skip_declare := true }
          else fr
        .next (CLEAR_arg (set_frame m l.fr fr1) l.fr l1.atop 1439) { l1 with pc := addr.data }
    | _ => abort_loop e m l1 "Argument is not an address." (some l1.atop) none

/-- The primitive `IN_EXECUTE`. -/
def exec_EXECUTE (e : env) (m : machine) (l : locals) : outcome :=
  if l.atop < 1 then abort_loop e m l "Stack Underflow. Missing address." none none
  else if try_protect (m.frames l.fr) l.atop 1 then
    abort_loop e m l "Stack protection fault." none none
  else
    let l1 : locals := { l with atop := l.atop - 1 }
    let fr := m.frames l.fr
    match (fr.argument_st l1.atop).data with
    | .PROG_ADD a =>
      let addr := m.mem.addrs a
      if invalid_program e addr.progref then
        abort_loop_hard e m l1 "Internal error.  Invalid address." (some l1.atop) none
      else if l1.stop ≥ e.STACK_SIZE then
        abort_loop e m l1 "System Stack Overflow" (some l1.atop) none
      else
        let fr1 : frame :=
          { fr with
              system_st := setI fr.system_st l1.stop { progref := l1.program, offset := l1.pc + 1 } }
        let l2 : locals := { l1 with stop := l1.stop + 1 }
        if l2.program ≠ addr.progref then
          let fr2 : frame :=
            { fr1 with caller_top := fr1.caller_top + 1,
                       caller_st := setI fr1.caller_st (fr1.caller_top + 1) addr.progref }
          let m2 : machine :=
            { m with mem := PROGRAM_INC_INSTANCES m.mem addr.progref,
                     frames := setN m.frames l.fr fr2 }
          .next (CLEAR_arg m2 l.fr l1.atop 1465)
            { l2 with program := addr.progref, mlev := e.ProgMLevel fr2 addr.progref,
                      pc := addr.data }
        else
          .next (CLEAR_arg (set_frame m l.fr fr1) l.fr l1.atop 1465) { l2 with pc := addr.data }
    | _ => abort_loop e m l1 "Argument is not an address." (some l1.atop) none

/-- Modelled from the spec: the macro `PROGRAM_INC_PROF_USES` is declared in a
header that is not part of the source; it counts one more use of the program. -/
def PROGRAM_INC_PROF_USES (h : heap) (x : Int) : heap :=
  { h with progs := setI h.progs x { (h.progs x) with prof_uses := (h.progs x).prof_uses + 1 } }

/-- The lazy compilation of `IN_CALL`: the external compiler installs what it
produces on the program. -/
def compile_program (e : env) (h : heap) (x : Int) : heap :=
  { h with progs := setI h.progs x (e.do_compile x (h.progs x)) }

/-- The search of the PUBLIC table in `IN_CALL`:
`while (pbs) { if (!string_compare(name, pbs->subname)) break; pbs = pbs->next; }`. -/
def find_public (e : env) (name : String) : List publics → Option publics
  | [] => none
  | pbs :: next => if e.string_compare name pbs.subname = 0 then some pbs else find_public e name next

/-- The text of a shared string pointer that is not null. -/
def string_text (h : heap) (s : Option Nat) : String :=
  match s with
  | none => ""
  | some i => (h.strings i).data

/-- The end of `IN_CALL`, from `stop++` of source line 1533 on, entered with
the new `pc`. -/
def exec_CALL_enter (e : env) (m : machine) (l : locals) (objref : Int) (pc : Nat)
    (temp1 : Int) (temp2 : Option Int) : outcome :=
  let fr := m.frames l.fr
  let l1 : locals := { l with pc := pc, stop := l.stop + 1 }
  let r : machine × locals :=
    if objref ≠ l.program then
      let fr2 : frame :=
        { fr with caller_top := fr.caller_top + 1,
                  caller_st := setI fr.caller_st (fr.caller_top + 1) objref }
      ({ m with mem := PROGRAM_INC_INSTANCES m.mem objref, frames := setN m.frames l.fr fr2 },
        { l1 with program := objref, mlev := e.ProgMLevel fr2 objref })
    else (m, l1)
  let m4 : machine :=
    { r.1 with mem := PROGRAM_INC_PROF_USES r.1.mem r.2.program,
               out := r.1.out ++ [.ts_useobject r.2.program] }
  let m5 := CLEAR_arg m4 l.fr temp1 1544
  let m6 := match temp2 with
    | some t2 => CLEAR_arg m5 l.fr t2 1546
    | none => m5
  .next m6 r.2

/-- The part of `IN_CALL` from the test `temp1->type != PROG_OBJECT` of source
line 1487 on; `temp1` and `temp2` are given by their index in the operand
stack, `temp2` being `none` when it is null. -/
def exec_CALL_body (e : env) (m : machine) (l : locals) (temp1 : Int) (temp2 : Option Int) :
    outcome :=
  let fr := m.frames l.fr
  match (fr.argument_st temp1).data with
  | .PROG_OBJECT objref =>
    if !valid_object e (fr.argument_st temp1) || e.Typeof objref != .TYPE_PROGRAM then
      abort_loop e m l "Invalid object." (some temp1) temp2
    else
      let h1 := if (m.mem.progs objref).code = 0 then compile_program e m.mem objref else m.mem
      let m1 : machine := { m with mem := h1 }
      if (h1.progs objref).code = 0 then
        abort_loop e m1 l "Program not compilable." (some temp1) temp2
      else if e.ProgMLevel fr objref = 0 then
        abort_loop e m1 l "Permission denied" (some temp1) temp2
      else if l.mlev < 4 ∧ e.OWNER objref ≠ e.ProgUID l.player fr l.program
          ∧ e.Linkable objref = false then
        abort_loop e m1 l "Permission denied" (some temp1) temp2
      else if l.stop ≥ e.STACK_SIZE then
        abort_loop e m1 l "System Stack Overflow" (some temp1) temp2
      else
        let fr1 : frame :=
          { fr with
              system_st := setI fr.system_st l.stop { progref := l.program, offset := l.pc + 1 } }
        let m2 : machine := set_frame m1 l.fr fr1
        match temp2 with
        | none => exec_CALL_enter e m2 l objref (h1.progs objref).start temp1 temp2
        | some t2 =>
          match (fr.argument_st t2).data with
          | .PROG_STRING s =>
            (match find_public e (string_text h1 s) (h1.progs objref).pubs with
              | none =>
                abort_loop e m2 l "PUBLIC or WIZCALL function not found. (2)" temp2 temp2
              | some pbs =>
                if l.mlev < pbs.mlev then
                  abort_loop e m2 l "Insufficient permissions to call WIZCALL function. (2)"
                    temp2 temp2
                else exec_CALL_enter e m2 l objref pbs.addr temp1 temp2)
          | _ => .undefined m2
  | _ => abort_loop e m l "Dbref required. (1)" (some temp1) temp2

/-- The primitive `IN_CALL`. -/
def exec_CALL (e : env) (m : machine) (l : locals) : outcome :=
  let fr := m.frames l.fr
  if l.atop < 1 then abort_loop e m l "Stack Underflow. Missing dbref argument." none none
  else if try_protect fr l.atop 1 then abort_loop e m l "Stack protection fault." none none
  else
    let l1 : locals := { l with atop := l.atop - 1 }
    if (fr.argument_st l1.atop).type ≠ .PROG_OBJECT then
      let temp2 := l1.atop
      if l1.atop < 1 then
        abort_loop e m l1 "Stack Underflow. Missing dbref of func." (some l1.atop) none
      else if try_protect fr l1.atop 1 then
        abort_loop e m l1 "Stack protection fault." none none
      else
        let l2 : locals := { l1 with atop := l1.atop - 1 }
        match (fr.argument_st temp2).data with
        | .PROG_STRING s =>
          if s = none then
            abort_loop e m l2 "Null string not allowed. (2)" (some l2.atop) (some temp2)
          else exec_CALL_body e m l2 l2.atop (some temp2)
        | _ =>
          abort_loop e m l2 "Public Func. name string required. (2)" (some l2.atop) (some temp2)
    else exec_CALL_body e m l1 l1.atop none

/-- The primitive `IN_RET`. -/
def exec_RET (e : env) (m : machine) (l : locals) : outcome :=
  let fr := m.frames l.fr
  let back := (fr.system_st (l.stop - 1)).progref
  if l.stop > 1 ∧ l.program ≠ back ∧ invalid_program e back then
    abort_loop_hard e m l "Internal error.  Invalid address." none none
  else
    let r : machine × locals :=
      if l.stop > 1 ∧ l.program ≠ back then
        (set_frame { m with mem := PROGRAM_DEC_INSTANCES m.mem l.program } l.fr
            { fr with caller_top := fr.caller_top - 1 },
          { l with program := back, mlev := e.ProgMLevel fr back })
      else (m, l)
    let fr2 := r.1.frames l.fr
    let p := scopedvar_poplevel r.1.mem fr2.svars
    .next { r.1 with mem := p.1, frames := setN r.1.frames l.fr { fr2 with svars := p.2.1 } }
      { r.2 with stop := r.2.stop - 1, pc := (fr2.system_st (r.2.stop - 1)).offset }

/-- The loop `while (atop > depth) { temp1 = arg + --atop; CLEAR(temp1); }` of
`IN_CATCH`, for `n` operands above `depth`. -/
def clear_above : Nat → Int → heap → (Int → inst) → heap × (Int → inst)
  | 0, _, h, st => (h, st)
  | n + 1, atop, h, st =>
    let r := CLEAR h (st (atop - 1)) 1577
    clear_above n (atop - 1) r.1 (setI st (atop - 1) r.2)

/-- The loop `while (fr->trys.st->for_count-->0) { ... }` of `IN_CATCH`, for `n`
for-frames: `cur` and `end` of the top for-frame are cleared and the frame goes
to the pool.  `none` when the for stack ends early (a null dereference). -/
def catch_fors : Nat → machine → Nat → Option machine
  | 0, m, _ => some m
  | n + 1, m, fp =>
    let fr := m.frames fp
    match fr.fors_st with
    | [] => none
    | f :: rest =>
      let r1 := CLEAR m.mem f.cur 1581
      let r2 := CLEAR r1.1 f.end_ 1582
      let p := pop_for ({ f with cur := r1.2, end_ := r2.2 } :: rest) m.for_pool m.last_for
      catch_fors n
        { m with mem := r2.1, for_pool := p.2.1, last_for := p.2.2,
                 frames := setN m.frames fp { fr with fors_top := fr.fors_top - 1, fors_st := p.1 } }
        fp

/-- Modelled from the spec: the array functions are defined outside the source;
`IN_CATCH_DETAILED` pushes "a dictionary {error, instr, line, program}", the
first two entries being present when the frame holds them. -/
def catch_dictionary (h : heap) (fr : frame) : heap × Nat :=
  let e1 := alloc_prog_string h "error"
  let v1 := alloc_prog_string e1.1 (fr.errorstr.getD "")
  let e2 := alloc_prog_string v1.1 "instr"
  let v2 := alloc_prog_string e2.1 (fr.errorinst.getD "")
  let e3 := alloc_prog_string v2.1 "line"
  let e4 := alloc_prog_string e3.1 "program"
  let str (s : Option Nat) : inst := { line := 0, data := .PROG_STRING s }
  let elems : List (inst × inst) :=
    (if fr.errorstr.isSome then [(str e1.2, str v1.2)] else [])
    ++ (if fr.errorinst.isSome then [(str e2.2, str v2.2)] else [])
    ++ [(str e3.2, { line := 0, data := .PROG_INTEGER fr.errorline }),
        (str e4.2, { line := 0, data := .PROG_OBJECT fr.errorprog })]
  let h1 := e4.1
  let cell : stk_array :=
    { links := 1, items := elems.length, packed := false, elems := elems, freed := false }
  ({ h1 with arrays := setN h1.arrays h1.next_array cell, next_array := h1.next_array + 1 },
    h1.next_array)

/-- The primitives `IN_CATCH` and `IN_CATCH_DETAILED`. -/
def exec_CATCH (e : env) (m : machine) (l : locals) (detailed : Bool) : outcome :=
  let fr := m.frames l.fr
  if fr.trys_top = 0 then
    abort_loop_hard e m l "Internal error.  TRY stack underflow." none none
  else
    let depth := fr.try_depth
    let c := clear_above (l.atop - depth).toNat l.atop m.mem fr.argument_st
    let atop := if l.atop > depth then depth else l.atop
    let for_count := match fr.trys_st with
      | [] => 0
      | t :: _ => t.for_count
    let m1 : machine := { m with mem := c.1, frames := setN m.frames l.fr { fr with argument_st := c.2 } }
    match catch_fors for_count.toNat m1 l.fr with
    | none => .undefined m1
    | some m2 =>
      let fr2 := m2.frames l.fr
      let left : List tryvars :=
        match fr2.trys_st with
        | [] => []
        | t :: rest => { t with for_count := (if for_count > 0 then 0 else for_count) - 1 } :: rest
      let p := pop_try left m2.try_pool m2.last_try
      let fr3 : frame := { fr2 with trys_top := fr2.trys_top - 1, trys_st := p.1 }
      let m3 : machine := { m2 with try_pool := p.2.1, last_try := p.2.2 }
      let pushed : heap × tagged :=
        if detailed then
          let d := catch_dictionary m3.mem fr3
          (d.1, .PROG_ARRAY (some d.2))
        else
          match fr3.errorstr with
          | some s =>
            let a := alloc_prog_string m3.mem s
            (a.1, .PROG_STRING a.2)
          | none => (m3.mem, .PROG_STRING none)
      let fr4 : frame :=
        { fr3 with
            argument_st := setI fr3.argument_st atop { (fr3.argument_st atop) with data := pushed.2 },
            errorstr := none, errorinst := none }
      let fr5 := reload fr4 (atop + 1) l.stop
      .next { m3 with mem := pushed.1, frames := setN m3.frames l.fr fr5 }
        { l with atop := atop + 1, pc := l.pc + 1 }

/-- The collection of the event names of `IN_EVENT_WAITFOR`: the strings of the
list, without the null ones and without repetitions, in their order. -/
def event_names : List (Option String) → List String → List String
  | [], acc => acc
  | none :: rest, acc => event_names rest acc
  | some val :: rest, acc => event_names rest (if val ∈ acc then acc else acc ++ [val])

/-- The primitive `IN_EVENT_WAITFOR`. -/
def exec_EVENT_WAITFOR (e : env) (m : machine) (l : locals) : outcome :=
  if l.atop < 1 then
    abort_loop e m l "Stack Underflow. Missing eventID list array argument." none none
  else if try_protect (m.frames l.fr) l.atop 1 then
    abort_loop e m l "Stack protection fault." none none
  else
    let l1 : locals := { l with atop := l.atop - 1 }
    let fr := m.frames l.fr
    match (fr.argument_st l1.atop).data with
    | .PROG_ARRAY a =>
      let arr : Option stk_array := a.map m.mem.arrays
      if (match arr with | some c => !c.packed | none => false) then
        abort_loop e m l1 "Argument must be a list array of eventid strings." (some l1.atop) none
      else if !e.array_is_homogenous arr .PROG_STRING then
        abort_loop e m l1 "Argument must be a list array of eventid strings." (some l1.atop) none
      else
        let fr1 : frame := { reload fr l1.atop l1.stop with pc := l1.pc + 1 }
        let m1 : machine :=
          { m with frames := setN m.frames l.fr fr1,
                   out := m.out ++
                     [.muf_event_register_specific l1.player l1.program l1.fr
                        (event_names (e.array_event_names m.mem arr) []),
                      .PLAYER_SET_BLOCK l1.player (!fr1.been_background)] }
        let m2 := CLEAR_arg m1 l.fr l1.atop 1668
        .ret { m2 with interp_depth := m2.interp_depth - 1 } .null
    | _ => abort_loop e m l1 "EventID string list array expected." (some l1.atop) none

/-- The primitive `IN_READ`. -/
def exec_READ (e : env) (m : machine) (l : locals) : outcome :=
  if l.writeonly then abort_loop e m l "Program is write-only." none none
  else if (m.frames l.fr).multitask = BACKGROUND then
    abort_loop e m l "BACKGROUND programs are write only." none none
  else
    let fr := reload (m.frames l.fr) l.atop l.stop
    let fr1 : frame := { fr with brkpt := { fr.brkpt with isread := true }, pc := l.pc + 1 }
    .ret { m with frames := setN m.frames l.fr fr1,
                  out := m.out ++ [.PLAYER_SET_CURR_PROG l.player l.program,
                    .PLAYER_SET_BLOCK l.player false,
                    .add_muf_read_event fr1.descr l.player l.program l.fr],
                  interp_depth := m.interp_depth - 1 } .null

/-- The primitive `IN_SLEEP`. -/
def exec_SLEEP (e : env) (m : machine) (l : locals) : outcome :=
  if l.atop < 1 then abort_loop e m l "Stack Underflow." none none
  else if try_protect (m.frames l.fr) l.atop 1 then
    abort_loop e m l "Stack protection fault." none none
  else
    let l1 : locals := { l with atop := l.atop - 1 }
    let fr := m.frames l.fr
    match (fr.argument_st l1.atop).data with
    | .PROG_INTEGER number =>
      let fr1 : frame := { reload fr l1.atop l1.stop with pc := l1.pc + 1 }
      let m1 := set_frame m l.fr fr1
      if number < 0 then abort_loop e m1 l1 "Timetravel beyond scope of muf." (some l1.atop) none
      else
        let calls : List effect :=
          [.add_muf_delay_event number fr1.descr l1.player l1.program l1.fr "SLEEPING",
           .PLAYER_SET_BLOCK l1.player (!fr1.been_background)]
        .ret { m1 with out := m1.out ++ calls, interp_depth := m1.interp_depth - 1 } .null
    | _ => abort_loop e m l1 "Invalid argument type." (some l1.atop) none

/-- The `default` arm of the primitive switch: a primitive of the library. -/
def exec_primitive (e : env) (m : machine) (l : locals) (number : Int) : outcome :=
  let m1 : machine :=
    { m with nargs := 0, frames := setN m.frames l.fr (reload (m.frames l.fr) l.atop l.stop) }
  let r := e.prim_func number m1 l
  .next r.1 { l with atop := r.2, pc := l.pc + 1 }

/-- The `switch (pc->type)` of the dispatcher loop with everything in it. -/
def dispatch (e : env) (m : machine) (l : locals) : outcome :=
  match (e.code l.pc).data with
  | .PROG_INTEGER _ | .PROG_FLOAT _ | .PROG_ADD _ | .PROG_OBJECT _ | .PROG_VAR _
  | .PROG_LVAR _ | .PROG_SVAR _ | .PROG_STRING _ | .PROG_LOCK _ | .PROG_MARK
  | .PROG_ARRAY _ => exec_push e m l
  | .PROG_LVAR_AT n => exec_LVAR_AT e m l n false
  | .PROG_LVAR_AT_CLEAR n => exec_LVAR_AT e m l n true
  | .PROG_LVAR_BANG n => exec_LVAR_BANG e m l n
  | .PROG_SVAR_AT n => exec_SVAR_AT e m l n false
  | .PROG_SVAR_AT_CLEAR n => exec_SVAR_AT e m l n true
  | .PROG_SVAR_BANG n => exec_SVAR_BANG e m l n
  | .PROG_FUNCTION p => exec_FUNCTION e m l p
  | .PROG_IF call => exec_IF e m l call
  | .PROG_EXEC call => exec_EXEC e m l call
  | .PROG_JMP call => exec_PROG_JMP m l call
  | .PROG_TRY call => exec_TRY e m l call
  | .PROG_PRIMITIVE number =>
    if number = IN_JMP then exec_JMP e m l
    else if number = IN_EXECUTE then exec_EXECUTE e m l
    else if number = IN_CALL then exec_CALL e m l
    else if number = IN_RET then exec_RET e m l
    else if number = IN_CATCH then exec_CATCH e m l false
    else if number = IN_CATCH_DETAILED then exec_CATCH e m l true
    else if number = IN_EVENT_WAITFOR then exec_EVENT_WAITFOR e m l
    else if number = IN_READ then exec_READ e m l
    else if number = IN_SLEEP then exec_SLEEP e m l
    else exec_primitive e m l number
  | .PROG_CLEARED _ =>
    abort_loop_hard e
      { m with out := m.out ++ [.log_status "WARNING: attempt to execute instruction cleared"] }
      { l with pc := 0 }
      "Program internal error. Program erroneously freed from memory." none none

/-- The field `fr->trys.st->call_level`; the try stack has a head node whenever
`fr->trys.top` is not 0. -/
def frame.try_call_level (fr : frame) : Int :=
  match fr.trys_st with
  | [] => 0
  | t :: _ => t.call_level

/-- The field `fr->trys.st->addr`. -/
def frame.try_addr (fr : frame) : Nat :=
  match fr.trys_st with
  | [] => 0
  | t :: _ => t.addr

/-- The loop `while (fr->trys.st->call_level < stop) { ... }` of the error
unwind, run at most `fuel` times.  Every pass lowers `stop` by one and leaves
the try stack alone, so `stop - call_level` passes are all the loop makes. -/
def unwind_loop (e : env) : Nat → machine → locals → outcome
  | 0, m, l => .next m l
  | fuel + 1, m, l =>
    let fr := m.frames l.fr
    if fr.try_call_level < l.stop then
      let back := (fr.system_st (l.stop - 1)).progref
      if l.stop > 1 ∧ l.program ≠ back ∧ invalid_program e back then
        abort_loop_hard e m l "Internal error.  Invalid address." none none
      else
        let r : machine × locals :=
          if l.stop > 1 ∧ l.program ≠ back then
            (set_frame { m with mem := PROGRAM_DEC_INSTANCES m.mem l.program } l.fr
                { fr with caller_top := fr.caller_top - 1 },
              { l with program := back, mlev := e.ProgMLevel fr back })
          else (m, l)
        let fr2 := r.1.frames l.fr
        let p := scopedvar_poplevel r.1.mem fr2.svars
        unwind_loop e fuel
          { r.1 with mem := p.1, frames := setN r.1.frames l.fr { fr2 with svars := p.2.1 } }
          { r.2 with stop := r.2.stop - 1 }
    else .next m l

/-- The statement `if (err) { ... }` that ends the body of the dispatcher loop:
a soft error with a try-frame unwinds the system stack and continues at the
handler, any other error cleans the frame and returns null. -/
def error_unwind (e : env) (m : machine) (l : locals) : outcome :=
  if m.err ≠ 0 then
    if m.err ≠ ERROR_DIE_NOW ∧ (m.frames l.fr).trys_top ≠ 0 then
      match unwind_loop e (l.stop - (m.frames l.fr).try_call_level).toNat m l with
      | .next m1 l1 => .next { m1 with err := 0 } { l1 with pc := (m1.frames l1.fr).try_addr }
      | other => other
    else
      let m1 := set_frame m l.fr (reload (m.frames l.fr) l.atop l.stop)
      let m2 := prog_clean e m1 l.fr
      .ret { m2 with out := m2.out ++ [.PLAYER_SET_BLOCK l.player false],
                     interp_depth := m2.interp_depth - 1 } .null
  else .next m l

/-- The instruction switch followed by the error check: the part of one pass
through the dispatcher loop from `switch (pc->type)` to the end of the loop
body. -/
def execute (e : env) (m : machine) (l : locals) : outcome :=
  match dispatch e m l with
  | .next m1 l1 => error_unwind e m1 l1
  | other => other

/-- The function `do_abort_silent`. -/
def do_abort_silent (m : machine) : machine := { m with err := ERROR_DIE_NOW }

/-! ## The dispatcher loop -/

/-- The breakpoint test of the debugger for breakpoint `i`, with its side
effects on the countdowns: whether the breakpoint matches, and the debugger
state after the test. -/
def breakpoint_match (b : debuggerdata) (pc : Nat) (line : Int) (stop program : Int) (i : Int) :
    Bool × debuggerdata :=
  if (b.pc i = 0 ∨ pc = b.pc i)
      ∧ (b.line i = -1 ∨ (b.lastline ≠ line ∧ b.line i = line))
      ∧ (b.level i = -1 ∨ stop ≤ b.level i)
      ∧ (b.prog i = NOTHING ∨ b.prog i = program) then
    if b.linecount i = -2 then
      if b.pccount i = -2 then (true, b)
      else if b.lastpc ≠ pc then
        (decide (b.pccount i ≤ 0), { b with pccount := setI b.pccount i (b.pccount i - 1) })
      else (false, b)
    else if b.lastline ≠ line then
      let b1 : debuggerdata := { b with linecount := setI b.linecount i (b.linecount i - 1) }
      if b.linecount i ≤ 0 then
        if b1.pccount i = -2 then (true, b1)
        else if b1.lastpc ≠ pc then
          (decide (b1.pccount i ≤ 0), { b1 with pccount := setI b1.pccount i (b1.pccount i - 1) })
        else (false, b1)
      else (false, b1)
    else (false, b)
  else (false, b)

/-- The loop `for (i = 0; i < fr->brkpt.count; i++)` over the breakpoints, run
from `i` for at most `fuel` breakpoints: the break flag, the final `i` and the
debugger state. -/
def breakpoint_scan (pc : Nat) (line : Int) (stop program : Int) :
    Nat → Int → debuggerdata → Bool × Int × debuggerdata
  | 0, i, b => (false, i, b)
  | fuel + 1, i, b =>
    if i < b.count then
      let r := breakpoint_match b pc line stop program i
      if r.1 then
        if r.2.bypass then
          let b1 : debuggerdata :=
            if r.2.pccount i = -1 then { r.2 with pccount := setI r.2.pccount i 0 } else r.2
          let b2 : debuggerdata :=
            if b1.linecount i = -1 then { b1 with linecount := setI b1.linecount i 0 } else b1
          breakpoint_scan pc line stop program fuel (i + 1) b2
        else (true, i, r.2)
      else breakpoint_scan pc line stop program fuel (i + 1) r.2
    else (false, i, b)

/-- The debugger part of one pass through the dispatcher loop (source lines 1118
to 1217): the frame is suspended on a breakpoint, or the pass goes on. -/
def debugger_tick (e : env) (m : machine) (l : locals) : outcome :=
  let fr := m.frames l.fr
  let debugging : Bool :=
    (e.FLAGS l.program .ZOMBIE || fr.brkpt.force_debugging) && !fr.been_background
      && e.controls l.player l.program
  let b0 : debuggerdata := { fr.brkpt with debugging := debugging }
  let ins := e.code l.pc
  let shown : List effect :=
    if (e.FLAGS l.program .DARK || (b0.debugging && b0.showstack && !b0.bypass))
        && !(ins.data == .PROG_PRIMITIVE e.instno_debug_line) then
      [.debug_inst l.player l.pc]
    else []
  let m0 : machine := { m with out := m.out ++ shown }
  if b0.debugging then
    let about_to_exit : Bool :=
      l.stop == 1 && !b0.bypass && ins.data == .PROG_PRIMITIVE IN_RET
    let scan : Bool × Int × debuggerdata :=
      if about_to_exit then (true, l.i, b0)
      else if b0.count ≠ 0 then breakpoint_scan l.pc ins.line l.stop l.program b0.count.toNat 0 b0
      else (false, l.i, b0)
    let m1 : machine :=
      if about_to_exit then
        { m0 with out := m0.out ++ [.notify_nolisten l.player "Program is about to EXIT."] }
      else m0
    if scan.1 then
      let l1 : locals :=
        if scan.2.2.dosyspop then
          { l with i := scan.2.1, stop := l.stop - 1,
                   program := (fr.system_st (l.stop - 1)).progref,
                   pc := (fr.system_st (l.stop - 1)).offset }
        else { l with i := scan.2.1 }
      let b1 : debuggerdata :=
        { scan.2.2 with isread := false, breaknum := l1.i, lastlisted := 0, bypass := false,
                        dosyspop := false }
      let fr1 : frame := { reload fr l1.atop l1.stop with pc := l1.pc, brkpt := b1 }
      let calls : List effect :=
        [.add_muf_read_event fr.descr l1.player l1.program l1.fr,
         .PLAYER_SET_CURR_PROG l1.player l1.program,
         .PLAYER_SET_BLOCK l1.player false]
        ++ (if !b1.showstack then [.debug_inst l1.player l1.pc] else [])
        ++ [.list_proglines l1.player l1.program (e.code l1.pc).line]
      .ret { m1 with frames := setN m1.frames l.fr fr1, out := m1.out ++ calls,
                     interp_depth := m1.interp_depth - 1 } .null
    else
      let b1 : debuggerdata :=
        { scan.2.2 with lastline := ins.line, lastpc := l.pc, bypass := false }
      .next (set_frame m1 l.fr { fr with brkpt := b1 }) { l with i := scan.2.1 }
  else .next (set_frame m0 l.fr { fr with brkpt := b0 }) l

/-- The first part of one pass through the dispatcher loop (source lines 1076 to
1117): the liveness check of the player, the two instruction counters and the
preemption decision. -/
def budget (e : env) (m : machine) (l : locals) : outcome :=
  if l.player < 0 ∨ l.player ≥ e.db_top
      ∨ (e.Typeof l.player ≠ .TYPE_PLAYER ∧ e.Typeof l.player ≠ .TYPE_THING) then
    let m1 := prog_clean e (set_frame m l.fr (reload (m.frames l.fr) l.atop l.stop)) l.fr
    .ret { m1 with interp_depth := m1.interp_depth - 1 } .null
  else
    let fr0 := m.frames l.fr
    let fr : frame := { fr0 with instcnt := fr0.instcnt + 1 }
    let m1 := set_frame m l.fr fr
    let l1 : locals := { l with instr_count := l.instr_count + 1 }
    if fr.multitask = PREEMPT ∨ e.FLAGS l.program .BUILDER = true then
      if l1.mlev = 4 then
        if e.tp_max_ml4_preempt_count ≠ 0 then
          if l1.instr_count ≥ e.tp_max_ml4_preempt_count then
            abort_loop_hard e m1 l1 "Maximum preempt instruction count exceeded" none none
          else .next m1 l1
        else .next m1 { l1 with instr_count := 0 }
      else if l1.instr_count ≥ e.tp_max_instr_count then
        abort_loop_hard e m1 l1 "Maximum preempt instruction count exceeded" none none
      else .next m1 l1
    else if fr.instcnt > e.tp_instr_slice * 4 ∧ l1.instr_count ≥ e.tp_instr_slice then
      let fr1 : frame := { reload fr l1.atop l1.stop with pc := l1.pc }
      let calls : List effect :=
        [.PLAYER_SET_BLOCK l1.player (!fr1.been_background),
         .add_muf_delay_event 0 fr1.descr l1.player l1.program l1.fr
            (if fr1.multitask = FOREGROUND then "FOREGROUND" else "BACKGROUND")]
      .ret { m1 with frames := setN m1.frames l.fr fr1, out := m1.out ++ calls,
                     interp_depth := m1.interp_depth - 1 } .null
    else .next m1 l1

/-- The ceiling on the total instruction count of a program below level 3
(source lines 1218 to 1221). -/
def ceiling (e : env) (m : machine) (l : locals) : outcome :=
  if l.mlev < 3
      ∧ (m.frames l.fr).instcnt > e.tp_max_instr_count * (if l.mlev = 2 then 4 else 1) then
    abort_loop_hard e m l "Maximum total instruction count exceeded." none none
  else .next m l

/-- Sequencing of the parts of a pass: the next part runs when the one before
lets the pass go on. -/
def outcome.andThen (o : outcome) (f : machine → locals → outcome) : outcome :=
  match o with
  | .next m l => f m l
  | other => other

/-- One pass through the body of the loop `while (stop)` of `interp_loop`. -/
def loop_pass (e : env) (m : machine) (l : locals) : outcome :=
  (((budget e m l).andThen (debugger_tick e)).andThen (ceiling e)).andThen (execute e)

/-- What `interp_loop` does once the loop `while (stop)` has ended (source lines
1766 to 1790): the frame is cleaned and the result is taken from the top of the
operand stack. -/
def interp_loop_exit (e : env) (m : machine) (l : locals) : machine × retval :=
  let fr := m.frames l.fr
  let top := fr.argument_st (l.atop - 1)
  let r : heap × retval :=
    if l.atop ≠ 0 then
      if l.rettyp ≠ 0 then ((copyinst m.mem top).1, .value (copyinst m.mem top).2)
      else if !false_inst m.mem top then (m.mem, .one)
      else (m.mem, .null)
    else (m.mem, .null)
  let m1 : machine :=
    { m with mem := r.1, frames := setN m.frames l.fr (reload fr l.atop l.stop),
             out := m.out ++ [.PLAYER_SET_BLOCK l.player false] }
  let m2 := prog_clean e m1 l.fr
  ({ m2 with interp_depth := m2.interp_depth - 1 }, r.2)

/-- The loop `while (stop) { ... }` of `interp_loop` followed by its exit, for at
most `fuel` passes; `none` when the passes are used up or the C code has no
defined behaviour. -/
def interp_loop_run (e : env) : Nat → machine → locals → Option (machine × retval)
  | 0, _, _ => none
  | fuel + 1, m, l =>
    if l.stop ≠ 0 then
      match loop_pass e m l with
      | .next m1 l1 => interp_loop_run e fuel m1 l1
      | .ret m1 rv => some (m1, rv)
      | .undefined _ => none
    else some (interp_loop_exit e m l)

/-- The state after `n` passes through the dispatcher loop, while the loop goes
on (`none` once it has ended). -/
def passes (e : env) : Nat → machine → locals → Option (machine × locals)
  | 0, m, l => some (m, l)
  | n + 1, m, l =>
    if l.stop ≠ 0 then
      match loop_pass e m l with
      | .next m1 l1 => passes e n m1 l1
      | _ => none
    else none

/-- The start of `interp_loop` (source lines 1039 to 1071) for a frame whose
`pc` is set: the registers are loaded from the frame. -/
def interp_loop_entry (e : env) (m : machine) (player program : Int) (fp : Nat) (rettyp : Int) :
    machine × locals :=
  let fr0 := m.frames fp
  let fr : frame :=
    { fr0 with level := m.interp_depth + 1, brkpt := { fr0.brkpt with isread := false } }
  ({ m with interp_depth := m.interp_depth + 1, frames := setN m.frames fp fr,
            already_created := 0, err := 0, out := m.out ++ [.ts_useobject program] },
   { player := player, program := program, fr := fp, rettyp := rettyp, pc := fr.pc,
     atop := fr.argument_top, stop := fr.system_top, instr_count := 0,
     mlev := e.ProgMLevel fr program, writeonly := fr.writeonly, i := 0 })

/-! ## Sample states

Concrete inputs on which the theorems are instantiated and the code is
evaluated. -/

/-- A heap with no live object: every count is 0 and every program is compiled
with its entry at code address 1. -/
def sample_heap : heap :=
  { strings := fun _ => { links := 0, data := "", freed := false },
    next_string := 100,
    arrays := fun _ => { links := 0, items := 0, packed := true, elems := [], freed := false },
    next_array := 100,
    addrs := fun _ => { links := 0, progref := 0, data := 0 },
    progs := fun _ => { instances := 0, code := 1, start := 1, pubs := [], prof_uses := 0 },
    status_log := [] }

/-- The sample heap with one shared string, cell 0, of text `text` and one
link. -/
def sample_heap_string (text : String) : heap :=
  { sample_heap with
      strings := setN sample_heap.strings 0 { links := 1, data := text, freed := false } }

/-- A debugger state with no breakpoint armed. -/
def sample_brkpt : debuggerdata :=
  { debugging := false, force_debugging := false, bypass := false, isread := false,
    showstack := false, dosyspop := false, lastlisted := 0, lastcmd := none, breaknum := -1,
    lastproglisted := NOTHING, proglines := false, count := 1, temp := fun _ => 1,
    level := fun _ => -1, line := fun _ => -1, linecount := fun _ => -2, pc := fun _ => 0,
    pccount := fun _ => -2, prog := fun _ => 2, lastline := 0, lastpc := 0 }

/-- A frame of pid 7 running program 2 for player 1 in FOREGROUND mode, with
empty stacks apart from the bottom entry of the system stack. -/
def sample_frame : frame :=
  { pid := 7, descr := 0, multitask := FOREGROUND, perms := 0, already_created := 0,
    been_background := false, trig := 1, timercount := 0, instcnt := 0, skip_declare := false,
    wantsblanks := false, caller_top := 1, caller_st := fun i => if i = 0 then 1 else 2,
    system_top := 1, system_st := fun _ => { progref := 0, offset := 0 },
    argument_top := 0, argument_st := fun _ => { line := 0, data := .PROG_INTEGER 0 },
    waitees := [], waiters := [], fors_top := 0, fors_st := [], trys_top := 0, trys_st := [],
    errorstr := none, errorinst := none, errorprog := NOTHING, errorline := 0, rndbuf := false,
    dlogids := [], pc := 10, writeonly := false, level := 0, svars := [], lvars := [],
    variables_ := fun _ => { line := 0, data := .PROG_INTEGER 0 }, brkpt := sample_brkpt }

/-- A machine whose frame 0 is `fr` and whose heap is `h`; the pools and the
free-frame list are empty. -/
def sample_machine (h : heap) (fr : frame) : machine :=
  { mem := h, frames := fun _ => fr, free_frames_list := [], for_pool := [], last_for := 0,
    try_pool := [], last_try := 0, err := 0, interp_depth := 1, top_pid := 8,
    already_created := 0, nargs := 0, out := [] }

/-- An environment over the code memory `code`: object 1 is a player and owns
everything, every other object is a program of level 3; the library primitives
do nothing. -/
def sample_env (code : Nat → inst) : env :=
  { STACK_SIZE := 512, MAX_VAR := 54, db_top := 100, tp_max_instr_count := 20000,
    tp_max_ml4_preempt_count := 0, tp_instr_slice := 2000, tp_free_frames_pool := 8,
    Typeof := fun d => if d = 1 then .TYPE_PLAYER else .TYPE_PROGRAM,
    OWNER := fun _ => 1, FLAGS := fun _ _ => false, MLevel := fun _ => 3,
    TrueWizard := fun _ => false, Linkable := fun _ => true, controls := fun _ _ => true,
    can_link_to := fun _ _ => true, online := fun _ => true,
    ProgMLevel := fun _ _ => 3, ProgUID := fun _ _ _ => 1, code := code,
    do_compile := fun _ p => p, string_compare := fun a b => if a = b then 0 else 1,
    insttotext := fun _ _ _ => "", timequeue_pid_frame := fun _ => none,
    array_is_homogenous := fun _ _ => true, array_event_names := fun _ _ => [],
    instno_debug_line := 200,
    prim_func := fun _ m l => (m, l.atop) }

/-- The registers of the dispatcher for player 1 running program 2 on frame 0 at
code address `pc`, with operand height `atop` and system height `stop`. -/
def sample_locals (pc : Nat) (atop stop : Int) : locals :=
  { player := 1, program := 2, fr := 0, rettyp := 0, pc := pc, atop := atop, stop := stop,
    instr_count := 0, mlev := 3, writeonly := false, i := 0 }

/-- A code memory that holds the one primitive `number` at every address. -/
def code_primitive (number : Int) : Nat → inst :=
  fun _ => { line := 1, data := .PROG_PRIMITIVE number }

/-- The frame of the CALL example: operand stack `[7, "f"]` of height 2 and a
try-frame of depth 1 with its handler at code address 20. -/
def call_leak_frame : frame :=
  { sample_frame with
      argument_top := 2,
      argument_st := fun i =>
        if i = 1 then { line := 0, data := .PROG_STRING (some 0) }
        else { line := 0, data := .PROG_INTEGER 7 },
      trys_top := 1,
      trys_st := [{ depth := 1, call_level := 1, for_count := 0, addr := 20 }] }

/-! ## Descriptions used by the theorems

Functions that say, in the words of the properties, what a piece of the
dispatcher is expected to compute; the theorems compare them with the code. -/

/-- The error unwind, entry by entry: whether popping the entry at height `stop`
returns into a different program than `program`. -/
def returns_elsewhere (sys : Int → stack_addr) (stop program : Int) : Prop :=
  stop > 1 ∧ program ≠ (sys (stop - 1)).progref

instance (sys : Int → stack_addr) (stop program : Int) :
    Decidable (returns_elsewhere sys stop program) := by
  unfold returns_elsewhere; infer_instance

/-- The programs left while `n` entries are popped from the system stack of
height `stop`, starting in `program`: one for each entry that returns into a
different program. -/
def unwind_exits (sys : Int → stack_addr) : Nat → Int → Int → List Int
  | 0, _, _ => []
  | n + 1, stop, program =>
    if returns_elsewhere sys stop program then
      program :: unwind_exits sys n (stop - 1) (sys (stop - 1)).progref
    else unwind_exits sys n (stop - 1) program

/-- The program that runs after `n` entries are popped. -/
def unwind_program (sys : Int → stack_addr) : Nat → Int → Int → Int
  | 0, _, program => program
  | n + 1, stop, program =>
    if returns_elsewhere sys stop program then
      unwind_program sys n (stop - 1) (sys (stop - 1)).progref
    else unwind_program sys n (stop - 1) program

/-- Whether every entry among the `n` popped that returns into a different
program names a valid program. -/
def unwind_valid (e : env) (sys : Int → stack_addr) : Nat → Int → Int → Bool
  | 0, _, _ => true
  | n + 1, stop, program =>
    if returns_elsewhere sys stop program then
      !invalid_program e (sys (stop - 1)).progref
        && unwind_valid e sys n (stop - 1) (sys (stop - 1)).progref
    else unwind_valid e sys n (stop - 1) program

/-- The heap after `n` entries are popped: for each entry, one instance less of
the program left when the entry returns into a different program, then the
clear of one level of scoped variables. -/
def unwind_mem (sys : Int → stack_addr) : Nat → Int → Int → List scopedvar_t → heap → heap
  | 0, _, _, _, h => h
  | n + 1, stop, program, svars, h =>
    if returns_elsewhere sys stop program then
      unwind_mem sys n (stop - 1) (sys (stop - 1)).progref svars.tail
        (scopedvar_poplevel (PROGRAM_DEC_INSTANCES h program) svars).1
    else unwind_mem sys n (stop - 1) program svars.tail (scopedvar_poplevel h svars).1

/-- The frame of the unwind examples: system height 2 with the entry at index 1
saved by a call from program `caller`, one scoped level, and a try-frame
recorded at system height 1 with its handler at code address 20. -/
def unwind_frame (caller : Int) : frame :=
  { sample_frame with
      system_top := 2,
      system_st := fun i =>
        if i = 1 then { progref := caller, offset := 11 } else { progref := 0, offset := 0 },
      caller_top := 2,
      svars := [{ count := 0, varnames := none,
                  vars := fun _ => { line := 0, data := .PROG_INTEGER 0 } }],
      errorstr := some "Stack Underflow.",
      trys_top := 1,
      trys_st := [{ depth := 0, call_level := 1, for_count := 0, addr := 20 }] }

/-- The machine of the unwind examples: the error flag has been raised once. -/
def unwind_machine (caller : Int) : machine :=
  { sample_machine sample_heap (unwind_frame caller) with err := 1 }

/-- A code memory that holds the instruction `TRY` with handler 30 at every
address. -/
def code_try : Nat → inst := fun _ => { line := 1, data := .PROG_TRY 30 }

/-- The frame of the TRY examples: operand stack `[5, 5, 2]` of height 3; with
`nested` set, a try-frame of depth 1 is already in place. -/
def try_frame (nested : Bool) : frame :=
  { sample_frame with
      argument_top := 3,
      argument_st := fun i =>
        if i = 2 then { line := 0, data := .PROG_INTEGER 2 }
        else { line := 0, data := .PROG_INTEGER 5 },
      trys_top := if nested then 1 else 0,
      trys_st := if nested then [{ depth := 1, call_level := 1, for_count := 0, addr := 20 }]
        else [] }

/-- The code of the TRY-then-RET example: the main code calls a procedure with
`EXEC` and continues with `CATCH`; the procedure executes `0 TRY` with that
`CATCH` as the handler and returns with the try-frame still in place.

    10: EXEC 20        20: INTEGER 0
    11: CATCH          21: TRY 11
                       22: RET -/
def code_try_ret : Nat → inst := fun pc =>
  if pc = 10 then { line := 1, data := .PROG_EXEC 20 }
  else if pc = 20 then { line := 2, data := .PROG_INTEGER 0 }
  else if pc = 21 then { line := 2, data := .PROG_TRY 11 }
  else if pc = 22 then { line := 2, data := .PROG_PRIMITIVE IN_RET }
  else { line := 1, data := .PROG_PRIMITIVE IN_CATCH }

/-- The number of operands an instruction of the dispatcher pops behind the
underflow test and the protection test: 1 for `IF`, `LVAR_BANG`, `SVAR_BANG`,
`TRY` and the primitives `JMP`, `EXECUTE`, `CALL`, `EVENT_WAITFOR` and `SLEEP`,
the number of arguments for a `FUNCTION` header; `none` for the instructions
that do not pop this way. -/
def pops (i : tagged) : Option Int :=
  match i with
  | .PROG_IF _ => some 1
  | .PROG_LVAR_BANG _ => some 1
  | .PROG_SVAR_BANG _ => some 1
  | .PROG_TRY _ => some 1
  | .PROG_FUNCTION (some p) => some p.args
  | .PROG_PRIMITIVE number =>
    if number = IN_JMP ∨ number = IN_EXECUTE ∨ number = IN_CALL ∨ number = IN_EVENT_WAITFOR
        ∨ number = IN_SLEEP then some 1
    else none
  | _ => none

/-- The pass goes on only with an operand height below `a`. -/
def outcome.popped_below (o : outcome) (a : Int) : Prop :=
  match o with
  | .next _ l => l.atop < a
  | _ => True

/-- The frame of the underflow example: an empty operand stack under a try-frame
of depth 0. -/
def empty_under_try_frame : frame :=
  { sample_frame with
      trys_top := 1,
      trys_st := [{ depth := 0, call_level := 1, for_count := 0, addr := 20 }] }

/-- A code memory that holds the instruction `IF` with target 30 at every
address. -/
def code_if : Nat → inst := fun _ => { line := 1, data := .PROG_IF 30 }

/-- The frame of the CATCH example: operand stack `[5, 5, 2]` of height 3 under
a try-frame of depth 1, with the error "Stack Underflow." pending. -/
def catch_frame : frame := { try_frame true with errorstr := some "Stack Underflow." }

/-- The pass does not go on to the error unwind with the registers `l` it started
with, the error flag raised once and "Stack protection fault." recorded on the
frame: the instruction has not raised the protection fault of its first pop. -/
def outcome.no_protection_fault (o : outcome) (m : machine) (l : locals) : Prop :=
  ¬ ∃ m', o = .next m' l ∧ m'.err = m.err + 1
    ∧ (m'.frames l.fr).errorstr = some "Stack protection fault."

/-- The events `PROC.EXIT.<pid>` that the exit of process `pid` posts for a list
of watching processes: one for every entry whose frame is in the time queue,
each carrying the integer `pid`. -/
def exit_events (e : env) (pid : Int) (pids : List Int) : List effect :=
  pids.filterMap fun p =>
    (e.timequeue_pid_frame p).map fun g =>
      effect.muf_event_add g ("PROC.EXIT." ++ toString pid)
        { line := 0, data := .PROG_INTEGER pid }

/-- The number of entries of a list of process ids whose frame in the time queue
is the frame `g`. -/
def entries_for (e : env) (pids : List Int) (g : Nat) : Nat :=
  (pids.filter fun p => e.timequeue_pid_frame p = some g).length

/-- A machine with two processes: frame 0 is process 7, watched by the processes
8 and 9 and watching process 8; frame 1 is process 8, which watches process 7
and is watched by it. -/
def watch_machine : machine :=
  { sample_machine sample_heap sample_frame with
      frames := fun g =>
        if g = 0 then { sample_frame with waiters := [8, 9], waitees := [8] }
        else { sample_frame with pid := 8, waiters := [7], waitees := [7] } }

/-- An environment whose time queue holds process 8, on frame 1, and no other
process. -/
def watch_env : env :=
  { sample_env (code_primitive 100) with
      timequeue_pid_frame := fun p => if p = 8 then some 1 else none }

/-- A code memory with `PROG_TRY 20` at address 10 and the primitive `IN_CATCH`
everywhere else. -/
def code_try_catch : Nat → inst :=
  fun a =>
    if a = 10 then { line := 1, data := .PROG_TRY 20 }
    else { line := 2, data := .PROG_PRIMITIVE IN_CATCH }

/-- The sample frame with the operand stack `[5, n]` of height 2. -/
def try_catch_frame (n : Int) : frame :=
  { sample_frame with
      argument_top := 2,
      argument_st := fun i =>
        if i = 1 then { line := 0, data := .PROG_INTEGER n }
        else { line := 0, data := .PROG_INTEGER 5 } }

/-- What a CALL that succeeds has done, `m` and `l` being the state before it,
`m'` and `l'` the state after it, `objref` the target and `H` the heap after
the compilation of a target that had no code: the return address is stored at
the system height, which has gone up by one; a target other than the running
program has been pushed on the caller chain, has one instance more and has
given its level to `mlev`; for the running program the caller chain, the
instance counts and `mlev` are as before. -/
def call_entered (e : env) (m m' : machine) (l l' : locals) (objref : Int) (H : heap) : Prop :=
  l'.stop = l.stop + 1 ∧ l'.program = objref ∧ l'.atop = l.atop
  ∧ (m'.frames l.fr).system_st
      = setI (m.frames l.fr).system_st l.stop { progref := l.program, offset := l.pc + 1 }
  ∧ (objref ≠ l.program →
      (m'.frames l.fr).caller_top = (m.frames l.fr).caller_top + 1
      ∧ (m'.frames l.fr).caller_st
          = setI (m.frames l.fr).caller_st ((m.frames l.fr).caller_top + 1) objref
      ∧ l'.mlev = e.ProgMLevel
          { (m.frames l.fr) with
              system_st := setI (m.frames l.fr).system_st l.stop
                { progref := l.program, offset := l.pc + 1 },
              caller_top := (m.frames l.fr).caller_top + 1,
              caller_st := setI (m.frames l.fr).caller_st ((m.frames l.fr).caller_top + 1)
                objref } objref
      ∧ ∀ x, (m'.mem.progs x).instances
          = (H.progs x).instances + (if x = objref then 1 else 0))
  ∧ (objref = l.program →
      (m'.frames l.fr).caller_top = (m.frames l.fr).caller_top
      ∧ (m'.frames l.fr).caller_st = (m.frames l.fr).caller_st
      ∧ l'.mlev = l.mlev
      ∧ ∀ x, (m'.mem.progs x).instances = (H.progs x).instances)

/-- The sample frame with the operand stack `[#target]` of height 1: the dbref
of the program `target` lies on top. -/
def call_frame (target : Int) : frame :=
  { sample_frame with
      argument_top := 1,
      argument_st := fun _ => { line := 0, data := .PROG_OBJECT target } }

/-- A code memory that holds the instruction `PROG_INTEGER 5` at every address. -/
def code_push : Nat → inst :=
  fun _ => { line := 1, data := .PROG_INTEGER 5 }

/-- The sample environment over `code_push` with an instruction slice of 100. -/
def slice_env : env :=
  { sample_env code_push with tp_instr_slice := 100 }

/-- The registers of the sample run after `n` instructions of `code_push`: `pc`
is `n` addresses on, `n` operands have been pushed and `n` instructions counted
in this invocation. -/
def run_locals (n : Nat) : locals :=
  { sample_locals (10 + n) n 1 with instr_count := n }

/-! ## Frame creation -/

/-- The global variables set by `interp`: the loop
`for (i = 0; i < MAX_VAR; i++) { ... PROG_INTEGER ... 0 }` followed by the four
assignments of `me`, `loc`, `trigger` and `command`. -/
def interp_variables (e : env) (old : Int → inst) (player location source : Int)
    (cmd : Option Nat) : Int → inst :=
  let v0 : Int → inst := fun i =>
    if 0 ≤ i ∧ i < e.MAX_VAR then { (old i) with data := .PROG_INTEGER 0 } else old i
  let v1 := setI v0 0 { (v0 0) with data := .PROG_OBJECT player }
  let v2 := setI v1 1 { (v1 1) with data := .PROG_OBJECT location }
  let v3 := setI v2 2 { (v2 2) with data := .PROG_OBJECT source }
  setI v3 3 { (v3 3) with data := .PROG_STRING cmd }

/-- The function `interp`: the frame of a new invocation of `program`, or null
when the program may not be called.  The frame is the head of the free list
when there is one, the block `malloc` otherwise; the fields the function does
not write keep what the block held.  `match_cmdname` and `match_args` are the
two global strings the function reads. -/
def interp (e : env) (m : machine) (descr player location program source nosleeps whichperms
    forced_pid : Int) (match_cmdname match_args : String) (malloc : Nat) :
    machine × Option Nat :=
  if e.MLevel program = 0 ∨ e.MLevel (e.OWNER program) = 0
      ∨ (source ≠ NOTHING ∧ e.TrueWizard (e.OWNER source) = false
          ∧ e.can_link_to (e.OWNER source) program = false) then
    ({ m with out := m.out ++ [.notify_nolisten player "Program call: Permission denied."] },
      none)
  else
    let fp : Nat := match m.free_frames_list with
      | [] => malloc
      | f :: _ => f
    let old := m.frames fp
    let cmd := alloc_prog_string m.mem match_cmdname
    let h1 := if (cmd.1.progs program).code ≠ 0 then PROGRAM_INC_PROF_USES cmd.1 program else cmd.1
    let h2 := PROGRAM_INC_INSTANCES h1 program
    let args := alloc_prog_string h2 match_args
    let b : debuggerdata :=
      { old.brkpt with
          force_debugging := false, debugging := false, bypass := false, isread := false,
          showstack := false, dosyspop := false, lastline := 0, lastpc := 0, lastlisted := 0,
          lastcmd := none, breaknum := -1, lastproglisted := NOTHING, proglines := false,
          count := 1, temp := setI old.brkpt.temp 0 1, level := setI old.brkpt.level 0 (-1),
          line := setI old.brkpt.line 0 (-1), linecount := setI old.brkpt.linecount 0 (-2),
          pc := setI old.brkpt.pc 0 0, pccount := setI old.brkpt.pccount 0 (-2),
          prog := setI old.brkpt.prog 0 program }
    let fr : frame :=
      { old with
          pid := if forced_pid ≠ 0 then forced_pid else m.top_pid,
          descr := descr, multitask := nosleeps, perms := whichperms, already_created := 0,
          been_background := decide (nosleeps = 2), trig := source, timercount := 0,
          instcnt := 0, skip_declare := false, wantsblanks := false,
          caller_top := 1, caller_st := setI (setI old.caller_st 0 source) 1 program,
          system_top := 1, system_st := setI old.system_st 0 { progref := 0, offset := 0 },
          waitees := [], waiters := [], fors_top := 0, fors_st := [], trys_top := 0,
          trys_st := [], errorstr := none, errorinst := none, errorprog := NOTHING,
          errorline := 0, rndbuf := false, dlogids := [],
          argument_top := 1,
          argument_st := setI old.argument_st 0
            { (old.argument_st 0) with data := .PROG_STRING args.2 },
          pc := (m.mem.progs program).start,
          writeonly := decide (source = -1) || decide (e.Typeof source = .TYPE_ROOM)
            || (decide (e.Typeof source = .TYPE_PLAYER) && !e.online source)
            || e.FLAGS player .READMODE,
          level := 0, svars := [], lvars := [],
          variables_ := interp_variables e old.variables_ player location source cmd.2,
          brkpt := b }
    ({ m with
        mem := args.1, frames := setN m.frames fp fr,
        free_frames_list := m.free_frames_list.tail,
        top_pid := if forced_pid ≠ 0 then m.top_pid else m.top_pid + 1 },
      some fp)

/-- The instructions that move between procedures and programs: `PROG_EXEC`,
`PROG_JMP` and the primitives `IN_CALL`, `IN_EXECUTE`, `IN_RET` and `IN_JMP`. -/
def control_flow (d : tagged) : Bool :=
  match d with
  | .PROG_EXEC _ => true
  | .PROG_JMP _ => true
  | .PROG_PRIMITIVE n =>
    decide (n = IN_CALL) || decide (n = IN_EXECUTE) || decide (n = IN_RET) || decide (n = IN_JMP)
  | _ => false

/-- The state after `n` passes that each execute a control-flow instruction and
the error check that follows it, while the loop `while (stop)` goes on; `none`
once a pass ends the loop or meets another instruction. -/
def control_passes (e : env) : Nat → machine → locals → Option (machine × locals)
  | 0, m, l => some (m, l)
  | n + 1, m, l =>
    if l.stop ≠ 0 ∧ control_flow (e.code l.pc).data = true then
      match execute e m l with
      | .next m1 l1 => control_passes e n m1 l1
      | _ => none
    else none

/-- The number of entries of the system stack, among those at the indices 1 to
`k`, that record a call into another program: entries whose saved program
differs from the program that runs above them, `above` being the program that
runs above the entry at index `k`. -/
def calls_into_other (sys : Int → stack_addr) : Nat → Int → Nat
  | 0, _ => 0
  | k + 1, above =>
    (if (sys ((k + 1 : Nat) : Int)).progref ≠ above then 1 else 0)
      + calls_into_other sys k (sys ((k + 1 : Nat) : Int)).progref

/-- The caller chain mirrors the system stack: walking down from the entry at
index `k`, the entry `top` of the caller chain is the program that runs above
the system entry, an entry that records a call into another program goes with
one entry of the caller chain, and under the entry at index 1 the caller chain
is at its entry 1, the program the frame was created for. -/
def chain_mirror (caller_st : Int → Int) (sys : Int → stack_addr) : Nat → Int → Int → Bool
  | 0, above, top => decide (top = 1) && decide (caller_st 1 = above)
  | k + 1, above, top =>
    decide (caller_st top = above)
      && (if (sys ((k + 1 : Nat) : Int)).progref ≠ above then
            chain_mirror caller_st sys k (sys ((k + 1 : Nat) : Int)).progref (top - 1)
          else chain_mirror caller_st sys k above top)

/-- The caller chain of the frame mirrors its system stack below the system
height `l.stop`, the running program being `l.program`. -/
def chain_ok (fr : frame) (l : locals) : Prop :=
  chain_mirror fr.caller_st fr.system_st (l.stop - 1).toNat l.program fr.caller_top = true

/-- The part that `IN_RET` and a pass of the unwind loop have in common, once
the saved program has passed the test for an invalid address: a return into
another program takes the running program off the caller chain and gives up
its instance, the top scoped level is popped, and the system height goes down
by one. -/
def pop_level (e : env) (m : machine) (l : locals) : machine × locals :=
  let fr := m.frames l.fr
  let back := (fr.system_st (l.stop - 1)).progref
  let r : machine × locals :=
    if l.stop > 1 ∧ l.program ≠ back then
      (set_frame { m with mem := PROGRAM_DEC_INSTANCES m.mem l.program } l.fr
          { fr with caller_top := fr.caller_top - 1 },
        { l with program := back, mlev := e.ProgMLevel fr back })
    else (m, l)
  let fr2 := r.1.frames l.fr
  let p := scopedvar_poplevel r.1.mem fr2.svars
  ({ r.1 with mem := p.1, frames := setN r.1.frames l.fr { fr2 with svars := p.2.1 } },
    { r.2 with stop := r.2.stop - 1 })

/-- A property of the machine and the registers that every part of a control-flow
instruction keeps: it does not depend on the operand height, on `pc`, on the
error fields and the saved heights of the frame, on the error flag or on the
calls made (`regs`, `misc`); it is kept by the clear of an operand, by the
compilation of a program, by the count of a use and by a write of the system
entry at the system height (`clear`, `compile`, `uses`, `sys`); it is kept when
the system height goes up over an entry that saves the running program, within
the program or into another one that is pushed on the caller chain and gets an
instance (`push_same`, `push_cross`), and by the pop of a system level (`pop`),
the system stack holding an entry in both cases; and it makes the system height
and the call level of the innermost try-frame at least 0 (`nonneg`). -/
structure flow_closed (e : env) (R : machine → locals → Prop) : Prop where
  regs : ∀ (m : machine) (l : locals) (a : Int) (pc : Nat),
    R m l → R m { l with atop := a, pc := pc }
  misc : ∀ (m : machine) (l : locals) (es ei : Option String) (el ep a s : Int) (pc : Nat)
      (sd : Bool) (err : Int) (out : List effect),
    R m l →
    R { m with
          frames := setN m.frames l.fr
            { (m.frames l.fr) with
                errorstr := es, errorinst := ei, errorline := el, errorprog := ep,
                argument_top := a, system_top := s, pc := pc, skip_declare := sd },
          err := err, out := out } l
  clear : ∀ (m : machine) (l : locals) (k line : Int), R m l → R (CLEAR_arg m l.fr k line) l
  compile : ∀ (m : machine) (l : locals) (x : Int),
    R m l → R { m with mem := compile_program e m.mem x } l
  uses : ∀ (m : machine) (l : locals) (x : Int),
    R m l → R { m with mem := PROGRAM_INC_PROF_USES m.mem x } l
  sys : ∀ (m : machine) (l : locals) (v : stack_addr),
    R m l →
    R (set_frame m l.fr
        { (m.frames l.fr) with system_st := setI (m.frames l.fr).system_st l.stop v }) l
  nonneg : ∀ (m : machine) (l : locals),
    R m l → 0 ≤ l.stop ∧ 0 ≤ (m.frames l.fr).try_call_level
  push_same : ∀ (m : machine) (l : locals),
    R m l → 1 ≤ l.stop → ((m.frames l.fr).system_st l.stop).progref = l.program →
    R m { l with stop := l.stop + 1 }
  push_cross : ∀ (m : machine) (l : locals) (target lev : Int),
    R m l → 1 ≤ l.stop → ((m.frames l.fr).system_st l.stop).progref = l.program →
    target ≠ l.program →
    R { m with
          mem := PROGRAM_INC_INSTANCES m.mem target,
          frames := setN m.frames l.fr
            { (m.frames l.fr) with
                caller_top := (m.frames l.fr).caller_top + 1,
                caller_st := setI (m.frames l.fr).caller_st ((m.frames l.fr).caller_top + 1)
                  target } }
      { l with stop := l.stop + 1, program := target, mlev := lev }
  pop : ∀ (m : machine) (l : locals),
    R m l → 1 ≤ l.stop → R (pop_level e m l).1 (pop_level e m l).2

instance (fr : frame) (l : locals) : Decidable (chain_ok fr l) := by
  unfold chain_ok
  infer_instance

/-- The state of a frame between two passes of the dispatcher, as far as the
caller chain goes: the system height is not negative, the caller chain mirrors
the system stack, and no try-frame of the frame has a negative call level. -/
def chain_state (m : machine) (l : locals) : Prop :=
  0 ≤ l.stop ∧ chain_ok (m.frames l.fr) l ∧ ∀ t ∈ (m.frames l.fr).trys_st, 0 ≤ t.call_level

/-- The walk `for (ptr = free_frames_list; ptr && --count > 0; ptr = ptr->next) ;`
of `purge_free_frames`, entered with `ptr` at the head of `list`: the nodes in
front of the node `ptr` stops at, and the list from that node on (empty when
`ptr` ends null). -/
def purge_walk : List Nat → Int → List Nat × List Nat
  | [], _ => ([], [])
  | f :: rest, count =>
    if count - 1 > 0 then ((f :: (purge_walk rest (count - 1)).1), (purge_walk rest (count - 1)).2)
    else ([], f :: rest)

/-- The loop `while (ptr && ptr->next) { ptr2 = ptr->next; ptr->next =
ptr->next->next; free(ptr2); }`: what is left of the list from `ptr` on, and
the frames freed, in the order of the calls of `free`. -/
def purge_after : List Nat → List Nat × List Nat
  | [] => ([], [])
  | ptr :: after => ([ptr], after)

/-- The function `purge_free_frames()`. -/
def purge_free_frames (e : env) (m : machine) : machine :=
  let w := purge_walk m.free_frames_list e.tp_free_frames_pool
  { m with free_frames_list := w.1 ++ (purge_after w.2).1 }

/-- The frames that `purge_free_frames()` passes to `free`. -/
def purge_free_frames_freed (e : env) (m : machine) : List Nat :=
  (purge_after (purge_walk m.free_frames_list e.tp_free_frames_pool).2).2

/-- The loop `while (free_frames_list) { ptr = free_frames_list;
free_frames_list = ptr->next; free(ptr); }`: the list that is left. -/
def purge_all_loop : List Nat → List Nat
  | [] => []
  | _ :: next => purge_all_loop next

/-- The function `purge_all_free_frames()`. -/
def purge_all_free_frames (m : machine) : machine :=
  { m with free_frames_list := purge_all_loop m.free_frames_list }

/-! ## Permissions -/

/-- The permission modes of a frame, `fr->perms`. -/
def STD_REGUID : Int := 0
def STD_SETUID : Int := 1
def STD_HARDUID : Int := 2

/-- The recursion of `find_mlev(prog, fr, st)` for `st = k + 1`: a call with
`st > 1` that recurses reads `fr->caller.st[st - 1]` and goes on with `st - 1`;
a call with `st <= 1` (here `k = 0`) does not recurse. -/
def find_mlev_walk (e : env) (fr : frame) : Nat → Int → Int
  | 0, prog =>
    if e.MLevel prog < e.MLevel (e.OWNER prog) then e.MLevel prog else e.MLevel (e.OWNER prog)
  | k + 1, prog =>
    if (e.FLAGS prog .STICKY && e.FLAGS prog .HAVEN) && e.TrueWizard (e.OWNER prog) then
      find_mlev_walk e fr k (fr.caller_st ((k : Int) + 1))
    else if e.MLevel prog < e.MLevel (e.OWNER prog) then e.MLevel prog
    else e.MLevel (e.OWNER prog)

/-- The function `find_mlev(prog, fr, st)`. -/
def find_mlev (e : env) (prog : Int) (fr : frame) (st : Int) : Int :=
  find_mlev_walk e fr (st - 1).toNat prog

/-- The recursion of `find_uid(player, fr, st, program)` for `st = k + 1`. -/
def find_uid_walk (e : env) (player : Int) (fr : frame) : Nat → Int → Int
  | k, program =>
    if e.FLAGS program .STICKY || decide (fr.perms = STD_SETUID) then
      if e.FLAGS program .HAVEN then
        match k with
        | 0 => e.OWNER program
        | j + 1 =>
          if e.TrueWizard (e.OWNER program) then
            find_uid_walk e player fr j (fr.caller_st ((j : Int) + 1))
          else e.OWNER program
      else e.OWNER program
    else if e.ProgMLevel fr program < 2 then e.OWNER program
    else if e.FLAGS program .HAVEN || decide (fr.perms = STD_HARDUID) then
      if fr.trig = NOTHING then e.OWNER program else e.OWNER fr.trig
    else e.OWNER player

/-- The function `find_uid(player, fr, st, program)`. -/
def find_uid (e : env) (player : Int) (fr : frame) (st : Int) (program : Int) : Int :=
  find_uid_walk e player fr (st - 1).toNat program

/-- The sample environment with a keep-count of `n` free frames. -/
def keep_env (n : Int) : env :=
  { sample_env (code_primitive 0) with tp_free_frames_pool := n }

/-- An environment in which program 2 is STICKY and HAVEN, has level 3 and is
owned by the wizard 1 of level 4, and program 5 has level 1 and is owned by
object 3, of level 2, who is no wizard. -/
def sticky_env : env :=
  { sample_env (code_primitive 0) with
      FLAGS := fun x f => if x = 2 then decide (f = .STICKY) || decide (f = .HAVEN) else false,
      OWNER := fun x => if x = 5 then 3 else 1,
      TrueWizard := fun x => decide (x = 1),
      MLevel := fun x => if x = 1 then 4 else if x = 2 then 3 else if x = 3 then 2 else 1 }

/-- A frame of program 2 that was called from program 5: the caller chain is
`[5, 2]`. -/
def sticky_frame : frame :=
  { sample_frame with
      caller_top := 2, caller_st := fun i => if i = 1 then 5 else if i = 2 then 2 else 0 }

/-- The sample environment in which object 7, a puppet, is owned by player 1. -/
def puppet_env : env :=
  { sample_env (code_primitive 0) with
      Typeof := fun d => if d = 1 then .TYPE_PLAYER else if d = 7 then .TYPE_THING
        else .TYPE_PROGRAM }

/-- The sample environment in which program 2 has permission level 0. -/
def denied_env : env :=
  { sample_env (code_primitive 0) with MLevel := fun x => if x = 2 then 0 else 3 }

/-- A record of program-local variables of `prog` whose slots all hold the
integer `n`. -/
def sample_localvars (prog n : Int) : localvars :=
  { prog := prog, lvars := fun _ => { line := 0, data := .PROG_INTEGER n } }

/-- A scoped level of `count` slots, slot `i` holding the integer `i`. -/
def sample_scopedvar (count : Int) : scopedvar_t :=
  { count := count, varnames := none, vars := fun i => { line := 0, data := .PROG_INTEGER i } }
/-- A procedure `f` with 3 variables, 2 of them arguments. -/
def sample_proc : muf_proc_data :=
  { procname := "f", vars := 3, args := 2, varnames := none }

/-- The frame of the FUNCTION example: operand stack `[7, 8]` of height 2, no
scoped level. -/
def function_frame : frame :=
  { sample_frame with
      argument_top := 2,
      argument_st := fun i =>
        if i = 0 then { line := 0, data := .PROG_INTEGER 7 }
        else if i = 1 then { line := 0, data := .PROG_INTEGER 8 }
        else { line := 0, data := .PROG_INTEGER 0 } }

/-- A code memory with the instruction `JMP 20` at address 10 and the header of
a procedure with one variable and no argument everywhere else. -/
def code_jmp_function : Nat → inst := fun pc =>
  if pc = 10 then { line := 1, data := .PROG_JMP 20 }
  else { line := 2, data := .PROG_FUNCTION (some
    { procname := "g", vars := 1, args := 0, varnames := none }) }

/-- A code memory with the primitive `JMP` at address 10 and the header of a
procedure with one variable and no argument everywhere else. -/
def code_in_jmp_function : Nat → inst := fun pc =>
  if pc = 10 then { line := 1, data := .PROG_PRIMITIVE IN_JMP }
  else { line := 2, data := .PROG_FUNCTION (some
    { procname := "g", vars := 1, args := 0, varnames := none }) }

/-- The sample heap in which address cell 0 points at code address 20 of
program 2 and is referred to once. -/
def jmp_heap : heap :=
  { sample_heap with addrs := fun _ => { links := 1, progref := 2, data := 20 } }

/-- The frame of the JMP example: the address cell 0 on an operand stack of
height 1, and one scoped level with one slot. -/
def jmp_frame : frame :=
  { sample_frame with
      argument_top := 1,
      argument_st := fun _ => { line := 0, data := .PROG_ADD 0 },
      svars := [sample_scopedvar 1] }

/-! ## Calls on the node pools -/

/-- The function `copy_fors(forstack)`: for every node of the stack a node is
taken from the head of the pool, or allocated when the pool is empty, and given
copies of `cur` and `end`.  The result is the heap, the copy of the stack, the
pool and the boundary pointer. -/
def copy_fors : List forvars → heap → List forvars → Nat →
    heap × List forvars × List forvars × Nat
  | [], h, for_pool, last_for => (h, [], for_pool, last_for)
  | f :: rest, h, for_pool, last_for =>
    let pool1 := for_pool.tail
    let last1 :=
      match for_pool with
      | [] => last_for
      | _ :: _ =>
        if pool_node for_pool.length last_for = pool_node for_pool.length 1 then 0
        else last_for - 1
    let c1 := copyinst h f.cur
    let c2 := copyinst c1.1 f.end_
    let r := copy_fors rest c2.1 pool1 last1
    (r.1, { didfirst := f.didfirst, cur := c1.2, end_ := c2.2, step := f.step } :: r.2.1,
      r.2.2.1, r.2.2.2)

/-- The function `copy_trys(trystack)`: the copy of the stack, the pool and the
boundary pointer. -/
def copy_trys : List tryvars → List tryvars → Nat → List tryvars × List tryvars × Nat
  | [], try_pool, last_try => ([], try_pool, last_try)
  | t :: rest, try_pool, last_try =>
    let pool1 := try_pool.tail
    let last1 :=
      match try_pool with
      | [] => last_try
      | _ :: _ =>
        if pool_node try_pool.length last_try = pool_node try_pool.length 1 then 0
        else last_try - 1
    let r := copy_trys rest pool1 last1
    ({ depth := t.depth, call_level := t.call_level, for_count := t.for_count, addr := t.addr }
        :: r.1, r.2.1, r.2.2)

/-- A call of one of the functions that work on the node pools.  The stack
functions are called on the stack of a frame `fp` and their result is stored
back in that frame, as the callers do; the copies of `copy_fors` and
`copy_trys` go to a frame `gp`. -/
inductive pool_call where
  | push_for (fp : Nat)
  | pop_for (fp : Nat)
  | copy_fors (fp gp : Nat)
  | push_try (fp : Nat)
  | pop_try (fp : Nat)
  | copy_trys (fp gp : Nat)
  | prog_clean (fp : Nat)
  | purge_for_pool
  | purge_try_pool
deriving DecidableEq, Repr

/-- The machine after one call on the pools. -/
def run_pool_call (e : env) (m : machine) : pool_call → machine
  | .push_for fp =>
    let r := push_for (m.frames fp).fors_st m.for_pool m.last_for
    { m with frames := setN m.frames fp { (m.frames fp) with fors_st := r.1 },
             for_pool := r.2.1, last_for := r.2.2 }
  | .pop_for fp =>
    let r := pop_for (m.frames fp).fors_st m.for_pool m.last_for
    { m with frames := setN m.frames fp { (m.frames fp) with fors_st := r.1 },
             for_pool := r.2.1, last_for := r.2.2 }
  | .copy_fors fp gp =>
    let r := copy_fors (m.frames fp).fors_st m.mem m.for_pool m.last_for
    { m with mem := r.1, frames := setN m.frames gp { (m.frames gp) with fors_st := r.2.1 },
             for_pool := r.2.2.1, last_for := r.2.2.2 }
  | .push_try fp =>
    let r := push_try (m.frames fp).trys_st m.try_pool m.last_try
    { m with frames := setN m.frames fp { (m.frames fp) with trys_st := r.1 },
             try_pool := r.2.1, last_try := r.2.2 }
  | .pop_try fp =>
    let r := pop_try (m.frames fp).trys_st m.try_pool m.last_try
    { m with frames := setN m.frames fp { (m.frames fp) with trys_st := r.1 },
             try_pool := r.2.1, last_try := r.2.2 }
  | .copy_trys fp gp =>
    let r := copy_trys (m.frames fp).trys_st m.try_pool m.last_try
    { m with frames := setN m.frames gp { (m.frames gp) with trys_st := r.1 },
             try_pool := r.2.1, last_try := r.2.2 }
  | .prog_clean fp => prog_clean e m fp
  | .purge_for_pool => purge_for_pool m
  | .purge_try_pool => purge_try_pool m

/-- The machine after a sequence of calls on the pools. -/
def pool_calls (e : env) : List pool_call → machine → machine
  | [], m => m
  | c :: rest, m => pool_calls e rest (run_pool_call e m c)

/-- The for-nodes that have been returned to the pool since its most recent
purge and not taken out again, the one returned last first, after one more
call in state `m`: `pop_for` returns the head of the stack, `prog_clean` the
whole stack of a frame that is not yet free, with `cur` and `end` cleared;
`push_for` takes one node out and `copy_fors` one for every node it copies;
`purge_for_pool` starts afresh. -/
def for_returned (m : machine) (recent : List forvars) : pool_call → List forvars
  | .push_for _ => recent.tail
  | .pop_for fp => (m.frames fp).fors_st.head?.toList ++ recent
  | .copy_fors fp _ => recent.drop (m.frames fp).fors_st.length
  | .prog_clean fp =>
    if fp ∈ m.free_frames_list then recent
    else (clear_fors (m.frames fp).fors_st m.mem).2 ++ recent
  | .purge_for_pool => []
  | _ => recent

/-- The try-nodes that have been returned to the pool since its most recent
purge and not taken out again, the one returned last first, after one more
call in state `m`. -/
def try_returned (m : machine) (recent : List tryvars) : pool_call → List tryvars
  | .push_try _ => recent.tail
  | .pop_try fp => (m.frames fp).trys_st.head?.toList ++ recent
  | .copy_trys fp _ => recent.drop (m.frames fp).trys_st.length
  | .prog_clean fp =>
    if fp ∈ m.free_frames_list then recent else (m.frames fp).trys_st ++ recent
  | .purge_try_pool => []
  | _ => recent

/-- The for-nodes returned since the most recent purge and still in the pool
after a sequence of calls that starts in state `m` with the nodes `recent`. -/
def for_returned_after (e : env) : List pool_call → machine → List forvars → List forvars
  | [], _, recent => recent
  | c :: rest, m, recent => for_returned_after e rest (run_pool_call e m c) (for_returned m recent c)

/-- The try-nodes returned since the most recent purge and still in the pool
after a sequence of calls that starts in state `m` with the nodes `recent`. -/
def try_returned_after (e : env) : List pool_call → machine → List tryvars → List tryvars
  | [], _, recent => recent
  | c :: rest, m, recent => try_returned_after e rest (run_pool_call e m c) (try_returned m recent c)

/-- A call that returns no node to a pool. -/
def takes_node (c : pool_call) : Bool :=
  match c with
  | .push_for _ | .copy_fors _ _ | .push_try _ | .copy_trys _ _ => true
  | _ => false

/-- A for-node that carries the number `n` in its field `step`. -/
def for_node (n : Int) : forvars :=
  { didfirst := 0, cur := { line := 0, data := .PROG_INTEGER 0 },
    end_ := { line := 0, data := .PROG_INTEGER 0 }, step := n }

/-- A try-node that carries the number `n` in its field `depth`. -/
def try_node (n : Int) : tryvars :=
  { depth := n, call_level := 0, for_count := 0, addr := 0 }

/-- The sample machine whose for pool holds the node 1 and whose try pool holds
the node 1, both returned since the last purge (the boundary pointers stand
behind them), and whose frame 0 has the for stack `[2]` and the try stack
`[2]`. -/
def pool_machine : machine :=
  { sample_machine sample_heap
      { sample_frame with fors_top := 1, fors_st := [for_node 2],
                          trys_top := 1, trys_st := [try_node 2] } with
      for_pool := [for_node 1], last_for := 1, try_pool := [try_node 1], last_try := 1 }

/-- Slot `k` of the program-local variables of program `prog` in a list of
records: the slot of the first record of `prog`, and the integer 0, the value a
new record starts with, while `prog` has no record. -/
def local_slot (lvars : List localvars) (prog k : Int) : inst :=
  match lvars.find? fun x => decide (x.prog = prog) with
  | some r => r.lvars k
  | none => { line := 0, data := .PROG_INTEGER 0 }

/-- A code memory with `LVAR_BANG 3` at address 10 and `LVAR_AT 3` everywhere
else. -/
def code_lvar : Nat → inst := fun pc =>
  if pc = 10 then { line := 1, data := .PROG_LVAR_BANG 3 }
  else { line := 2, data := .PROG_LVAR_AT 3 }
/-! ## Errors raised by primitives -/

/-- The function `do_abort_interp`: the error of a library primitive.  The
operands `oper1` to `oper4` point into the operand stack and are given by their
index; the first `nargs` of them are cleared, the last one first. -/
def do_abort_interp (e : env) (m : machine) (player : Int) (msg : String) (pc : Nat)
    (fp : Nat) (opers : List Int) (nargs : Nat) (program : Int) (file : String) (line : Int) :
    machine :=
  let fr := m.frames fp
  let m1 : machine :=
    if fr.trys_top ≠ 0 then
      let fr1 : frame :=
        { fr with
            errorstr := some msg,
            errorinst := if pc ≠ 0 then some (e.insttotext fr pc program) else none,
            errorline := if pc ≠ 0 then (e.code pc).line else -1,
            errorprog := program }
      { m with frames := setN m.frames fp fr1, err := m.err + 1 }
    else
      let m0 : machine := { m with frames := setN m.frames fp { fr with pc := pc } }
      let m2 := interp_err m0 player program pc ((m0.frames fp).caller_st 1)
        (e.insttotext (m0.frames fp) pc program) msg
      if e.controls player program then
        { m2 with out := m2.out ++ [.muf_backtrace player program] }
      else m2
  ((opers.take nargs).reverse).foldl
    (fun (acc : machine) (k : Int) =>
      let r := RCLEAR acc.mem ((acc.frames fp).argument_st k) file line
      { acc with mem := r.1,
                 frames := setN acc.frames fp
                   { (acc.frames fp) with argument_st := setI (acc.frames fp).argument_st k r.2 } })
    m1

/-- The number under which the sample environments serve the primitive POP. -/
def sample_POP : Int := 10

/-- Modelled from the spec: the library primitive POP is an entry of the table
`prim_func` that is not part of the source.  It removes the top operand and
clears it; with an empty stack it raises a stack underflow, and when a
try-frame exists and the pop would reduce the operand height below its depth it
raises "Stack protection fault" instead, through `do_abort_interp` and without
clearing anything.  The result is the machine and the operand height. -/
def prim_pop (e : env) (m : machine) (l : locals) : machine × Int :=
  if l.atop < 1 then
    (do_abort_interp e m l.player "Stack underflow." l.pc l.fr [] 0 l.program "p_stack.c" 1,
      l.atop)
  else if try_protect (m.frames l.fr) l.atop 1 then
    (do_abort_interp e m l.player "Stack protection fault" l.pc l.fr [] 0 l.program
      "p_stack.c" 1, l.atop)
  else (CLEAR_arg m l.fr (l.atop - 1) 1, l.atop - 1)

/-- The sample environment over the code memory `code` in which the primitive
`sample_POP` is POP. -/
def pop_env (code : Nat → inst) : env :=
  { sample_env code with
      prim_func := fun number m l => if number = sample_POP then prim_pop (sample_env code) m l
        else (m, l.atop) }

/-- The instructions `INT 1, TRY 15, INT 2, POP, POP` at the addresses 10 to 14
and `CATCH` at the handler address 15 and everywhere else. -/
def code_protection : Nat → inst := fun pc =>
  if pc = 10 then { line := 1, data := .PROG_INTEGER 1 }
  else if pc = 11 then { line := 2, data := .PROG_TRY 15 }
  else if pc = 12 then { line := 3, data := .PROG_INTEGER 2 }
  else if pc = 13 then { line := 4, data := .PROG_PRIMITIVE sample_POP }
  else if pc = 14 then { line := 5, data := .PROG_PRIMITIVE sample_POP }
  else { line := 6, data := .PROG_PRIMITIVE IN_CATCH }

/-- The instructions `INT 1, INT 0, TRY 16, INT 2, POP, POP` at the addresses 10
to 15 and `CATCH` at the handler address 16 and everywhere else. -/
def code_protection_count : Nat → inst := fun pc =>
  if pc = 10 then { line := 1, data := .PROG_INTEGER 1 }
  else if pc = 11 then { line := 2, data := .PROG_INTEGER 0 }
  else if pc = 12 then { line := 3, data := .PROG_TRY 16 }
  else if pc = 13 then { line := 4, data := .PROG_INTEGER 2 }
  else if pc = 14 then { line := 5, data := .PROG_PRIMITIVE sample_POP }
  else if pc = 15 then { line := 6, data := .PROG_PRIMITIVE sample_POP }
  else { line := 7, data := .PROG_PRIMITIVE IN_CATCH }

/-- The frame of the public-call example: operand stack `[#5, "f"]` of height 2
under a try-frame of depth 0 with its handler at code address 20. -/
def call_public_frame : frame :=
  { sample_frame with
      argument_top := 2,
      argument_st := fun i =>
        if i = 1 then { line := 0, data := .PROG_STRING (some 0) }
        else { line := 0, data := .PROG_OBJECT 5 },
      trys_top := 1,
      trys_st := [{ depth := 0, call_level := 1, for_count := 0, addr := 20 }] }

/-! ## Stack bounds -/

/-- The instructions the dispatcher handles itself: every instruction but the
primitives of the library. -/
def engine_handled (d : tagged) : Bool :=
  match d with
  | .PROG_PRIMITIVE n =>
    decide (n = IN_JMP) || decide (n = IN_READ) || decide (n = IN_SLEEP) || decide (n = IN_CALL)
      || decide (n = IN_EXECUTE) || decide (n = IN_RET) || decide (n = IN_EVENT_WAITFOR)
      || decide (n = IN_CATCH) || decide (n = IN_CATCH_DETAILED)
  | _ => true

/-- The state after `n` passes through the dispatcher loop that each meet an
instruction the dispatcher handles itself, while the loop `while (stop)` goes
on; `none` once a pass ends the loop or meets a primitive of the library. -/
def engine_passes (e : env) : Nat → machine → locals → Option (machine × locals)
  | 0, m, l => some (m, l)
  | n + 1, m, l =>
    if l.stop ≠ 0 ∧ engine_handled (e.code l.pc).data = true then
      match loop_pass e m l with
      | .next m1 l1 => engine_passes e n m1 l1
      | _ => none
    else none

/-- The try stack is within bounds under the operand height `atop`: every depth
lies between 0 and `STACK_SIZE - 1`, the depth of the innermost try-frame is at
most `atop` and the depth of every other one at most the depth of the try-frame
pushed after it, and no call level is negative. -/
def try_bounds (e : env) : Int → List tryvars → Bool
  | _, [] => true
  | atop, t :: rest =>
    decide (0 ≤ t.depth) && decide (t.depth ≤ e.STACK_SIZE - 1) && decide (t.depth ≤ atop)
      && decide (0 ≤ t.call_level) && try_bounds e t.depth rest

/-- The stacks of the running frame are within bounds: the operand height and
the system height lie between 0 and `STACK_SIZE`, the count of try-frames is
the length of the try stack, and the try stack is within bounds. -/
def stack_bounds (e : env) (m : machine) (l : locals) : Prop :=
  0 ≤ l.atop ∧ l.atop ≤ e.STACK_SIZE ∧ 0 ≤ l.stop ∧ l.stop ≤ e.STACK_SIZE
  ∧ (m.frames l.fr).trys_top = ((m.frames l.fr).trys_st.length : Int)
  ∧ try_bounds e l.atop (m.frames l.fr).trys_st = true

instance (e : env) (m : machine) (l : locals) : Decidable (stack_bounds e m l) := by
  unfold stack_bounds
  infer_instance

/-- The slots of the operand stack and of the system stack that lie outside the
stacks, below index 0 or from index `STACK_SIZE` on, are the same in the two
frames. -/
def stack_writes_within (e : env) (f g : frame) : Prop :=
  ∀ k : Int, (k < 0 ∨ e.STACK_SIZE ≤ k) →
    g.argument_st k = f.argument_st k ∧ g.system_st k = f.system_st k

/-- What a step from the machine `m` with the running frame `fp` keeps: the
state it ends in is within the stack bounds, the running frame is the same, and
no slot outside the stacks was written. -/
def bounds_kept (e : env) (fp : Nat) (m m' : machine) (l' : locals) : Prop :=
  stack_bounds e m' l' ∧ l'.fr = fp ∧ stack_writes_within e (m.frames fp) (m'.frames fp)

/-- The instructions `INT 0, TRY 5, IF 9` at the addresses 1 to 3 and `CATCH`
at the handler address 5 and everywhere else. -/
def code_catch_push : Nat → inst := fun pc =>
  if pc = 1 then { line := 1, data := .PROG_INTEGER 0 }
  else if pc = 2 then { line := 2, data := .PROG_TRY 5 }
  else if pc = 3 then { line := 3, data := .PROG_IF 9 }
  else { line := 4, data := .PROG_PRIMITIVE IN_CATCH }

/-! ## Theorems on the value operations -/

/-- C1: `false_inst` holds of a value exactly when it is the integer 0, a float
that compares equal to 0.0, a null string or a string with empty text, a null
array or an array with zero items, a MARK, the object reference NOTHING, or the
lock constant TRUE_BOOLEXP; on every other tag and payload it is false. -/
theorem false_inst_iff (h : heap) (v : inst) :
    false_inst h v = true ↔
      (v.data = .PROG_INTEGER 0
        ∨ (∃ f, v.data = .PROG_FLOAT f ∧ f.eq_zero = true)
        ∨ v.data = .PROG_STRING none
        ∨ (∃ i, v.data = .PROG_STRING (some i) ∧ (h.strings i).data = "")
        ∨ v.data = .PROG_ARRAY none
        ∨ (∃ i, v.data = .PROG_ARRAY (some i) ∧ (h.arrays i).items = 0)
        ∨ v.data = .PROG_MARK
        ∨ v.data = .PROG_OBJECT NOTHING
        ∨ v.data = .PROG_LOCK none) := by
  obtain ⟨line, d⟩ := v
  cases d with
  | PROG_STRING s => cases s <;> simp [false_inst, inst.type]
  | PROG_ARRAY a => cases a <;> simp [false_inst, inst.type]
  | PROG_LOCK l => cases l <;> simp [false_inst, inst.type]
  | _ => simp [false_inst, inst.type]

/-- C2: copy/clear round trip.  For a value that is not CLEARED, copying it with
`copyinst` and clearing the copy with `RCLEAR` leaves every string link count,
array link count, address link count and program instance count as before the
copy; the text of the strings, the items of the arrays, the addresses and the
programs are untouched, so the value copied from still denotes what it denoted;
no double clear is reported, the copy ends CLEARED, and a shared string or
array whose count was not 0 before the copy is not freed. -/
theorem copyinst_RCLEAR_roundtrip (h : heap) (v : inst) (file : String) (line : Int)
    (hv : v.type ≠ .PROG_CLEARED) :
    (∀ i, ((RCLEAR (copyinst h v).1 (copyinst h v).2 file line).1.strings i).links
        = (h.strings i).links)
    ∧ (∀ i, ((RCLEAR (copyinst h v).1 (copyinst h v).2 file line).1.strings i).data
        = (h.strings i).data)
    ∧ (∀ i, ((RCLEAR (copyinst h v).1 (copyinst h v).2 file line).1.arrays i).links
        = (h.arrays i).links)
    ∧ (∀ i, ((RCLEAR (copyinst h v).1 (copyinst h v).2 file line).1.arrays i).items
        = (h.arrays i).items)
    ∧ (RCLEAR (copyinst h v).1 (copyinst h v).2 file line).1.addrs = h.addrs
    ∧ (RCLEAR (copyinst h v).1 (copyinst h v).2 file line).1.progs = h.progs
    ∧ (RCLEAR (copyinst h v).1 (copyinst h v).2 file line).1.status_log = h.status_log
    ∧ (RCLEAR (copyinst h v).1 (copyinst h v).2 file line).2
        = { line := line, data := .PROG_CLEARED file }
    ∧ (∀ i, (h.strings i).links ≠ 0 →
        (RCLEAR (copyinst h v).1 (copyinst h v).2 file line).1.strings i = h.strings i)
    ∧ (∀ i, (h.arrays i).links ≠ 0 →
        (RCLEAR (copyinst h v).1 (copyinst h v).2 file line).1.arrays i = h.arrays i) := by
  obtain ⟨ln, d⟩ := v
  cases d with
  | PROG_CLEARED f => exact absurd rfl hv
  | PROG_STRING s =>
    cases s with
    | none => simp [copyinst, RCLEAR]
    | some k =>
      refine ⟨fun i => ?_, fun i => ?_, fun i => ?_, fun i => ?_, ?_, ?_, ?_, ?_,
        fun i h0 => ?_, fun i h0 => ?_⟩
      · by_cases hi : i = k <;> simp [copyinst, RCLEAR, setN, hi]
      · by_cases hi : i = k <;> simp [copyinst, RCLEAR, setN, hi]
      · simp [copyinst, RCLEAR]
      · simp [copyinst, RCLEAR]
      · simp [copyinst, RCLEAR]
      · simp [copyinst, RCLEAR]
      · simp [copyinst, RCLEAR]
      · simp [copyinst, RCLEAR]
      · by_cases hi : i = k
        · subst hi
          have hb : ((h.strings i).links == 0) = false := by simpa using h0
          simp [copyinst, RCLEAR, setN, hb]
        · simp [copyinst, RCLEAR, setN, hi]
      · simp [copyinst, RCLEAR]
  | PROG_ARRAY a =>
    cases a with
    | none => simp [copyinst, RCLEAR, array_free]
    | some k =>
      refine ⟨fun i => ?_, fun i => ?_, fun i => ?_, fun i => ?_, ?_, ?_, ?_, ?_,
        fun i h0 => ?_, fun i h0 => ?_⟩
      · simp [copyinst, RCLEAR, array_free]
      · simp [copyinst, RCLEAR, array_free]
      · by_cases hi : i = k <;> simp [copyinst, RCLEAR, array_free, setN, hi]
      · by_cases hi : i = k <;> simp [copyinst, RCLEAR, array_free, setN, hi]
      · simp [copyinst, RCLEAR, array_free]
      · simp [copyinst, RCLEAR, array_free]
      · simp [copyinst, RCLEAR, array_free]
      · simp [copyinst, RCLEAR, array_free]
      · simp [copyinst, RCLEAR, array_free]
      · by_cases hi : i = k
        · subst hi
          have hb : ((h.arrays i).links == 0) = false := by simpa using h0
          simp [copyinst, RCLEAR, array_free, setN, hb]
        · simp [copyinst, RCLEAR, array_free, setN, hi]
  | PROG_ADD a =>
    refine ⟨fun i => ?_, fun i => ?_, fun i => ?_, fun i => ?_, ?_, ?_, ?_, ?_,
      fun i h0 => ?_, fun i h0 => ?_⟩
    · simp [copyinst, RCLEAR, PROGRAM_INC_INSTANCES, PROGRAM_DEC_INSTANCES]
    · simp [copyinst, RCLEAR, PROGRAM_INC_INSTANCES, PROGRAM_DEC_INSTANCES]
    · simp [copyinst, RCLEAR, PROGRAM_INC_INSTANCES, PROGRAM_DEC_INSTANCES]
    · simp [copyinst, RCLEAR, PROGRAM_INC_INSTANCES, PROGRAM_DEC_INSTANCES]
    · funext j
      by_cases hj : j = a <;>
        simp [copyinst, RCLEAR, PROGRAM_INC_INSTANCES, PROGRAM_DEC_INSTANCES, setN, hj]
    · funext j
      by_cases hj : j = (h.addrs a).progref <;>
        simp [copyinst, RCLEAR, PROGRAM_INC_INSTANCES, PROGRAM_DEC_INSTANCES, setN, setI, hj]
    · simp [copyinst, RCLEAR, PROGRAM_INC_INSTANCES, PROGRAM_DEC_INSTANCES]
    · simp [copyinst, RCLEAR, PROGRAM_INC_INSTANCES, PROGRAM_DEC_INSTANCES]
    · simp [copyinst, RCLEAR, PROGRAM_INC_INSTANCES, PROGRAM_DEC_INSTANCES]
    · simp [copyinst, RCLEAR, PROGRAM_INC_INSTANCES, PROGRAM_DEC_INSTANCES]
  | PROG_FUNCTION m => cases m <;> simp [copyinst, RCLEAR]
  | PROG_LOCK l => cases l <;> simp [copyinst, RCLEAR]
  | _ => simp [copyinst, RCLEAR]

/-- Witness of C2: the round trip on a string with one link. -/
theorem copyinst_RCLEAR_roundtrip_witness :
    (∀ i, ((RCLEAR (copyinst (sample_heap_string "abc") ⟨0, .PROG_STRING (some 0)⟩).1
        (copyinst (sample_heap_string "abc") ⟨0, .PROG_STRING (some 0)⟩).2 "interp.c" 1372).1.strings i).links
        = ((sample_heap_string "abc").strings i).links)
    ∧ ((sample_heap_string "abc").strings 0).links = 1 :=
  ⟨(copyinst_RCLEAR_roundtrip (sample_heap_string "abc") ⟨0, .PROG_STRING (some 0)⟩
      "interp.c" 1372 (by decide)).1, by decide⟩

/-- C4: `RCLEAR` on a slot that is not CLEARED leaves it CLEARED with the
clearing file and line recorded, whatever the tag was, and reports nothing;
`RCLEAR` on a slot that is already CLEARED is reported (one warning that names
the second and the first clear) and changes neither the slot, which keeps the
file and line of the first clear, nor any reference count. -/
theorem RCLEAR_cleared (h : heap) (oper : inst) (file : String) (line : Int) :
    (oper.type ≠ .PROG_CLEARED →
      (RCLEAR h oper file line).2 = { line := line, data := .PROG_CLEARED file }
      ∧ (RCLEAR h oper file line).1.status_log = h.status_log)
    ∧ (∀ prev, oper.data = .PROG_CLEARED prev →
      (RCLEAR h oper file line).2 = oper
      ∧ (RCLEAR h oper file line).1.strings = h.strings
      ∧ (RCLEAR h oper file line).1.arrays = h.arrays
      ∧ (RCLEAR h oper file line).1.addrs = h.addrs
      ∧ (RCLEAR h oper file line).1.progs = h.progs
      ∧ (RCLEAR h oper file line).1.status_log = h.status_log ++
          [{ file := file, line := line, prev_file := prev, prev_line := oper.line }]) := by
  obtain ⟨ln, d⟩ := oper
  constructor
  · intro hne
    cases d with
    | PROG_CLEARED f => exact absurd rfl hne
    | PROG_STRING s => cases s <;> simp [RCLEAR]
    | PROG_ARRAY a => cases a <;> simp [RCLEAR, array_free]
    | PROG_ADD a => simp [RCLEAR, PROGRAM_DEC_INSTANCES]
    | _ => simp [RCLEAR]
  · intro prev hp
    simp only at hp
    subst hp
    simp [RCLEAR]

/-- Witness of C4: a string slot cleared at line 1372 and cleared again at line
1546 keeps the record of the first clear, and the second clear is reported. -/
theorem RCLEAR_cleared_witness :
    (RCLEAR (sample_heap_string "abc") ⟨0, .PROG_STRING (some 0)⟩ "interp.c" 1372).2
        = { line := 1372, data := .PROG_CLEARED "interp.c" }
    ∧ (RCLEAR sample_heap ⟨1372, .PROG_CLEARED "interp.c"⟩ "interp.c" 1546).2
        = ⟨1372, .PROG_CLEARED "interp.c"⟩
    ∧ (RCLEAR sample_heap ⟨1372, .PROG_CLEARED "interp.c"⟩ "interp.c" 1546).1.status_log
        = [{ file := "interp.c", line := 1546, prev_file := "interp.c", prev_line := 1372 }] :=
  ⟨((RCLEAR_cleared (sample_heap_string "abc") ⟨0, .PROG_STRING (some 0)⟩ "interp.c" 1372).1
      (by decide)).1,
   ((RCLEAR_cleared sample_heap ⟨1372, .PROG_CLEARED "interp.c"⟩ "interp.c" 1546).2
      "interp.c" rfl).1,
   ((RCLEAR_cleared sample_heap ⟨1372, .PROG_CLEARED "interp.c"⟩ "interp.c" 1546).2
      "interp.c" rfl).2.2.2.2.2⟩

/-! ## Theorems on the dispatcher -/

/-- C3 (evaluation of the code at the failing input): `IN_CALL` on the operand
stack `[7, "f"]` under a try-frame of depth 1 pops the string, finds the second
pop protected and aborts with both clear arguments null: the pass ends at the
handler with operand height 1, the popped string is in no slot below the height
and has not been cleared (slot 1 still carries it, its count is still 1). -/
theorem call_protection_fault_leaks :
    ∃ m l, execute (sample_env (code_primitive IN_CALL))
        (sample_machine (sample_heap_string "f") call_leak_frame) (sample_locals 10 2 1)
        = .next m l
      ∧ l.atop = 1 ∧ l.pc = 20
      ∧ (m.frames 0).argument_top = 1
      ∧ (m.frames 0).errorstr = some "Stack protection fault."
      ∧ ((m.frames 0).argument_st 0).data = .PROG_INTEGER 7
      ∧ ((m.frames 0).argument_st 1).data = .PROG_STRING (some 0)
      ∧ (m.mem.strings 0).links = 1
      ∧ m.mem.status_log = [] := by
  refine ⟨_, _, rfl, ?_⟩
  decide

/-- C10: a hard abort bypasses TRY.  When the error flag is DIE-NOW, as
`do_abort_silent` sets it, the error check at the end of the pass does not go
to any handler, whatever the try stack of the frame is: the frame is handed to
`prog_clean`, it is on the free list afterwards, and `interp_loop` returns
null. -/
theorem die_now_bypasses_try (e : env) (m : machine) (l : locals) :
    error_unwind e (do_abort_silent m) l
        = .ret { prog_clean e (set_frame (do_abort_silent m) l.fr
                    (reload (m.frames l.fr) l.atop l.stop)) l.fr with
                  out := (prog_clean e (set_frame (do_abort_silent m) l.fr
                    (reload (m.frames l.fr) l.atop l.stop)) l.fr).out
                      ++ [.PLAYER_SET_BLOCK l.player false],
                  interp_depth := (prog_clean e (set_frame (do_abort_silent m) l.fr
                    (reload (m.frames l.fr) l.atop l.stop)) l.fr).interp_depth - 1 } .null
      ∧ l.fr ∈ (prog_clean e (set_frame (do_abort_silent m) l.fr
          (reload (m.frames l.fr) l.atop l.stop)) l.fr).free_frames_list := by
  constructor
  · simp [error_unwind, do_abort_silent, ERROR_DIE_NOW]
  · unfold prog_clean
    by_cases hfree : l.fr ∈ (set_frame (do_abort_silent m) l.fr
        (reload (m.frames l.fr) l.atop l.stop)).free_frames_list
    · rw [if_pos hfree]
      exact hfree
    · rw [if_neg hfree]
      exact List.mem_cons_self _ _

/-- Writing back the content of a cell changes nothing. -/
theorem setN_self {α : Type} (f : Nat → α) (i : Nat) : setN f i (f i) = f := by
  funext j
  by_cases hj : j = i <;> simp [setN, hj]

/-- The second of two writes to a cell wins. -/
theorem setN_setN {α : Type} (f : Nat → α) (i : Nat) (a b : α) :
    setN (setN f i a) i b = setN f i b := by
  funext j
  by_cases hj : j = i <;> simp [setN, hj]

/-- Reading the cell just written. -/
theorem setN_same {α : Type} (f : Nat → α) (i : Nat) (a : α) : setN f i a i = a := by
  simp [setN]

/-- The scoped stack after `scopedvar_poplevel` is the tail. -/
theorem scopedvar_poplevel_svars (h : heap) (svars : List scopedvar_t) :
    (scopedvar_poplevel h svars).2.1 = svars.tail := by
  cases svars <;> rfl

/-- The unwind loop, when every entry it pops that returns into a different
program names a valid program: after `n` passes the system height is `n` less,
the scoped stack has lost `n` levels, the caller chain one entry for each
program left, and nothing else of the machine has changed. -/
theorem unwind_loop_spec (e : env) :
    ∀ (n : Nat) (m : machine) (l : locals),
      (m.frames l.fr).try_call_level + n = l.stop →
      unwind_valid e (m.frames l.fr).system_st n l.stop l.program = true →
      ∃ mlev,
        unwind_loop e n m l
          = .next
              { m with
                  mem := unwind_mem (m.frames l.fr).system_st n l.stop l.program
                    (m.frames l.fr).svars m.mem,
                  frames := setN m.frames l.fr
                    { (m.frames l.fr) with
                        svars := (m.frames l.fr).svars.drop n,
                        caller_top := (m.frames l.fr).caller_top
                          - (unwind_exits (m.frames l.fr).system_st n l.stop l.program).length } }
              { l with
                  stop := l.stop - n,
                  program := unwind_program (m.frames l.fr).system_st n l.stop l.program,
                  mlev := mlev } := by
  intro n
  induction n with
  | zero =>
    intro m l _ _
    refine ⟨l.mlev, ?_⟩
    simp [unwind_loop, unwind_mem, unwind_exits, unwind_program, setN_self]
  | succ n ih =>
    intro m l hlvl hvalid
    have hlt : (m.frames l.fr).try_call_level < l.stop := by omega
    by_cases hsw : returns_elsewhere (m.frames l.fr).system_st l.stop l.program
    · have hsw' := hsw
      obtain ⟨h1, h2⟩ := hsw'
      simp only [unwind_valid, hsw, if_true, Bool.and_eq_true, Bool.not_eq_true'] at hvalid
      obtain ⟨hv1, hv2⟩ := hvalid
      have key := ih
        { m with
            mem := (scopedvar_poplevel (PROGRAM_DEC_INSTANCES m.mem l.program)
              (m.frames l.fr).svars).1,
            frames := setN m.frames l.fr
              { (m.frames l.fr) with
                  caller_top := (m.frames l.fr).caller_top - 1,
                  svars := (m.frames l.fr).svars.tail } }
        { l with
            program := ((m.frames l.fr).system_st (l.stop - 1)).progref,
            mlev := e.ProgMLevel (m.frames l.fr) ((m.frames l.fr).system_st (l.stop - 1)).progref,
            stop := l.stop - 1 }
        (by simp only [setN_same]; show (m.frames l.fr).try_call_level + n = l.stop - 1; omega)
        (by simp only [setN_same]; exact hv2)
      obtain ⟨mlev, hk⟩ := key
      refine ⟨mlev, ?_⟩
      simp only [unwind_loop, hlt, if_true, h1, h2, hv1, set_frame, setN_same, setN_setN,
        scopedvar_poplevel_svars, ne_eq, not_false_eq_true, and_self, and_false, if_false,
        true_and, Bool.false_eq_true] at hk ⊢
      rw [hk]
      have e1 : List.drop n (m.frames l.fr).svars.tail = List.drop (n + 1) (m.frames l.fr).svars := by
        cases (m.frames l.fr).svars <;> simp
      have e2 : ∀ k : Nat, (m.frames l.fr).caller_top - 1 - (k : Int)
          = (m.frames l.fr).caller_top - ((k + 1 : Nat) : Int) := by
        intro k; push_cast; omega
      have e3 : l.stop - 1 - (n : Int) = l.stop - ((n + 1 : Nat) : Int) := by
        push_cast; omega
      simp only [unwind_mem, unwind_exits, unwind_program, hsw, if_true, List.length_cons,
        e1, e2, e3]
    · have hsw' : ¬ (l.stop > 1 ∧ l.program ≠ ((m.frames l.fr).system_st (l.stop - 1)).progref) :=
        hsw
      simp only [unwind_valid, hsw, if_false] at hvalid
      have key := ih
        { m with
            mem := (scopedvar_poplevel m.mem (m.frames l.fr).svars).1,
            frames := setN m.frames l.fr
              { (m.frames l.fr) with svars := (m.frames l.fr).svars.tail } }
        { l with stop := l.stop - 1 }
        (by simp only [setN_same]; show (m.frames l.fr).try_call_level + n = l.stop - 1; omega)
        (by simp only [setN_same]; exact hvalid)
      obtain ⟨mlev, hk⟩ := key
      refine ⟨mlev, ?_⟩
      have hfalse : ¬ (l.stop > 1 ∧ l.program ≠ ((m.frames l.fr).system_st (l.stop - 1)).progref
          ∧ invalid_program e ((m.frames l.fr).system_st (l.stop - 1)).progref = true) :=
        fun h => hsw' ⟨h.1, h.2.1⟩
      simp only [unwind_loop, hlt, if_true, hfalse, hsw', if_false, setN_same, setN_setN,
        scopedvar_poplevel_svars] at hk ⊢
      rw [hk]
      have e1 : List.drop n (m.frames l.fr).svars.tail = List.drop (n + 1) (m.frames l.fr).svars := by
        cases (m.frames l.fr).svars <;> simp
      have e3 : l.stop - 1 - (n : Int) = l.stop - ((n + 1 : Nat) : Int) := by
        push_cast; omega
      simp only [unwind_mem, unwind_exits, unwind_program, hsw, if_false, e1, e3]

/-- C9 (as amended): the error unwind.  With a soft error pending (the error flag
is neither 0 nor DIE-NOW), a try-frame whose recorded call level is at most the
system height, and every popped entry that returns into a different program
naming a valid program, the pass goes on with the system height equal to the
recorded call level, `pc` at the handler of the try-frame and the error flag 0.
One scoped level has been popped per entry; for each entry above the bottom
one that returns into a different program the program left has lost one
instance and the caller chain one entry.  The frame differs from the one before
in its scoped stack and caller-chain top only, so the try-frame and the operand
stack are untouched. -/
theorem soft_error_unwind (e : env) (m : machine) (l : locals)
    (herr : m.err ≠ 0) (hdie : m.err ≠ ERROR_DIE_NOW)
    (htry : (m.frames l.fr).trys_top ≠ 0)
    (hlvl : (m.frames l.fr).try_call_level ≤ l.stop)
    (hvalid : unwind_valid e (m.frames l.fr).system_st
      (l.stop - (m.frames l.fr).try_call_level).toNat l.stop l.program = true) :
    ∃ mlev,
      error_unwind e m l
        = .next
            { m with
                mem := unwind_mem (m.frames l.fr).system_st
                  (l.stop - (m.frames l.fr).try_call_level).toNat l.stop l.program
                  (m.frames l.fr).svars m.mem,
                frames := setN m.frames l.fr
                  { (m.frames l.fr) with
                      svars := (m.frames l.fr).svars.drop
                        (l.stop - (m.frames l.fr).try_call_level).toNat,
                      caller_top := (m.frames l.fr).caller_top
                        - (unwind_exits (m.frames l.fr).system_st
                            (l.stop - (m.frames l.fr).try_call_level).toNat
                            l.stop l.program).length },
                err := 0 }
            { l with
                stop := (m.frames l.fr).try_call_level,
                program := unwind_program (m.frames l.fr).system_st
                  (l.stop - (m.frames l.fr).try_call_level).toNat l.stop l.program,
                mlev := mlev,
                pc := (m.frames l.fr).try_addr } := by
  have hn : (m.frames l.fr).try_call_level
      + ((l.stop - (m.frames l.fr).try_call_level).toNat : Int) = l.stop := by
    rw [Int.toNat_of_nonneg (by omega)]; omega
  obtain ⟨mlev, hk⟩ := unwind_loop_spec e _ m l hn hvalid
  refine ⟨mlev, ?_⟩
  have hstop : l.stop - ((l.stop - (m.frames l.fr).try_call_level).toNat : Int)
      = (m.frames l.fr).try_call_level := by omega
  simp only [error_unwind, herr, hdie, htry, ne_eq, not_false_eq_true, and_self, if_true, hk,
    setN_same, frame.try_addr, hstop]

/-- Witness of C9: the unwind from system height 2 to a try-frame recorded at
height 1, the popped entry returning into the running program. -/
theorem soft_error_unwind_witness :
    ∃ m' l', error_unwind (sample_env (code_primitive IN_RET)) (unwind_machine 2)
        (sample_locals 30 0 2) = .next m' l'
      ∧ l'.stop = 1 ∧ l'.pc = 20 ∧ m'.err = 0 ∧ (m'.frames 0).svars.length = 0 := by
  obtain ⟨mlev, h⟩ := soft_error_unwind (sample_env (code_primitive IN_RET)) (unwind_machine 2)
    (sample_locals 30 0 2) (by decide) (by decide) (by decide) (by decide) (by decide)
  exact ⟨_, _, h, rfl, rfl, rfl, rfl⟩

/-- C9 (counterexample to the statement without the validity proviso): a soft
error is pending and the try-frame is recorded at system height 1, below the
system height 2, but the entry to pop was saved by program 500, which is not a
valid object; the dispatcher does not reach the handler, it returns null. -/
theorem soft_error_unwind_invalid_entry :
    (unwind_machine 500).err ≠ 0 ∧ (unwind_machine 500).err ≠ ERROR_DIE_NOW
      ∧ ((unwind_machine 500).frames 0).trys_top ≠ 0
      ∧ ((unwind_machine 500).frames 0).try_call_level ≤ (sample_locals 30 0 2).stop
      ∧ ∃ m', error_unwind (sample_env (code_primitive IN_RET)) (unwind_machine 500)
          (sample_locals 30 0 2) = .ret m' .null := by
  refine ⟨by decide, by decide, by decide, by decide, _, rfl⟩

/-- The abort helper with a try-frame in place: the error is recorded on the
frame and the error flag raised; the try stack, the variable stores and the
caller chain are left alone, and the frame is given the operand and system
heights and the `pc` passed in. -/
theorem do_abort_loop_caught (e : env) (m : machine) (player program : Int) (msg : String)
    (fp : Nat) (pc : Nat) (atop stop : Int) (c1 c2 : Option Int)
    (h : (m.frames fp).trys_top ≠ 0) :
    (do_abort_loop e m player program msg fp pc atop stop c1 c2).err = m.err + 1
    ∧ ((do_abort_loop e m player program msg fp pc atop stop c1 c2).frames fp).errorstr = some msg
    ∧ ((do_abort_loop e m player program msg fp pc atop stop c1 c2).frames fp).trys_st
        = (m.frames fp).trys_st
    ∧ ((do_abort_loop e m player program msg fp pc atop stop c1 c2).frames fp).trys_top
        = (m.frames fp).trys_top
    ∧ ((do_abort_loop e m player program msg fp pc atop stop c1 c2).frames fp).argument_top = atop
    ∧ ((do_abort_loop e m player program msg fp pc atop stop c1 c2).frames fp).system_top = stop
    ∧ ((do_abort_loop e m player program msg fp pc atop stop c1 c2).frames fp).pc = pc
    ∧ (do_abort_loop e m player program msg fp pc atop stop c1 c2).try_pool = m.try_pool
    ∧ (do_abort_loop e m player program msg fp pc atop stop c1 c2).free_frames_list
        = m.free_frames_list := by
  cases c1 <;> cases c2 <;>
    simp [do_abort_loop, h, CLEAR_arg, setN, reload]

/-- The macro `abort_loop` with a try-frame in place: the pass goes on to the
error check with the registers it had, the error recorded and the try stack
unchanged. -/
theorem abort_loop_caught (e : env) (m : machine) (l : locals) (S : String)
    (C1 C2 : Option Int) (h : (m.frames l.fr).trys_top ≠ 0) :
    ∃ m', abort_loop e m l S C1 C2 = .next m' l
      ∧ m'.err = m.err + 1
      ∧ (m'.frames l.fr).errorstr = some S
      ∧ (m'.frames l.fr).trys_st = (m.frames l.fr).trys_st
      ∧ (m'.frames l.fr).trys_top = (m.frames l.fr).trys_top
      ∧ (m'.frames l.fr).argument_top = l.atop := by
  obtain ⟨h1, h2, h3, h4, h5, _⟩ :=
    do_abort_loop_caught e m l.player l.program S l.fr l.pc l.atop l.stop C1 C2 h
  refine ⟨_, ?_, h1, h2, h3, h4, h5⟩
  simp only [abort_loop]
  rw [if_pos (by rw [h4]; exact h)]

/-- The first loop of `watchpid_process` writes the lists of waiters and waitees
of frames and nothing else: a property of frames that does not depend on the
two lists is kept by every frame. -/
theorem watchpid_waitees_keeps (e : env) (fp : Nat) (P : frame → Prop)
    (h1 : ∀ f w, P f → P { f with waitees := w })
    (h2 : ∀ f w, P f → P { f with waiters := w }) :
    ∀ (pids : List Int) (m : machine) (g : Nat),
      P (m.frames g) → P ((watchpid_waitees e fp pids m).frames g) := by
  intro pids
  induction pids with
  | nil => intro m g hg; exact hg
  | cons cur next ih =>
    intro m g hg
    simp only [watchpid_waitees]
    have hstep : ∀ g', P (m.frames g') →
        P ((setN m.frames fp { (m.frames fp) with waitees := next }) g') := by
      intro g' hg'
      by_cases hgf : g' = fp
      · subst hgf; simp only [setN_same]; exact h1 _ _ hg'
      · simp only [setN, hgf, if_false]; exact hg'
    cases htq : e.timequeue_pid_frame cur with
    | none => exact ih _ g (hstep g hg)
    | some k =>
      refine ih _ g ?_
      by_cases hgk : g = k
      · subst hgk; simp only [setN_same]; exact h2 _ _ (hstep g hg)
      · simp only [setN, hgk, if_false]
        by_cases hgf : g = fp
        · subst hgf; simp only [if_true]; exact h1 _ _ hg
        · simp only [hgf, if_false]; exact hg

/-- The second loop of `watchpid_process` likewise. -/
theorem watchpid_waiters_keeps (e : env) (fp : Nat) (P : frame → Prop)
    (h1 : ∀ f w, P f → P { f with waitees := w })
    (h2 : ∀ f w, P f → P { f with waiters := w }) :
    ∀ (pids : List Int) (m : machine) (g : Nat),
      P (m.frames g) → P ((watchpid_waiters e fp pids m).frames g) := by
  intro pids
  induction pids with
  | nil => intro m g hg; exact hg
  | cons cur next ih =>
    intro m g hg
    simp only [watchpid_waiters]
    have hstep : ∀ g', P (m.frames g') →
        P ((setN m.frames fp { (m.frames fp) with waiters := next }) g') := by
      intro g' hg'
      by_cases hgf : g' = fp
      · subst hgf; simp only [setN_same]; exact h2 _ _ hg'
      · simp only [setN, hgf, if_false]; exact hg'
    cases htq : e.timequeue_pid_frame cur with
    | none => exact ih _ g (hstep g hg)
    | some k =>
      refine ih _ g ?_
      by_cases hgk : g = k
      · subst hgk; simp only [setN_same]; exact h1 _ _ (hstep g hg)
      · simp only [setN, hgk, if_false]
        by_cases hgf : g = fp
        · subst hgf; simp only [if_true]; exact h2 _ _ hg
        · simp only [hgf, if_false]; exact hg

/-- The function `watchpid_process` keeps every property of frames that does not
depend on the lists of waiters and waitees. -/
theorem watchpid_process_keeps (e : env) (fp : Nat) (P : frame → Prop)
    (h1 : ∀ f w, P f → P { f with waitees := w })
    (h2 : ∀ f w, P f → P { f with waiters := w }) (m : machine) (g : Nat)
    (hg : P (m.frames g)) : P ((watchpid_process e m fp).frames g) := by
  unfold watchpid_process
  exact watchpid_waiters_keeps e fp P h1 h2 _ _ g
    (watchpid_waitees_keeps e fp P h1 h2 _ m g hg)

/-- A frame without try-frames has none after `prog_clean`. -/
theorem prog_clean_trys_top (e : env) (m : machine) (fp : Nat)
    (h : (m.frames fp).trys_top = 0) : ((prog_clean e m fp).frames fp).trys_top = 0 := by
  have hw : ((watchpid_process e m fp).frames fp).trys_top = 0 :=
    watchpid_process_keeps e fp (fun f => f.trys_top = 0) (fun _ _ hf => hf) (fun _ _ hf => hf)
      m fp h
  unfold prog_clean
  by_cases hfree : fp ∈ m.free_frames_list
  · rw [if_pos hfree]; exact h
  · rw [if_neg hfree]
    simp only [setN_same]
    split <;> simp [hw]

/-- The macro `abort_loop` without a try-frame: the frame is cleaned and
`interp_loop` returns null. -/
theorem abort_loop_uncaught (e : env) (m : machine) (l : locals) (S : String)
    (C1 C2 : Option Int) (h : (m.frames l.fr).trys_top = 0) :
    ∃ m', abort_loop e m l S C1 C2 = .ret m' .null := by
  have hpre : ∀ (m0 : machine), (m0.frames l.fr).trys_top = 0 →
      ((prog_clean e m0 l.fr).frames l.fr).trys_top = 0 := fun m0 h0 =>
    prog_clean_trys_top e m0 l.fr h0
  have hz : ((do_abort_loop e m l.player l.program S l.fr l.pc l.atop l.stop C1 C2).frames
      l.fr).trys_top = 0 := by
    cases C1 <;> cases C2 <;>
      simp only [do_abort_loop, h, ne_eq, not_true_eq_false, if_false, CLEAR_arg, setN_same,
        reload, if_true] <;>
      split <;> (try split) <;> exact hpre _ (by simp [interp_err, setN, h])
  refine ⟨do_abort_loop e m l.player l.program S l.fr l.pc l.atop l.stop C1 C2, ?_⟩
  simp only [abort_loop, hz, ne_eq, not_true_eq_false, if_false]

/-- The try-frame pushed by `PROG_TRY`: when the operand popped is an integer `N`
that passes the three tests, the pass goes on at the next instruction with one
operand less, no error raised, and a new head node on the try stack that
records the operand height after the pop less `N`, the system height, no
for-frame and the handler `call`. -/
theorem exec_TRY_success (e : env) (m : machine) (l : locals) (call : Nat) (N : Int)
    (h1 : 1 ≤ l.atop) (h2 : try_protect (m.frames l.fr) l.atop 1 = false)
    (hN : ((m.frames l.fr).argument_st (l.atop - 1)).data = .PROG_INTEGER N)
    (h3 : 0 ≤ N) (h4 : try_protect (m.frames l.fr) (l.atop - 1) N = false)
    (h5 : N ≤ l.atop - 1) :
    ∃ m', exec_TRY e m l call = .next m' { l with atop := l.atop - 1, pc := l.pc + 1 }
      ∧ m'.err = m.err
      ∧ (m'.frames l.fr).trys_st
          = { depth := l.atop - 1 - N, call_level := l.stop, for_count := 0, addr := call }
              :: (m.frames l.fr).trys_st
      ∧ (m'.frames l.fr).trys_top = (m.frames l.fr).trys_top + 1
      ∧ ((m'.frames l.fr).argument_st (l.atop - 1)).type = .PROG_CLEARED := by
  have h1' : ¬ l.atop < 1 := by omega
  have h3' : ¬ N < 0 := by omega
  have h5' : ¬ N > l.atop - 1 := by omega
  simp only [exec_TRY, h1', if_false, h2, Bool.false_eq_true, hN, h3', h4, h5']
  refine ⟨_, rfl, ?_, ?_, ?_, ?_⟩
  · simp [CLEAR_arg]
  · cases hp : m.try_pool <;> simp [CLEAR_arg, setN, push_try, hp]
  · cases hp : m.try_pool <;> simp [CLEAR_arg, setN, push_try, hp]
  · cases hp : m.try_pool <;>
      simp [CLEAR_arg, setN, setI, push_try, hp, hN, CLEAR, RCLEAR, inst.type]

/-- C6 (as amended): `PROG_TRY`, once its pop has passed the underflow and the
protection test, pops one operand `N`.  It fails with an error and pushes no
try-frame when `N` is not an integer, when `N` is negative, when a try-frame is
in place and `N` exceeds the operands above its depth after the pop, or when
`N` exceeds the operand height after the pop: with a try-frame in place the
error is raised and the try stack is as before, without one the frame is
cleaned and null returned.  Otherwise it pushes exactly one try-frame with
depth = (operand height after the pop) - `N`, call_level = the system height,
for_count = 0 and the handler `data.call`, clears the popped operand and
advances `pc` by one. -/
theorem try_instruction (e : env) (m : machine) (l : locals) (call : Nat)
    (hi : (e.code l.pc).data = .PROG_TRY call)
    (h1 : 1 ≤ l.atop) (h2 : try_protect (m.frames l.fr) l.atop 1 = false) :
    ((∀ N, ((m.frames l.fr).argument_st (l.atop - 1)).data = .PROG_INTEGER N →
          N < 0 ∨ try_protect (m.frames l.fr) (l.atop - 1) N = true ∨ l.atop - 1 < N) →
        ((m.frames l.fr).trys_top ≠ 0 →
          ∃ m', dispatch e m l = .next m' { l with atop := l.atop - 1 }
            ∧ m'.err = m.err + 1
            ∧ (m'.frames l.fr).trys_st = (m.frames l.fr).trys_st
            ∧ (m'.frames l.fr).trys_top = (m.frames l.fr).trys_top)
        ∧ ((m.frames l.fr).trys_top = 0 → ∃ m', dispatch e m l = .ret m' .null))
    ∧ (∀ N, ((m.frames l.fr).argument_st (l.atop - 1)).data = .PROG_INTEGER N →
        0 ≤ N → try_protect (m.frames l.fr) (l.atop - 1) N = false → N ≤ l.atop - 1 →
        ∃ m', dispatch e m l = .next m' { l with atop := l.atop - 1, pc := l.pc + 1 }
          ∧ m'.err = m.err
          ∧ (m'.frames l.fr).trys_st
              = { depth := l.atop - 1 - N, call_level := l.stop, for_count := 0, addr := call }
                  :: (m.frames l.fr).trys_st
          ∧ (m'.frames l.fr).trys_top = (m.frames l.fr).trys_top + 1
          ∧ ((m'.frames l.fr).argument_st (l.atop - 1)).type = .PROG_CLEARED) := by
  have hd : dispatch e m l = exec_TRY e m l call := by simp only [dispatch, hi]
  have h1' : ¬ l.atop < 1 := by omega
  constructor
  · intro hfail
    have habort : ∃ msg c, exec_TRY e m l call
        = abort_loop e m { l with atop := l.atop - 1 } msg c none := by
      cases hdata : ((m.frames l.fr).argument_st (l.atop - 1)).data with
      | PROG_INTEGER N =>
        by_cases hneg : N < 0
        · refine ⟨"Argument is not a positive integer.", some (l.atop - 1), ?_⟩
          simp only [exec_TRY, h1', if_false, h2, Bool.false_eq_true, hdata, hneg, if_true]
        · by_cases hprot : try_protect (m.frames l.fr) (l.atop - 1) N = true
          · refine ⟨"Stack protection fault.", none, ?_⟩
            simp only [exec_TRY, h1', if_false, h2, Bool.false_eq_true, hdata, hneg, hprot,
              if_true]
          · have hgt : N > l.atop - 1 := by
              rcases hfail N hdata with h | h | h
              · exact absurd h hneg
              · exact absurd h hprot
              · exact h
            refine ⟨"Stack Underflow.", some (l.atop - 1), ?_⟩
            simp only [exec_TRY, h1', if_false, h2, Bool.false_eq_true, hdata, hneg, hprot,
              hgt, if_true]
      | _ =>
        refine ⟨"Argument is not a positive integer.", some (l.atop - 1), ?_⟩
        simp only [exec_TRY, h1', if_false, h2, Bool.false_eq_true, hdata]
    obtain ⟨msg, c, hab⟩ := habort
    rw [hd, hab]
    constructor
    · intro htry
      obtain ⟨m', hm, herr, _, hst, htop, _⟩ :=
        abort_loop_caught e m { l with atop := l.atop - 1 } msg c none htry
      exact ⟨m', hm, herr, hst, htop⟩
    · intro hno
      exact abort_loop_uncaught e m { l with atop := l.atop - 1 } msg c none hno
  · intro N hN h3 h4 h5
    rw [hd]
    exact exec_TRY_success e m l call N h1 h2 hN h3 h4 h5

/-- Witness of C6: `TRY` with `N = 2` on the operand stack `[5, 5, 2]` and no
try-frame in place pushes the try-frame of depth 0. -/
theorem try_instruction_witness :
    ∃ m', dispatch (sample_env code_try) (sample_machine sample_heap (try_frame false))
        (sample_locals 10 3 1)
        = .next m' { sample_locals 10 3 1 with atop := 3 - 1, pc := 10 + 1 }
      ∧ m'.err = 0
      ∧ (m'.frames 0).trys_st
          = { depth := 3 - 1 - 2, call_level := 1, for_count := 0, addr := 30 } :: []
      ∧ (m'.frames 0).trys_top = 0 + 1
      ∧ ((m'.frames 0).argument_st (3 - 1)).type = .PROG_CLEARED :=
  (try_instruction (sample_env code_try) (sample_machine sample_heap (try_frame false))
    (sample_locals 10 3 1) 30 rfl (by decide) (by decide)).2 2 rfl (by decide) (by decide)
    (by decide)

/-- C6 (counterexample to the statement with three failure cases): on the operand
stack `[5, 5, 2]` under a try-frame of depth 1, `TRY` pops the integer `N = 2`,
which is not negative and does not exceed the operand height 2 left after the
pop, and yet no try-frame is pushed: the instruction raises "Stack protection
fault." and the try stack is as before. -/
theorem try_under_try_protection_fault :
    ((try_frame true).argument_st 2).data = .PROG_INTEGER 2
      ∧ (0 : Int) ≤ 2 ∧ (2 : Int) ≤ 3 - 1
      ∧ ∃ m' l', dispatch (sample_env code_try) (sample_machine sample_heap (try_frame true))
          (sample_locals 10 3 1) = .next m' l'
        ∧ (m'.frames 0).trys_st = (try_frame true).trys_st
        ∧ (m'.frames 0).trys_top = 1
        ∧ (m'.frames 0).errorstr = some "Stack protection fault."
        ∧ m'.err = 1 ∧ l'.pc = 10 := by
  refine ⟨rfl, by decide, by decide, _, _, rfl, ?_⟩
  decide

/-- The macro `abort_loop_hard` always makes `interp_loop` return null. -/
theorem abort_loop_hard_ret (e : env) (m : machine) (l : locals) (S : String)
    (C1 C2 : Option Int) : ∃ m', abort_loop_hard e m l S C1 C2 = .ret m' .null :=
  ⟨_, rfl⟩

/-- The unwind loop either ends in the hard abort of an invalid saved program,
or goes on with the system height `n` lower, on the same frame, with the try
stack as it was. -/
theorem unwind_loop_height (e : env) :
    ∀ (n : Nat) (m : machine) (l : locals),
      (m.frames l.fr).try_call_level + n = l.stop →
      (∃ m', unwind_loop e n m l = .ret m' .null)
      ∨ (∃ m' l', unwind_loop e n m l = .next m' l'
          ∧ l'.stop = l.stop - n ∧ l'.fr = l.fr ∧ l'.atop = l.atop
          ∧ (m'.frames l.fr).trys_st = (m.frames l.fr).trys_st) := by
  intro n
  induction n with
  | zero =>
    intro m l _
    exact Or.inr ⟨m, l, rfl, by simp, rfl, rfl, rfl⟩
  | succ n ih =>
    intro m l hlvl
    have hlt : (m.frames l.fr).try_call_level < l.stop := by omega
    by_cases hbad : l.stop > 1 ∧ l.program ≠ ((m.frames l.fr).system_st (l.stop - 1)).progref
        ∧ invalid_program e ((m.frames l.fr).system_st (l.stop - 1)).progref = true
    · left
      obtain ⟨m', hm'⟩ := abort_loop_hard_ret e m l "Internal error.  Invalid address." none none
      refine ⟨m', ?_⟩
      simp only [unwind_loop]
      rw [if_pos hlt, if_pos hbad]
      exact hm'
    · by_cases hsw : l.stop > 1 ∧ l.program ≠ ((m.frames l.fr).system_st (l.stop - 1)).progref
      · have key := ih
          { m with
              mem := (scopedvar_poplevel (PROGRAM_DEC_INSTANCES m.mem l.program)
                (m.frames l.fr).svars).1,
              frames := setN m.frames l.fr
                { (m.frames l.fr) with
                    caller_top := (m.frames l.fr).caller_top - 1,
                    svars := (m.frames l.fr).svars.tail } }
          { l with
              program := ((m.frames l.fr).system_st (l.stop - 1)).progref,
              mlev := e.ProgMLevel (m.frames l.fr)
                ((m.frames l.fr).system_st (l.stop - 1)).progref,
              stop := l.stop - 1 }
          (by simp only [setN_same]; show (m.frames l.fr).try_call_level + n = l.stop - 1; omega)
        simp only [setN_same] at key
        obtain ⟨h1, h2⟩ := hsw
        have hv1 : invalid_program e ((m.frames l.fr).system_st (l.stop - 1)).progref = false := by
          cases hinv : invalid_program e ((m.frames l.fr).system_st (l.stop - 1)).progref
          · rfl
          · exact absurd ⟨h1, h2, hinv⟩ hbad
        simp only [unwind_loop, hlt, if_true, h1, h2, hv1, set_frame, setN_same, setN_setN,
          scopedvar_poplevel_svars, ne_eq, not_false_eq_true, and_self, and_false, if_false,
          true_and, Bool.false_eq_true]
        rcases key with ⟨m', hk⟩ | ⟨m', l', hk, h1, h2, h3, h4⟩
        · exact Or.inl ⟨m', hk⟩
        · refine Or.inr ⟨m', l', hk, ?_, h2, h3, h4⟩
          rw [h1]; push_cast; omega
      · have key := ih
          { m with
              mem := (scopedvar_poplevel m.mem (m.frames l.fr).svars).1,
              frames := setN m.frames l.fr
                { (m.frames l.fr) with svars := (m.frames l.fr).svars.tail } }
          { l with stop := l.stop - 1 }
          (by simp only [setN_same]; show (m.frames l.fr).try_call_level + n = l.stop - 1; omega)
        simp only [setN_same] at key
        simp only [unwind_loop]
        rw [if_pos hlt, if_neg hbad, if_neg hsw]
        simp only [scopedvar_poplevel_svars]
        rcases key with ⟨m', hk⟩ | ⟨m', l', hk, h1, h2, h3, h4⟩
        · exact Or.inl ⟨m', hk⟩
        · refine Or.inr ⟨m', l', hk, ?_, h2, h3, h4⟩
          rw [h1]; push_cast; omega

/-- The primitives `IN_CATCH` and `IN_CATCH_DETAILED` leave the system height as
it is. -/
theorem exec_CATCH_stop (e : env) (m : machine) (l : locals) (detailed : Bool)
    (m' : machine) (l' : locals) (h : exec_CATCH e m l detailed = .next m' l') :
    l'.stop = l.stop := by
  unfold exec_CATCH at h
  by_cases htop : (m.frames l.fr).trys_top = 0
  · simp [htop, abort_loop_hard] at h
  · simp only [htop, if_false] at h
    split at h
    · simp at h
    · simp only [outcome.next.injEq] at h
      rw [← h.2]

/-- C8 (as amended): the system height at CATCH.  A `TRY` that succeeds records
the system height `K` at which it executes as the call level of its try-frame.
When a soft error is pending at a system height of at least the call level `K`
of the innermost try-frame, the error unwind either ends in the hard abort of
an invalid saved program (no CATCH runs), or goes on at the handler of that
try-frame with the system height equal to `K` and the try stack as it was; and
CATCH, plain or detailed, leaves the system height at `K`. -/
theorem catch_system_height (e : env) (m : machine) (l : locals)
    (herr : m.err ≠ 0) (hdie : m.err ≠ ERROR_DIE_NOW)
    (htry : (m.frames l.fr).trys_top ≠ 0)
    (hK : (m.frames l.fr).try_call_level ≤ l.stop) :
    (∀ (m0 : machine) (l0 : locals) (call : Nat) (N : Int),
        1 ≤ l0.atop → try_protect (m0.frames l0.fr) l0.atop 1 = false →
        ((m0.frames l0.fr).argument_st (l0.atop - 1)).data = .PROG_INTEGER N →
        0 ≤ N → try_protect (m0.frames l0.fr) (l0.atop - 1) N = false → N ≤ l0.atop - 1 →
        ∃ m1, exec_TRY e m0 l0 call = .next m1 { l0 with atop := l0.atop - 1, pc := l0.pc + 1 }
          ∧ (m1.frames l0.fr).try_call_level = l0.stop)
    ∧ ((∃ m', error_unwind e m l = .ret m' .null)
      ∨ (∃ m' l', error_unwind e m l = .next m' l'
          ∧ l'.stop = (m.frames l.fr).try_call_level
          ∧ l'.pc = (m.frames l.fr).try_addr
          ∧ l'.fr = l.fr
          ∧ (m'.frames l.fr).trys_st = (m.frames l.fr).trys_st
          ∧ ∀ detailed m'' l'', exec_CATCH e m' l' detailed = .next m'' l'' →
              l''.stop = (m.frames l.fr).try_call_level)) := by
  constructor
  · intro m0 l0 call N h1 h2 hN h3 h4 h5
    obtain ⟨m1, hm1, _, hst, _⟩ := exec_TRY_success e m0 l0 call N h1 h2 hN h3 h4 h5
    exact ⟨m1, hm1, by simp [frame.try_call_level, hst]⟩
  · have hn : (m.frames l.fr).try_call_level
        + ((l.stop - (m.frames l.fr).try_call_level).toNat : Int) = l.stop := by
      rw [Int.toNat_of_nonneg (by omega)]; omega
    have hcond : m.err ≠ ERROR_DIE_NOW ∧ (m.frames l.fr).trys_top ≠ 0 := ⟨hdie, htry⟩
    rcases unwind_loop_height e _ m l hn with ⟨m', hk⟩ | ⟨m', l', hk, h1, h2, _, h4⟩
    · left
      refine ⟨m', ?_⟩
      simp only [error_unwind]
      rw [if_pos herr, if_pos hcond, hk]
    · right
      have hstop : l'.stop = (m.frames l.fr).try_call_level := by rw [h1]; omega
      refine ⟨{ m' with err := 0 }, { l' with pc := (m'.frames l'.fr).try_addr }, ?_, hstop, ?_,
        h2, h4, ?_⟩
      · simp only [error_unwind]
        rw [if_pos herr, if_pos hcond, hk]
      · simp only [frame.try_addr, h2, h4]
      · intro detailed m'' l'' hc
        rw [exec_CATCH_stop e _ _ detailed m'' l'' hc]
        exact hstop

/-- Witness of C8: a soft error at system height 2 with a try-frame recorded at
height 1; the handler is reached at height 1. -/
theorem catch_system_height_witness :
    (∃ m', error_unwind (sample_env (code_primitive IN_CATCH)) (unwind_machine 2)
        (sample_locals 30 0 2) = .ret m' .null)
    ∨ (∃ m' l', error_unwind (sample_env (code_primitive IN_CATCH)) (unwind_machine 2)
        (sample_locals 30 0 2) = .next m' l'
      ∧ l'.stop = 1 ∧ l'.pc = 20) := by
  rcases (catch_system_height (sample_env (code_primitive IN_CATCH)) (unwind_machine 2)
    (sample_locals 30 0 2) (by decide) (by decide) (by decide) (by decide)).2 with h | h
  · exact Or.inl h
  · obtain ⟨m', l', h0, h1, h2, _⟩ := h
    exact Or.inr ⟨m', l', h0, h1, h2⟩

/-- C8 (counterexample to the statement for every execution): in the run of
`code_try_ret` from its first instruction, the third pass executes `TRY` at
system height 2; the procedure then returns with the try-frame in place, and
the `CATCH` that is the handler of that try-frame is the instruction of the
fifth pass, which starts, and ends, at system height 1. -/
theorem catch_below_try_height :
    ∃ m2 l2 m4 l4 m5 l5,
      passes (sample_env code_try_ret) 2 (sample_machine sample_heap sample_frame)
          (sample_locals 10 0 1) = some (m2, l2)
      ∧ (code_try_ret l2.pc).data = .PROG_TRY 11 ∧ l2.stop = 2
      ∧ passes (sample_env code_try_ret) 4 (sample_machine sample_heap sample_frame)
          (sample_locals 10 0 1) = some (m4, l4)
      ∧ (m4.frames 0).trys_st = [{ depth := 0, call_level := 2, for_count := 0, addr := 11 }]
      ∧ l4.pc = 11 ∧ (code_try_ret l4.pc).data = .PROG_PRIMITIVE IN_CATCH
      ∧ l4.stop = 1
      ∧ passes (sample_env code_try_ret) 5 (sample_machine sample_heap sample_frame)
          (sample_locals 10 0 1) = some (m5, l5)
      ∧ (m5.frames 0).trys_st = [] ∧ l5.stop = 1 := by
  refine ⟨_, _, _, _, _, _, rfl, ?_, ?_, rfl, ?_, ?_, ?_, ?_, rfl, ?_, ?_⟩ <;> decide

/-- A slot is CLEARED after `RCLEAR`, whatever it held. -/
theorem RCLEAR_type (h : heap) (oper : inst) (file : String) (line : Int) :
    (RCLEAR h oper file line).2.type = .PROG_CLEARED := by
  obtain ⟨ln, d⟩ := oper
  cases d with
  | PROG_STRING s => cases s <;> simp [RCLEAR, inst.type]
  | PROG_ARRAY a => cases a <;> simp [RCLEAR, inst.type, array_free]
  | _ => simp [RCLEAR, inst.type]

/-- The clearing loop of CATCH: the `n` slots below `atop` end CLEARED and every
other slot is as before. -/
theorem clear_above_spec :
    ∀ (n : Nat) (atop : Int) (h : heap) (st : Int → inst),
      (∀ k, atop - n ≤ k → k < atop → ((clear_above n atop h st).2 k).type = .PROG_CLEARED)
      ∧ (∀ k, (k < atop - n ∨ atop ≤ k) → (clear_above n atop h st).2 k = st k) := by
  intro n
  induction n with
  | zero =>
    intro atop h st
    refine ⟨fun k h1 h2 => ?_, fun k _ => rfl⟩
    simp at h1; omega
  | succ n ih =>
    intro atop h st
    obtain ⟨ih1, ih2⟩ := ih (atop - 1) (CLEAR h (st (atop - 1)) 1577).1
      (setI st (atop - 1) (CLEAR h (st (atop - 1)) 1577).2)
    constructor
    · intro k h1 h2
      simp only [clear_above]
      by_cases hk : k = atop - 1
      · rw [ih2 k (Or.inr (by omega))]
        simp only [setI, hk, if_true, CLEAR]
        exact RCLEAR_type _ _ _ _
      · refine ih1 k ?_ (by omega)
        push_cast at h1; omega
    · intro k hk
      simp only [clear_above]
      rw [ih2 k (by push_cast at hk; omega)]
      have hne : k ≠ atop - 1 := by push_cast at hk; omega
      simp only [setI, hne, if_false]

/-- The for-frame loop of CATCH when the for stack holds at least `n` frames: it
takes `n` frames off the for stack and changes nothing else of the frame, nor
the try pool, nor the error flag. -/
theorem catch_fors_spec :
    ∀ (n : Nat) (m : machine) (fp : Nat),
      n ≤ (m.frames fp).fors_st.length →
      ∃ m', catch_fors n m fp = some m'
        ∧ m'.frames fp = { (m.frames fp) with
            fors_top := (m.frames fp).fors_top - n,
            fors_st := (m.frames fp).fors_st.drop n }
        ∧ m'.try_pool = m.try_pool ∧ m'.last_try = m.last_try ∧ m'.err = m.err := by
  intro n
  induction n with
  | zero =>
    intro m fp _
    exact ⟨m, rfl, by simp, rfl, rfl, rfl⟩
  | succ n ih =>
    intro m fp hlen
    cases hf : (m.frames fp).fors_st with
    | nil => rw [hf] at hlen; simp at hlen
    | cons f rest =>
      rw [hf] at hlen
      simp only [List.length_cons, Nat.add_le_add_iff_right] at hlen
      simp only [catch_fors, hf, pop_for]
      obtain ⟨m', h0, h1, h2, h3, h4⟩ := ih
        { m with
            mem := (CLEAR (CLEAR m.mem f.cur 1581).1 f.end_ 1582).1,
            for_pool := { f with cur := (CLEAR m.mem f.cur 1581).2,
                                 end_ := (CLEAR (CLEAR m.mem f.cur 1581).1 f.end_ 1582).2 }
              :: m.for_pool,
            last_for := m.last_for + 1,
            frames := setN m.frames fp
              { (m.frames fp) with fors_top := (m.frames fp).fors_top - 1, fors_st := rest } }
        fp (by simp only [setN_same]; exact hlen)
      refine ⟨m', h0, ?_, h2, h3, h4⟩
      rw [h1]
      simp only [setN_same, List.drop_succ_cons]
      congr 1
      push_cast; omega

/-- The text of the string made by `alloc_prog_string` is the text given. -/
theorem alloc_prog_string_text (h : heap) (s : String) :
    string_text (alloc_prog_string h s).1 (alloc_prog_string h s).2 = s := by
  by_cases hs : s = ""
  · simp [alloc_prog_string, hs, string_text]
  · simp [alloc_prog_string, hs, string_text, setN]

/-- C7: CATCH (`IN_CATCH`, and `IN_CATCH_DETAILED` when `detailed` is set) with a
live try-frame of depth `H`, an operand height of at least `H` and a for stack
that holds the for-frames the try-frame counts.  The pass goes on at the next
instruction with the system height unchanged; every operand slot above `H` up
to the old height is CLEARED and the slots below `H` are untouched; exactly the
head try-frame has been popped; exactly one value has been pushed, at slot `H`,
so the operand height is `H + 1`; for `IN_CATCH` the value is a string whose
text is the pending error message, the null string when no error is pending
(for `IN_CATCH_DETAILED` it is an array); and the pending error message of the
frame is null afterwards. -/
theorem catch_instruction (e : env) (m : machine) (l : locals) (t : tryvars)
    (rest : List tryvars) (detailed : Bool)
    (hi : (e.code l.pc).data
      = .PROG_PRIMITIVE (if detailed = true then IN_CATCH_DETAILED else IN_CATCH))
    (htop : (m.frames l.fr).trys_top ≠ 0)
    (hst : (m.frames l.fr).trys_st = t :: rest)
    (hH : t.depth ≤ l.atop)
    (hfor : t.for_count.toNat ≤ (m.frames l.fr).fors_st.length) :
    ∃ m' l', dispatch e m l = .next m' l'
      ∧ l'.atop = t.depth + 1 ∧ l'.pc = l.pc + 1 ∧ l'.stop = l.stop
      ∧ (m'.frames l.fr).argument_top = t.depth + 1
      ∧ (m'.frames l.fr).trys_st = rest
      ∧ (m'.frames l.fr).trys_top = (m.frames l.fr).trys_top - 1
      ∧ (∀ k, t.depth < k → k < l.atop →
          ((m'.frames l.fr).argument_st k).type = .PROG_CLEARED)
      ∧ (∀ k, k < t.depth → (m'.frames l.fr).argument_st k = (m.frames l.fr).argument_st k)
      ∧ (detailed = false →
          ∃ s, ((m'.frames l.fr).argument_st t.depth).data = .PROG_STRING s
            ∧ string_text m'.mem s = (m.frames l.fr).errorstr.getD ""
            ∧ ((m.frames l.fr).errorstr = none → s = none))
      ∧ (detailed = true →
          ∃ a, ((m'.frames l.fr).argument_st t.depth).data = .PROG_ARRAY (some a))
      ∧ (m'.frames l.fr).errorstr = none
      ∧ m'.err = m.err := by
  have hd : dispatch e m l = exec_CATCH e m l detailed := by
    cases detailed <;>
      simp [dispatch, hi, IN_CATCH, IN_CATCH_DETAILED, IN_JMP, IN_EXECUTE, IN_CALL, IN_RET]
  have hdepth : (m.frames l.fr).try_depth = t.depth := by simp [frame.try_depth, hst]
  have hatop : (if l.atop > t.depth then t.depth else l.atop) = t.depth := by
    split <;> omega
  obtain ⟨hc1, hc2⟩ := clear_above_spec (l.atop - t.depth).toNat l.atop m.mem
    (m.frames l.fr).argument_st
  have hnat : ((l.atop - t.depth).toNat : Int) = l.atop - t.depth :=
    Int.toNat_of_nonneg (by omega)
  obtain ⟨m2, h0, h1, h2, h3, h4⟩ := catch_fors_spec t.for_count.toNat
    { m with
        mem := (clear_above (l.atop - t.depth).toNat l.atop m.mem (m.frames l.fr).argument_st).1,
        frames := setN m.frames l.fr
          { (m.frames l.fr) with
              argument_st :=
                (clear_above (l.atop - t.depth).toNat l.atop m.mem
                  (m.frames l.fr).argument_st).2 } }
    l.fr (by simp only [setN_same]; exact hfor)
  simp only [setN_same] at h1
  dsimp only at h0 h2 h3 h4
  simp only [hst] at h0 h1
  rw [hd]
  simp only [exec_CATCH, htop, if_false, hdepth, hst, hatop, reload]
  rw [h0]
  simp only [h1, setN_same, pop_try]
  refine ⟨_, _, rfl, rfl, rfl, rfl, ?_, ?_, ?_, ?_, ?_, ?_, ?_, ?_, ?_⟩
  · simp [setN_same]
  · simp [setN_same]
  · simp [setN_same]
  · intro k hk1 hk2
    have hne : k ≠ t.depth := by omega
    simp only [setN_same, setI, hne, if_false]
    exact hc1 k (by omega) hk2
  · intro k hk
    have hne : k ≠ t.depth := by omega
    simp only [setN_same, setI, hne, if_false]
    exact hc2 k (Or.inl (by omega))
  · intro hdet
    subst hdet
    cases herrstr : (m.frames l.fr).errorstr with
    | none => exact ⟨none, by simp [setN_same, setI], by simp [string_text], fun _ => rfl⟩
    | some msg =>
      refine ⟨(alloc_prog_string m2.mem msg).2, by simp [setN_same, setI], ?_, by simp⟩
      simp only [Option.getD_some, Bool.false_eq_true, if_false]
      exact alloc_prog_string_text m2.mem msg
  · intro hdet
    subst hdet
    simp only [setN_same, setI, if_true]
    exact ⟨_, rfl⟩
  · simp [setN_same]
  · cases detailed <;> cases (m.frames l.fr).errorstr <;> simp [h4]

/-- Witness of C7: `CATCH` on the operand stack `[5, 5, 2]` under a try-frame of
depth 1 with the error "Stack Underflow." pending leaves height 2 with the
message on top. -/
theorem catch_instruction_witness :
    ∃ m' l', dispatch (sample_env (code_primitive IN_CATCH))
        (sample_machine sample_heap catch_frame) (sample_locals 20 3 1) = .next m' l'
      ∧ l'.atop = 2
      ∧ (m'.frames 0).trys_st = []
      ∧ ((m'.frames 0).argument_st 2).type = .PROG_CLEARED
      ∧ ∃ s, ((m'.frames 0).argument_st 1).data = .PROG_STRING s
          ∧ string_text m'.mem s = "Stack Underflow." := by
  obtain ⟨m', l', h, ha, _, _, _, ht, _, hc, _, hs, _⟩ :=
    catch_instruction (sample_env (code_primitive IN_CATCH))
      (sample_machine sample_heap catch_frame) (sample_locals 20 3 1)
      { depth := 1, call_level := 1, for_count := 0, addr := 20 } [] false rfl (by decide) rfl
      (by decide) (by decide)
  obtain ⟨s, hs1, hs2, _⟩ := hs rfl
  exact ⟨m', l', h, ha, ht, hc 2 (by decide) (by decide), s, hs1, hs2⟩

/-- An abort raised after a pop is not the protection fault of the first pop. -/
theorem abort_loop_npf_regs (e : env) (m0 m : machine) (l1 l : locals) (S : String)
    (C1 C2 : Option Int) (h : l1.atop ≠ l.atop) :
    (abort_loop e m0 l1 S C1 C2).no_protection_fault m l := by
  rintro ⟨m', heq, _, _⟩
  simp only [abort_loop] at heq
  split at heq
  · simp only [outcome.next.injEq] at heq
    exact h (by rw [heq.2])
  · simp at heq

/-- An abort with another message is not the protection fault. -/
theorem abort_loop_npf_msg (e : env) (m : machine) (l : locals) (S : String)
    (C1 C2 : Option Int) (htry : (m.frames l.fr).trys_top ≠ 0)
    (hS : S ≠ "Stack protection fault.") :
    (abort_loop e m l S C1 C2).no_protection_fault m l := by
  rintro ⟨m', heq, _, hstr⟩
  obtain ⟨m'', h1, _, h3, _⟩ := abort_loop_caught e m l S C1 C2 htry
  rw [h1] at heq
  simp only [outcome.next.injEq, and_true] at heq
  rw [← heq, h3] at hstr
  exact hS (Option.some.inj hstr)

/-- A hard abort is not the protection fault. -/
theorem abort_loop_hard_npf (e : env) (m0 m : machine) (l1 l : locals) (S : String)
    (C1 C2 : Option Int) : (abort_loop_hard e m0 l1 S C1 C2).no_protection_fault m l := by
  rintro ⟨m', heq, _, _⟩
  simp [abort_loop_hard] at heq

/-- A pass that goes on after a pop has not raised the protection fault. -/
theorem next_npf_atop (m0 m : machine) (l1 l : locals) (h : l1.atop ≠ l.atop) :
    (outcome.next m0 l1).no_protection_fault m l := by
  rintro ⟨m', heq, _, _⟩
  simp only [outcome.next.injEq] at heq
  exact h (by rw [heq.2])

/-- A pass that goes on at another instruction has not raised the protection
fault. -/
theorem next_npf_pc (m0 m : machine) (l1 l : locals) (h : l1.pc ≠ l.pc) :
    (outcome.next m0 l1).no_protection_fault m l := by
  rintro ⟨m', heq, _, _⟩
  simp only [outcome.next.injEq] at heq
  exact h (by rw [heq.2])

/-- A return from `interp_loop` is not a protection fault. -/
theorem ret_npf (m0 m : machine) (rv : retval) (l : locals) :
    (outcome.ret m0 rv).no_protection_fault m l := by
  rintro ⟨m', heq, _, _⟩
  simp at heq

/-- Undefined behaviour is not a protection fault. -/
theorem undefined_npf (m0 m : machine) (l : locals) :
    (outcome.undefined m0).no_protection_fault m l := by
  rintro ⟨m', heq, _, _⟩
  simp at heq

/-- With a try-frame in place the protection test is the comparison of the
operands above the depth of the innermost try-frame with the number popped. -/
theorem try_protect_iff (fr : frame) (atop n : Int) (htry : fr.trys_top ≠ 0) :
    try_protect fr atop n = true ↔ atop - fr.try_depth < n := by
  simp [try_protect, htry]

/-- `PROG_IF` behind its guards. -/
theorem exec_IF_guard (e : env) (m : machine) (l : locals) (call : Nat) :
    (l.atop < 1 → ∃ msg, msg ≠ "Stack protection fault."
        ∧ exec_IF e m l call = abort_loop e m l msg none none)
    ∧ (1 ≤ l.atop → try_protect (m.frames l.fr) l.atop 1 = true →
        exec_IF e m l call = abort_loop e m l "Stack protection fault." none none)
    ∧ (1 ≤ l.atop → try_protect (m.frames l.fr) l.atop 1 = false →
        (exec_IF e m l call).no_protection_fault m l) := by
  refine ⟨fun h => ⟨"Stack Underflow.", by decide, by simp [exec_IF, h]⟩, fun h1 h2 => ?_,
    fun h1 h2 => ?_⟩
  · have h1' : ¬ l.atop < 1 := by omega
    simp [exec_IF, h1', h2]
  · have h1' : ¬ l.atop < 1 := by omega
    simp only [exec_IF, h1', h2, if_false, Bool.false_eq_true]
    exact next_npf_atop _ _ _ _ (by simp)

/-- `PROG_LVAR_BANG` behind its guards. -/
theorem exec_LVAR_BANG_guard (e : env) (m : machine) (l : locals) (number : Int)
    (htry : (m.frames l.fr).trys_top ≠ 0) :
    (l.atop < 1 → ∃ msg, msg ≠ "Stack protection fault."
        ∧ exec_LVAR_BANG e m l number = abort_loop e m l msg none none)
    ∧ (1 ≤ l.atop → try_protect (m.frames l.fr) l.atop 1 = true →
        exec_LVAR_BANG e m l number = abort_loop e m l "Stack protection fault." none none)
    ∧ (1 ≤ l.atop → try_protect (m.frames l.fr) l.atop 1 = false →
        (exec_LVAR_BANG e m l number).no_protection_fault m l) := by
  refine ⟨fun h => ⟨"Stack Underflow.", by decide, by simp [exec_LVAR_BANG, h]⟩,
    fun h1 h2 => ?_, fun h1 h2 => ?_⟩
  · have h1' : ¬ l.atop < 1 := by omega
    simp [exec_LVAR_BANG, h1', h2]
  · have h1' : ¬ l.atop < 1 := by omega
    simp only [exec_LVAR_BANG, h1', h2, if_false, Bool.false_eq_true]
    split
    · exact abort_loop_npf_msg e m l _ _ _ htry (by decide)
    · exact next_npf_atop _ _ _ _ (by simp)

/-- `PROG_SVAR_BANG` behind its guards. -/
theorem exec_SVAR_BANG_guard (e : env) (m : machine) (l : locals) (number : Int)
    (htry : (m.frames l.fr).trys_top ≠ 0) :
    (l.atop < 1 → ∃ msg, msg ≠ "Stack protection fault."
        ∧ exec_SVAR_BANG e m l number = abort_loop e m l msg none none)
    ∧ (1 ≤ l.atop → try_protect (m.frames l.fr) l.atop 1 = true →
        exec_SVAR_BANG e m l number = abort_loop e m l "Stack protection fault." none none)
    ∧ (1 ≤ l.atop → try_protect (m.frames l.fr) l.atop 1 = false →
        (exec_SVAR_BANG e m l number).no_protection_fault m l) := by
  refine ⟨fun h => ⟨"Stack Underflow.", by decide, by simp [exec_SVAR_BANG, h]⟩,
    fun h1 h2 => ?_, fun h1 h2 => ?_⟩
  · have h1' : ¬ l.atop < 1 := by omega
    simp [exec_SVAR_BANG, h1', h2]
  · have h1' : ¬ l.atop < 1 := by omega
    simp only [exec_SVAR_BANG, h1', h2, if_false, Bool.false_eq_true]
    split
    · exact abort_loop_npf_msg e m l _ _ _ htry (by decide)
    · exact next_npf_atop _ _ _ _ (by simp)

/-- `PROG_TRY` behind its guards. -/
theorem exec_TRY_guard (e : env) (m : machine) (l : locals) (call : Nat) :
    (l.atop < 1 → ∃ msg, msg ≠ "Stack protection fault."
        ∧ exec_TRY e m l call = abort_loop e m l msg none none)
    ∧ (1 ≤ l.atop → try_protect (m.frames l.fr) l.atop 1 = true →
        exec_TRY e m l call = abort_loop e m l "Stack protection fault." none none)
    ∧ (1 ≤ l.atop → try_protect (m.frames l.fr) l.atop 1 = false →
        (exec_TRY e m l call).no_protection_fault m l) := by
  refine ⟨fun h => ⟨"Stack Underflow.", by decide, by simp [exec_TRY, h]⟩, fun h1 h2 => ?_,
    fun h1 h2 => ?_⟩
  · have h1' : ¬ l.atop < 1 := by omega
    simp [exec_TRY, h1', h2]
  · have h1' : ¬ l.atop < 1 := by omega
    simp only [exec_TRY, h1', h2, if_false, Bool.false_eq_true]
    split
    · split
      · exact abort_loop_npf_regs e _ _ _ _ _ _ _ (by simp)
      · split
        · exact abort_loop_npf_regs e _ _ _ _ _ _ _ (by simp)
        · split
          · exact abort_loop_npf_regs e _ _ _ _ _ _ _ (by simp)
          · exact next_npf_atop _ _ _ _ (by simp)
    · exact abort_loop_npf_regs e _ _ _ _ _ _ _ (by simp)

/-- The primitive `IN_JMP` behind its guards. -/
theorem exec_JMP_guard (e : env) (m : machine) (l : locals) :
    (l.atop < 1 → ∃ msg, msg ≠ "Stack protection fault."
        ∧ exec_JMP e m l = abort_loop e m l msg none none)
    ∧ (1 ≤ l.atop → try_protect (m.frames l.fr) l.atop 1 = true →
        exec_JMP e m l = abort_loop e m l "Stack protection fault." none none)
    ∧ (1 ≤ l.atop → try_protect (m.frames l.fr) l.atop 1 = false →
        (exec_JMP e m l).no_protection_fault m l) := by
  refine ⟨fun h => ⟨"Stack underflow.  Missing address.", by decide, by simp [exec_JMP, h]⟩,
    fun h1 h2 => ?_, fun h1 h2 => ?_⟩
  · have h1' : ¬ l.atop < 1 := by omega
    simp [exec_JMP, h1', h2]
  · have h1' : ¬ l.atop < 1 := by omega
    simp only [exec_JMP, h1', h2, if_false, Bool.false_eq_true]
    split
    · split
      · exact abort_loop_hard_npf e _ _ _ _ _ _ _
      · split
        · exact abort_loop_npf_regs e _ _ _ _ _ _ _ (by simp)
        · exact next_npf_atop _ _ _ _ (by simp)
    · exact abort_loop_npf_regs e _ _ _ _ _ _ _ (by simp)

/-- The primitive `IN_EXECUTE` behind its guards. -/
theorem exec_EXECUTE_guard (e : env) (m : machine) (l : locals) :
    (l.atop < 1 → ∃ msg, msg ≠ "Stack protection fault."
        ∧ exec_EXECUTE e m l = abort_loop e m l msg none none)
    ∧ (1 ≤ l.atop → try_protect (m.frames l.fr) l.atop 1 = true →
        exec_EXECUTE e m l = abort_loop e m l "Stack protection fault." none none)
    ∧ (1 ≤ l.atop → try_protect (m.frames l.fr) l.atop 1 = false →
        (exec_EXECUTE e m l).no_protection_fault m l) := by
  refine ⟨fun h => ⟨"Stack Underflow. Missing address.", by decide, by simp [exec_EXECUTE, h]⟩,
    fun h1 h2 => ?_, fun h1 h2 => ?_⟩
  · have h1' : ¬ l.atop < 1 := by omega
    simp [exec_EXECUTE, h1', h2]
  · have h1' : ¬ l.atop < 1 := by omega
    simp only [exec_EXECUTE, h1', h2, if_false, Bool.false_eq_true]
    split
    · split
      · exact abort_loop_hard_npf e _ _ _ _ _ _ _
      · split
        · exact abort_loop_npf_regs e _ _ _ _ _ _ _ (by simp)
        · split
          · exact next_npf_atop _ _ _ _ (by simp)
          · exact next_npf_atop _ _ _ _ (by simp)
    · exact abort_loop_npf_regs e _ _ _ _ _ _ _ (by simp)

/-- The primitive `IN_EVENT_WAITFOR` behind its guards. -/
theorem exec_EVENT_WAITFOR_guard (e : env) (m : machine) (l : locals) :
    (l.atop < 1 → ∃ msg, msg ≠ "Stack protection fault."
        ∧ exec_EVENT_WAITFOR e m l = abort_loop e m l msg none none)
    ∧ (1 ≤ l.atop → try_protect (m.frames l.fr) l.atop 1 = true →
        exec_EVENT_WAITFOR e m l = abort_loop e m l "Stack protection fault." none none)
    ∧ (1 ≤ l.atop → try_protect (m.frames l.fr) l.atop 1 = false →
        (exec_EVENT_WAITFOR e m l).no_protection_fault m l) := by
  refine ⟨fun h => ⟨"Stack Underflow. Missing eventID list array argument.", by decide,
    by simp [exec_EVENT_WAITFOR, h]⟩, fun h1 h2 => ?_, fun h1 h2 => ?_⟩
  · have h1' : ¬ l.atop < 1 := by omega
    simp [exec_EVENT_WAITFOR, h1', h2]
  · have h1' : ¬ l.atop < 1 := by omega
    simp only [exec_EVENT_WAITFOR, h1', h2, if_false, Bool.false_eq_true]
    split
    · split
      · exact abort_loop_npf_regs e _ _ _ _ _ _ _ (by simp)
      · split
        · exact abort_loop_npf_regs e _ _ _ _ _ _ _ (by simp)
        · exact ret_npf _ _ _ _
    · exact abort_loop_npf_regs e _ _ _ _ _ _ _ (by simp)

/-- The primitive `IN_SLEEP` behind its guards. -/
theorem exec_SLEEP_guard (e : env) (m : machine) (l : locals) :
    (l.atop < 1 → ∃ msg, msg ≠ "Stack protection fault."
        ∧ exec_SLEEP e m l = abort_loop e m l msg none none)
    ∧ (1 ≤ l.atop → try_protect (m.frames l.fr) l.atop 1 = true →
        exec_SLEEP e m l = abort_loop e m l "Stack protection fault." none none)
    ∧ (1 ≤ l.atop → try_protect (m.frames l.fr) l.atop 1 = false →
        (exec_SLEEP e m l).no_protection_fault m l) := by
  refine ⟨fun h => ⟨"Stack Underflow.", by decide, by simp [exec_SLEEP, h]⟩,
    fun h1 h2 => ?_, fun h1 h2 => ?_⟩
  · have h1' : ¬ l.atop < 1 := by omega
    simp [exec_SLEEP, h1', h2]
  · have h1' : ¬ l.atop < 1 := by omega
    simp only [exec_SLEEP, h1', h2, if_false, Bool.false_eq_true]
    split
    · split
      · exact abort_loop_npf_regs e _ _ _ _ _ _ _ (by simp)
      · exact ret_npf _ _ _ _
    · exact abort_loop_npf_regs e _ _ _ _ _ _ _ (by simp)

/-- The end of `IN_CALL` keeps the operand height of its registers. -/
theorem exec_CALL_enter_npf (e : env) (m0 m : machine) (l1 l : locals) (objref : Int)
    (pc : Nat) (temp1 : Int) (temp2 : Option Int) (h : l1.atop ≠ l.atop) :
    (exec_CALL_enter e m0 l1 objref pc temp1 temp2).no_protection_fault m l := by
  simp only [exec_CALL_enter]
  refine next_npf_atop _ _ _ _ ?_
  split <;> exact h

/-- The body of `IN_CALL`, entered after a pop, does not raise the protection
fault of the first pop. -/
theorem exec_CALL_body_npf (e : env) (m0 m : machine) (l1 l : locals) (temp1 : Int)
    (temp2 : Option Int) (h : l1.atop ≠ l.atop) :
    (exec_CALL_body e m0 l1 temp1 temp2).no_protection_fault m l := by
  simp only [exec_CALL_body]
  repeat' split
  all_goals
    first
      | exact abort_loop_npf_regs e _ _ _ _ _ _ _ h
      | exact exec_CALL_enter_npf e _ _ _ _ _ _ _ _ h
      | exact undefined_npf _ _ _

/-- The primitive `IN_CALL` behind its guards. -/
theorem exec_CALL_guard (e : env) (m : machine) (l : locals) :
    (l.atop < 1 → ∃ msg, msg ≠ "Stack protection fault."
        ∧ exec_CALL e m l = abort_loop e m l msg none none)
    ∧ (1 ≤ l.atop → try_protect (m.frames l.fr) l.atop 1 = true →
        exec_CALL e m l = abort_loop e m l "Stack protection fault." none none)
    ∧ (1 ≤ l.atop → try_protect (m.frames l.fr) l.atop 1 = false →
        (exec_CALL e m l).no_protection_fault m l) := by
  refine ⟨fun h => ⟨"Stack Underflow. Missing dbref argument.", by decide,
    by simp [exec_CALL, h]⟩, fun h1 h2 => ?_, fun h1 h2 => ?_⟩
  · have h1' : ¬ l.atop < 1 := by omega
    simp [exec_CALL, h1', h2]
  · have h1' : ¬ l.atop < 1 := by omega
    simp only [exec_CALL, h1', h2, if_false, Bool.false_eq_true]
    split
    · split
      · exact abort_loop_npf_regs e _ _ _ _ _ _ _ (by simp)
      · split
        · exact abort_loop_npf_regs e _ _ _ _ _ _ _ (by simp)
        · split
          · split
            · exact abort_loop_npf_regs e _ _ _ _ _ _ _ (by simp; omega)
            · exact exec_CALL_body_npf e _ _ _ _ _ _ (by simp; omega)
          · exact abort_loop_npf_regs e _ _ _ _ _ _ _ (by simp; omega)
    · exact exec_CALL_body_npf e _ _ _ _ _ _ (by simp)

/-- The argument loop of `PROG_FUNCTION`: when the pass goes on, `n` operands
have been popped and `pc` is as before. -/
theorem function_args_regs (e : env) :
    ∀ (n : Nat) (m : machine) (l : locals) (m' : machine) (l' : locals),
      function_args e n m l = .next m' l' → l'.atop = l.atop - n ∧ l'.pc = l.pc := by
  intro n
  induction n with
  | zero =>
    intro m l m' l' h
    simp only [function_args, outcome.next.injEq] at h
    rw [← h.2]; simp
  | succ n ih =>
    intro m l m' l' h
    simp only [function_args] at h
    split at h
    · simp [abort_loop_hard] at h
    · obtain ⟨h1, h2⟩ := ih _ _ _ _ h
      refine ⟨?_, h2⟩
      rw [h1]; push_cast; omega

/-- `PROG_FUNCTION` behind its guards. -/
theorem exec_FUNCTION_guard (e : env) (m : machine) (l : locals) (p : muf_proc_data) :
    (l.atop < p.args → ∃ msg, msg ≠ "Stack protection fault."
        ∧ exec_FUNCTION e m l (some p) = abort_loop e m l msg none none)
    ∧ (p.args ≤ l.atop → try_protect (m.frames l.fr) l.atop p.args = true →
        exec_FUNCTION e m l (some p) = abort_loop e m l "Stack protection fault." none none)
    ∧ (p.args ≤ l.atop → try_protect (m.frames l.fr) l.atop p.args = false →
        (exec_FUNCTION e m l (some p)).no_protection_fault m l) := by
  refine ⟨fun h => ⟨"Stack Underflow.", by decide, by simp [exec_FUNCTION, h]⟩,
    fun h1 h2 => ?_, fun h1 h2 => ?_⟩
  · have h1' : ¬ l.atop < p.args := by omega
    simp [exec_FUNCTION, h1', h2]
  · have h1' : ¬ l.atop < p.args := by omega
    simp only [exec_FUNCTION, h1', h2, if_false, Bool.false_eq_true]
    split
    · rename_i m1 l1 hfa
      obtain ⟨_, hpc⟩ := function_args_regs e _ _ _ _ _ hfa
      exact next_npf_pc _ _ _ _ (by simp [hpc])
    · rename_i o hne
      rintro ⟨m', heq, _, _⟩
      exact hne m' l heq

/-- The guards of the first pop, for every instruction that pops behind them:
below the number of operands it pops the instruction aborts with a message
other than the protection fault, with enough operands and the protection test
positive it aborts with the protection fault, and with the test negative it
does not raise the protection fault of its first pop. -/
theorem dispatch_guard (e : env) (m : machine) (l : locals) (n : Int)
    (hp : pops (e.code l.pc).data = some n) (htry : (m.frames l.fr).trys_top ≠ 0) :
    (l.atop < n → ∃ msg, msg ≠ "Stack protection fault."
        ∧ dispatch e m l = abort_loop e m l msg none none)
    ∧ (n ≤ l.atop → try_protect (m.frames l.fr) l.atop n = true →
        dispatch e m l = abort_loop e m l "Stack protection fault." none none)
    ∧ (n ≤ l.atop → try_protect (m.frames l.fr) l.atop n = false →
        (dispatch e m l).no_protection_fault m l) := by
  cases hdata : (e.code l.pc).data with
  | PROG_IF call =>
    rw [hdata] at hp; simp only [pops, Option.some.injEq] at hp; subst hp
    simp only [dispatch, hdata]; exact exec_IF_guard e m l call
  | PROG_LVAR_BANG number =>
    rw [hdata] at hp; simp only [pops, Option.some.injEq] at hp; subst hp
    simp only [dispatch, hdata]; exact exec_LVAR_BANG_guard e m l number htry
  | PROG_SVAR_BANG number =>
    rw [hdata] at hp; simp only [pops, Option.some.injEq] at hp; subst hp
    simp only [dispatch, hdata]; exact exec_SVAR_BANG_guard e m l number htry
  | PROG_TRY call =>
    rw [hdata] at hp; simp only [pops, Option.some.injEq] at hp; subst hp
    simp only [dispatch, hdata]; exact exec_TRY_guard e m l call
  | PROG_FUNCTION mufproc =>
    cases mufproc with
    | none => rw [hdata] at hp; simp [pops] at hp
    | some p =>
      rw [hdata] at hp; simp only [pops, Option.some.injEq] at hp; subst hp
      simp only [dispatch, hdata]; exact exec_FUNCTION_guard e m l p
  | PROG_PRIMITIVE number =>
    rw [hdata] at hp
    simp only [pops] at hp
    split at hp
    · rename_i hnum
      simp only [Option.some.injEq] at hp; subst hp
      rcases hnum with h | h | h | h | h
      · subst h; simp only [dispatch, hdata, if_true]; exact exec_JMP_guard e m l
      · subst h
        simp only [dispatch, hdata, IN_EXECUTE, IN_JMP, if_true]
        exact exec_EXECUTE_guard e m l
      · subst h
        simp only [dispatch, hdata, IN_CALL, IN_EXECUTE, IN_JMP, if_true]
        exact exec_CALL_guard e m l
      · subst h
        simp only [dispatch, hdata, IN_EVENT_WAITFOR, IN_CATCH_DETAILED, IN_CATCH, IN_RET,
          IN_CALL, IN_EXECUTE, IN_JMP, if_true]
        exact exec_EVENT_WAITFOR_guard e m l
      · subst h
        simp only [dispatch, hdata, IN_SLEEP, IN_READ, IN_EVENT_WAITFOR, IN_CATCH_DETAILED,
          IN_CATCH, IN_RET, IN_CALL, IN_EXECUTE, IN_JMP, if_true]
        exact exec_SLEEP_guard e m l
    · simp at hp
  | _ => rw [hdata] at hp; simp [pops] at hp

/-- C5 (as amended): stack protection.  For an instruction of the dispatcher that
pops `n` operands behind the two tests (`n` = 1, or the number of arguments of a
FUNCTION header), executed with a try-frame in place: the instruction raises
"Stack protection fault." before it pops anything exactly when the operand
height is at least `n` and the pop would take it below the depth of the
innermost try-frame; when the operand height is below `n` it raises its stack
underflow error instead, also when the depth is 0. -/
theorem stack_protection_fault (e : env) (m : machine) (l : locals) (n : Int)
    (hp : pops (e.code l.pc).data = some n) (htry : (m.frames l.fr).trys_top ≠ 0) :
    ((∃ m', dispatch e m l = .next m' l ∧ m'.err = m.err + 1
        ∧ (m'.frames l.fr).errorstr = some "Stack protection fault.")
      ↔ (n ≤ l.atop ∧ l.atop - (m.frames l.fr).try_depth < n))
    ∧ (l.atop < n → ∃ msg m', msg ≠ "Stack protection fault."
        ∧ dispatch e m l = .next m' l ∧ m'.err = m.err + 1
        ∧ (m'.frames l.fr).errorstr = some msg) := by
  obtain ⟨g1, g2, g3⟩ := dispatch_guard e m l n hp htry
  have hunder : l.atop < n → ∃ msg m', msg ≠ "Stack protection fault."
      ∧ dispatch e m l = .next m' l ∧ m'.err = m.err + 1
      ∧ (m'.frames l.fr).errorstr = some msg := by
    intro hlt
    obtain ⟨msg, hmsg, hd⟩ := g1 hlt
    obtain ⟨m', h1, h2, h3, _⟩ := abort_loop_caught e m l msg none none htry
    exact ⟨msg, m', hmsg, by rw [hd, h1], h2, h3⟩
  refine ⟨⟨?_, ?_⟩, hunder⟩
  · rintro ⟨m', hd, herr, hstr⟩
    by_cases hlt : l.atop < n
    · obtain ⟨msg, m'', hmsg, hd', _, hstr'⟩ := hunder hlt
      rw [hd] at hd'
      simp only [outcome.next.injEq, and_true] at hd'
      rw [hd', hstr'] at hstr
      exact absurd (Option.some.inj hstr) hmsg
    · have hle : n ≤ l.atop := by omega
      cases hprot : try_protect (m.frames l.fr) l.atop n with
      | true => exact ⟨hle, (try_protect_iff _ _ _ htry).1 hprot⟩
      | false => exact absurd ⟨m', hd, herr, hstr⟩ (g3 hle hprot)
  · rintro ⟨hle, hlt⟩
    have hprot := (try_protect_iff _ _ _ htry).2 hlt
    obtain ⟨m', h1, h2, h3, _⟩ :=
      abort_loop_caught e m l "Stack protection fault." none none htry
    exact ⟨m', by rw [g2 hle hprot, h1], h2, h3⟩

/-- Witness of C5: `IF` on the operand stack `[5, 5, 2]` of height 3 under a
try-frame of depth 1 is not protected, and is protected at height 1. -/
theorem stack_protection_fault_witness :
    ((∃ m', dispatch (sample_env code_if) (sample_machine sample_heap (try_frame true))
          (sample_locals 10 1 1) = .next m' (sample_locals 10 1 1) ∧ m'.err = 0 + 1
        ∧ (m'.frames 0).errorstr = some "Stack protection fault.")
      ↔ ((1 : Int) ≤ 1 ∧ (1 : Int) - 1 < 1)) :=
  (stack_protection_fault (sample_env code_if) (sample_machine sample_heap (try_frame true))
    (sample_locals 10 1 1) 1 rfl (by decide)).1

/-- C5 (counterexample to the parenthesis of the statement): `IF` on an empty
operand stack under a try-frame of depth 0.  The pop would take the operand
height below the depth (0 - 1 < 0), and the error raised is "Stack Underflow.",
not "Stack protection fault.". -/
theorem underflow_before_protection :
    (empty_under_try_frame.trys_top ≠ 0 ∧ empty_under_try_frame.try_depth = 0
      ∧ (0 : Int) - 1 < empty_under_try_frame.try_depth)
    ∧ ∃ m' l', dispatch (sample_env code_if) (sample_machine sample_heap empty_under_try_frame)
        (sample_locals 10 0 1) = .next m' l'
      ∧ m'.err = 1
      ∧ (m'.frames 0).errorstr = some "Stack Underflow."
      ∧ (m'.frames 0).errorstr ≠ some "Stack protection fault." := by
  refine ⟨by decide, _, _, rfl, ?_⟩
  decide

/-- The first loop of `watchpid_process` writes frames only: whatever does not
depend on the frames and on the calls made is as before. -/
theorem watchpid_waitees_field {α : Type} (e : env) (fp : Nat) (f : machine → α)
    (hf : ∀ (m : machine) (fr : Nat → frame) (o : List effect),
      f { m with frames := fr, out := o } = f m) :
    ∀ (pids : List Int) (m : machine), f (watchpid_waitees e fp pids m) = f m := by
  intro pids
  induction pids with
  | nil => intro m; rfl
  | cons cur next ih =>
    intro m
    simp only [watchpid_waitees]
    cases htq : e.timequeue_pid_frame cur with
    | none => simp only []; rw [ih]; exact hf m _ m.out
    | some k => simp only []; rw [ih]; exact hf m _ m.out

/-- The first loop of `watchpid_process` makes no call. -/
theorem watchpid_waitees_out (e : env) (fp : Nat) :
    ∀ (pids : List Int) (m : machine), (watchpid_waitees e fp pids m).out = m.out := by
  intro pids
  induction pids with
  | nil => intro m; rfl
  | cons cur next ih =>
    intro m
    simp only [watchpid_waitees]
    cases htq : e.timequeue_pid_frame cur with
    | none => simp only []; rw [ih]
    | some k => simp only []; rw [ih]

/-- The second loop of `watchpid_process` writes frames and posts events:
whatever does not depend on the frames and on the calls made is as before. -/
theorem watchpid_waiters_field {α : Type} (e : env) (fp : Nat) (f : machine → α)
    (hf : ∀ (m : machine) (fr : Nat → frame) (o : List effect),
      f { m with frames := fr, out := o } = f m) :
    ∀ (pids : List Int) (m : machine), f (watchpid_waiters e fp pids m) = f m := by
  intro pids
  induction pids with
  | nil => intro m; rfl
  | cons cur next ih =>
    intro m
    simp only [watchpid_waiters]
    cases htq : e.timequeue_pid_frame cur with
    | none => simp only []; rw [ih]; exact hf m _ m.out
    | some k => simp only []; rw [ih]; exact hf m _ _

/-- The function `watchpid_process` writes frames and posts events: whatever does
not depend on the frames and on the calls made is as before. -/
theorem watchpid_process_field {α : Type} (e : env) (fp : Nat) (f : machine → α)
    (hf : ∀ (m : machine) (fr : Nat → frame) (o : List effect),
      f { m with frames := fr, out := o } = f m) (m : machine) :
    f (watchpid_process e m fp) = f m := by
  unfold watchpid_process
  rw [watchpid_waiters_field e fp f hf, watchpid_waitees_field e fp f hf]

/-- The second loop of `watchpid_process` posts one event for every entry whose
frame is in the time queue, in the order of the list. -/
theorem watchpid_waiters_out (e : env) (fp : Nat) :
    ∀ (pids : List Int) (m : machine),
      (watchpid_waiters e fp pids m).out = m.out ++ exit_events e (m.frames fp).pid pids := by
  intro pids
  induction pids with
  | nil => intro m; simp [watchpid_waiters, exit_events]
  | cons cur next ih =>
    intro m
    simp only [watchpid_waiters]
    cases htq : e.timequeue_pid_frame cur with
    | none =>
      simp only []
      rw [ih]
      simp [exit_events, htq, setN]
    | some k =>
      simp only []
      rw [ih]
      by_cases hk : fp = k
      · simp [exit_events, htq, setN, hk]
      · simp [exit_events, htq, setN, hk]

/-- The frame handed to `prog_clean` is on the free list afterwards. -/
theorem prog_clean_on_free_list (e : env) (m : machine) (fp : Nat) :
    fp ∈ (prog_clean e m fp).free_frames_list := by
  unfold prog_clean
  by_cases hfree : fp ∈ m.free_frames_list
  · rw [if_pos hfree]; exact hfree
  · rw [if_neg hfree]; simp

/-- When the budget part lets the pass go on, it has counted the instruction on
the frame and changed nothing else but the count of the invocation. -/
theorem budget_next (e : env) (m m1 : machine) (l l1 : locals)
    (h : budget e m l = .next m1 l1) :
    m1 = set_frame m l.fr { (m.frames l.fr) with instcnt := (m.frames l.fr).instcnt + 1 }
      ∧ ∃ k, l1 = { l with instr_count := k } := by
  unfold budget at h
  simp only [abort_loop_hard] at h
  split at h
  · exact absurd h (by simp)
  · split at h
    · split at h
      · split at h
        · split at h
          · exact absurd h (by simp)
          · injection h with hm hl
            exact ⟨hm.symm, _, hl.symm⟩
        · injection h with hm hl
          exact ⟨hm.symm, _, hl.symm⟩
      · split at h
        · exact absurd h (by simp)
        · injection h with hm hl
          exact ⟨hm.symm, _, hl.symm⟩
    · split at h
      · exact absurd h (by simp)
      · injection h with hm hl
        exact ⟨hm.symm, _, hl.symm⟩

/-- When the debugger part lets the pass go on, it has written the debugger
state of the frame, the calls made and the register `i`, and nothing else. -/
theorem debugger_tick_next (e : env) (m m1 : machine) (l l1 : locals)
    (h : debugger_tick e m l = .next m1 l1) :
    m1 = { m with
            frames := setN m.frames l.fr { (m.frames l.fr) with brkpt := (m1.frames l.fr).brkpt },
            out := m1.out }
      ∧ l1 = { l with i := l1.i } := by
  unfold debugger_tick at h
  simp only [set_frame] at h
  split at h
  all_goals (try split at h)
  all_goals (try split at h)
  all_goals (try split at h)
  all_goals first
    | (cases h; done)
    | (injection h with h1 h2
       subst h1
       subst h2
       constructor <;> simp [setN_same])
/-- The clearing loop of `prog_clean`: the `n` slots from `i` up end CLEARED and
every other slot is as before. -/
theorem clear_up_spec (line : Int) :
    ∀ (n : Nat) (i : Int) (h : heap) (st : Int → inst),
      (∀ k, i ≤ k → k < i + n → ((clear_up line n i h st).2 k).type = .PROG_CLEARED)
      ∧ (∀ k, (k < i ∨ i + n ≤ k) → (clear_up line n i h st).2 k = st k) := by
  intro n
  induction n with
  | zero =>
    intro i h st
    refine ⟨fun k h1 h2 => ?_, fun k _ => rfl⟩
    simp at h2; omega
  | succ n ih =>
    intro i h st
    obtain ⟨ih1, ih2⟩ := ih (i + 1) (CLEAR h (st i) line).1 (setI st i (CLEAR h (st i) line).2)
    constructor
    · intro k h1 h2
      simp only [clear_up]
      by_cases hk : k = i
      · rw [ih2 k (Or.inl (by omega))]
        simp only [setI, hk, if_true, CLEAR]
        exact RCLEAR_type _ _ _ _
      · refine ih1 k (by omega) ?_
        push_cast at h2; omega
    · intro k hk
      simp only [clear_up]
      rw [ih2 k (by push_cast at hk; omega)]
      have hne : k ≠ i := by push_cast at hk; omega
      simp only [setI, hne, if_false]

/-- The first loop of `watchpid_process`, run on the list of waitees of the
frame, leaves that list empty. -/
theorem watchpid_waitees_empty (e : env) (fp : Nat) :
    ∀ (pids : List Int) (m : machine), (m.frames fp).waitees = pids →
      ((watchpid_waitees e fp pids m).frames fp).waitees = [] := by
  intro pids
  induction pids with
  | nil => intro m hm; exact hm
  | cons cur next ih =>
    intro m _
    simp only [watchpid_waitees]
    cases htq : e.timequeue_pid_frame cur with
    | none => exact ih _ (by simp only [setN_same])
    | some k =>
      refine ih _ ?_
      by_cases hk : fp = k
      · subst hk; simp only [setN_same]
      · simp only [setN, hk, if_false, if_true]

/-- The second loop of `watchpid_process`, run on the list of waiters of the
frame, leaves that list empty. -/
theorem watchpid_waiters_empty (e : env) (fp : Nat) :
    ∀ (pids : List Int) (m : machine), (m.frames fp).waiters = pids →
      ((watchpid_waiters e fp pids m).frames fp).waiters = [] := by
  intro pids
  induction pids with
  | nil => intro m hm; exact hm
  | cons cur next ih =>
    intro m _
    simp only [watchpid_waiters]
    cases htq : e.timequeue_pid_frame cur with
    | none => exact ih _ (by simp only [setN_same])
    | some k =>
      refine ih _ ?_
      by_cases hk : fp = k
      · subst hk; simp only [setN_same]
      · simp only [setN, hk, if_false, if_true]

/-- The second loop of `watchpid_process` keeps an empty list of waitees of the
frame empty. -/
theorem watchpid_waiters_waitees (e : env) (fp : Nat) :
    ∀ (pids : List Int) (m : machine), (m.frames fp).waitees = [] →
      ((watchpid_waiters e fp pids m).frames fp).waitees = [] := by
  intro pids
  induction pids with
  | nil => intro m hm; exact hm
  | cons cur next ih =>
    intro m hm
    simp only [watchpid_waiters]
    cases htq : e.timequeue_pid_frame cur with
    | none => exact ih _ (by simp only [setN_same]; exact hm)
    | some k =>
      refine ih _ ?_
      by_cases hk : fp = k
      · subst hk; simp only [setN_same, hm, unlink_pid]
      · simp only [setN, hk, if_false, if_true]; exact hm

/-- After `watchpid_process` the frame has no waiters and no waitees. -/
theorem watchpid_process_empty (e : env) (m : machine) (fp : Nat) :
    ((watchpid_process e m fp).frames fp).waiters = []
      ∧ ((watchpid_process e m fp).frames fp).waitees = [] := by
  unfold watchpid_process
  exact ⟨watchpid_waiters_empty e fp _ _ rfl,
    watchpid_waiters_waitees e fp _ _ (watchpid_waitees_empty e fp _ m rfl)⟩
/-- C18: `prog_clean` on a frame that is on the free list returns at once: the
machine is as before but for the warning written to the status log (the free
list, the pools, the frames, the heap and the error flag are unchanged and no
event is posted).  So a second `prog_clean` of a frame adds nothing but that
warning to the state the first one left, and a free list without repetitions
stays without repetitions. -/
theorem prog_clean_double_free (e : env) (m : machine) (fp : Nat) :
    (fp ∈ m.free_frames_list →
      prog_clean e m fp = { m with out := m.out ++ [.log_status
        "WARNING: prog_clean(): tried to free an already freed program frame !  Ignored."] })
    ∧ prog_clean e (prog_clean e m fp) fp
        = { prog_clean e m fp with out := (prog_clean e m fp).out ++ [.log_status
            "WARNING: prog_clean(): tried to free an already freed program frame !  Ignored."] }
    ∧ (m.free_frames_list.Nodup → (prog_clean e m fp).free_frames_list.Nodup) := by
  have h1 : ∀ (m0 : machine), fp ∈ m0.free_frames_list →
      prog_clean e m0 fp = { m0 with out := m0.out ++ [.log_status
        "WARNING: prog_clean(): tried to free an already freed program frame !  Ignored."] } := by
    intro m0 h0
    unfold prog_clean
    rw [if_pos h0]
  refine ⟨h1 m, h1 _ (prog_clean_on_free_list e m fp), ?_⟩
  intro hnd
  by_cases hfree : fp ∈ m.free_frames_list
  · rw [h1 m hfree]; exact hnd
  · unfold prog_clean
    rw [if_neg hfree]
    simp only []
    rw [watchpid_process_field e fp (fun x => x.free_frames_list) (fun _ _ _ => rfl) m]
    exact List.nodup_cons.mpr ⟨hfree, hnd⟩

/-- The double free of C18 on the sample machine with frame 0 on the free list. -/
theorem prog_clean_double_free_witness :
    prog_clean (sample_env (code_primitive 100))
        { sample_machine sample_heap sample_frame with free_frames_list := [0] } 0
      = { sample_machine sample_heap sample_frame with
            free_frames_list := [0],
            out := [.log_status
              "WARNING: prog_clean(): tried to free an already freed program frame !  Ignored."] }
      ∧ ([0] : List Nat).Nodup :=
  ⟨(prog_clean_double_free (sample_env (code_primitive 100))
      { sample_machine sample_heap sample_frame with free_frames_list := [0] } 0).1 (by decide),
    by decide⟩
/-- C19: after `prog_clean` of a frame that is not on the free list, the frame
is the head of the free list, its operand and system heights are 0, every
operand slot that was in use and every one of the `MAX_VAR` global slots is
CLEARED, its program-local list, scoped stack, for stack and try stack are
empty, it has no waiters and no waitees, and its `pc` is null. -/
theorem prog_clean_cleans (e : env) (m : machine) (fp : Nat)
    (hlive : fp ∉ m.free_frames_list) :
    (prog_clean e m fp).free_frames_list = fp :: m.free_frames_list
    ∧ ((prog_clean e m fp).frames fp).argument_top = 0
    ∧ ((prog_clean e m fp).frames fp).system_top = 0
    ∧ (∀ i, 0 ≤ i → i < (m.frames fp).argument_top →
        (((prog_clean e m fp).frames fp).argument_st i).type = .PROG_CLEARED)
    ∧ (∀ i, 0 ≤ i → i < e.MAX_VAR →
        (((prog_clean e m fp).frames fp).variables_ i).type = .PROG_CLEARED)
    ∧ ((prog_clean e m fp).frames fp).lvars = []
    ∧ ((prog_clean e m fp).frames fp).svars = []
    ∧ ((prog_clean e m fp).frames fp).fors_st = []
    ∧ ((prog_clean e m fp).frames fp).trys_st = []
    ∧ ((prog_clean e m fp).frames fp).waiters = []
    ∧ ((prog_clean e m fp).frames fp).waitees = []
    ∧ ((prog_clean e m fp).frames fp).pc = 0 := by
  obtain ⟨hw1, hw2⟩ := watchpid_process_empty e m fp
  have htop : ((watchpid_process e m fp).frames fp).argument_top = (m.frames fp).argument_top :=
    watchpid_process_keeps e fp (fun f => f.argument_top = (m.frames fp).argument_top)
      (fun _ _ hf => hf) (fun _ _ hf => hf) m fp rfl
  unfold prog_clean
  rw [if_neg hlive]
  simp only [setN_same]
  refine ⟨?_, trivial, trivial, ?_, ?_, trivial, trivial, trivial, trivial, hw1, hw2, trivial⟩
  · rw [watchpid_process_field e fp (fun x => x.free_frames_list) (fun _ _ _ => rfl) m]
  · intro i h0 h1
    refine (clear_up_spec 791 _ 0 _ _).1 i h0 ?_
    rw [htop]
    omega
  · intro i h0 h1
    refine (clear_up_spec 802 _ 0 _ _).1 i h0 ?_
    omega

/-- The cleaning of C19 on the sample machine, whose frame 0 is live. -/
theorem prog_clean_cleans_witness :
    0 ∉ (sample_machine sample_heap sample_frame).free_frames_list
    ∧ (prog_clean (sample_env (code_primitive 100)) (sample_machine sample_heap sample_frame)
        0).free_frames_list = [0]
    ∧ ((prog_clean (sample_env (code_primitive 100)) (sample_machine sample_heap sample_frame)
        0).frames 0).pc = 0 :=
  have h := prog_clean_cleans (sample_env (code_primitive 100))
    (sample_machine sample_heap sample_frame) 0 (by decide)
  ⟨by decide, h.1, h.2.2.2.2.2.2.2.2.2.2.2⟩
/-- The first loop of `watchpid_process` when no entry names the frame itself:
every other frame loses, once for each entry that names it, its first waiter
entry for the pid of the frame, and nothing else changes on it; the frame keeps
its list of waiters. -/
theorem watchpid_waitees_others (e : env) (fp : Nat) :
    ∀ (pids : List Int) (m : machine), (∀ p ∈ pids, e.timequeue_pid_frame p ≠ some fp) →
      ((watchpid_waitees e fp pids m).frames fp).waiters = (m.frames fp).waiters
      ∧ ((watchpid_waitees e fp pids m).frames fp).pid = (m.frames fp).pid
      ∧ ∀ g, g ≠ fp → (watchpid_waitees e fp pids m).frames g
          = { (m.frames g) with
                waiters := (unlink_pid (m.frames fp).pid)^[entries_for e pids g]
                  (m.frames g).waiters } := by
  intro pids
  induction pids with
  | nil => intro m _; exact ⟨rfl, rfl, fun g _ => rfl⟩
  | cons cur next ih =>
    intro m hp
    have hnext : ∀ p ∈ next, e.timequeue_pid_frame p ≠ some fp :=
      fun p hin => hp p (List.mem_cons_of_mem _ hin)
    simp only [watchpid_waitees]
    cases htq : e.timequeue_pid_frame cur with
    | none =>
      simp only []
      refine ⟨?_, ?_, fun g hg => ?_⟩
      · rw [(ih _ hnext).1]; simp only [setN_same]
      · rw [(ih _ hnext).2.1]; simp only [setN_same]
      · rw [(ih _ hnext).2.2 g hg]
        simp [setN, hg, entries_for, List.filter_cons, htq]
    | some k =>
      have hk : k ≠ fp := fun hx => hp cur (List.mem_cons_self _ _) (by rw [htq, hx])
      have hk2 : fp ≠ k := fun hx => hk hx.symm
      simp only []
      refine ⟨?_, ?_, fun g hg => ?_⟩
      · rw [(ih _ hnext).1]; simp only [setN, hk, hk2, if_false, if_true]
      · rw [(ih _ hnext).2.1]; simp only [setN, hk, hk2, if_false, if_true]
      · rw [(ih _ hnext).2.2 g hg]
        by_cases hgk : g = k
        · subst hgk
          simp [setN, hg, hk2, entries_for, List.filter_cons, htq]
        · have hkg : k ≠ g := fun hx => hgk hx.symm
          simp [setN, hg, hgk, hkg, hk2, entries_for, List.filter_cons, htq]

/-- The second loop of `watchpid_process` when no entry names the frame itself:
every other frame loses, once for each entry that names it, its first waitee
entry for the pid of the frame, and nothing else changes on it. -/
theorem watchpid_waiters_others (e : env) (fp : Nat) :
    ∀ (pids : List Int) (m : machine), (∀ p ∈ pids, e.timequeue_pid_frame p ≠ some fp) →
      ∀ g, g ≠ fp → (watchpid_waiters e fp pids m).frames g
          = { (m.frames g) with
                waitees := (unlink_pid (m.frames fp).pid)^[entries_for e pids g]
                  (m.frames g).waitees } := by
  intro pids
  induction pids with
  | nil => intro m _ g _; rfl
  | cons cur next ih =>
    intro m hp
    have hnext : ∀ p ∈ next, e.timequeue_pid_frame p ≠ some fp :=
      fun p hin => hp p (List.mem_cons_of_mem _ hin)
    simp only [watchpid_waiters]
    cases htq : e.timequeue_pid_frame cur with
    | none =>
      intro g hg
      simp only []
      rw [ih _ hnext g hg]
      simp [setN, hg, entries_for, List.filter_cons, htq]
    | some k =>
      have hk : k ≠ fp := fun hx => hp cur (List.mem_cons_self _ _) (by rw [htq, hx])
      have hk2 : fp ≠ k := fun hx => hk hx.symm
      intro g hg
      simp only []
      rw [ih _ hnext g hg]
      by_cases hgk : g = k
      · subst hgk
        simp [setN, hg, hk2, entries_for, List.filter_cons, htq]
      · have hkg : k ≠ g := fun hx => hgk hx.symm
        simp [setN, hg, hgk, hkg, hk2, entries_for, List.filter_cons, htq]
/-- C20: the exit of a process, `watchpid_process` on its frame, when the entries
of its two lists name frames other than its own.  The calls made are the ones
made before followed by one event `PROC.EXIT.<pid>`, carrying the integer pid,
for every entry of the list of waiters whose frame is in the time queue, posted
to that frame: no event comes from the list of waitees and none goes to a frame
that no waiter entry names.  Every other frame loses its first waitee entry for
the pid once for each waiter entry that names it, and its first waiter entry
for the pid once for each waitee entry that names it, and is otherwise as
before.  The frame ends with both lists empty, and `prog_clean` of a frame that
is not on the free list makes these calls before its own. -/
theorem exit_notification (e : env) (m : machine) (fp : Nat)
    (hother : ∀ p ∈ (m.frames fp).waitees ++ (m.frames fp).waiters,
      e.timequeue_pid_frame p ≠ some fp) :
    (watchpid_process e m fp).out
        = m.out ++ exit_events e (m.frames fp).pid (m.frames fp).waiters
    ∧ (∀ g, g ≠ fp → (watchpid_process e m fp).frames g
        = { (m.frames g) with
              waitees := (unlink_pid (m.frames fp).pid)^[entries_for e (m.frames fp).waiters g]
                (m.frames g).waitees,
              waiters := (unlink_pid (m.frames fp).pid)^[entries_for e (m.frames fp).waitees g]
                (m.frames g).waiters })
    ∧ ((watchpid_process e m fp).frames fp).waiters = []
    ∧ ((watchpid_process e m fp).frames fp).waitees = []
    ∧ (fp ∉ m.free_frames_list → ∃ rest, (prog_clean e m fp).out
        = m.out ++ exit_events e (m.frames fp).pid (m.frames fp).waiters ++ rest) := by
  have hE : ∀ p ∈ (m.frames fp).waitees, e.timequeue_pid_frame p ≠ some fp :=
    fun p hp => hother p (List.mem_append_left _ hp)
  have hW : ∀ p ∈ (m.frames fp).waiters, e.timequeue_pid_frame p ≠ some fp :=
    fun p hp => hother p (List.mem_append_right _ hp)
  obtain ⟨h1, h2, h3⟩ := watchpid_waitees_others e fp (m.frames fp).waitees m hE
  obtain ⟨he1, he2⟩ := watchpid_process_empty e m fp
  have hout : (watchpid_process e m fp).out
      = m.out ++ exit_events e (m.frames fp).pid (m.frames fp).waiters := by
    unfold watchpid_process
    simp only []
    rw [watchpid_waiters_out, watchpid_waitees_out, h1, h2]
  refine ⟨hout, ?_, he1, he2, ?_⟩
  · intro g hg
    unfold watchpid_process
    simp only []
    rw [h1, watchpid_waiters_others e fp _ _ hW g hg, h2, h3 g hg]
  · intro hlive
    unfold prog_clean
    rw [if_neg hlive]
    simp only []
    rw [hout]
    simp only [List.append_assoc]
    exact ⟨_, rfl⟩

/-- The exit of process 7 of the two-process machine: process 8 is sent one
event and forgets process 7; the entry for process 9, which has no frame, and
the entry of the list of waitees send nothing. -/
theorem exit_notification_witness :
    (∀ p ∈ (watch_machine.frames 0).waitees ++ (watch_machine.frames 0).waiters,
      watch_env.timequeue_pid_frame p ≠ some 0)
    ∧ (watchpid_process watch_env watch_machine 0).out
        = [.muf_event_add 1 "PROC.EXIT.7" { line := 0, data := .PROG_INTEGER 7 }]
    ∧ ((watchpid_process watch_env watch_machine 0).frames 1).waitees = []
    ∧ ((watchpid_process watch_env watch_machine 0).frames 1).waiters = []
    ∧ ((watchpid_process watch_env watch_machine 0).frames 0).waiters = [] :=
  have h := exit_notification watch_env watch_machine 0 (by decide)
  ⟨by decide, h.1.trans (by decide), (congrArg frame.waitees (h.2.1 1 (by decide))).trans (by decide),
    (congrArg frame.waiters (h.2.1 1 (by decide))).trans (by decide), h.2.2.1⟩

/-- The frame after a `PROG_TRY` that succeeds: one try-frame more, the operand
popped cleared, and nothing else changed. -/
theorem exec_TRY_frame (e : env) (m : machine) (l : locals) (call : Nat) (N : Int)
    (h1 : 1 ≤ l.atop) (h2 : try_protect (m.frames l.fr) l.atop 1 = false)
    (hN : ((m.frames l.fr).argument_st (l.atop - 1)).data = .PROG_INTEGER N)
    (h3 : 0 ≤ N) (h4 : try_protect (m.frames l.fr) (l.atop - 1) N = false)
    (h5 : N ≤ l.atop - 1) :
    ∃ m', exec_TRY e m l call = .next m' { l with atop := l.atop - 1, pc := l.pc + 1 }
      ∧ m'.err = m.err
      ∧ m'.frames l.fr
          = { (m.frames l.fr) with
                trys_top := (m.frames l.fr).trys_top + 1,
                trys_st := { depth := l.atop - 1 - N, call_level := l.stop, for_count := 0,
                             addr := call } :: (m.frames l.fr).trys_st,
                argument_st := setI (m.frames l.fr).argument_st (l.atop - 1)
                  (CLEAR m.mem ((m.frames l.fr).argument_st (l.atop - 1)) 1411).2 } := by
  have h1' : ¬ l.atop < 1 := by omega
  have h3' : ¬ N < 0 := by omega
  have h5' : ¬ N > l.atop - 1 := by omega
  simp only [exec_TRY, h1', if_false, h2, Bool.false_eq_true, hN, h3', h4, h5']
  refine ⟨_, rfl, ?_, ?_⟩
  · simp [CLEAR_arg]
  · cases hp : m.try_pool <;> simp [CLEAR_arg, setN, push_try, hp]

/-- The primitive `IN_CATCH` under a try-frame whose depth is within the operand
stack and whose for-frames are on the for stack: the operands above the depth
are cleared, the try-frame is popped, and the error string of the frame, the
null string when there is none, is pushed at the depth. -/
theorem exec_CATCH_spec (e : env) (m : machine) (l : locals) (t : tryvars)
    (rest : List tryvars)
    (htop : (m.frames l.fr).trys_top ≠ 0)
    (hst : (m.frames l.fr).trys_st = t :: rest)
    (hH : t.depth ≤ l.atop)
    (hfor : t.for_count.toNat ≤ (m.frames l.fr).fors_st.length) :
    ∃ m', exec_CATCH e m l false
        = .next m' { l with atop := t.depth + 1, pc := l.pc + 1 }
      ∧ (m'.frames l.fr).trys_st = rest
      ∧ (m'.frames l.fr).trys_top = (m.frames l.fr).trys_top - 1
      ∧ (∀ k, t.depth < k → k < l.atop →
          ((m'.frames l.fr).argument_st k).type = .PROG_CLEARED)
      ∧ (∀ k, k < t.depth →
          (m'.frames l.fr).argument_st k = (m.frames l.fr).argument_st k)
      ∧ (∀ k, l.atop ≤ k → k ≠ t.depth →
          (m'.frames l.fr).argument_st k = (m.frames l.fr).argument_st k)
      ∧ ((m.frames l.fr).errorstr = none →
          ((m'.frames l.fr).argument_st t.depth).data = .PROG_STRING none)
      ∧ m'.err = m.err := by
  have hdepth : (m.frames l.fr).try_depth = t.depth := by simp [frame.try_depth, hst]
  have hatop : (if l.atop > t.depth then t.depth else l.atop) = t.depth := by
    split <;> omega
  obtain ⟨hc1, hc2⟩ := clear_above_spec (l.atop - t.depth).toNat l.atop m.mem
    (m.frames l.fr).argument_st
  have hnat : ((l.atop - t.depth).toNat : Int) = l.atop - t.depth :=
    Int.toNat_of_nonneg (by omega)
  obtain ⟨m2, h0, h1, h2, h3, h4⟩ := catch_fors_spec t.for_count.toNat
    { m with
        mem := (clear_above (l.atop - t.depth).toNat l.atop m.mem (m.frames l.fr).argument_st).1,
        frames := setN m.frames l.fr
          { (m.frames l.fr) with
              argument_st :=
                (clear_above (l.atop - t.depth).toNat l.atop m.mem
                  (m.frames l.fr).argument_st).2 } }
    l.fr (by simp only [setN_same]; exact hfor)
  simp only [setN_same] at h1
  dsimp only at h0 h2 h3 h4
  simp only [hst] at h0 h1
  simp only [exec_CATCH, htop, if_false, hdepth, hst, hatop, reload]
  rw [h0]
  simp only [h1, setN_same, pop_try]
  refine ⟨_, rfl, ?_, ?_, ?_, ?_, ?_, ?_, ?_⟩
  · simp [setN_same]
  · simp [setN_same]
  · intro k hk1 hk2
    have hne : k ≠ t.depth := by omega
    simp only [setN_same, setI, hne, if_false]
    exact hc1 k (by omega) hk2
  · intro k hk
    have hne : k ≠ t.depth := by omega
    simp only [setN_same, setI, hne, if_false]
    exact hc2 k (Or.inl (by omega))
  · intro k hk hne
    simp only [setN_same, setI, hne, if_false]
    exact hc2 k (Or.inr hk)
  · intro herr
    simp [setN_same, setI, herr]
  · cases (m.frames l.fr).errorstr <;> simp [h4]
/-- C14, the claim as given fails for `N = 1`: on the operand stack `[5, 1]`,
`TRY` pops the 1 and leaves height 1, and the `CATCH` that follows at once
leaves height 1 again, not 2: it has cleared the operand 5, which lay above the
depth 0 of the try-frame, and put the null string in its place. -/
theorem try_catch_clears_arguments :
    ∃ m1 l1 m2 l2,
      dispatch (sample_env code_try_catch) (sample_machine sample_heap (try_catch_frame 1))
          (sample_locals 10 2 1) = .next m1 l1
      ∧ dispatch (sample_env code_try_catch) m1 l1 = .next m2 l2
      ∧ l1.atop = 1 ∧ l2.atop = 1
      ∧ ((m2.frames 0).argument_st 0).data = .PROG_STRING none :=
  ⟨_, _, _, _, rfl, rfl, by decide, by decide, by decide⟩

/-- C14, amended: `PROG_TRY` on a valid operand `N` (an integer from 0 to the
operand height under it that passes the protection tests), followed at once by
`IN_CATCH`, with no error string on the frame.  Both instructions succeed; the
`N` operands above the depth of the try-frame and the popped `N` are cleared,
the operands below that depth are untouched, the null string is pushed at that
depth, and the operand height ends at (height under the popped `N`) - `N` + 1:
the height is unchanged apart from the pushed value only for `N = 0`.  The try
stack is as before the `TRY` and the system height has not moved. -/
theorem try_catch_empty_body (e : env) (m : machine) (l : locals) (call : Nat) (N : Int)
    (htry : (e.code l.pc).data = .PROG_TRY call)
    (hcatch : (e.code (l.pc + 1)).data = .PROG_PRIMITIVE IN_CATCH)
    (h1 : 1 ≤ l.atop) (h2 : try_protect (m.frames l.fr) l.atop 1 = false)
    (hN : ((m.frames l.fr).argument_st (l.atop - 1)).data = .PROG_INTEGER N)
    (h3 : 0 ≤ N) (h4 : try_protect (m.frames l.fr) (l.atop - 1) N = false)
    (h5 : N ≤ l.atop - 1)
    (htop : 0 ≤ (m.frames l.fr).trys_top)
    (herr : (m.frames l.fr).errorstr = none) :
    ∃ m1 m2,
      dispatch e m l = .next m1 { l with atop := l.atop - 1, pc := l.pc + 1 }
      ∧ dispatch e m1 { l with atop := l.atop - 1, pc := l.pc + 1 }
          = .next m2 { l with atop := l.atop - 1 - N + 1, pc := l.pc + 1 + 1 }
      ∧ ((m2.frames l.fr).argument_st (l.atop - 1 - N)).data = .PROG_STRING none
      ∧ (∀ k, k < l.atop - 1 - N →
          (m2.frames l.fr).argument_st k = (m.frames l.fr).argument_st k)
      ∧ (∀ k, l.atop - 1 - N < k → k < l.atop →
          ((m2.frames l.fr).argument_st k).type = .PROG_CLEARED)
      ∧ (m2.frames l.fr).trys_st = (m.frames l.fr).trys_st
      ∧ (m2.frames l.fr).trys_top = (m.frames l.fr).trys_top
      ∧ m2.err = m.err := by
  have hd1 : dispatch e m l = exec_TRY e m l call := by
    simp only [dispatch, htry]
  have hd2 : ∀ (m' : machine) (l' : locals), l'.pc = l.pc + 1 →
      dispatch e m' l' = exec_CATCH e m' l' false := by
    intro m' l' hpc
    simp only [dispatch, hpc, hcatch]
    rfl
  obtain ⟨m1, ht, herr1, hfr⟩ := exec_TRY_frame e m l call N h1 h2 hN h3 h4 h5
  have hfr1 : m1.frames ({ l with atop := l.atop - 1, pc := l.pc + 1 } : locals).fr
      = m1.frames l.fr := rfl
  obtain ⟨m2, hc, hst, htp, hcl, hkeep, hout, hstr, herr2⟩ := exec_CATCH_spec e m1
    { l with atop := l.atop - 1, pc := l.pc + 1 }
    { depth := l.atop - 1 - N, call_level := l.stop, for_count := 0, addr := call }
    (m.frames l.fr).trys_st
    (by rw [hfr1, hfr]; simp only []; omega)
    (by rw [hfr1, hfr])
    (by simp only []; omega)
    (by simp)
  refine ⟨m1, m2, hd1.trans ht, (hd2 _ _ rfl).trans hc, ?_, ?_, ?_, hst, ?_, herr2.trans herr1⟩
  · exact hstr (by rw [hfr1, hfr]; exact herr)
  · intro k hk
    rw [hkeep k hk, hfr1, hfr]
    have hne : k ≠ l.atop - 1 := by omega
    simp only [setI, hne, if_false]
  · intro k hk1 hk2
    by_cases hk : k = l.atop - 1
    · rw [hout k (by simp only []; omega) (by simp only []; omega), hfr1, hfr]
      simp only [setI, hk, if_true, CLEAR]
      exact RCLEAR_type _ _ _ _
    · exact hcl k hk1 (by simp only []; omega)
  · rw [htp, hfr1, hfr]
    simp only []
    omega

/-- The empty try body of C14 on the operand stack `[5, 1]`: `N` is 1, and the
height ends at 2 - 1 - 1 + 1 = 1 with the null string on top. -/
theorem try_catch_empty_body_witness :
    ∃ m1 m2,
      dispatch (sample_env code_try_catch) (sample_machine sample_heap (try_catch_frame 1))
          (sample_locals 10 2 1) = .next m1 { sample_locals 10 2 1 with atop := 1, pc := 11 }
      ∧ dispatch (sample_env code_try_catch) m1 { sample_locals 10 2 1 with atop := 1, pc := 11 }
          = .next m2 { sample_locals 10 2 1 with atop := 1, pc := 12 }
      ∧ ((m2.frames 0).argument_st 0).data = .PROG_STRING none :=
  (try_catch_empty_body (sample_env code_try_catch)
    (sample_machine sample_heap (try_catch_frame 1)) (sample_locals 10 2 1) 20 1 rfl rfl
    (by decide) (by decide) rfl (by decide) (by decide) (by decide) (by decide) rfl).imp
    fun _ h1 => h1.imp fun _ h2 => ⟨h2.1, h2.2.1, h2.2.2.1⟩

/-- When the macro `abort_loop` lets the pass go on, a try-frame is in place, the
registers are as before and the error flag has been raised. -/
theorem abort_loop_next (e : env) (m m' : machine) (l l' : locals) (S : String)
    (C1 C2 : Option Int) (h : abort_loop e m l S C1 C2 = .next m' l') :
    (m.frames l.fr).trys_top ≠ 0 ∧ l' = l ∧ m'.err = m.err + 1 := by
  by_cases ht : (m.frames l.fr).trys_top = 0
  · obtain ⟨m2, h2⟩ := abort_loop_uncaught e m l S C1 C2 ht
    rw [h2] at h
    cases h
  · obtain ⟨m2, h2, herr, _⟩ := abort_loop_caught e m l S C1 C2 ht
    rw [h2] at h
    injection h with hm hl
    subst hm
    exact ⟨ht, hl.symm, herr⟩

/-- The clear of an operand that is no address leaves the programs alone. -/
theorem CLEAR_arg_progs (m : machine) (fp : Nat) (k line : Int)
    (h : ∀ a, ((m.frames fp).argument_st k).data ≠ .PROG_ADD a) :
    (CLEAR_arg m fp k line).mem.progs = m.mem.progs := by
  simp only [CLEAR_arg, CLEAR, RCLEAR]
  cases hd : ((m.frames fp).argument_st k).data with
  | PROG_ADD a => exact absurd hd (h a)
  | PROG_STRING s => cases s <;> rfl
  | PROG_ARRAY a => cases a <;> rfl
  | _ => rfl

/-- The clear of an operand writes that operand and nothing else of the frame. -/
theorem CLEAR_arg_frame (m : machine) (fp : Nat) (k line : Int) :
    (CLEAR_arg m fp k line).frames fp
      = { (m.frames fp) with
            argument_st := setI (m.frames fp).argument_st k
              (CLEAR m.mem ((m.frames fp).argument_st k) line).2 }
    ∧ (CLEAR_arg m fp k line).err = m.err := by
  simp only [CLEAR_arg, setN_same, and_self]
/-- The end of `IN_CALL`: the system height goes up by one; a target other than
the running program is pushed on the caller chain, gets one instance more and
gives its level to `mlev`, while for the running program none of this happens;
the operands `temp1`, an object, and `temp2`, a string, are cleared. -/
theorem exec_CALL_enter_spec (e : env) (m : machine) (l : locals) (objref : Int) (pc : Nat)
    (temp1 : Int) (temp2 : Option Int)
    (h1 : ((m.frames l.fr).argument_st temp1).data = .PROG_OBJECT objref)
    (h2 : ∀ t2, temp2 = some t2 →
      t2 ≠ temp1 ∧ ∃ s, ((m.frames l.fr).argument_st t2).data = .PROG_STRING s) :
    ∃ m' l', exec_CALL_enter e m l objref pc temp1 temp2 = .next m' l'
      ∧ m'.err = m.err ∧ l'.stop = l.stop + 1 ∧ l'.pc = pc ∧ l'.program = objref
      ∧ l'.atop = l.atop
      ∧ (m'.frames l.fr).system_st = (m.frames l.fr).system_st
      ∧ (objref ≠ l.program →
          (m'.frames l.fr).caller_top = (m.frames l.fr).caller_top + 1
          ∧ (m'.frames l.fr).caller_st
              = setI (m.frames l.fr).caller_st ((m.frames l.fr).caller_top + 1) objref
          ∧ l'.mlev = e.ProgMLevel
              { (m.frames l.fr) with
                  caller_top := (m.frames l.fr).caller_top + 1,
                  caller_st := setI (m.frames l.fr).caller_st ((m.frames l.fr).caller_top + 1)
                    objref } objref
          ∧ ∀ x, (m'.mem.progs x).instances
              = (m.mem.progs x).instances + (if x = objref then 1 else 0))
      ∧ (objref = l.program →
          (m'.frames l.fr).caller_top = (m.frames l.fr).caller_top
          ∧ (m'.frames l.fr).caller_st = (m.frames l.fr).caller_st
          ∧ l'.mlev = l.mlev
          ∧ ∀ x, (m'.mem.progs x).instances = (m.mem.progs x).instances) := by
  by_cases hcross : objref = l.program
  · cases temp2 with
    | none =>
      refine ⟨_, _, rfl, ?_, ?_, ?_, ?_, ?_, ?_, fun hx => absurd hcross hx, fun _ => ?_⟩
      all_goals
        simp [hcross, CLEAR_arg, CLEAR, RCLEAR, h1, setN, setI, PROGRAM_INC_PROF_USES]
      intro x
      split <;> simp_all
    | some t2 =>
      obtain ⟨hne, s, hs⟩ := h2 t2 rfl
      refine ⟨_, _, rfl, ?_, ?_, ?_, ?_, ?_, ?_, fun hx => absurd hcross hx, fun _ => ?_⟩
      all_goals
        cases s <;>
          simp [hcross, CLEAR_arg, CLEAR, RCLEAR, h1, hs, hne, setN, setI, PROGRAM_INC_PROF_USES]
      all_goals
        intro x
        split <;> simp_all
  · cases temp2 with
    | none =>
      refine ⟨_, _, rfl, ?_, ?_, ?_, ?_, ?_, ?_, fun _ => ?_, fun hx => absurd hx hcross⟩
      all_goals
        simp [hcross, CLEAR_arg, CLEAR, RCLEAR, h1, setN, setI, PROGRAM_INC_PROF_USES,
          PROGRAM_INC_INSTANCES]
      intro x
      split <;> simp_all
    | some t2 =>
      obtain ⟨hne, s, hs⟩ := h2 t2 rfl
      refine ⟨_, _, rfl, ?_, ?_, ?_, ?_, ?_, ?_, fun _ => ?_, fun hx => absurd hx hcross⟩
      all_goals
        cases s <;>
          simp [hcross, CLEAR_arg, CLEAR, RCLEAR, h1, hs, hne, setN, setI, PROGRAM_INC_PROF_USES,
            PROGRAM_INC_INSTANCES]
      all_goals
        intro x
        split <;> simp_all
/-- The end of `IN_CALL` after the return address has been stored. -/
theorem exec_CALL_enter_entered (e : env) (m m' : machine) (l l' : locals) (objref : Int)
    (H : heap) (pc : Nat) (temp1 : Int) (temp2 : Option Int)
    (hd : ((m.frames l.fr).argument_st temp1).data = .PROG_OBJECT objref)
    (hs : ∀ t2, temp2 = some t2 →
      t2 ≠ temp1 ∧ ∃ s, ((m.frames l.fr).argument_st t2).data = .PROG_STRING s)
    (hx : exec_CALL_enter e
        (set_frame { m with mem := H } l.fr
          { (m.frames l.fr) with
              system_st := setI (m.frames l.fr).system_st l.stop
                { progref := l.program, offset := l.pc + 1 } })
        l objref pc temp1 temp2 = .next m' l') :
    call_entered e m m' l l' objref H := by
  obtain ⟨m2, l2, heq, _, p1, _, p3, p4, p5, p6, p7⟩ :=
    exec_CALL_enter_spec e
      (set_frame { m with mem := H } l.fr
        { (m.frames l.fr) with
            system_st := setI (m.frames l.fr).system_st l.stop
              { progref := l.program, offset := l.pc + 1 } })
      l objref pc temp1 temp2
      (by simp only [set_frame, setN_same]; exact hd)
      (by
        intro t2 ht2
        simp only [set_frame, setN_same]
        exact hs t2 ht2)
  rw [heq] at hx
  injection hx with hm hl
  subst hm
  subst hl
  simp only [set_frame, setN_same] at p5 p6 p7
  exact ⟨p1, p3, p4, p5, p6, p7⟩

/-- A CALL that succeeds, from the test of the target on: the target is a
program and the call has been entered. -/
theorem exec_CALL_body_success (e : env) (m m' : machine) (l l' : locals) (temp1 : Int)
    (temp2 : Option Int)
    (h : exec_CALL_body e m l temp1 temp2 = .next m' l') (herr : m'.err = m.err)
    (h2 : ∀ t2, temp2 = some t2 → t2 ≠ temp1) :
    ∃ objref, ((m.frames l.fr).argument_st temp1).data = .PROG_OBJECT objref
      ∧ e.Typeof objref = .TYPE_PROGRAM
      ∧ call_entered e m m' l l' objref
          (if (m.mem.progs objref).code = 0 then compile_program e m.mem objref else m.mem) := by
  have habort : ∀ (m0 : machine) (S : String) (C1 C2 : Option Int), m0.err = m.err →
      abort_loop e m0 l S C1 C2 ≠ .next m' l' := by
    intro m0 S C1 C2 h0 hx
    have := (abort_loop_next e m0 m' l l' S C1 C2 hx).2.2
    omega
  cases hd : ((m.frames l.fr).argument_st temp1).data
  case PROG_OBJECT objref =>
    simp only [exec_CALL_body, hd] at h
    refine ⟨objref, rfl, ?_⟩
    generalize (if (m.mem.progs objref).code = 0 then compile_program e m.mem objref
      else m.mem) = H at h ⊢
    split at h
    · exact absurd h (habort _ _ _ _ rfl)
    · rename_i hvalid
      have htype : e.Typeof objref = .TYPE_PROGRAM := by
        simp only [Bool.or_eq_true, Bool.not_eq_true', bne_iff_ne, ne_eq,
          not_or, Decidable.not_not] at hvalid
        exact hvalid.2
      split at h
      · exact absurd h (habort _ _ _ _ rfl)
      · split at h
        · exact absurd h (habort _ _ _ _ rfl)
        · split at h
          · exact absurd h (habort _ _ _ _ rfl)
          · split at h
            · exact absurd h (habort _ _ _ _ rfl)
            · cases temp2 with
              | none =>
                simp only [] at h
                exact ⟨htype,
                  exec_CALL_enter_entered e m m' l l' objref H _ temp1 none hd
                    (fun t2 ht2 => by cases ht2) h⟩
              | some t2 =>
                simp only [] at h
                split at h
                · rename_i s hs
                  split at h
                  · exact absurd h (habort _ _ _ _ rfl)
                  · split at h
                    · exact absurd h (habort _ _ _ _ rfl)
                    · refine ⟨htype,
                        exec_CALL_enter_entered e m m' l l' objref H _ temp1 (some t2) hd ?_ h⟩
                      intro t ht
                      cases ht
                      exact ⟨h2 t2 rfl, s, hs⟩
                · cases h
  all_goals
    simp only [exec_CALL_body, hd] at h
    exact absurd h (habort _ _ _ _ rfl)
/-- C15, the claim as given fails for a call of the running program: program 2,
running with caller chain of height 1 and no instance counted, executes
`#2 CALL`.  The call succeeds and stores the return address (program 2,
address 11) on the system stack, but the test `temp1->data.objref != program`
of source line 1534 skips the rest: the caller chain is still of height 1 and
program 2 still has no instance counted. -/
theorem call_of_running_program :
    ∃ m' l',
      dispatch (sample_env (code_primitive IN_CALL)) (sample_machine sample_heap (call_frame 2))
          (sample_locals 10 1 1) = .next m' l'
      ∧ m'.err = 0 ∧ l'.stop = 2 ∧ l'.program = 2
      ∧ (m'.frames 0).system_st 1 = { progref := 2, offset := 11 }
      ∧ ((sample_machine sample_heap (call_frame 2)).frames 0).caller_top = 1
      ∧ (m'.frames 0).caller_top = 1
      ∧ ((sample_machine sample_heap (call_frame 2)).mem.progs 2).instances = 0
      ∧ (m'.mem.progs 2).instances = 0 :=
  ⟨_, _, rfl, by decide, by decide, by decide, by decide, by decide, by decide, by decide,
    by decide⟩

/-- C15, amended: a CALL that succeeds (the pass goes on and the error flag has
not been raised) has found the dbref of a program `objref` at the operand
height it leaves, has stored the return address (the calling program and
`pc + 1`) at the system height and raised that height by one, and runs
`objref`.  When `objref` is not the calling program, the caller chain has one
entry more, `objref`, the instance count of `objref` is one more than it was
(after its compilation, if it had no code), and `mlev` is the level of
`objref`.  When `objref` is the calling program, the caller chain, the instance
count and `mlev` are as they were. -/
theorem call_instruction (e : env) (m m' : machine) (l l' : locals)
    (hi : (e.code l.pc).data = .PROG_PRIMITIVE IN_CALL)
    (h : dispatch e m l = .next m' l') (herr : m'.err = m.err) :
    ∃ objref, ((m.frames l.fr).argument_st l'.atop).data = .PROG_OBJECT objref
      ∧ e.Typeof objref = .TYPE_PROGRAM
      ∧ l'.stop = l.stop + 1 ∧ l'.program = objref
      ∧ (m'.frames l.fr).system_st l.stop = { progref := l.program, offset := l.pc + 1 }
      ∧ (objref ≠ l.program →
          (m'.frames l.fr).caller_top = (m.frames l.fr).caller_top + 1
          ∧ (m'.frames l.fr).caller_st ((m.frames l.fr).caller_top + 1) = objref
          ∧ l'.mlev = e.ProgMLevel
              { (m.frames l.fr) with
                  system_st := setI (m.frames l.fr).system_st l.stop
                    { progref := l.program, offset := l.pc + 1 },
                  caller_top := (m.frames l.fr).caller_top + 1,
                  caller_st := setI (m.frames l.fr).caller_st ((m.frames l.fr).caller_top + 1)
                    objref } objref
          ∧ (m'.mem.progs objref).instances
              = ((if (m.mem.progs objref).code = 0 then compile_program e m.mem objref
                    else m.mem).progs objref).instances + 1)
      ∧ (objref = l.program →
          (m'.frames l.fr).caller_top = (m.frames l.fr).caller_top
          ∧ (m'.frames l.fr).caller_st = (m.frames l.fr).caller_st
          ∧ l'.mlev = l.mlev
          ∧ (m'.mem.progs objref).instances
              = ((if (m.mem.progs objref).code = 0 then compile_program e m.mem objref
                    else m.mem).progs objref).instances) := by
  have hd : dispatch e m l = exec_CALL e m l := by
    simp only [dispatch, hi]
    rfl
  rw [hd] at h
  have habort : ∀ (l0 : locals) (S : String) (C1 C2 : Option Int),
      abort_loop e m l0 S C1 C2 ≠ .next m' l' := by
    intro l0 S C1 C2 hx
    have := (abort_loop_next e m m' l0 l' S C1 C2 hx).2.2
    omega
  have key : ∃ (l1 : locals), l1 = { l with atop := l1.atop }
      ∧ ∃ objref, ((m.frames l1.fr).argument_st l1.atop).data = .PROG_OBJECT objref
        ∧ e.Typeof objref = .TYPE_PROGRAM
        ∧ call_entered e m m' l1 l' objref
            (if (m.mem.progs objref).code = 0 then compile_program e m.mem objref
              else m.mem) := by
    simp only [exec_CALL] at h
    split at h
    · exact absurd h (habort _ _ _ _)
    · split at h
      · exact absurd h (habort _ _ _ _)
      · split at h
        · split at h
          · exact absurd h (habort _ _ _ _)
          · split at h
            · exact absurd h (habort _ _ _ _)
            · split at h
              · split at h
                · exact absurd h (habort _ _ _ _)
                · exact ⟨_, rfl, exec_CALL_body_success e m m' _ l' _ _ h herr
                    (fun t2 ht2 => by cases ht2; simp only []; omega)⟩
              · exact absurd h (habort _ _ _ _)
        · exact ⟨_, rfl, exec_CALL_body_success e m m' _ l' _ _ h herr
            (fun t2 ht2 => by cases ht2)⟩
  obtain ⟨l1, hl1, objref, h1, h2, h3, h4, h5, h6, h7, h8⟩ := key
  rw [hl1] at h1 h3 h6 h7 h8
  simp only [] at h1 h3 h6 h7 h8
  rw [← h5] at h1
  refine ⟨objref, h1, h2, h3, h4, by rw [h6]; simp [setI], fun hx => ?_, fun hx => ?_⟩
  · refine ⟨(h7 hx).1, by rw [(h7 hx).2.1]; simp [setI], (h7 hx).2.2.1, ?_⟩
    rw [(h7 hx).2.2.2 objref]
    simp
  · exact ⟨(h8 hx).1, (h8 hx).2.1, (h8 hx).2.2.1, (h8 hx).2.2.2 objref⟩

/-- The CALL of C15 from program 2 into program 5: the caller chain grows to
height 2, program 5 gets its first instance, and the return address is
program 2 at address 11. -/
theorem call_instruction_witness :
    ∃ m' l',
      dispatch (sample_env (code_primitive IN_CALL)) (sample_machine sample_heap (call_frame 5))
          (sample_locals 10 1 1) = .next m' l'
      ∧ l'.stop = 2 ∧ l'.program = 5
      ∧ (m'.frames 0).system_st 1 = { progref := 2, offset := 11 }
      ∧ (m'.frames 0).caller_top = 2
      ∧ (m'.frames 0).caller_st 2 = 5
      ∧ (m'.mem.progs 5).instances = 1 :=
  have h := call_instruction (sample_env (code_primitive IN_CALL))
    (sample_machine sample_heap (call_frame 5)) _ (sample_locals 10 1 1) _ rfl rfl (by decide)
  h.elim fun _ hh =>
    ⟨_, _, rfl, hh.2.2.1, by decide, hh.2.2.2.2.1, by decide, by decide, by decide⟩

/-- The budget part of a pass for a live player, in FOREGROUND or BACKGROUND mode
on a program without the BUILDER flag: the two counters go up, and the pass
either yields, when the counters have reached the slice, or goes on. -/
theorem budget_cooperative (e : env) (m : machine) (l : locals)
    (hplayer : ¬ (l.player < 0 ∨ l.player ≥ e.db_top
      ∨ (e.Typeof l.player ≠ .TYPE_PLAYER ∧ e.Typeof l.player ≠ .TYPE_THING)))
    (hmode : (m.frames l.fr).multitask ≠ PREEMPT)
    (hflag : e.FLAGS l.program .BUILDER = false) :
    budget e m l
      = if (m.frames l.fr).instcnt + 1 > e.tp_instr_slice * 4
            ∧ l.instr_count + 1 ≥ e.tp_instr_slice then
          .ret
            { m with
                frames := setN m.frames l.fr
                  { (m.frames l.fr) with
                      instcnt := (m.frames l.fr).instcnt + 1,
                      argument_top := l.atop, system_top := l.stop, pc := l.pc },
                out := m.out ++
                  [.PLAYER_SET_BLOCK l.player (!(m.frames l.fr).been_background),
                   .add_muf_delay_event 0 (m.frames l.fr).descr l.player l.program l.fr
                     (if (m.frames l.fr).multitask = FOREGROUND then "FOREGROUND"
                      else "BACKGROUND")],
                interp_depth := m.interp_depth - 1 }
            .null
        else
          .next
            (set_frame m l.fr
              { (m.frames l.fr) with instcnt := (m.frames l.fr).instcnt + 1 })
            { l with instr_count := l.instr_count + 1 } := by
  unfold budget
  rw [if_neg hplayer]
  simp only [hmode, hflag, Bool.false_eq_true, or_self, if_false, set_frame, setN_same, reload,
    setN_setN]
/-- One pass of the sample run below the slice: the instruction is counted and
executed, and the pass goes on. -/
theorem push_pass (m : machine) (n : Nat) (hn : n < 400)
    (h1 : (m.frames 0).instcnt = n) (h2 : (m.frames 0).multitask = FOREGROUND)
    (h3 : (m.frames 0).brkpt.force_debugging = false) (h4 : m.err = 0) :
    ∃ m', loop_pass slice_env m (run_locals n) = .next m' (run_locals (n + 1))
      ∧ (m'.frames 0).instcnt = (n + 1 : Nat) ∧ (m'.frames 0).multitask = FOREGROUND
      ∧ (m'.frames 0).brkpt.force_debugging = false ∧ m'.err = 0 := by
  have hb := budget_cooperative slice_env m (run_locals n)
    (by simp [run_locals, sample_locals, slice_env, sample_env])
    (by simp only [run_locals, sample_locals]; rw [h2]; decide) rfl
  have hno : ¬ ((m.frames (run_locals n).fr).instcnt + 1 > slice_env.tp_instr_slice * 4
      ∧ (run_locals n).instr_count + 1 ≥ slice_env.tp_instr_slice) := by
    simp only [run_locals, sample_locals, slice_env, h1]
    omega
  rw [if_neg hno] at hb
  unfold loop_pass
  rw [hb]
  simp only [outcome.andThen]
  have hlt : ¬ ((n : Int) ≥ 512) := by omega
  simp [debugger_tick, ceiling, execute, dispatch, exec_push, error_unwind, copyinst,
    set_frame, setN_same, run_locals, sample_locals, slice_env, sample_env, code_push, h3, hlt,
    h4, h1, h2]
  refine ⟨_, ⟨rfl, by omega⟩, ?_, ?_, ?_, ?_⟩ <;> simp [setN]

/-- The sample run below the slice: `k` passes from a state that has run `n`
instructions execute `k` instructions more. -/
theorem push_passes :
    ∀ (k n : Nat) (m : machine), n + k ≤ 400 →
      (m.frames 0).instcnt = n → (m.frames 0).multitask = FOREGROUND →
      (m.frames 0).brkpt.force_debugging = false → m.err = 0 →
      ∃ m', passes slice_env k m (run_locals n) = some (m', run_locals (n + k))
        ∧ (m'.frames 0).instcnt = (n + k : Nat) ∧ (m'.frames 0).multitask = FOREGROUND
        ∧ (m'.frames 0).brkpt.force_debugging = false ∧ m'.err = 0 := by
  intro k
  induction k with
  | zero => intro n m _ h1 h2 h3 h4; exact ⟨m, rfl, h1, h2, h3, h4⟩
  | succ k ih =>
    intro n m hk h1 h2 h3 h4
    obtain ⟨m1, hp, g1, g2, g3, g4⟩ := push_pass m n (by omega) h1 h2 h3 h4
    obtain ⟨m2, hq, r1, r2, r3, r4⟩ := ih (n + 1) m1 (by omega) g1 g2 g3 g4
    refine ⟨m2, ?_, ?_, r2, r3, r4⟩
    · have hstop : (run_locals n).stop ≠ 0 := by simp [run_locals, sample_locals]
      simp only [passes, hstop, ne_eq, not_false_eq_true, if_true, hp]
      rw [hq]
      have : n + 1 + k = n + (k + 1) := by omega
      rw [this]
    · rw [r1]
      have : n + 1 + k = n + (k + 1) := by omega
      rw [this]
/-- C12, the parenthesis of the claim fails: with a slice of 100, a fresh frame
(both counters 0) that runs `code_push` goes through 400 passes, which execute
400 instructions (400 operands pushed, `pc` 400 addresses on), and suspends in
the 401st pass before the 401st instruction is executed: the frame is saved
with operand height 400 and with `pc` at that instruction, address 410, the
lifetime counter standing at 401. -/
theorem yield_before_401st_instruction :
    ∃ m400,
      passes slice_env 400 (sample_machine sample_heap sample_frame) (sample_locals 10 0 1)
        = some (m400, run_locals 400)
      ∧ (run_locals 400).atop = 400 ∧ (run_locals 400).pc = 410
      ∧ ∃ m', loop_pass slice_env m400 (run_locals 400) = .ret m' .null
        ∧ (m'.frames 0).instcnt = 401
        ∧ (m'.frames 0).argument_top = 400
        ∧ (m'.frames 0).pc = 410 := by
  obtain ⟨m400, hp, h1, h2, h3, h4⟩ := push_passes 400 0
    (sample_machine sample_heap sample_frame) (by omega) rfl rfl rfl rfl
  refine ⟨m400, hp, rfl, rfl, ?_⟩
  have hb := budget_cooperative slice_env m400 (run_locals 400)
    (by simp [run_locals, sample_locals, slice_env, sample_env])
    (by simp only [run_locals, sample_locals]; rw [h2]; decide) rfl
  have hyes : (m400.frames (run_locals 400).fr).instcnt + 1 > slice_env.tp_instr_slice * 4
      ∧ (run_locals 400).instr_count + 1 ≥ slice_env.tp_instr_slice := by
    simp only [run_locals, sample_locals, slice_env, h1]
    omega
  rw [if_pos hyes] at hb
  have hloop := congrArg
    (fun o => ((o.andThen (debugger_tick slice_env)).andThen (ceiling slice_env)).andThen
      (execute slice_env)) hb
  refine ⟨_, hloop, ?_, ?_, ?_⟩
  · simp only [run_locals, sample_locals, setN_same, h1]
    norm_num
  · simp only [run_locals, sample_locals, setN_same]
    norm_num
  · simp only [run_locals, sample_locals, setN_same]

/-- C12, amended: one pass of the dispatcher for a live player, in FOREGROUND or
BACKGROUND mode on a program without the BUILDER flag.  The pass suspends
exactly when, once both counters have been incremented, the lifetime counter is
greater than 4 times `tp_instr_slice` and the counter of the invocation is at
least `tp_instr_slice`.  On suspension the instruction at `pc` is not executed:
the frame gets the operand height, the system height and that `pc`, its stacks
and the heap are untouched, a re-entry event of delay 0 is queued and null is
returned; re-entering the dispatcher on the frame loads the same operand and
system heights and that same `pc`, with the counter of the invocation back at
0, so that the instruction that was counted but not executed is the next one to
run.  Otherwise the pass goes on with both counters incremented.  With a slice
of 100, a frame whose two counters stand at `n` (a fresh frame after `n`
passes) suspends in its next pass exactly when `n` is at least 400: the first
suspension is in the 401st pass, before the 401st instruction is executed. -/
theorem cooperative_yield (e : env) (m : machine) (l : locals)
    (hplayer : ¬ (l.player < 0 ∨ l.player ≥ e.db_top
      ∨ (e.Typeof l.player ≠ .TYPE_PLAYER ∧ e.Typeof l.player ≠ .TYPE_THING)))
    (hmode : (m.frames l.fr).multitask ≠ PREEMPT)
    (hflag : e.FLAGS l.program .BUILDER = false) :
    ((m.frames l.fr).instcnt + 1 > e.tp_instr_slice * 4
        ∧ l.instr_count + 1 ≥ e.tp_instr_slice →
      ∃ m', loop_pass e m l = .ret m' .null
        ∧ (m'.frames l.fr).pc = l.pc
        ∧ (m'.frames l.fr).argument_top = l.atop
        ∧ (m'.frames l.fr).system_top = l.stop
        ∧ (m'.frames l.fr).argument_st = (m.frames l.fr).argument_st
        ∧ (m'.frames l.fr).system_st = (m.frames l.fr).system_st
        ∧ (m'.frames l.fr).instcnt = (m.frames l.fr).instcnt + 1
        ∧ m'.mem = m.mem
        ∧ effect.add_muf_delay_event 0 (m.frames l.fr).descr l.player l.program l.fr
            (if (m.frames l.fr).multitask = FOREGROUND then "FOREGROUND" else "BACKGROUND")
            ∈ m'.out
        ∧ (interp_loop_entry e m' l.player l.program l.fr l.rettyp).2.pc = l.pc
        ∧ (interp_loop_entry e m' l.player l.program l.fr l.rettyp).2.atop = l.atop
        ∧ (interp_loop_entry e m' l.player l.program l.fr l.rettyp).2.stop = l.stop
        ∧ (interp_loop_entry e m' l.player l.program l.fr l.rettyp).2.instr_count = 0
        ∧ ((interp_loop_entry e m' l.player l.program l.fr l.rettyp).1.frames l.fr).argument_st
            = (m.frames l.fr).argument_st
        ∧ ((interp_loop_entry e m' l.player l.program l.fr l.rettyp).1.frames l.fr).system_st
            = (m.frames l.fr).system_st)
    ∧ (¬ ((m.frames l.fr).instcnt + 1 > e.tp_instr_slice * 4
          ∧ l.instr_count + 1 ≥ e.tp_instr_slice) →
        budget e m l
          = .next
              (set_frame m l.fr { (m.frames l.fr) with instcnt := (m.frames l.fr).instcnt + 1 })
              { l with instr_count := l.instr_count + 1 })
    ∧ (e.tp_instr_slice = 100 → (m.frames l.fr).instcnt = l.instr_count →
        (((m.frames l.fr).instcnt + 1 > e.tp_instr_slice * 4
            ∧ l.instr_count + 1 ≥ e.tp_instr_slice) ↔ 400 ≤ l.instr_count)) := by
  have hb := budget_cooperative e m l hplayer hmode hflag
  refine ⟨fun hyes => ?_, fun hno => ?_, fun hs hc => ?_⟩
  · rw [if_pos hyes] at hb
    have hloop := congrArg
      (fun o => ((o.andThen (debugger_tick e)).andThen (ceiling e)).andThen (execute e)) hb
    refine ⟨_, hloop, ?_⟩
    simp [setN_same, interp_loop_entry]
  · rw [if_neg hno] at hb
    exact hb
  · rw [hs, hc]
    omega

/-- The suspension of C12 on the sample frame after 8000 instructions, with a
slice of 2000 and 2000 instructions in this invocation. -/
theorem cooperative_yield_witness :
    ∃ m', loop_pass (sample_env code_push)
        (sample_machine sample_heap { sample_frame with instcnt := 8000 })
        { sample_locals 10 3 1 with instr_count := 2000 } = .ret m' .null
      ∧ (m'.frames 0).pc = 10
      ∧ (m'.frames 0).argument_top = 3
      ∧ (m'.frames 0).system_top = 1 :=
  ((cooperative_yield (sample_env code_push)
    (sample_machine sample_heap { sample_frame with instcnt := 8000 })
    { sample_locals 10 3 1 with instr_count := 2000 } (by decide) (by decide) rfl).1
      (by decide)).imp fun _ h => ⟨h.1, h.2.1, h.2.2.1, h.2.2.2.1⟩

/-- The abort helper with a try-frame in place, as one equation: the error is
recorded, the operands named are cleared, and the heights and `pc` are saved
on the frame. -/
theorem do_abort_loop_caught_eq (e : env) (m : machine) (player program : Int) (msg : String)
    (fp : Nat) (pc : Nat) (atop stop : Int) (c1 c2 : Option Int)
    (h : (m.frames fp).trys_top ≠ 0) :
    do_abort_loop e m player program msg fp pc atop stop c1 c2
      = (fun (m3 : machine) =>
          ({ m3 with
              frames := setN m3.frames fp
                { (m3.frames fp) with argument_top := atop, system_top := stop, pc := pc } } :
            machine))
        ((fun (m2 : machine) =>
            match c2 with
            | some k => CLEAR_arg m2 fp k 1003
            | none => m2)
          ((fun (m1 : machine) =>
              match c1 with
              | some k => CLEAR_arg m1 fp k 1001
              | none => m1)
            { m with
                frames := setN m.frames fp
                  { (m.frames fp) with
                      errorstr := some msg,
                      errorinst :=
                        if pc ≠ 0 then some (e.insttotext (m.frames fp) pc program) else none,
                      errorline := if pc ≠ 0 then (e.code pc).line else -1,
                      errorprog := program },
                err := m.err + 1 })) := by
  cases c1 <;> cases c2 <;>
    simp [do_abort_loop, h, CLEAR_arg, setN, reload]

/-- The macro `abort_loop`, when the pass goes on, keeps every property that the
control-flow instructions keep. -/
theorem abort_loop_closed (e : env) (R : machine → locals → Prop) (hR : flow_closed e R)
    (m m' : machine) (l l' : locals) (S : String) (C1 C2 : Option Int)
    (h0 : R m l) (h : abort_loop e m l S C1 C2 = .next m' l') : R m' l' := by
  obtain ⟨ht, hl, _⟩ := abort_loop_next e m m' l l' S C1 C2 h
  subst hl
  simp only [abort_loop] at h
  split at h
  · injection h with hm _
    subst hm
    rw [do_abort_loop_caught_eq e m _ _ S _ _ _ _ C1 C2 ht]
    have h1 := hR.misc m l' (some S)
      (if l'.pc ≠ 0 then some (e.insttotext (m.frames l'.fr) l'.pc l'.program) else none)
      (if l'.pc ≠ 0 then (e.code l'.pc).line else -1) l'.program
      (m.frames l'.fr).argument_top (m.frames l'.fr).system_top (m.frames l'.fr).pc
      (m.frames l'.fr).skip_declare (m.err + 1) m.out h0
    have hfin : ∀ (m3 : machine), R m3 l' →
        R { m3 with
              frames := setN m3.frames l'.fr
                { (m3.frames l'.fr) with
                    argument_top := l'.atop, system_top := l'.stop, pc := l'.pc } } l' :=
      fun m3 h3 => hR.misc m3 l' _ _ _ _ l'.atop l'.stop l'.pc _ m3.err m3.out h3
    cases C1 with
    | none =>
      cases C2 with
      | none => exact hfin _ h1
      | some k2 => exact hfin _ (hR.clear _ l' k2 1003 h1)
    | some k1 =>
      cases C2 with
      | none => exact hfin _ (hR.clear _ l' k1 1001 h1)
      | some k2 => exact hfin _ (hR.clear _ l' k2 1003 (hR.clear _ l' k1 1001 h1))
  · cases h
/-- `PROG_EXEC` keeps every property that the control-flow instructions keep. -/
theorem exec_EXEC_closed (e : env) (R : machine → locals → Prop) (hR : flow_closed e R)
    (m m' : machine) (l l' : locals) (call : Nat)
    (h0 : R m l) (hstop : 1 ≤ l.stop) (h : exec_EXEC e m l call = .next m' l') : R m' l' := by
  simp only [exec_EXEC] at h
  split at h
  · exact abort_loop_closed e R hR _ _ _ _ _ _ _ h0 h
  · injection h with hm hl
    subst hm
    subst hl
    have h1 := hR.sys m l { progref := l.program, offset := l.pc + 1 } h0
    have h2 := hR.misc _ l
      (m.frames l.fr).errorstr (m.frames l.fr).errorinst (m.frames l.fr).errorline
      (m.frames l.fr).errorprog (m.frames l.fr).argument_top (m.frames l.fr).system_top
      (m.frames l.fr).pc false m.err m.out h1
    have h3 := hR.push_same _ l h2 hstop (by simp [set_frame, setN_same, setI])
    have h4 := hR.regs _ _ l.atop call h3
    simpa [set_frame, setN_setN, setN_same] using h4

/-- `PROG_JMP` keeps every property that the control-flow instructions keep. -/
theorem exec_PROG_JMP_closed (e : env) (R : machine → locals → Prop) (hR : flow_closed e R)
    (m m' : machine) (l l' : locals) (call : Nat)
    (h0 : R m l) (h : exec_PROG_JMP m l call = .next m' l') : R m' l' := by
  simp only [exec_PROG_JMP] at h
  injection h with hm hl
  subst hm
  subst hl
  exact hR.regs m l l.atop call h0
/-- The primitive `IN_JMP` keeps every property that the control-flow
instructions keep. -/
theorem exec_JMP_closed (e : env) (R : machine → locals → Prop) (hR : flow_closed e R)
    (m m' : machine) (l l' : locals)
    (h0 : R m l) (h : exec_JMP e m l = .next m' l') : R m' l' := by
  have h1 : R m { l with atop := l.atop - 1 } := hR.regs m l (l.atop - 1) l.pc h0
  simp only [exec_JMP] at h
  split at h
  · exact abort_loop_closed e R hR _ _ _ _ _ _ _ h0 h
  · split at h
    · exact abort_loop_closed e R hR _ _ _ _ _ _ _ h0 h
    · split at h
      · split at h
        · simp [abort_loop_hard] at h
        · split at h
          · exact abort_loop_closed e R hR _ _ _ _ _ _ _ h1 h
          · injection h with hm hl
            subst hm
            subst hl
            rename_i a _ _ _
            have h2 := hR.misc m { l with atop := l.atop - 1 }
              (m.frames l.fr).errorstr (m.frames l.fr).errorinst (m.frames l.fr).errorline
              (m.frames l.fr).errorprog (m.frames l.fr).argument_top (m.frames l.fr).system_top
              (m.frames l.fr).pc
              (if (e.code (m.mem.addrs a).data).type = .PROG_FUNCTION then true
                else (m.frames l.fr).skip_declare) m.err m.out h1
            have h3 := hR.clear _ _ (l.atop - 1) 1439 h2
            have h4 := hR.regs _ _ (l.atop - 1) (m.mem.addrs a).data h3
            have hfr : (if (e.code (m.mem.addrs a).data).type = .PROG_FUNCTION then
                  { (m.frames l.fr) with skip_declare := true }
                else m.frames l.fr)
                = { (m.frames l.fr) with
                      skip_declare :=
                        if (e.code (m.mem.addrs a).data).type = .PROG_FUNCTION then true
                        else (m.frames l.fr).skip_declare } := by
              split <;> rfl
            rw [hfr]
            simpa [set_frame, setN_setN, setN_same] using h4
      · exact abort_loop_closed e R hR _ _ _ _ _ _ _ h1 h
/-- The primitive `IN_EXECUTE` keeps every property that the control-flow
instructions keep. -/
theorem exec_EXECUTE_closed (e : env) (R : machine → locals → Prop) (hR : flow_closed e R)
    (m m' : machine) (l l' : locals)
    (h0 : R m l) (hstop : 1 ≤ l.stop) (h : exec_EXECUTE e m l = .next m' l') : R m' l' := by
  have h1 : R m { l with atop := l.atop - 1 } := hR.regs m l (l.atop - 1) l.pc h0
  simp only [exec_EXECUTE] at h
  split at h
  · exact abort_loop_closed e R hR _ _ _ _ _ _ _ h0 h
  · split at h
    · exact abort_loop_closed e R hR _ _ _ _ _ _ _ h0 h
    · split at h
      · split at h
        · simp [abort_loop_hard] at h
        · split at h
          · exact abort_loop_closed e R hR _ _ _ _ _ _ _ h1 h
          · rename_i a _ _ _
            have h2 := hR.sys m { l with atop := l.atop - 1 }
              { progref := l.program, offset := l.pc + 1 } h1
            split at h
            · rename_i hcross
              injection h with hm hl
              subst hm
              subst hl
              have h3 := hR.push_cross _ _ (m.mem.addrs a).progref
                (e.ProgMLevel
                  { (m.frames l.fr) with
                      system_st := setI (m.frames l.fr).system_st l.stop
                        { progref := l.program, offset := l.pc + 1 },
                      caller_top := (m.frames l.fr).caller_top + 1,
                      caller_st := setI (m.frames l.fr).caller_st
                        ((m.frames l.fr).caller_top + 1) (m.mem.addrs a).progref }
                  (m.mem.addrs a).progref)
                h2 hstop (by simp [set_frame, setN_same, setI]) (fun hx => hcross hx.symm)
              have h4 := hR.clear _ _ (l.atop - 1) 1465 h3
              have h5 := hR.regs _ _ (l.atop - 1) (m.mem.addrs a).data h4
              simpa [set_frame, setN_setN, setN_same] using h5
            · injection h with hm hl
              subst hm
              subst hl
              have h3 := hR.push_same _ _ h2 hstop (by simp [set_frame, setN_same, setI])
              have h4 := hR.clear _ _ (l.atop - 1) 1465 h3
              have h5 := hR.regs _ _ (l.atop - 1) (m.mem.addrs a).data h4
              simpa [set_frame, setN_setN, setN_same] using h5
      · exact abort_loop_closed e R hR _ _ _ _ _ _ _ h1 h
/-- The end of `IN_CALL`, entered over a system entry that saves the running
program, keeps every property that the control-flow instructions keep. -/
theorem exec_CALL_enter_closed (e : env) (R : machine → locals → Prop) (hR : flow_closed e R)
    (m m' : machine) (l l' : locals) (objref : Int) (pc : Nat) (temp1 : Int)
    (temp2 : Option Int)
    (h0 : R m l) (hstop : 1 ≤ l.stop)
    (hsys : ((m.frames l.fr).system_st l.stop).progref = l.program)
    (h : exec_CALL_enter e m l objref pc temp1 temp2 = .next m' l') : R m' l' := by
  have hout : ∀ (m0 : machine) (l0 : locals) (out : List effect), R m0 l0 →
      R { m0 with out := out } l0 := by
    intro m0 l0 out h1
    have h2 := hR.misc m0 l0 (m0.frames l0.fr).errorstr (m0.frames l0.fr).errorinst
      (m0.frames l0.fr).errorline (m0.frames l0.fr).errorprog (m0.frames l0.fr).argument_top
      (m0.frames l0.fr).system_top (m0.frames l0.fr).pc (m0.frames l0.fr).skip_declare
      m0.err out h1
    have hfr : setN m0.frames l0.fr (m0.frames l0.fr) = m0.frames := setN_self _ _
    have hm : ({ m0 with
        frames := setN m0.frames l0.fr (m0.frames l0.fr), err := m0.err, out := out } : machine)
        = { m0 with out := out } := by
      rw [hfr]
    exact hm ▸ h2
  have htail : ∀ (m0 : machine) (l0 : locals), R m0 l0 → l0.fr = l.fr →
      R (match temp2 with
          | some t2 =>
            CLEAR_arg
              (CLEAR_arg
                { m0 with mem := PROGRAM_INC_PROF_USES m0.mem l0.program,
                          out := m0.out ++ [.ts_useobject l0.program] } l.fr temp1 1544)
              l.fr t2 1546
          | none =>
            CLEAR_arg
              { m0 with mem := PROGRAM_INC_PROF_USES m0.mem l0.program,
                        out := m0.out ++ [.ts_useobject l0.program] } l.fr temp1 1544) l0 := by
    intro m0 l0 h1 hfr
    have h2 := hout _ l0 (m0.out ++ [.ts_useobject l0.program]) (hR.uses m0 l0 l0.program h1)
    have h3 := hR.clear _ l0 temp1 1544 h2
    rw [hfr] at h3
    cases temp2 with
    | none => exact h3
    | some t2 =>
      have h4 := hR.clear _ l0 t2 1546 h3
      rw [hfr] at h4
      exact h4
  simp only [exec_CALL_enter] at h
  injection h with hm hl
  subst hm
  subst hl
  by_cases hcross : objref = l.program
  · have h1 := hR.regs _ _ l.atop pc (hR.push_same m l h0 hstop hsys)
    have h2 := htail _ _ h1 rfl
    simp only [hcross, ne_eq, not_true_eq_false, if_false]
    cases temp2 <;> simpa using h2
  · have h1 := hR.regs _ _ l.atop pc
      (hR.push_cross m l objref
        (e.ProgMLevel
          { (m.frames l.fr) with
              caller_top := (m.frames l.fr).caller_top + 1,
              caller_st := setI (m.frames l.fr).caller_st
                ((m.frames l.fr).caller_top + 1) objref } objref)
        h0 hstop hsys hcross)
    have h2 := htail _ _ h1 rfl
    simp only [hcross, ne_eq, not_false_eq_true, if_true]
    cases temp2 <;> simpa using h2
/-- The body of `IN_CALL` keeps every property that the control-flow
instructions keep. -/
theorem exec_CALL_body_closed (e : env) (R : machine → locals → Prop) (hR : flow_closed e R)
    (m m' : machine) (l l' : locals) (temp1 : Int) (temp2 : Option Int)
    (h0 : R m l) (hstop : 1 ≤ l.stop)
    (h : exec_CALL_body e m l temp1 temp2 = .next m' l') : R m' l' := by
  cases hd : ((m.frames l.fr).argument_st temp1).data
  case PROG_OBJECT objref =>
    simp only [exec_CALL_body, hd] at h
    have h1 : R { m with mem := if (m.mem.progs objref).code = 0
        then compile_program e m.mem objref else m.mem } l := by
      split
      · exact hR.compile m l objref h0
      · exact h0
    generalize (if (m.mem.progs objref).code = 0 then compile_program e m.mem objref
      else m.mem) = H at h h1
    have h2 := hR.sys _ l { progref := l.program, offset := l.pc + 1 } h1
    have hsys : (((set_frame { m with mem := H } l.fr
        { (m.frames l.fr) with
            system_st := setI (m.frames l.fr).system_st l.stop
              { progref := l.program, offset := l.pc + 1 } }).frames l.fr).system_st
        l.stop).progref = l.program := by
      simp [set_frame, setN_same, setI]
    split at h
    · exact abort_loop_closed e R hR _ _ _ _ _ _ _ h0 h
    · split at h
      · exact abort_loop_closed e R hR _ _ _ _ _ _ _ h1 h
      · split at h
        · exact abort_loop_closed e R hR _ _ _ _ _ _ _ h1 h
        · split at h
          · exact abort_loop_closed e R hR _ _ _ _ _ _ _ h1 h
          · split at h
            · exact abort_loop_closed e R hR _ _ _ _ _ _ _ h1 h
            · cases temp2 with
              | none =>
                simp only [] at h
                exact exec_CALL_enter_closed e R hR _ _ _ _ _ _ _ _ h2 hstop hsys h
              | some t2 =>
                simp only [] at h
                split at h
                · split at h
                  · exact abort_loop_closed e R hR _ _ _ _ _ _ _ h2 h
                  · split at h
                    · exact abort_loop_closed e R hR _ _ _ _ _ _ _ h2 h
                    · exact exec_CALL_enter_closed e R hR _ _ _ _ _ _ _ _ h2 hstop hsys h
                · cases h
  all_goals
    simp only [exec_CALL_body, hd] at h
    exact abort_loop_closed e R hR _ _ _ _ _ _ _ h0 h

/-- The primitive `IN_CALL` keeps every property that the control-flow
instructions keep. -/
theorem exec_CALL_closed (e : env) (R : machine → locals → Prop) (hR : flow_closed e R)
    (m m' : machine) (l l' : locals)
    (h0 : R m l) (hstop : 1 ≤ l.stop) (h : exec_CALL e m l = .next m' l') : R m' l' := by
  have h1 : R m { l with atop := l.atop - 1 } := hR.regs m l (l.atop - 1) l.pc h0
  have h2 : R m { l with atop := l.atop - 1 - 1 } := hR.regs m l (l.atop - 1 - 1) l.pc h0
  simp only [exec_CALL] at h
  split at h
  · exact abort_loop_closed e R hR _ _ _ _ _ _ _ h0 h
  · split at h
    · exact abort_loop_closed e R hR _ _ _ _ _ _ _ h0 h
    · split at h
      · split at h
        · exact abort_loop_closed e R hR _ _ _ _ _ _ _ h1 h
        · split at h
          · exact abort_loop_closed e R hR _ _ _ _ _ _ _ h1 h
          · split at h
            · split at h
              · exact abort_loop_closed e R hR _ _ _ _ _ _ _ h2 h
              · exact exec_CALL_body_closed e R hR _ _ _ _ _ _ h2 hstop h
            · exact abort_loop_closed e R hR _ _ _ _ _ _ _ h2 h
      · exact exec_CALL_body_closed e R hR _ _ _ _ _ _ h1 hstop h
/-- The primitive `IN_RET`, when the pass goes on, has popped one system level
and set `pc`. -/
theorem exec_RET_pop (e : env) (m m' : machine) (l l' : locals)
    (h : exec_RET e m l = .next m' l') :
    ∃ pc, m' = (pop_level e m l).1 ∧ l' = { (pop_level e m l).2 with pc := pc } := by
  simp only [exec_RET] at h
  split at h
  · simp [abort_loop_hard] at h
  · injection h with hm hl
    exact ⟨_, hm.symm, hl.symm⟩

/-- The primitive `IN_RET` keeps every property that the control-flow
instructions keep. -/
theorem exec_RET_closed (e : env) (R : machine → locals → Prop) (hR : flow_closed e R)
    (m m' : machine) (l l' : locals)
    (h0 : R m l) (hstop : 1 ≤ l.stop) (h : exec_RET e m l = .next m' l') : R m' l' := by
  obtain ⟨pc, hm, hl⟩ := exec_RET_pop e m m' l l' h
  rw [hm, hl]
  exact hR.regs _ _ (pop_level e m l).2.atop pc (hR.pop m l h0 hstop)

/-- The unwind loop, when the pass goes on, keeps every property that the
control-flow instructions keep. -/
theorem unwind_loop_closed (e : env) (R : machine → locals → Prop) (hR : flow_closed e R) :
    ∀ (fuel : Nat) (m m' : machine) (l l' : locals),
      R m l → unwind_loop e fuel m l = .next m' l' → R m' l' := by
  intro fuel
  induction fuel with
  | zero =>
    intro m m' l l' h0 h
    simp only [unwind_loop] at h
    injection h with hm hl
    subst hm
    subst hl
    exact h0
  | succ fuel ih =>
    intro m m' l l' h0 h
    simp only [unwind_loop] at h
    split at h
    · rename_i hlt
      have hstop : 1 ≤ l.stop := by
        have := (hR.nonneg m l h0).2
        omega
      split at h
      · simp [abort_loop_hard] at h
      · exact ih _ _ _ _ (hR.pop m l h0 hstop) h
    · injection h with hm hl
      subst hm
      subst hl
      exact h0

/-- The error check at the end of a pass, when the pass goes on, keeps every
property that the control-flow instructions keep. -/
theorem error_unwind_closed (e : env) (R : machine → locals → Prop) (hR : flow_closed e R)
    (m m' : machine) (l l' : locals)
    (h0 : R m l) (h : error_unwind e m l = .next m' l') : R m' l' := by
  simp only [error_unwind] at h
  split at h
  · split at h
    · split at h
      · rename_i m1 l1 hu
        injection h with hm hl
        subst hm
        subst hl
        have h1 := unwind_loop_closed e R hR _ _ _ _ _ h0 hu
        have h2 := hR.misc m1 l1 (m1.frames l1.fr).errorstr (m1.frames l1.fr).errorinst
          (m1.frames l1.fr).errorline (m1.frames l1.fr).errorprog (m1.frames l1.fr).argument_top
          (m1.frames l1.fr).system_top (m1.frames l1.fr).pc (m1.frames l1.fr).skip_declare
          0 m1.out h1
        have hfr : setN m1.frames l1.fr (m1.frames l1.fr) = m1.frames := setN_self _ _
        have hm : ({ m1 with
            frames := setN m1.frames l1.fr (m1.frames l1.fr), err := 0, out := m1.out } : machine)
            = { m1 with err := 0 } := by
          rw [hfr]
        exact hR.regs _ _ l1.atop _ (hm ▸ h2)
      · rename_i hne
        cases hu : unwind_loop e (l.stop - (m.frames l.fr).try_call_level).toNat m l with
        | next m1 l1 => exact absurd hu (hne m1 l1)
        | ret m1 rv => rw [hu] at h; cases h
        | undefined m1 => rw [hu] at h; cases h
    · cases h
  · injection h with hm hl
    subst hm
    subst hl
    exact h0

/-- A pass that executes a control-flow instruction and goes on keeps every
property that the control-flow instructions keep. -/
theorem execute_closed (e : env) (R : machine → locals → Prop) (hR : flow_closed e R)
    (m m' : machine) (l l' : locals)
    (hc : control_flow (e.code l.pc).data = true) (hs : l.stop ≠ 0)
    (h0 : R m l) (h : execute e m l = .next m' l') : R m' l' := by
  have hstop : 1 ≤ l.stop := by
    have := (hR.nonneg m l h0).1
    omega
  simp only [execute] at h
  cases hd : dispatch e m l with
  | next m1 l1 =>
    rw [hd] at h
    simp only [] at h
    refine error_unwind_closed e R hR m1 m' l1 l' ?_ h
    cases hi : (e.code l.pc).data
    case PROG_EXEC call =>
      simp only [dispatch, hi] at hd
      exact exec_EXEC_closed e R hR _ _ _ _ _ h0 hstop hd
    case PROG_JMP call =>
      simp only [dispatch, hi] at hd
      exact exec_PROG_JMP_closed e R hR _ _ _ _ _ h0 hd
    case PROG_PRIMITIVE n =>
      simp only [dispatch, hi] at hd
      simp only [control_flow, hi, Bool.or_eq_true, decide_eq_true_eq] at hc
      split at hd
      · exact exec_JMP_closed e R hR _ _ _ _ h0 hd
      · split at hd
        · exact exec_EXECUTE_closed e R hR _ _ _ _ h0 hstop hd
        · split at hd
          · exact exec_CALL_closed e R hR _ _ _ _ h0 hstop hd
          · split at hd
            · exact exec_RET_closed e R hR _ _ _ _ h0 hstop hd
            · rename_i h1 h2 h3 h4
              rcases hc with ((hc | hc) | hc) | hc
              · exact absurd hc h3
              · exact absurd hc h2
              · exact absurd hc h4
              · exact absurd hc h1
    all_goals
      simp [control_flow, hi] at hc
  | ret m1 rv => rw [hd] at h; cases h
  | undefined m1 => rw [hd] at h; cases h

/-- Passes that execute control-flow instructions keep every property that the
control-flow instructions keep. -/
theorem control_passes_closed (e : env) (R : machine → locals → Prop) (hR : flow_closed e R) :
    ∀ (n : Nat) (m m' : machine) (l l' : locals),
      R m l → control_passes e n m l = some (m', l') → R m' l' := by
  intro n
  induction n with
  | zero =>
    intro m m' l l' h0 h
    simp only [control_passes, Option.some.injEq, Prod.mk.injEq] at h
    rw [← h.1, ← h.2]
    exact h0
  | succ n ih =>
    intro m m' l l' h0 h
    simp only [control_passes] at h
    split at h
    · rename_i hc
      cases hx : execute e m l with
      | next m1 l1 =>
        rw [hx] at h
        exact ih _ _ _ _ (execute_closed e R hR _ _ _ _ hc.2 hc.1 h0 hx) h
      | ret m1 rv => rw [hx] at h; cases h
      | undefined m1 => rw [hx] at h; cases h
    · cases h

/-- The mirror test reads the caller chain up to `top` and the system stack at
the indices 1 to `k` only. -/
theorem chain_mirror_congr (cs cs' : Int → Int) (sys sys' : Int → stack_addr) :
    ∀ (k : Nat) (above top : Int),
      (∀ i, i ≤ top → cs i = cs' i) →
      (∀ j : Nat, 1 ≤ j → j ≤ k → sys (j : Int) = sys' (j : Int)) →
      chain_mirror cs sys k above top = chain_mirror cs' sys' k above top := by
  intro k
  induction k with
  | zero =>
    intro above top hc _
    simp only [chain_mirror]
    by_cases ht : top = 1
    · rw [hc 1 (by omega)]
    · simp [ht]
  | succ k ih =>
    intro above top hc hs
    simp only [chain_mirror]
    rw [hc top (le_refl _), hs (k + 1) (by omega) (le_refl _)]
    rw [ih (sys' ((k + 1 : Nat) : Int)).progref (top - 1) (fun i hi => hc i (by omega))
      (fun j h1 h2 => hs j h1 (by omega))]
    rw [ih above top hc (fun j h1 h2 => hs j h1 (by omega))]

/-- In a mirrored chain the entry `top` of the caller chain is the running
program. -/
theorem chain_mirror_top (cs : Int → Int) (sys : Int → stack_addr) :
    ∀ (k : Nat) (above top : Int), chain_mirror cs sys k above top = true → cs top = above := by
  intro k above top h
  cases k with
  | zero =>
    simp only [chain_mirror, Bool.and_eq_true, decide_eq_true_eq] at h
    rw [h.1]
    exact h.2
  | succ k =>
    simp only [chain_mirror, Bool.and_eq_true, decide_eq_true_eq] at h
    exact h.1

/-- In a mirrored chain the height of the caller chain is 1 plus the number of
system entries that record a call into another program. -/
theorem chain_mirror_count (cs : Int → Int) (sys : Int → stack_addr) :
    ∀ (k : Nat) (above top : Int), chain_mirror cs sys k above top = true →
      top = 1 + calls_into_other sys k above := by
  intro k
  induction k with
  | zero =>
    intro above top h
    simp only [chain_mirror, Bool.and_eq_true, decide_eq_true_eq] at h
    simp [calls_into_other, h.1]
  | succ k ih =>
    intro above top h
    simp only [chain_mirror, Bool.and_eq_true, decide_eq_true_eq] at h
    simp only [calls_into_other]
    by_cases hx : (sys ((k + 1 : Nat) : Int)).progref = above
    · simp only [hx, ne_eq, not_true_eq_false, if_false] at h ⊢
      have := ih above top h.2
      omega
    · simp only [hx, ne_eq, not_false_eq_true, if_true] at h ⊢
      have := ih _ _ h.2
      omega
/-- The mirror of the caller chain is kept when the system height goes up over
an entry that saves the running program, within the program. -/
theorem chain_state_push_same (m : machine) (l : locals)
    (h : chain_state m l) (hstop : 1 ≤ l.stop)
    (hsys : ((m.frames l.fr).system_st l.stop).progref = l.program) :
    chain_state m { l with stop := l.stop + 1 } := by
  obtain ⟨h1, h2, h3⟩ := h
  refine ⟨by simp only []; omega, ?_, h3⟩
  simp only [chain_ok] at h2 ⊢
  have hk : (l.stop + 1 - 1).toNat = (l.stop - 1).toNat + 1 := by omega
  have hi : (((l.stop - 1).toNat + 1 : Nat) : Int) = l.stop := by omega
  rw [hk]
  simp only [chain_mirror, hi, hsys, ne_eq, not_true_eq_false, if_false, Bool.and_eq_true,
    decide_eq_true_eq]
  exact ⟨chain_mirror_top _ _ _ _ _ h2, h2⟩

/-- The mirror of the caller chain is kept when the system height goes up over
an entry that saves the running program and another program is entered and
pushed on the caller chain. -/
theorem chain_state_push_cross (m : machine) (l : locals) (target lev : Int)
    (h : chain_state m l) (hstop : 1 ≤ l.stop)
    (hsys : ((m.frames l.fr).system_st l.stop).progref = l.program)
    (hne : target ≠ l.program) :
    chain_state
      { m with
          mem := PROGRAM_INC_INSTANCES m.mem target,
          frames := setN m.frames l.fr
            { (m.frames l.fr) with
                caller_top := (m.frames l.fr).caller_top + 1,
                caller_st := setI (m.frames l.fr).caller_st ((m.frames l.fr).caller_top + 1)
                  target } }
      { l with stop := l.stop + 1, program := target, mlev := lev } := by
  obtain ⟨h1, h2, h3⟩ := h
  refine ⟨by simp only []; omega, ?_, by simp only [setN_same]; exact h3⟩
  simp only [chain_ok, setN_same] at h2 ⊢
  have hk : (l.stop + 1 - 1).toNat = (l.stop - 1).toNat + 1 := by omega
  have hi : (((l.stop - 1).toNat + 1 : Nat) : Int) = l.stop := by omega
  have hne2 : ¬ l.program = target := fun hx => hne hx.symm
  rw [hk]
  simp only [chain_mirror, hi, hsys, ne_eq, hne2, not_false_eq_true, if_true, Bool.and_eq_true,
    decide_eq_true_eq, add_sub_cancel_right]
  refine ⟨by simp [setI], ?_⟩
  rw [← h2]
  refine chain_mirror_congr _ _ _ _ _ _ _ (fun i hi => ?_) (fun _ _ _ => rfl)
  have : i ≠ (m.frames l.fr).caller_top + 1 := by omega
  simp [setI, this]

/-- The mirror of the caller chain is kept by the pop of a system level. -/
theorem chain_state_pop (e : env) (m : machine) (l : locals)
    (h : chain_state m l) (hstop : 1 ≤ l.stop) :
    chain_state (pop_level e m l).1 (pop_level e m l).2 := by
  obtain ⟨h1, h2, h3⟩ := h
  simp only [chain_ok] at h2
  by_cases hcross : l.stop > 1 ∧ l.program ≠ ((m.frames l.fr).system_st (l.stop - 1)).progref
  · have hk : (l.stop - 1).toNat = (l.stop - 1 - 1).toNat + 1 := by omega
    have hi : (((l.stop - 1 - 1).toNat + 1 : Nat) : Int) = l.stop - 1 := by omega
    have hne : ¬ ((m.frames l.fr).system_st (l.stop - 1)).progref = l.program :=
      fun hx => hcross.2 hx.symm
    rw [hk] at h2
    simp only [chain_mirror, hi, ne_eq, hne, not_false_eq_true, if_true, Bool.and_eq_true,
      decide_eq_true_eq] at h2
    simp only [pop_level]
    rw [if_pos hcross]
    simp only [set_frame, setN_same, chain_state, chain_ok]
    exact ⟨by omega, h2.2, h3⟩
  · simp only [pop_level]
    rw [if_neg hcross]
    simp only [setN_same, chain_state, chain_ok]
    refine ⟨by omega, ?_, h3⟩
    by_cases h1' : l.stop = 1
    · have hk1 : (l.stop - 1).toNat = 0 := by omega
      have hk2 : (l.stop - 1 - 1).toNat = 0 := by omega
      rw [hk1] at h2
      rw [hk2]
      exact h2
    · have hk : (l.stop - 1).toNat = (l.stop - 1 - 1).toNat + 1 := by omega
      have hi : (((l.stop - 1 - 1).toNat + 1 : Nat) : Int) = l.stop - 1 := by omega
      have heq : ((m.frames l.fr).system_st (l.stop - 1)).progref = l.program := by
        by_contra hx
        exact hcross ⟨by omega, fun hy => hx hy.symm⟩
      rw [hk] at h2
      simp only [chain_mirror, hi, heq, ne_eq, not_true_eq_false, if_false, Bool.and_eq_true,
        decide_eq_true_eq] at h2
      exact h2.2

/-- The mirror of the caller chain is kept by every part of a control-flow
instruction. -/
theorem chain_state_closed (e : env) : flow_closed e chain_state where
  regs := fun _ _ _ _ h => h
  misc := by
    intro m l es ei el ep a s pc sd err out h
    simpa [chain_state, chain_ok, setN_same] using h
  clear := by
    intro m l k line h
    simpa [chain_state, chain_ok, CLEAR_arg, setN_same] using h
  compile := fun _ _ _ h => h
  uses := fun _ _ _ h => h
  sys := by
    intro m l v h
    obtain ⟨h1, h2, h3⟩ := h
    refine ⟨h1, ?_, by simp only [set_frame, setN_same]; exact h3⟩
    simp only [chain_ok, set_frame, setN_same] at h2 ⊢
    rw [← h2]
    refine chain_mirror_congr _ _ _ _ _ _ _ (fun _ _ => rfl) (fun j hj1 hj2 => ?_)
    have : (j : Int) ≠ l.stop := by omega
    simp [setI, this]
  nonneg := by
    intro m l h
    refine ⟨h.1, ?_⟩
    simp only [frame.try_call_level]
    cases hs : (m.frames l.fr).trys_st with
    | nil => simp
    | cons t rest => exact h.2.2 t (by rw [hs]; exact List.mem_cons_self _ _)
  push_same := chain_state_push_same
  push_cross := chain_state_push_cross
  pop := chain_state_pop e
/-- C16: the caller chain counts the calls into other programs.  The frame that
`interp` creates for a compiled program, once `interp_loop` has loaded its
registers, is in a state where the caller chain mirrors the system stack; and
from any such state, after any number of passes that execute `CALL`,
`EXECUTE`, `EXEC`, `RET` or a jump, each followed by the error check with its
unwind, while the loop `while (stop)` goes on, the state is again such a state
and `caller.top` is 1 plus the number of system entries at the indices 1 to
`stop - 1` whose saved program differs from the program that runs above
them. -/
theorem caller_top_counts_calls (e : env) :
    (∀ (m m1 : machine) (descr player location program source nosleeps whichperms forced_pid
        rettyp : Int) (cmdname args : String) (malloc fp : Nat),
      (m.mem.progs program).start ≠ 0 →
      interp e m descr player location program source nosleeps whichperms forced_pid cmdname
        args malloc = (m1, some fp) →
      chain_state (interp_loop_entry e m1 player program fp rettyp).1
        (interp_loop_entry e m1 player program fp rettyp).2)
    ∧ (∀ (n : Nat) (m m' : machine) (l l' : locals),
      chain_state m l → control_passes e n m l = some (m', l') →
      chain_state m' l'
      ∧ (m'.frames l'.fr).caller_top
          = 1 + calls_into_other (m'.frames l'.fr).system_st (l'.stop - 1).toNat l'.program) := by
  constructor
  · intro m m1 descr player location program source nosleeps whichperms forced_pid rettyp
      cmdname args malloc fp _ h
    simp only [interp] at h
    split at h
    · simp at h
    · simp only [Prod.mk.injEq, Option.some.injEq] at h
      obtain ⟨hm, hfp⟩ := h
      subst hm
      subst hfp
      simp [chain_state, chain_ok, interp_loop_entry, setN_same, chain_mirror, setI]
  · intro n m m' l l' h0 hrun
    have h1 := control_passes_closed e chain_state (chain_state_closed e) n m m' l l' h0 hrun
    exact ⟨h1, chain_mirror_count _ _ _ _ _ h1.2.1⟩

/-- The count of C16 after a CALL from program 2 into program 5: the caller
chain has height 2 and the system stack holds one entry, at index 1, that
records a call into another program. -/
theorem caller_top_counts_calls_witness :
    chain_state (sample_machine sample_heap (call_frame 5)) (sample_locals 10 1 1)
    ∧ ∃ m' l',
      control_passes (sample_env (code_primitive IN_CALL)) 1
          (sample_machine sample_heap (call_frame 5)) (sample_locals 10 1 1) = some (m', l')
      ∧ l'.stop = 2 ∧ l'.program = 5
      ∧ (m'.frames 0).caller_top = 1 + calls_into_other (m'.frames 0).system_st 1 5
      ∧ calls_into_other (m'.frames 0).system_st 1 5 = 1 :=
  ⟨⟨by decide, by decide, by decide⟩, _, _, rfl, by decide, by decide,
    ((caller_top_counts_calls (sample_env (code_primitive IN_CALL))).2 1
      (sample_machine sample_heap (call_frame 5)) _ (sample_locals 10 1 1) _
      ⟨by decide, by decide, by decide⟩ rfl).2,
    by decide⟩

/-- `watchpid_process` writes the two lists of a frame and nothing else of it. -/
theorem watchpid_process_frame (e : env) (m : machine) (fp : Nat) :
    ({ ((watchpid_process e m fp).frames fp) with waitees := [], waiters := [] } : frame)
      = { (m.frames fp) with waitees := [], waiters := [] } :=
  watchpid_process_keeps e fp
    (fun f => ({ f with waitees := [], waiters := [] } : frame)
      = { (m.frames fp) with waitees := [], waiters := [] })
    (fun _ _ hf => hf) (fun _ _ hf => hf) m fp rfl

/-- The two loops of `purge_free_frames` keep the first `max count 1` frames. -/
theorem purge_walk_keeps (list : List Nat) (count : Int) :
    (purge_walk list count).1 ++ (purge_after (purge_walk list count).2).1
      = list.take (max count 1).toNat := by
  induction list generalizing count with
  | nil => simp [purge_walk, purge_after]
  | cons f rest ih =>
    by_cases h : count - 1 > 0
    · have e1 : (max count 1).toNat = (max (count - 1) 1).toNat + 1 := by omega
      simp only [purge_walk, if_pos h, List.cons_append, ih, e1, List.take_succ_cons]
    · have e1 : (max count 1).toNat = 1 := by omega
      simp [purge_walk, h, purge_after, e1]

/-- The frames `purge_free_frames` frees are the ones behind the first
`max count 1`. -/
theorem purge_walk_frees (list : List Nat) (count : Int) :
    (purge_after (purge_walk list count).2).2 = list.drop (max count 1).toNat := by
  induction list generalizing count with
  | nil => simp [purge_walk, purge_after]
  | cons f rest ih =>
    by_cases h : count - 1 > 0
    · have e1 : (max count 1).toNat = (max (count - 1) 1).toNat + 1 := by omega
      simp only [purge_walk, if_pos h, ih, e1, List.drop_succ_cons]
    · have e1 : (max count 1).toNat = 1 := by omega
      simp [purge_walk, h, purge_after, e1]

/-- The loop of `purge_all_free_frames` empties the list. -/
theorem purge_all_loop_nil (list : List Nat) : purge_all_loop list = [] := by
  induction list with
  | nil => rfl
  | cons f rest ih => simpa [purge_all_loop] using ih

/-- C23: what `purge_free_frames` does with the free list.  For every list
and every keep-count `n` the list afterwards is the first `max n 1` frames of
the list before and the frames behind them are freed, so with `n >= 1` it is
the first `min L n` frames; with the keep-count 0 and the free list `[3, 5]`
the frame 3 stays on the list and only frame 5 is freed.
`purge_all_free_frames` leaves the list empty. -/
theorem purge_free_frames_keeps :
    (∀ (e : env) (m : machine),
      (purge_free_frames e m).free_frames_list
          = m.free_frames_list.take (max e.tp_free_frames_pool 1).toNat
      ∧ purge_free_frames_freed e m
          = m.free_frames_list.drop (max e.tp_free_frames_pool 1).toNat
      ∧ (purge_all_free_frames m).free_frames_list = [])
    ∧ (purge_free_frames (keep_env 0)
          { sample_machine sample_heap sample_frame with free_frames_list := [3, 5] }
        ).free_frames_list = [3]
    ∧ purge_free_frames_freed (keep_env 0)
          { sample_machine sample_heap sample_frame with free_frames_list := [3, 5] } = [5] :=
  ⟨fun e m => ⟨purge_walk_keeps _ _, purge_walk_frees _ _, purge_all_loop_nil _⟩,
    by decide, by decide⟩
/-- C24: the permission check of `interp`.  The function returns null exactly
when the level of the program is 0, or the level of its owner is 0, or a source
is given whose owner is no true wizard and may not link to the program.  When
it returns null the frames, the free list, `top_pid` and the heap with its
instance counts are as before (the player is told that permission is denied);
in every other case it returns a frame, the head of the free list or a new
block. -/
theorem interp_permission (e : env) (m : machine)
    (descr player location program source nosleeps whichperms forced_pid : Int)
    (cmdname args : String) (malloc : Nat) :
    ((interp e m descr player location program source nosleeps whichperms forced_pid cmdname
        args malloc).2 = none
      ↔ (e.MLevel program = 0 ∨ e.MLevel (e.OWNER program) = 0
          ∨ (source ≠ NOTHING ∧ e.TrueWizard (e.OWNER source) = false
              ∧ e.can_link_to (e.OWNER source) program = false)))
    ∧ ((interp e m descr player location program source nosleeps whichperms forced_pid cmdname
        args malloc).2 = none →
      (interp e m descr player location program source nosleeps whichperms forced_pid cmdname
        args malloc).1
        = { m with out := m.out ++ [.notify_nolisten player "Program call: Permission denied."] })
    ∧ ((interp e m descr player location program source nosleeps whichperms forced_pid cmdname
        args malloc).2 ≠ none →
      (interp e m descr player location program source nosleeps whichperms forced_pid cmdname
        args malloc).2 = some (m.free_frames_list.headD malloc)) := by
  unfold interp
  split
  · rename_i h
    exact ⟨⟨fun _ => h, fun _ => rfl⟩, fun _ => rfl, fun hx => absurd rfl hx⟩
  · rename_i h
    refine ⟨⟨fun hx => by simp at hx, fun hx => absurd hx h⟩, fun hx => by simp at hx, fun _ => ?_⟩
    cases m.free_frames_list <;> rfl

/-- The check of C24 on a program of level 0: `interp` returns null and the
frames, the free list, the pid counter and the instance count of the program
are as before. -/
theorem interp_permission_witness :
    (interp denied_env (sample_machine sample_heap sample_frame) 0 1 0 2 1 0 0 0 "" "" 0).2 = none
    ∧ (interp denied_env (sample_machine sample_heap sample_frame) 0 1 0 2 1 0 0 0 "" "" 0).1.free_frames_list
        = (sample_machine sample_heap sample_frame).free_frames_list
    ∧ (interp denied_env (sample_machine sample_heap sample_frame) 0 1 0 2 1 0 0 0 "" "" 0).1.top_pid = 8
    ∧ ((interp denied_env (sample_machine sample_heap sample_frame) 0 1 0 2 1 0 0 0 "" "" 0).1.mem.progs
        2).instances = 0 :=
  have h := (interp_permission denied_env (sample_machine sample_heap sample_frame) 0 1 0 2 1 0
    0 0 "" "" 0).2.1 (by decide)
  ⟨by decide, by rw [h], by rw [h]; rfl, by rw [h]; rfl⟩
/-- The recursion of `find_mlev` reads the caller chain only at the indices 1
to `k`. -/
theorem find_mlev_walk_congr (e : env) (fr fr' : frame) (k : Nat)
    (h : ∀ i : Int, 1 ≤ i → i ≤ k → fr'.caller_st i = fr.caller_st i) (prog : Int) :
    find_mlev_walk e fr' k prog = find_mlev_walk e fr k prog := by
  induction k generalizing prog with
  | zero => rfl
  | succ k ih =>
    simp only [find_mlev_walk]
    rw [h ((k : Int) + 1) (by omega) (by push_cast; omega),
      ih (fun i h1 h2 => h i h1 (by push_cast; omega))]

/-- One step of `find_mlev`, as the body of the function reads. -/
theorem find_mlev_unfold (e : env) (prog : Int) (fr : frame) (st : Int) :
    find_mlev e prog fr st
      = if (e.FLAGS prog .STICKY = true ∧ e.FLAGS prog .HAVEN = true)
            ∧ st > 1 ∧ e.TrueWizard (e.OWNER prog) = true then
          find_mlev e (fr.caller_st (st - 1)) fr (st - 1)
        else min (e.MLevel prog) (e.MLevel (e.OWNER prog)) := by
  have hmin : (if e.MLevel prog < e.MLevel (e.OWNER prog) then e.MLevel prog
      else e.MLevel (e.OWNER prog)) = min (e.MLevel prog) (e.MLevel (e.OWNER prog)) := by
    split
    · rw [min_eq_left (by omega)]
    · rw [min_eq_right (by omega)]
  unfold find_mlev
  by_cases hst : st > 1
  · obtain ⟨k, hk⟩ : ∃ k : Nat, (st - 1).toNat = k + 1 := ⟨(st - 2).toNat, by omega⟩
    have hk1 : (st - 1 - 1).toNat = k := by omega
    have hk2 : (k : Int) + 1 = st - 1 := by omega
    rw [hk, hk1]
    simp only [find_mlev_walk, hk2, hmin]
    by_cases hc : (e.FLAGS prog .STICKY && e.FLAGS prog .HAVEN) && e.TrueWizard (e.OWNER prog)
    · rw [if_pos hc]
      simp only [Bool.and_eq_true] at hc
      rw [if_pos ⟨hc.1, hst, hc.2⟩]
    · rw [if_neg hc]
      simp only [Bool.and_eq_true] at hc
      rw [if_neg (fun hx => hc ⟨hx.1, hx.2.2⟩)]
  · have h0 : (st - 1).toNat = 0 := by omega
    rw [h0, if_neg (fun hx => hst hx.2.1)]
    simp only [find_mlev_walk, hmin]

/-- C25, against the claim as written: program 2 is STICKY and HAVEN and runs
at depth 2, its owner is a true wizard, and the owner of its caller, program 5,
is not.  `find_mlev` recurses into the caller all the same and returns the
level 1 of program 5, not the smaller of the levels 3 and 4 of program 2 and
its owner. -/
theorem find_mlev_tests_own_owner :
    find_mlev sticky_env 2 sticky_frame 2 = 1
    ∧ sticky_env.TrueWizard (sticky_env.OWNER (sticky_frame.caller_st 1)) = false
    ∧ sticky_env.TrueWizard (sticky_env.OWNER 2) = true
    ∧ (sticky_env.FLAGS 2 .STICKY = true ∧ sticky_env.FLAGS 2 .HAVEN = true)
    ∧ min (sticky_env.MLevel 2) (sticky_env.MLevel (sticky_env.OWNER 2)) = 3 := by
  decide

/-- C25 as amended: `find_mlev(prog, fr, st)` recurses into the caller
`fr->caller.st[st - 1]` with depth `st - 1` exactly when `prog` is both STICKY
and HAVEN, `st` is greater than 1 and the owner of `prog` is a true wizard; in
every other case it returns the smaller of the levels of `prog` and of its
owner.  The function is total, its recursion going down on `st - 1`, and its
result does not depend on `caller.st[0]`. -/
theorem find_mlev_recursion (e : env) (prog : Int) (fr : frame) (st : Int) :
    find_mlev e prog fr st
      = (if (e.FLAGS prog .STICKY = true ∧ e.FLAGS prog .HAVEN = true)
            ∧ st > 1 ∧ e.TrueWizard (e.OWNER prog) = true then
          find_mlev e (fr.caller_st (st - 1)) fr (st - 1)
        else min (e.MLevel prog) (e.MLevel (e.OWNER prog)))
    ∧ ∀ v, find_mlev e prog { fr with caller_st := setI fr.caller_st 0 v } st
        = find_mlev e prog fr st := by
  refine ⟨find_mlev_unfold e prog fr st, fun v => ?_⟩
  unfold find_mlev
  refine find_mlev_walk_congr e fr _ _ (fun i h1 _ => ?_) prog
  have hi : i ≠ 0 := by omega
  simp [setI, hi]
/-- C26, against the claim as written: the puppet 7, owned by player 1, runs
program 2, which is neither STICKY nor HAVEN and has level 3, in a frame of
regular permission mode.  `find_uid` returns the owner 1 of the puppet, not the
puppet. -/
theorem find_uid_of_puppet :
    find_uid puppet_env 7 sample_frame 1 2 = 1
    ∧ puppet_env.FLAGS 2 .STICKY = false ∧ puppet_env.FLAGS 2 .HAVEN = false
    ∧ sample_frame.perms ≠ STD_SETUID ∧ sample_frame.perms ≠ STD_HARDUID
    ∧ ¬ puppet_env.ProgMLevel sample_frame 2 < 2 := by
  decide

/-- C26 as amended: `find_uid(player, fr, st, program)` returns the owner of
the program when the program is STICKY or the mode of the frame is SETUID,
unless the program is also HAVEN, its owner is a true wizard and `st > 1`, in
which case it is the result for the caller `fr->caller.st[st - 1]` at depth
`st - 1`; otherwise the owner of the program when `ProgMLevel(program) < 2`;
otherwise, when the program is HAVEN or the mode is HARDUID, the owner of the
trigger, or of the program if the trigger is NOTHING; and otherwise the owner
of the player. -/
theorem find_uid_cases (e : env) (player : Int) (fr : frame) (st program : Int) :
    find_uid e player fr st program
      = if e.FLAGS program .STICKY = true ∨ fr.perms = STD_SETUID then
          (if e.FLAGS program .HAVEN = true ∧ st > 1 ∧ e.TrueWizard (e.OWNER program) = true
            then find_uid e player fr (st - 1) (fr.caller_st (st - 1))
            else e.OWNER program)
        else if e.ProgMLevel fr program < 2 then e.OWNER program
        else if e.FLAGS program .HAVEN = true ∨ fr.perms = STD_HARDUID then
          (if fr.trig = NOTHING then e.OWNER program else e.OWNER fr.trig)
        else e.OWNER player := by
  unfold find_uid
  by_cases hst : st > 1
  · obtain ⟨k, hk⟩ : ∃ k : Nat, (st - 1).toNat = k + 1 := ⟨(st - 2).toNat, by omega⟩
    have hk1 : (st - 1 - 1).toNat = k := by omega
    have hk2 : (k : Int) + 1 = st - 1 := by omega
    rw [hk, hk1]
    rw [find_uid_walk]
    simp only [hk2, Bool.or_eq_true, decide_eq_true_eq, hst, true_and]
    by_cases h1 : e.FLAGS program .STICKY = true ∨ fr.perms = STD_SETUID
    · rw [if_pos h1, if_pos h1]
      by_cases h2 : e.FLAGS program .HAVEN = true
      · rw [if_pos h2]
        by_cases h3 : e.TrueWizard (e.OWNER program) = true
        · rw [if_pos h3, if_pos ⟨h2, h3⟩]
        · rw [if_neg h3, if_neg (fun hx => h3 hx.2)]
      · rw [if_neg h2, if_neg (fun hx => h2 hx.1)]
    · rw [if_neg h1, if_neg h1]
  · have h0 : (st - 1).toNat = 0 := by omega
    rw [h0, find_uid_walk]
    simp only [Bool.or_eq_true, decide_eq_true_eq]
    by_cases h1 : e.FLAGS program .STICKY = true ∨ fr.perms = STD_SETUID
    · have hn : ¬ (e.FLAGS program .HAVEN = true ∧ st > 1
          ∧ e.TrueWizard (e.OWNER program) = true) := fun hx => hst hx.2.1
      rw [if_pos h1, if_pos h1, if_neg hn]
      split <;> rfl
    · rw [if_neg h1, if_neg h1]

/-- The search of `localvars_get` finds the first record of `prog` and leaves
the list without it. -/
theorem localvars_find_spec (prog : Int) (L : List localvars) :
    localvars_find prog L
      = (L.find? fun x => decide (x.prog = prog)).map
          fun r => (r, L.eraseP fun x => decide (x.prog = prog)) := by
  induction L with
  | nil => rfl
  | cons r rest ih =>
    by_cases h : r.prog = prog
    · simp [localvars_find, h]
    · simp [localvars_find, h, ih]
      cases List.find? (fun x => decide (x.prog = prog)) rest <;> rfl

/-- Taking the first record of `prog` out of a list keeps the records of the
other programs, in their order. -/
theorem eraseP_filter_others (prog : Int) (L : List localvars) :
    (L.eraseP fun x => decide (x.prog = prog)).filter (fun x => decide (x.prog ≠ prog))
      = L.filter (fun x => decide (x.prog ≠ prog)) := by
  have e : (fun x : localvars => decide (x.prog ≠ prog))
      = fun x => !decide (x.prog = prog) := by
    funext x
    simp
  rw [e]
  induction L with
  | nil => rfl
  | cons r rest ih =>
    by_cases h : r.prog = prog
    · simp [List.eraseP_cons, h]
    · simp [List.eraseP_cons, h, ih]

/-- The first record a search finds, put in front of the list without it, is a
rearrangement of the list. -/
theorem find_cons_eraseP_perm (p : localvars → Bool) (L : List localvars) (r : localvars)
    (h : L.find? p = some r) : (r :: L.eraseP p).Perm L := by
  induction L with
  | nil => simp at h
  | cons x rest ih =>
    by_cases hx : p x = true
    · simp only [List.find?_cons, hx, Option.some.injEq] at h
      subst h
      simp [List.eraseP_cons, hx]
    · simp only [List.find?_cons, hx] at h
      simp only [List.eraseP_cons, hx, if_false]
      exact (List.Perm.swap x r _).trans ((ih h).cons x)

/-- C27: `localvars_get(fr, prog)` finds or creates the record of `prog` and
moves it to the front.  Afterwards the list is a record `r` of `prog` followed
by the list before the call without its first record of `prog`; `r` is that
first record, unchanged, when there was one, and a record whose slots all hold
the integer 0 when there was none; the records of the other programs are all
there, unchanged and in the same order; and when no program had two records
before the call, none has two after it. -/
theorem localvars_get_moves_to_front (fr : frame) (prog : Int) :
    (∃ r, (localvars_get fr prog).lvars
          = r :: fr.lvars.eraseP (fun x => decide (x.prog = prog))
      ∧ r.prog = prog
      ∧ ((fr.lvars.find? fun x => decide (x.prog = prog)) = some r
          ∨ ((∀ x ∈ fr.lvars, x.prog ≠ prog)
              ∧ ∀ i, (r.lvars i).data = .PROG_INTEGER 0)))
    ∧ (localvars_get fr prog).lvars.filter (fun x => decide (x.prog ≠ prog))
        = fr.lvars.filter (fun x => decide (x.prog ≠ prog))
    ∧ ((fr.lvars.map fun x => x.prog).Nodup →
        ((localvars_get fr prog).lvars.map fun x => x.prog).Nodup) := by
  have hf := localvars_find_spec prog fr.lvars
  cases hfind : fr.lvars.find? (fun x => decide (x.prog = prog)) with
  | none =>
    rw [hfind] at hf
    have hnone : ∀ x ∈ fr.lvars, x.prog ≠ prog := by
      intro x hx
      have := List.find?_eq_none.mp hfind x hx
      simpa using this
    have herase : fr.lvars.eraseP (fun x => decide (x.prog = prog)) = fr.lvars :=
      List.eraseP_of_forall_not (fun x hx => by simpa using hnone x hx)
    have hl : (localvars_get fr prog).lvars
        = { prog := prog, lvars := fun _ => { line := 0, data := .PROG_INTEGER 0 } }
            :: fr.lvars := by
      simp [localvars_get, hf]
    refine ⟨⟨_, by rw [hl, herase], rfl, Or.inr ⟨hnone, fun _ => rfl⟩⟩, ?_, ?_⟩
    · rw [hl]; simp
    · intro hnd
      rw [hl]
      simp only [List.map_cons, List.nodup_cons]
      refine ⟨?_, hnd⟩
      intro hmem
      obtain ⟨x, hx, hp⟩ := List.mem_map.mp hmem
      exact hnone x hx hp
  | some r =>
    rw [hfind] at hf
    have hr : r.prog = prog := by
      have := List.find?_some hfind
      simpa using this
    have hl : (localvars_get fr prog).lvars
        = r :: fr.lvars.eraseP (fun x => decide (x.prog = prog)) := by
      simp [localvars_get, hf]
    refine ⟨⟨r, hl, hr, Or.inl rfl⟩, ?_, ?_⟩
    · rw [hl]
      simp only [List.filter_cons, hr, ne_eq, not_true_eq_false, decide_False]
      exact eraseP_filter_others prog fr.lvars
    · intro hnd
      rw [hl]
      have hperm : (r :: fr.lvars.eraseP (fun x => decide (x.prog = prog))).Perm fr.lvars := by
        exact find_cons_eraseP_perm _ _ _ hfind
      exact ((hperm.map fun x => x.prog).nodup_iff).mpr hnd

/-- The move of C27 on a frame with the records of the programs 5 and 2, in
this order: after `localvars_get` for program 2 the records are those of 2 and
5, the one of program 2 with its slots as they were. -/
theorem localvars_get_moves_to_front_witness :
    ((localvars_get { sample_frame with lvars := [sample_localvars 5 1, sample_localvars 2 9] }
        2).lvars.map fun x => x.prog) = [2, 5]
    ∧ ((localvars_get { sample_frame with lvars := [sample_localvars 5 1, sample_localvars 2 9] }
        2).lvars.map fun x => x.prog).Nodup :=
  ⟨by decide,
    (localvars_get_moves_to_front
      { sample_frame with lvars := [sample_localvars 5 1, sample_localvars 2 9] } 2).2.2
      (by decide)⟩
/-- The walk of `scopedvar_get` with a level that is not negative stops at the
level of that number, counted from the top, when the stack is that deep. -/
theorem scopedvar_walk_spec (L : List scopedvar_t) (level : Int) (k : Nat) (h : 0 ≤ level) :
    scopedvar_walk L level k = (L[level.toNat]?).map fun s => (k + level.toNat, s) := by
  induction L generalizing level k with
  | nil => simp [scopedvar_walk]
  | cons s rest ih =>
    by_cases hl : level > 0
    · obtain ⟨n, hn⟩ : ∃ n : Nat, level.toNat = n + 1 := ⟨(level - 1).toNat, by omega⟩
      have hn1 : (level - 1).toNat = n := by omega
      simp only [scopedvar_walk, if_pos hl]
      rw [ih (level - 1) (k + 1) (by omega), hn, hn1, List.getElem?_cons_succ]
      cases rest[n]? with
      | none => rfl
      | some t => simp only [Option.map_some']; congr 2; omega
    · have h0 : level.toNat = 0 := by omega
      simp [scopedvar_walk, hl, h0]

/-- C28: `scopedvar_get(fr, level, varnum)` for a level that is not negative.
With a frame whose scoped stack has a level number `level`, counted from the
top, and `0 <= varnum < count` of that level, the result is the slot `varnum`
of that level; with a stack that is not that deep, a `varnum` that is negative
or not below the count, or a null frame, the result is null.  The function
returns a slot and no stack: it does not write to the frame. -/
theorem scopedvar_get_spec (fr : frame) (level varnum : Int) (h : 0 ≤ level) :
    scopedvar_get (some fr) level varnum
      = (match fr.svars[level.toNat]? with
        | none => none
        | some s => if 0 ≤ varnum ∧ varnum < s.count then some (level.toNat, varnum) else none)
    ∧ scopedvar_get none level varnum = none := by
  constructor
  · simp only [scopedvar_get, scopedvar_walk_spec _ _ _ h]
    cases fr.svars[level.toNat]? with
    | none => rfl
    | some s =>
      simp only [Option.map_some', Nat.zero_add]
      by_cases hv : 0 ≤ varnum ∧ varnum < s.count
      · rw [if_pos hv, if_neg (by omega)]
      · rw [if_neg hv, if_pos (by omega)]
  · simp [scopedvar_get, scopedvar_walk]

/-- The lookup of C28 in a stack of two levels with 3 and 2 slots: slot 1 of
level 1 is found, slot 2 of level 1 and every slot of level 2 is not. -/
theorem scopedvar_get_spec_witness :
    scopedvar_get (some { sample_frame with svars := [sample_scopedvar 3, sample_scopedvar 2] })
        1 1 = some (1, 1)
    ∧ scopedvar_get (some { sample_frame with svars := [sample_scopedvar 3, sample_scopedvar 2] })
        1 2 = none
    ∧ scopedvar_get (some { sample_frame with svars := [sample_scopedvar 3, sample_scopedvar 2] })
        2 0 = none :=
  ⟨((scopedvar_get_spec
      { sample_frame with svars := [sample_scopedvar 3, sample_scopedvar 2] } 1 1
      (by decide)).1).trans (by decide),
    by decide, by decide⟩
/-- The copy `copyinst` makes does not depend on the heap. -/
theorem copyinst_snd_heap (h h' : heap) (v : inst) : (copyinst h v).2 = (copyinst h' v).2 := by
  unfold copyinst
  split <;> rfl

/-- The copy `copyinst` makes of a value that is no procedure header is the
value. -/
theorem copyinst_snd_same (h : heap) (v : inst)
    (hv : ∀ p, v.data ≠ .PROG_FUNCTION (some p)) : (copyinst h v).2 = v := by
  unfold copyinst
  split
  · rename_i p hp
    exact absurd hp (hv p)
  · rfl
  · rfl
  · rfl
  · rename_i k hk
    cases v
    simp_all
  · rfl

/-- The argument loop of `PROG_FUNCTION` on a frame whose top scoped level has
room for `n` arguments: the loop goes on with `n` operands popped, slot `j` of
the top level holds the copy of the operand `j` places above the new height for
every `j < n`, and the other slots, the levels below and `skip_declare` are as
before. -/
theorem function_args_spec (e : env) :
    ∀ (n : Nat) (m : machine) (l : locals) (s : scopedvar_t) (rest : List scopedvar_t),
      (m.frames l.fr).svars = s :: rest → (n : Int) ≤ s.count →
      ∃ m' s', function_args e n m l = .next m' { l with atop := l.atop - n }
        ∧ (m'.frames l.fr).svars = s' :: rest
        ∧ s'.count = s.count ∧ s'.varnames = s.varnames
        ∧ (∀ j : Int, 0 ≤ j → j < n →
            s'.vars j = (copyinst m.mem ((m.frames l.fr).argument_st (l.atop - n + j))).2)
        ∧ (∀ j : Int, ¬ (0 ≤ j ∧ j < n) → s'.vars j = s.vars j)
        ∧ (m'.frames l.fr).skip_declare = (m.frames l.fr).skip_declare := by
  intro n
  induction n with
  | zero =>
    intro m l s rest hsv _
    refine ⟨m, s, ?_, hsv, rfl, rfl, fun j h0 h1 => ?_, fun _ _ => rfl, rfl⟩
    · simp [function_args]
    · simp at h1; omega
  | succ i ih =>
    intro m l s rest hsv hn
    have hget : scopedvar_get (some (m.frames l.fr)) 0 (i : Int) = some (0, (i : Int)) := by
      have h1 : ¬ ((i : Int) < 0 ∨ (i : Int) ≥ s.count) := by push_cast at hn; omega
      simp [scopedvar_get, hsv, scopedvar_walk, h1]
    simp only [function_args, hget]
    let c := CLEAR m.mem (svars_get (m.frames l.fr).svars 0 i) 1354
    let r := copyinst c.1 ((m.frames l.fr).argument_st (l.atop - 1))
    let c1 := CLEAR r.1 ((m.frames l.fr).argument_st (l.atop - 1)) 1356
    let fr1 : frame := { (m.frames l.fr) with svars := svars_set (m.frames l.fr).svars 0 i r.2, argument_st := setI (m.frames l.fr).argument_st (l.atop - 1) c1.2 }
    obtain ⟨m', s', hrun, hsv', hc, hv, hslots, hothers, hskip⟩ :=
      ih (set_frame { m with mem := c1.1 } l.fr fr1) { l with atop := l.atop - 1 }
        { s with vars := setI s.vars i r.2 } rest
        (by simp [fr1, set_frame, setN_same, hsv, svars_set])
        (by push_cast at hn; show (i : Int) ≤ s.count; omega)
    refine ⟨m', s', ?_, hsv', hc, hv, fun j h0 h1 => ?_, fun j hj => ?_, ?_⟩
    · refine hrun.trans ?_
      congr 1
      simp only [locals.mk.injEq, true_and, and_true]
      push_cast
      omega
    · by_cases hji : j = (i : Int)
      · subst hji
        rw [hothers _ (by omega)]
        have hidx : l.atop - ((i + 1 : Nat) : Int) + (i : Int) = l.atop - 1 := by
          push_cast
          omega
        rw [hidx]
        simp only [setI, if_true, r]
        exact copyinst_snd_heap _ m.mem _
      · push_cast at h1
        have h1' : j < (i : Int) := by omega
        rw [hslots j h0 h1']
        have hidx : l.atop - ((i + 1 : Nat) : Int) + j = l.atop - 1 - (i : Int) + j := by
          push_cast
          omega
        rw [hidx]
        simp only [set_frame, setN_same, fr1]
        rw [copyinst_snd_heap _ m.mem]
        have hne : ¬ (l.atop - 1 - (i : Int) + j = l.atop - 1) := by omega
        simp only [setI, hne, if_false]
    · push_cast at hj
      rw [hothers j (by omega)]
      have hne : ¬ (j = (i : Int)) := by omega
      simp [setI, hne]
    · rw [hskip]
      simp [set_frame, setN_same, fr1]
/-- `PROG_FUNCTION` with `skip_declare` clear, behind its guards: one scoped
level with `vars` slots is pushed, the arguments are popped into its first
`args` slots and the other slots hold the integer 0. -/
theorem exec_FUNCTION_push_spec (e : env) (m : machine) (l : locals) (p : muf_proc_data)
    (h0 : 0 ≤ p.args) (hv : p.args ≤ p.vars) (ha : p.args ≤ l.atop)
    (ht : try_protect (m.frames l.fr) l.atop p.args = false)
    (hs : (m.frames l.fr).skip_declare = false) :
    ∃ m' s', exec_FUNCTION e m l (some p)
          = .next m' { l with atop := l.atop - p.args, pc := l.pc + 1 }
      ∧ (m'.frames l.fr).svars = s' :: (m.frames l.fr).svars
      ∧ s'.count = p.vars
      ∧ (∀ j : Int, 0 ≤ j → j < p.args →
          s'.vars j = (copyinst m.mem ((m.frames l.fr).argument_st (l.atop - p.args + j))).2)
      ∧ (∀ j : Int, p.args ≤ j → (s'.vars j).data = .PROG_INTEGER 0)
      ∧ (m'.frames l.fr).skip_declare = false := by
  have hcast : ((p.args.toNat : Nat) : Int) = p.args := Int.toNat_of_nonneg h0
  obtain ⟨m', s', hrun, hsv, hc, _, hslots, hothers, hskip⟩ :=
    function_args_spec e p.args.toNat
      (set_frame m l.fr (scopedvar_addlevel (m.frames l.fr) p.varnames p.vars)) l
      { count := p.vars, varnames := p.varnames,
        vars := fun _ => { line := 0, data := .PROG_INTEGER 0 } }
      (m.frames l.fr).svars
      (by simp [set_frame, setN_same, scopedvar_addlevel])
      (by rw [hcast]; exact hv)
  rw [hcast] at hrun hslots hothers
  refine ⟨m', s', ?_, hsv, hc, fun j h1 h2 => ?_, fun j hj => ?_, ?_⟩
  · have ha' : ¬ l.atop < p.args := by omega
    simp only [exec_FUNCTION, ha', ht, hs, if_false, Bool.false_eq_true, hrun]
  · rw [hslots j h1 h2]
    simp [set_frame, setN_same, scopedvar_addlevel]
  · rw [hothers j (by omega)]
  · rw [hskip]
    simp [set_frame, setN_same, scopedvar_addlevel, hs]

/-- `PROG_FUNCTION` with `skip_declare` set, behind its guards, on a frame
whose top scoped level has room for the arguments: no level is pushed, the
arguments are popped into the first `args` slots of the top level, its other
slots and the levels below are as before, and `skip_declare` is cleared. -/
theorem exec_FUNCTION_skip_spec (e : env) (m : machine) (l : locals) (p : muf_proc_data)
    (s : scopedvar_t) (rest : List scopedvar_t)
    (h0 : 0 ≤ p.args) (ha : p.args ≤ l.atop)
    (ht : try_protect (m.frames l.fr) l.atop p.args = false)
    (hs : (m.frames l.fr).skip_declare = true)
    (hsv : (m.frames l.fr).svars = s :: rest) (hroom : p.args ≤ s.count) :
    ∃ m' s', exec_FUNCTION e m l (some p)
          = .next m' { l with atop := l.atop - p.args, pc := l.pc + 1 }
      ∧ (m'.frames l.fr).svars = s' :: rest
      ∧ s'.count = s.count
      ∧ (∀ j : Int, 0 ≤ j → j < p.args →
          s'.vars j = (copyinst m.mem ((m.frames l.fr).argument_st (l.atop - p.args + j))).2)
      ∧ (∀ j : Int, ¬ (0 ≤ j ∧ j < p.args) → s'.vars j = s.vars j)
      ∧ (m'.frames l.fr).skip_declare = false := by
  have hcast : ((p.args.toNat : Nat) : Int) = p.args := Int.toNat_of_nonneg h0
  obtain ⟨m', s', hrun, hsv', hc, _, hslots, hothers, hskip⟩ :=
    function_args_spec e p.args.toNat
      (set_frame m l.fr { (m.frames l.fr) with skip_declare := false }) l s rest
      (by simp [set_frame, setN_same, hsv])
      (by rw [hcast]; exact hroom)
  rw [hcast] at hrun hslots hothers
  refine ⟨m', s', ?_, hsv', hc, fun j h1 h2 => ?_, hothers, ?_⟩
  · have ha' : ¬ l.atop < p.args := by omega
    simp only [exec_FUNCTION, ha', ht, hs, if_false, if_true, Bool.false_eq_true, hrun]
  · rw [hslots j h1 h2]
    simp [set_frame, setN_same]
  · rw [hskip]
    simp [set_frame, setN_same]

/-- The primitive `IN_JMP` behind its guards, with an address of the running
program on top of the operand stack: the address is popped and cleared, `pc` is
the target, and `skip_declare` is set when the target is a procedure header. -/
theorem exec_JMP_spec (e : env) (m : machine) (l : locals) (a : Nat)
    (h1 : 1 ≤ l.atop) (ht : try_protect (m.frames l.fr) l.atop 1 = false)
    (hd : ((m.frames l.fr).argument_st (l.atop - 1)).data = .PROG_ADD a)
    (hvalid : invalid_program e (m.mem.addrs a).progref = false)
    (hprog : (m.mem.addrs a).progref = l.program) :
    ∃ m1, exec_JMP e m l = .next m1 { l with atop := l.atop - 1, pc := (m.mem.addrs a).data }
      ∧ m1.frames l.fr
          = { (m.frames l.fr) with
                skip_declare := (if (e.code (m.mem.addrs a).data).type = .PROG_FUNCTION then true
                  else (m.frames l.fr).skip_declare),
                argument_st := setI (m.frames l.fr).argument_st (l.atop - 1)
                  (CLEAR m.mem ((m.frames l.fr).argument_st (l.atop - 1)) 1439).2 } := by
  have h1' : ¬ l.atop < 1 := by omega
  have hp : ¬ l.program ≠ (m.mem.addrs a).progref := by simp [hprog]
  refine ⟨CLEAR_arg (set_frame m l.fr
      (if (e.code (m.mem.addrs a).data).type = .PROG_FUNCTION then
        { (m.frames l.fr) with skip_declare := true } else m.frames l.fr)) l.fr (l.atop - 1) 1439,
    ?_, ?_⟩
  · simp only [exec_JMP, h1', ht, hd, hvalid, hp, if_false, Bool.false_eq_true]
  · simp only [CLEAR_arg, set_frame, setN_same]
    split <;> rfl
/-- C29: the header of a procedure with `args` arguments and `vars` variables,
`0 <= args <= vars`, on an operand stack that holds the `args` values and may
give them up.  With `skip_declare` clear the instruction pushes one scoped
level with `vars` slots; slot `j` holds the copy of the operand `j` places above
the new height for every `j < args`, which is that operand itself unless it is
a procedure header, and the integer 0 for every `j >= args`; the operand height
drops by `args` and `pc` advances by one.  With `skip_declare` set and a top
scoped level that has room for the arguments it pushes no level, puts the
arguments into the slots below `args` of the top level, leaves the other slots
and levels alone and clears `skip_declare`. -/
theorem function_header (e : env) (m : machine) (l : locals) (p : muf_proc_data)
    (h0 : 0 ≤ p.args) (hv : p.args ≤ p.vars) (ha : p.args ≤ l.atop)
    (ht : try_protect (m.frames l.fr) l.atop p.args = false) :
    ((m.frames l.fr).skip_declare = false →
      ∃ m' s', exec_FUNCTION e m l (some p)
            = .next m' { l with atop := l.atop - p.args, pc := l.pc + 1 }
        ∧ (m'.frames l.fr).svars = s' :: (m.frames l.fr).svars
        ∧ s'.count = p.vars
        ∧ (∀ j : Int, 0 ≤ j → j < p.args →
            s'.vars j = (copyinst m.mem ((m.frames l.fr).argument_st (l.atop - p.args + j))).2
            ∧ ((∀ q, ((m.frames l.fr).argument_st (l.atop - p.args + j)).data
                  ≠ .PROG_FUNCTION (some q)) →
                s'.vars j = (m.frames l.fr).argument_st (l.atop - p.args + j)))
        ∧ (∀ j : Int, p.args ≤ j → (s'.vars j).data = .PROG_INTEGER 0)
        ∧ (m'.frames l.fr).skip_declare = false)
    ∧ ((m.frames l.fr).skip_declare = true →
      ∀ s rest, (m.frames l.fr).svars = s :: rest → p.args ≤ s.count →
      ∃ m' s', exec_FUNCTION e m l (some p)
            = .next m' { l with atop := l.atop - p.args, pc := l.pc + 1 }
        ∧ (m'.frames l.fr).svars = s' :: rest
        ∧ s'.count = s.count
        ∧ (∀ j : Int, 0 ≤ j → j < p.args →
            s'.vars j = (copyinst m.mem ((m.frames l.fr).argument_st (l.atop - p.args + j))).2)
        ∧ (∀ j : Int, ¬ (0 ≤ j ∧ j < p.args) → s'.vars j = s.vars j)
        ∧ (m'.frames l.fr).skip_declare = false) := by
  constructor
  · intro hs
    obtain ⟨m', s', hrun, hsv, hc, hslots, hzero, hskip⟩ :=
      exec_FUNCTION_push_spec e m l p h0 hv ha ht hs
    refine ⟨m', s', hrun, hsv, hc, fun j h1 h2 => ⟨hslots j h1 h2, fun hq => ?_⟩, hzero, hskip⟩
    rw [hslots j h1 h2]
    exact copyinst_snd_same _ _ hq
  · intro hs s rest hsv hroom
    exact exec_FUNCTION_skip_spec e m l p s rest h0 ha ht hs hsv hroom

/-- The header of C29 for the procedure `f` with 3 variables, 2 of them
arguments, on the operand stack `[7, 8]`: the pass goes on at height 0 and the
new scoped level holds 7, 8 and 0. -/
theorem function_header_witness :
    ∃ m' s', exec_FUNCTION (sample_env (code_primitive 0))
          (sample_machine sample_heap function_frame) (sample_locals 10 2 1) (some sample_proc)
        = .next m' { sample_locals 10 2 1 with atop := 0, pc := 11 }
      ∧ (m'.frames 0).svars = [s']
      ∧ s'.count = 3
      ∧ s'.vars 0 = { line := 0, data := .PROG_INTEGER 7 }
      ∧ s'.vars 1 = { line := 0, data := .PROG_INTEGER 8 }
      ∧ (s'.vars 2).data = .PROG_INTEGER 0 :=
  ((function_header (sample_env (code_primitive 0)) (sample_machine sample_heap function_frame)
      (sample_locals 10 2 1) sample_proc (by decide) (by decide) (by decide) (by decide)).1
    (by decide)).elim fun m' hm => hm.elim fun s' h =>
      ⟨m', s', h.1, h.2.1, h.2.2.1, (h.2.2.2.1 0 (by decide) (by decide)).1,
        (h.2.2.2.1 1 (by decide) (by decide)).1, h.2.2.2.2.1 2 (by decide)⟩
/-- C30, against the claim as written: the instruction `JMP 20` at address 10
whose target is a procedure header sets `pc` to 20 and leaves `skip_declare`
clear, and the header executed next pushes a scoped level on a frame that had
none. -/
theorem prog_jmp_keeps_skip_declare :
    (sample_frame.skip_declare = false ∧ sample_frame.svars.length = 0)
    ∧ ∃ m1 l1 m2 l2,
      dispatch (sample_env code_jmp_function) (sample_machine sample_heap sample_frame)
          (sample_locals 10 0 1) = .next m1 l1
      ∧ l1.pc = 20 ∧ (m1.frames 0).skip_declare = false
      ∧ ((sample_env code_jmp_function).code 20).type = .PROG_FUNCTION
      ∧ dispatch (sample_env code_jmp_function) m1 l1 = .next m2 l2
      ∧ (m2.frames 0).svars.length = 1 :=
  ⟨by decide, _, _, _, _, rfl, by decide, by decide, by decide, rfl, by decide⟩

/-- C30 as amended: an instruction with tag JMP sets `pc` to its `data.call`
and changes nothing else, `skip_declare` included.  The primitive JMP, given an
address of the running program on top of the operand stack, pops it, sets `pc`
to its target and sets `skip_declare` when the target is a procedure header,
leaving the scoped levels alone; the header executed next, on a top scoped
level with room for its arguments, then pushes no scoped level and clears
`skip_declare`. -/
theorem jump_instructions (e : env) (m : machine) (l : locals) :
    (∀ call, (e.code l.pc).data = .PROG_JMP call →
      dispatch e m l = .next m { l with pc := call })
    ∧ (∀ a, (e.code l.pc).data = .PROG_PRIMITIVE IN_JMP → 1 ≤ l.atop →
        try_protect (m.frames l.fr) l.atop 1 = false →
        ((m.frames l.fr).argument_st (l.atop - 1)).data = .PROG_ADD a →
        invalid_program e (m.mem.addrs a).progref = false →
        (m.mem.addrs a).progref = l.program →
        ∃ m1, dispatch e m l
              = .next m1 { l with atop := l.atop - 1, pc := (m.mem.addrs a).data }
          ∧ (m1.frames l.fr).svars = (m.frames l.fr).svars
          ∧ (m1.frames l.fr).skip_declare
              = (if (e.code (m.mem.addrs a).data).type = .PROG_FUNCTION then true
                  else (m.frames l.fr).skip_declare)
          ∧ ∀ p s rest, (e.code (m.mem.addrs a).data).data = .PROG_FUNCTION (some p) →
              (m.frames l.fr).svars = s :: rest → 0 ≤ p.args → p.args ≤ s.count →
              p.args ≤ l.atop - 1 →
              try_protect (m.frames l.fr) (l.atop - 1) p.args = false →
              ∃ m2 s', dispatch e m1 { l with atop := l.atop - 1, pc := (m.mem.addrs a).data }
                    = .next m2 { l with atop := l.atop - 1 - p.args,
                                        pc := (m.mem.addrs a).data + 1 }
                ∧ (m2.frames l.fr).svars = s' :: rest
                ∧ (m2.frames l.fr).skip_declare = false) := by
  constructor
  · intro call hc
    simp [dispatch, hc, exec_PROG_JMP]
  · intro a hc h1 ht hd hvalid hprog
    obtain ⟨m1, hrun, hfr⟩ := exec_JMP_spec e m l a h1 ht hd hvalid hprog
    refine ⟨m1, ?_, by rw [hfr], by rw [hfr], ?_⟩
    · simp only [dispatch, hc, if_true]
      exact hrun
    · intro p s rest hp hsv h0 hroom ha ht2
      have htype : (e.code (m.mem.addrs a).data).type = .PROG_FUNCTION := by
        simp [inst.type, hp]
      have hskip : (m1.frames l.fr).skip_declare = true := by rw [hfr]; simp [htype]
      have hsv1 : (m1.frames l.fr).svars = s :: rest := by rw [hfr]; exact hsv
      have ht1 : try_protect (m1.frames l.fr) (l.atop - 1) p.args = false := by
        rw [hfr]
        simpa [try_protect, frame.try_depth] using ht2
      obtain ⟨m2, s', hrun2, hsv2, _, _, _, hskip2⟩ :=
        exec_FUNCTION_skip_spec e m1 { l with atop := l.atop - 1, pc := (m.mem.addrs a).data }
          p s rest h0 ha ht1 hskip hsv1 hroom
      refine ⟨m2, s', ?_, hsv2, hskip2⟩
      simp only [dispatch, hp]
      exact hrun2

/-- The primitive JMP of C30 with the address of a procedure header on the
stack and one scoped level in the frame: `skip_declare` is set, and after the
header the frame still has one scoped level and `skip_declare` is clear. -/
theorem jump_instructions_witness :
    ∃ m1, dispatch (sample_env code_in_jmp_function) (sample_machine jmp_heap jmp_frame)
          (sample_locals 10 1 1) = .next m1 { sample_locals 10 1 1 with atop := 0, pc := 20 }
      ∧ (m1.frames 0).skip_declare = true
      ∧ ∃ m2 s', dispatch (sample_env code_in_jmp_function) m1
            { sample_locals 10 1 1 with atop := 0, pc := 20 }
          = .next m2 { sample_locals 10 1 1 with atop := 0, pc := 21 }
        ∧ (m2.frames 0).svars = [s']
        ∧ (m2.frames 0).skip_declare = false :=
  ((jump_instructions (sample_env code_in_jmp_function) (sample_machine jmp_heap jmp_frame)
      (sample_locals 10 1 1)).2 0 (by decide) (by decide) (by decide) (by decide) (by decide)
      (by decide)).elim fun m1 h =>
    ⟨m1, h.1, h.2.2.1.trans (by decide),
      (h.2.2.2 { procname := "g", vars := 1, args := 0, varnames := none } (sample_scopedvar 1) []
        (by decide) rfl (by decide) (by decide) (by decide) (by decide)).elim fun m2 hm2 =>
        hm2.elim fun s' h2 => ⟨m2, s', h2.1, h2.2.1, h2.2.2⟩⟩

/-- Taking the head node out of a pool whose first nodes are `recent` and whose
boundary pointer stands behind them: the first nodes of the pool are then
`recent` without its head and the boundary stands behind them. -/
theorem take_node_spec {α : Type} (recent old : List α) (x : α) (rest : List α)
    (h : recent ++ old = x :: rest) :
    (∃ old', rest = recent.tail ++ old')
    ∧ (if pool_node (x :: rest).length recent.length = pool_node (x :: rest).length 1 then 0
        else recent.length - 1) = recent.tail.length := by
  cases recent with
  | nil =>
    refine ⟨⟨rest, rfl⟩, ?_⟩
    simp [pool_node]
  | cons r rs =>
    simp only [List.cons_append, List.cons.injEq] at h
    refine ⟨⟨old, h.2.symm⟩, ?_⟩
    have hlen : rest.length = rs.length + old.length := by rw [← h.2]; simp
    simp only [List.length_cons, List.tail_cons, pool_node, Nat.add_sub_cancel]
    by_cases hrs : rs.length = 0
    · simp [hrs]
    · have h2 : 1 < rest.length + 1 := by omega
      rw [if_pos h2]
      by_cases h3 : rs.length + 1 < rest.length + 1
      · rw [if_pos h3]
        have h4 : ¬ (some (rs.length + 1) = some 1) := by
          simp only [Option.some.injEq]; omega
        rw [if_neg h4]
      · rw [if_neg h3]
        simp

/-- The nodes `clear_fors` leaves do not depend on the heap. -/
theorem clear_fors_snd_heap (L : List forvars) (h h' : heap) :
    (clear_fors L h).2 = (clear_fors L h').2 := by
  induction L generalizing h h' with
  | nil => rfl
  | cons f rest ih =>
    simp only [clear_fors]
    have e1 : ∀ (k k' : heap) (v : inst) (line : Int),
        (CLEAR k v line).2 = (CLEAR k' v line).2 := by
      intro k k' v line
      simp only [CLEAR, RCLEAR]
      split <;> rfl
    rw [e1 h h' f.cur 811, e1 _ (CLEAR h' f.cur 811).1 f.end_ 812, ih _ (CLEAR
      (CLEAR h' f.cur 811).1 f.end_ 812).1]

/-- The loop `clear_fors` leaves as many nodes as it is given. -/
theorem clear_fors_length (L : List forvars) (h : heap) :
    (clear_fors L h).2.length = L.length := by
  induction L generalizing h with
  | nil => rfl
  | cons f rest ih => simp [clear_fors, ih]

/-- The pool after `copy_fors`: one node of `recent` is taken for every node
copied. -/
theorem copy_fors_pool (st : List forvars) :
    ∀ (h : heap) (recent old : List forvars),
      ∃ old', (copy_fors st h (recent ++ old) recent.length).2.2.1
          = recent.drop st.length ++ old'
        ∧ (copy_fors st h (recent ++ old) recent.length).2.2.2
          = (recent.drop st.length).length := by
  induction st with
  | nil =>
    intro h recent old
    exact ⟨old, by simp [copy_fors], by simp [copy_fors]⟩
  | cons f rest ih =>
    intro h recent old
    cases hp : recent ++ old with
    | nil =>
      have hr : recent = [] := (List.append_eq_nil.mp hp).1
      subst hr
      simp only [copy_fors, List.tail_nil, List.length_nil, List.drop_nil]
      obtain ⟨old', h1, h2⟩ := ih (copyinst (copyinst h f.cur).1 f.end_).1 [] []
      exact ⟨old', by simpa using h1, by simpa using h2⟩
    | cons x xs =>
      obtain ⟨⟨old1, ho⟩, hl⟩ := take_node_spec recent old x xs hp
      simp only [copy_fors, List.tail_cons]
      rw [hl, ho]
      obtain ⟨old', h1, h2⟩ := ih (copyinst (copyinst h f.cur).1 f.end_).1 recent.tail old1
      refine ⟨old', ?_, ?_⟩
      · rw [h1]; simp [List.drop_tail]
      · rw [h2]; simp [List.drop_tail]

/-- The pool after `copy_trys`: one node of `recent` is taken for every node
copied. -/
theorem copy_trys_pool (st : List tryvars) :
    ∀ (recent old : List tryvars),
      ∃ old', (copy_trys st (recent ++ old) recent.length).2.1
          = recent.drop st.length ++ old'
        ∧ (copy_trys st (recent ++ old) recent.length).2.2
          = (recent.drop st.length).length := by
  induction st with
  | nil =>
    intro recent old
    exact ⟨old, by simp [copy_trys], by simp [copy_trys]⟩
  | cons f rest ih =>
    intro recent old
    cases hp : recent ++ old with
    | nil =>
      have hr : recent = [] := (List.append_eq_nil.mp hp).1
      subst hr
      simp only [copy_trys, List.tail_nil, List.length_nil, List.drop_nil]
      obtain ⟨old', h1, h2⟩ := ih [] []
      exact ⟨old', by simpa using h1, by simpa using h2⟩
    | cons x xs =>
      obtain ⟨⟨old1, ho⟩, hl⟩ := take_node_spec recent old x xs hp
      simp only [copy_trys, List.tail_cons]
      rw [hl, ho]
      obtain ⟨old', h1, h2⟩ := ih recent.tail old1
      refine ⟨old', ?_, ?_⟩
      · rw [h1]; simp [List.drop_tail]
      · rw [h2]; simp [List.drop_tail]
/-- The pools after `prog_clean` of a frame that is not on the free list: the
for stack of the frame, with `cur` and `end` cleared, and its try stack are put
in front of the pools and the boundary pointers stand as many nodes further. -/
theorem prog_clean_pools (e : env) (m : machine) (fp : Nat) (hlive : fp ∉ m.free_frames_list) :
    (prog_clean e m fp).for_pool = (clear_fors (m.frames fp).fors_st m.mem).2 ++ m.for_pool
    ∧ (prog_clean e m fp).last_for = m.last_for + (m.frames fp).fors_st.length
    ∧ (prog_clean e m fp).try_pool = (m.frames fp).trys_st ++ m.try_pool
    ∧ (prog_clean e m fp).last_try = m.last_try + (m.frames fp).trys_st.length := by
  have hw := watchpid_process_frame e m fp
  have f1 : ((watchpid_process e m fp).frames fp).fors_st = (m.frames fp).fors_st := by
    have hx := congrArg (fun (f : frame) => f.fors_st) hw
    exact hx
  have f2 : ((watchpid_process e m fp).frames fp).trys_st = (m.frames fp).trys_st := by
    have hx := congrArg (fun (f : frame) => f.trys_st) hw
    exact hx
  have p1 : (watchpid_process e m fp).for_pool = m.for_pool :=
    watchpid_process_field e fp (fun x => x.for_pool) (fun _ _ _ => rfl) m
  have p2 : (watchpid_process e m fp).last_for = m.last_for :=
    watchpid_process_field e fp (fun x => x.last_for) (fun _ _ _ => rfl) m
  have p3 : (watchpid_process e m fp).try_pool = m.try_pool :=
    watchpid_process_field e fp (fun x => x.try_pool) (fun _ _ _ => rfl) m
  have p4 : (watchpid_process e m fp).last_try = m.last_try :=
    watchpid_process_field e fp (fun x => x.last_try) (fun _ _ _ => rfl) m
  unfold prog_clean
  rw [if_neg hlive]
  simp only [f1, f2, p1, p2, p3, p4]
  refine ⟨?_, ?_, ?_, ?_⟩
  · by_cases hf : (m.frames fp).fors_st = []
    · rw [if_pos hf, hf]; simp [clear_fors]
    · rw [if_neg hf]
      rw [clear_fors_snd_heap _ _ m.mem]
  · by_cases hf : (m.frames fp).fors_st = []
    · rw [if_pos hf, hf]; simp
    · rw [if_neg hf]
      split
      · rename_i h0; rw [h0]; simp
      · rfl
  · by_cases hf : (m.frames fp).trys_st = []
    · rw [if_pos hf, hf]; simp
    · rw [if_neg hf]
  · by_cases hf : (m.frames fp).trys_st = []
    · rw [if_pos hf, hf]; simp
    · rw [if_neg hf]
      split
      · rename_i h0; rw [h0]; simp
      · rfl

/-- One call on the pools keeps the for pool in the shape "the nodes returned
since the last purge, then older nodes", with the boundary pointer between the
two. -/
theorem for_pool_step (e : env) (m : machine) (recent old : List forvars) (c : pool_call)
    (hp : m.for_pool = recent ++ old) (hl : m.last_for = recent.length) :
    ∃ old', (run_pool_call e m c).for_pool = for_returned m recent c ++ old'
      ∧ (run_pool_call e m c).last_for = (for_returned m recent c).length := by
  cases c with
  | push_for fp =>
    simp only [run_pool_call, for_returned, push_for, hp, hl]
    cases hx : recent ++ old with
    | nil =>
      have hr : recent = [] := (List.append_eq_nil.mp hx).1
      subst hr
      exact ⟨[], by simp, by simp⟩
    | cons x xs =>
      obtain ⟨⟨old1, ho⟩, hlen⟩ := take_node_spec recent old x xs hx
      exact ⟨old1, ho, hlen⟩
  | pop_for fp =>
    simp only [run_pool_call, for_returned, pop_for]
    cases (m.frames fp).fors_st with
    | nil => exact ⟨old, by simpa using hp, by simpa using hl⟩
    | cons f rest => exact ⟨old, by simp [hp], by simp [hl]⟩
  | copy_fors fp gp =>
    simp only [run_pool_call, for_returned, hp, hl]
    exact copy_fors_pool _ _ _ _
  | push_try fp => exact ⟨old, by simpa [run_pool_call, for_returned] using hp,
      by simpa [run_pool_call, for_returned] using hl⟩
  | pop_try fp => exact ⟨old, by simpa [run_pool_call, for_returned] using hp,
      by simpa [run_pool_call, for_returned] using hl⟩
  | copy_trys fp gp => exact ⟨old, by simpa [run_pool_call, for_returned] using hp,
      by simpa [run_pool_call, for_returned] using hl⟩
  | prog_clean fp =>
    simp only [run_pool_call, for_returned]
    by_cases hfree : fp ∈ m.free_frames_list
    · rw [if_pos hfree]
      exact ⟨old, by simpa [prog_clean, hfree] using hp, by simpa [prog_clean, hfree] using hl⟩
    · rw [if_neg hfree]
      obtain ⟨h1, h2, _, _⟩ := prog_clean_pools e m fp hfree
      refine ⟨old, ?_, ?_⟩
      · rw [h1, hp, List.append_assoc]
      · rw [h2, hl, List.length_append, clear_fors_length]; omega
  | purge_for_pool =>
    refine ⟨recent, ?_, ?_⟩
    · simp [run_pool_call, for_returned, purge_for_pool, hp, hl]
    · simp [run_pool_call, for_returned, purge_for_pool]
  | purge_try_pool => exact ⟨old, by simpa [run_pool_call, for_returned, purge_try_pool] using hp,
      by simpa [run_pool_call, for_returned, purge_try_pool] using hl⟩

/-- One call on the pools keeps the try pool in the shape "the nodes returned
since the last purge, then older nodes", with the boundary pointer between the
two. -/
theorem try_pool_step (e : env) (m : machine) (recent old : List tryvars) (c : pool_call)
    (hp : m.try_pool = recent ++ old) (hl : m.last_try = recent.length) :
    ∃ old', (run_pool_call e m c).try_pool = try_returned m recent c ++ old'
      ∧ (run_pool_call e m c).last_try = (try_returned m recent c).length := by
  cases c with
  | push_try fp =>
    simp only [run_pool_call, try_returned, push_try, hp, hl]
    cases hx : recent ++ old with
    | nil =>
      have hr : recent = [] := (List.append_eq_nil.mp hx).1
      subst hr
      exact ⟨[], by simp, by simp⟩
    | cons x xs =>
      obtain ⟨⟨old1, ho⟩, hlen⟩ := take_node_spec recent old x xs hx
      exact ⟨old1, ho, hlen⟩
  | pop_try fp =>
    simp only [run_pool_call, try_returned, pop_try]
    cases (m.frames fp).trys_st with
    | nil => exact ⟨old, by simpa using hp, by simpa using hl⟩
    | cons f rest => exact ⟨old, by simp [hp], by simp [hl]⟩
  | copy_trys fp gp =>
    simp only [run_pool_call, try_returned, hp, hl]
    exact copy_trys_pool _ _ _
  | push_for fp => exact ⟨old, by simpa [run_pool_call, try_returned] using hp,
      by simpa [run_pool_call, try_returned] using hl⟩
  | pop_for fp => exact ⟨old, by simpa [run_pool_call, try_returned] using hp,
      by simpa [run_pool_call, try_returned] using hl⟩
  | copy_fors fp gp => exact ⟨old, by simpa [run_pool_call, try_returned] using hp,
      by simpa [run_pool_call, try_returned] using hl⟩
  | prog_clean fp =>
    simp only [run_pool_call, try_returned]
    by_cases hfree : fp ∈ m.free_frames_list
    · rw [if_pos hfree]
      exact ⟨old, by simpa [prog_clean, hfree] using hp, by simpa [prog_clean, hfree] using hl⟩
    · rw [if_neg hfree]
      obtain ⟨_, _, h1, h2⟩ := prog_clean_pools e m fp hfree
      refine ⟨old, ?_, ?_⟩
      · rw [h1, hp, List.append_assoc]
      · rw [h2, hl, List.length_append]; omega
  | purge_try_pool =>
    refine ⟨recent, ?_, ?_⟩
    · simp [run_pool_call, try_returned, purge_try_pool, hp, hl]
    · simp [run_pool_call, try_returned, purge_try_pool]
  | purge_for_pool => exact ⟨old, by simpa [run_pool_call, try_returned, purge_for_pool] using hp,
      by simpa [run_pool_call, try_returned, purge_for_pool] using hl⟩

/-- A sequence of calls on the pools keeps the for pool in the shape "the nodes
returned since the last purge, then older nodes". -/
theorem for_pool_calls (e : env) (calls : List pool_call) :
    ∀ (m : machine) (recent old : List forvars),
      m.for_pool = recent ++ old → m.last_for = recent.length →
      ∃ old', (pool_calls e calls m).for_pool = for_returned_after e calls m recent ++ old'
        ∧ (pool_calls e calls m).last_for = (for_returned_after e calls m recent).length := by
  induction calls with
  | nil => intro m recent old hp hl; exact ⟨old, hp, hl⟩
  | cons c rest ih =>
    intro m recent old hp hl
    obtain ⟨old1, h1, h2⟩ := for_pool_step e m recent old c hp hl
    exact ih _ _ old1 h1 h2

/-- A sequence of calls on the pools keeps the try pool in the shape "the nodes
returned since the last purge, then older nodes". -/
theorem try_pool_calls (e : env) (calls : List pool_call) :
    ∀ (m : machine) (recent old : List tryvars),
      m.try_pool = recent ++ old → m.last_try = recent.length →
      ∃ old', (pool_calls e calls m).try_pool = try_returned_after e calls m recent ++ old'
        ∧ (pool_calls e calls m).last_try = (try_returned_after e calls m recent).length := by
  induction calls with
  | nil => intro m recent old hp hl; exact ⟨old, hp, hl⟩
  | cons c rest ih =>
    intro m recent old hp hl
    obtain ⟨old1, h1, h2⟩ := try_pool_step e m recent old c hp hl
    exact ih _ _ old1 h1 h2

/-- Calls that only take nodes out of the pools return none. -/
theorem takes_node_returned (e : env) (calls : List pool_call) :
    ∀ (m : machine), calls.all takes_node = true →
      for_returned_after e calls m [] = [] ∧ try_returned_after e calls m [] = [] := by
  induction calls with
  | nil => intro m _; exact ⟨rfl, rfl⟩
  | cons c rest ih =>
    intro m h
    simp only [List.all_cons, Bool.and_eq_true] at h
    have hf : for_returned m [] c = [] := by
      cases c <;> simp_all [for_returned, takes_node]
    have ht : try_returned m [] c = [] := by
      cases c <;> simp_all [try_returned, takes_node]
    simp only [for_returned_after, try_returned_after, hf, ht]
    exact ih _ h.2
/-- The pool after `k` calls of `pop_for` on the stack of one frame: the nodes
popped are in front of the pool, the one popped last first, and the boundary
pointer stands as many nodes further. -/
theorem pops_for_pool (e : env) (fp : Nat) (k : Nat) :
    ∀ m : machine,
      (pool_calls e (List.replicate k (.pop_for fp)) m).for_pool
          = ((m.frames fp).fors_st.take k).reverse ++ m.for_pool
      ∧ (pool_calls e (List.replicate k (.pop_for fp)) m).last_for
          = m.last_for + ((m.frames fp).fors_st.take k).length := by
  induction k with
  | zero => intro m; simp [pool_calls]
  | succ k ih =>
    intro m
    simp only [List.replicate_succ, pool_calls]
    obtain ⟨h1, h2⟩ := ih (run_pool_call e m (.pop_for fp))
    rw [h1, h2]
    simp only [run_pool_call, pop_for, setN_same]
    cases (m.frames fp).fors_st with
    | nil => simp
    | cons f rest => simp; omega

/-- The pool after `k` calls of `pop_try` on the stack of one frame. -/
theorem pops_try_pool (e : env) (fp : Nat) (k : Nat) :
    ∀ m : machine,
      (pool_calls e (List.replicate k (.pop_try fp)) m).try_pool
          = ((m.frames fp).trys_st.take k).reverse ++ m.try_pool
      ∧ (pool_calls e (List.replicate k (.pop_try fp)) m).last_try
          = m.last_try + ((m.frames fp).trys_st.take k).length := by
  induction k with
  | zero => intro m; simp [pool_calls]
  | succ k ih =>
    intro m
    simp only [List.replicate_succ, pool_calls]
    obtain ⟨h1, h2⟩ := ih (run_pool_call e m (.pop_try fp))
    rw [h1, h2]
    simp only [run_pool_call, pop_try, setN_same]
    cases (m.frames fp).trys_st with
    | nil => simp
    | cons f rest => simp; omega

/-- C21, against the claim as written: the for pool holds node 1 at a purge,
which keeps it, and node 2 is added by `pop_for` after that purge.  The next
purge keeps node 2, the node added since the last purge, and reclaims node 1;
the try pool does the same. -/
theorem purge_keeps_nodes_added_since :
    (pool_calls (sample_env (code_primitive 0)) [.purge_for_pool, .purge_try_pool]
        pool_machine).for_pool = [for_node 1]
    ∧ (pool_calls (sample_env (code_primitive 0))
        [.purge_for_pool, .purge_try_pool, .pop_for 0, .pop_try 0] pool_machine).for_pool
        = [for_node 2, for_node 1]
    ∧ (pool_calls (sample_env (code_primitive 0))
        [.purge_for_pool, .purge_try_pool, .pop_for 0, .pop_try 0, .purge_for_pool,
          .purge_try_pool] pool_machine).for_pool = [for_node 2]
    ∧ (pool_calls (sample_env (code_primitive 0))
        [.purge_for_pool, .purge_try_pool, .pop_for 0, .pop_try 0] pool_machine).try_pool
        = [try_node 2, try_node 1]
    ∧ (pool_calls (sample_env (code_primitive 0))
        [.purge_for_pool, .purge_try_pool, .pop_for 0, .pop_try 0, .purge_for_pool,
          .purge_try_pool] pool_machine).try_pool = [try_node 2] := by
  decide

/-- C21 as amended: two-phase purge of the for pool and of the try pool.  After
a purge, let `k` calls of `pop_for` (`pop_try`) add the top nodes of the stack
of a frame to the pool.  The pool is then these nodes, the one added last
first, followed by the nodes that were in the pool at the purge; the next purge
keeps the nodes added since and reclaims the others, and a second purge
reclaims the rest. -/
theorem two_phase_purge (e : env) (m : machine) (fp : Nat) (k : Nat) :
    ((pool_calls e (List.replicate k (.pop_for fp)) (purge_for_pool m)).for_pool
        = ((m.frames fp).fors_st.take k).reverse ++ (purge_for_pool m).for_pool
      ∧ (purge_for_pool (pool_calls e (List.replicate k (.pop_for fp)) (purge_for_pool m))
          ).for_pool = ((m.frames fp).fors_st.take k).reverse
      ∧ (purge_for_pool (purge_for_pool (pool_calls e (List.replicate k (.pop_for fp))
          (purge_for_pool m)))).for_pool = [])
    ∧ ((pool_calls e (List.replicate k (.pop_try fp)) (purge_try_pool m)).try_pool
        = ((m.frames fp).trys_st.take k).reverse ++ (purge_try_pool m).try_pool
      ∧ (purge_try_pool (pool_calls e (List.replicate k (.pop_try fp)) (purge_try_pool m))
          ).try_pool = ((m.frames fp).trys_st.take k).reverse
      ∧ (purge_try_pool (purge_try_pool (pool_calls e (List.replicate k (.pop_try fp))
          (purge_try_pool m)))).try_pool = []) := by
  obtain ⟨f1, f2⟩ := pops_for_pool e fp k (purge_for_pool m)
  obtain ⟨t1, t2⟩ := pops_try_pool e fp k (purge_try_pool m)
  have hf : (purge_for_pool m).frames = m.frames := rfl
  have ht : (purge_try_pool m).frames = m.frames := rfl
  have hf0 : (purge_for_pool m).last_for = 0 := rfl
  have ht0 : (purge_try_pool m).last_try = 0 := rfl
  simp only [hf, hf0, Nat.zero_add] at f1 f2
  simp only [ht, ht0, Nat.zero_add] at t1 t2
  refine ⟨⟨f1, ?_, ?_⟩, ⟨t1, ?_, ?_⟩⟩
  · have hx : (purge_for_pool (pool_calls e (List.replicate k (.pop_for fp))
        (purge_for_pool m))).for_pool
        = (pool_calls e (List.replicate k (.pop_for fp)) (purge_for_pool m)).for_pool.take
            (pool_calls e (List.replicate k (.pop_for fp)) (purge_for_pool m)).last_for := rfl
    rw [hx, f1, f2]
    simp
  · simp [purge_for_pool]
  · have hx : (purge_try_pool (pool_calls e (List.replicate k (.pop_try fp))
        (purge_try_pool m))).try_pool
        = (pool_calls e (List.replicate k (.pop_try fp)) (purge_try_pool m)).try_pool.take
            (pool_calls e (List.replicate k (.pop_try fp)) (purge_try_pool m)).last_try := rfl
    rw [hx, t1, t2]
    simp
  · simp [purge_try_pool]
/-- C22: the grace period of the pools.  Start in a state whose boundary
pointers are at the pool heads, as they are at the start and after a purge, and
make any sequence of calls of `push_for`, `pop_for`, `copy_fors`, `push_try`,
`pop_try`, `copy_trys`, `prog_clean` and the two purges.  The for pool after
one more `purge_for_pool` is then exactly the nodes that `pop_for` and
`prog_clean` returned since the most recent purge and that `push_for` and
`copy_fors` did not take out again, and likewise for the try pool.  And from
any state, a purge, calls that return no node, and a second purge leave the
pool empty with the boundary pointer at the pool head. -/
theorem pool_grace_period (e : env) (calls : List pool_call) :
    (∀ m : machine, m.last_for = 0 → m.last_try = 0 →
      (purge_for_pool (pool_calls e calls m)).for_pool = for_returned_after e calls m []
      ∧ (purge_try_pool (pool_calls e calls m)).try_pool = try_returned_after e calls m [])
    ∧ (∀ m : machine, calls.all takes_node = true →
      ((purge_for_pool (pool_calls e calls (purge_for_pool m))).for_pool = []
        ∧ (purge_for_pool (pool_calls e calls (purge_for_pool m))).last_for = 0)
      ∧ ((purge_try_pool (pool_calls e calls (purge_try_pool m))).try_pool = []
        ∧ (purge_try_pool (pool_calls e calls (purge_try_pool m))).last_try = 0)) := by
  have key : ∀ m : machine, m.last_for = 0 →
      (purge_for_pool (pool_calls e calls m)).for_pool = for_returned_after e calls m [] := by
    intro m hf
    obtain ⟨old, h1, h2⟩ := for_pool_calls e calls m [] m.for_pool (by simp) (by simpa using hf)
    simp only [purge_for_pool]
    rw [h1, h2]
    simp
  have keyt : ∀ m : machine, m.last_try = 0 →
      (purge_try_pool (pool_calls e calls m)).try_pool = try_returned_after e calls m [] := by
    intro m ht
    obtain ⟨old, h1, h2⟩ := try_pool_calls e calls m [] m.try_pool (by simp) (by simpa using ht)
    simp only [purge_try_pool]
    rw [h1, h2]
    simp
  refine ⟨fun m hf ht => ⟨key m hf, keyt m ht⟩, fun m hall => ⟨⟨?_, rfl⟩, ⟨?_, rfl⟩⟩⟩
  · rw [key (purge_for_pool m) rfl]
    exact (takes_node_returned e calls _ hall).1
  · rw [keyt (purge_try_pool m) rfl]
    exact (takes_node_returned e calls _ hall).2

/-- The grace period of C22 on the sample pools: after a purge of both pools,
`pop_for` and `pop_try` return node 2 of each stack and `push_try` takes the
try-node out again; the next purges leave the for-node 2 in its pool and the
try pool empty. -/
theorem pool_grace_period_witness :
    (purge_for_pool (pool_calls (sample_env (code_primitive 0))
        [.pop_for 0, .pop_try 0, .push_try 0]
        (purge_try_pool (purge_for_pool pool_machine)))).for_pool = [for_node 2]
    ∧ (purge_try_pool (pool_calls (sample_env (code_primitive 0))
        [.pop_for 0, .pop_try 0, .push_try 0]
        (purge_try_pool (purge_for_pool pool_machine)))).try_pool = [] :=
  ⟨((pool_grace_period (sample_env (code_primitive 0)) [.pop_for 0, .pop_try 0, .push_try 0]).1
      (purge_try_pool (purge_for_pool pool_machine)) rfl rfl).1.trans (by decide),
    ((pool_grace_period (sample_env (code_primitive 0)) [.pop_for 0, .pop_try 0, .push_try 0]).1
      (purge_try_pool (purge_for_pool pool_machine)) rfl rfl).2.trans (by decide)⟩

/-- An error raised under a try-frame without an operand to clear leaves the
operand stack of the frame alone. -/
theorem abort_loop_caught_args (e : env) (m : machine) (l : locals) (S : String)
    (h : (m.frames l.fr).trys_top ≠ 0) :
    ∃ m', abort_loop e m l S none none = .next m' l
      ∧ m'.err = m.err + 1
      ∧ (m'.frames l.fr).errorstr = some S
      ∧ (m'.frames l.fr).argument_st = (m.frames l.fr).argument_st
      ∧ (m'.frames l.fr).lvars = (m.frames l.fr).lvars := by
  obtain ⟨m', h1, h2, h3, _⟩ := abort_loop_caught e m l S none none h
  refine ⟨m', h1, h2, h3, ?_⟩
  have hm : m' = do_abort_loop e m l.player l.program S l.fr l.pc l.atop l.stop none none := by
    simp only [abort_loop] at h1
    split at h1
    · injection h1 with hx _
      exact hx.symm
    · cases h1
  rw [hm]
  simp [do_abort_loop, h, reload, setN_same]

/-- C31: the instruction IF.  With an operand on the stack that may be popped,
it pops that operand and clears its slot, leaves the other slots alone, and
sets `pc` to `data.call` when the operand is false according to `false_inst`
and to `pc + 1` otherwise; the integer 0 jumps and the integer 1 falls through.
With an empty operand stack it raises "Stack Underflow." with the registers as
they were: under a try-frame the error is recorded and the operand stack is
unchanged, without one `interp_loop` returns null. -/
theorem if_instruction (e : env) (m : machine) (l : locals) (call : Nat)
    (hi : (e.code l.pc).data = .PROG_IF call) :
    (1 ≤ l.atop → try_protect (m.frames l.fr) l.atop 1 = false →
      dispatch e m l = .next (CLEAR_arg m l.fr (l.atop - 1) 1372)
          { l with atop := l.atop - 1,
                   pc := if false_inst m.mem ((m.frames l.fr).argument_st (l.atop - 1)) then call
                         else l.pc + 1 }
      ∧ (((CLEAR_arg m l.fr (l.atop - 1) 1372).frames l.fr).argument_st (l.atop - 1)).type
          = .PROG_CLEARED
      ∧ (∀ k, k ≠ l.atop - 1 →
          ((CLEAR_arg m l.fr (l.atop - 1) 1372).frames l.fr).argument_st k
            = (m.frames l.fr).argument_st k)
      ∧ (((m.frames l.fr).argument_st (l.atop - 1)).data = .PROG_INTEGER 0 →
          dispatch e m l
            = .next (CLEAR_arg m l.fr (l.atop - 1) 1372) { l with atop := l.atop - 1, pc := call })
      ∧ (((m.frames l.fr).argument_st (l.atop - 1)).data = .PROG_INTEGER 1 →
          dispatch e m l
            = .next (CLEAR_arg m l.fr (l.atop - 1) 1372)
                { l with atop := l.atop - 1, pc := l.pc + 1 }))
    ∧ (l.atop < 1 →
      dispatch e m l = abort_loop e m l "Stack Underflow." none none
      ∧ ((m.frames l.fr).trys_top ≠ 0 →
          ∃ m', dispatch e m l = .next m' l
            ∧ m'.err = m.err + 1
            ∧ (m'.frames l.fr).errorstr = some "Stack Underflow."
            ∧ (m'.frames l.fr).argument_st = (m.frames l.fr).argument_st)
      ∧ ((m.frames l.fr).trys_top = 0 → ∃ m', dispatch e m l = .ret m' .null)) := by
  have hd : dispatch e m l = exec_IF e m l call := by simp only [dispatch, hi]
  constructor
  · intro h1 ht
    have h1' : ¬ l.atop < 1 := by omega
    have hrun : exec_IF e m l call = .next (CLEAR_arg m l.fr (l.atop - 1) 1372)
        { l with atop := l.atop - 1,
                 pc := if false_inst m.mem ((m.frames l.fr).argument_st (l.atop - 1)) then call
                       else l.pc + 1 } := by
      simp only [exec_IF, h1', ht, if_false, Bool.false_eq_true]
    refine ⟨hd.trans hrun, ?_, fun k hk => ?_, fun h0 => ?_, fun h0 => ?_⟩
    · simp only [CLEAR_arg, setN_same, setI, if_true, CLEAR]
      exact RCLEAR_type _ _ _ _
    · simp [CLEAR_arg, setN_same, setI, hk]
    · rw [hd, hrun]
      have hf : false_inst m.mem ((m.frames l.fr).argument_st (l.atop - 1)) = true := by
        simp [false_inst, inst.type, h0]
      rw [hf]
      simp
    · rw [hd, hrun]
      have hf : false_inst m.mem ((m.frames l.fr).argument_st (l.atop - 1)) = false := by
        simp [false_inst, inst.type, h0]
      rw [hf]
      simp
  · intro h0
    have hrun : exec_IF e m l call = abort_loop e m l "Stack Underflow." none none := by
      simp [exec_IF, h0]
    refine ⟨hd.trans hrun, fun ht => ?_, fun ht => ?_⟩
    · rw [hd, hrun]
      obtain ⟨m', h1, h2, h3, h4, _⟩ := abort_loop_caught_args e m l "Stack Underflow." ht
      exact ⟨m', h1, h2, h3, h4⟩
    · rw [hd, hrun]
      exact abort_loop_uncaught e m l _ none none ht

/-- The instruction of C31 on the sample frame with the integer 0 on top of an
operand stack of height 1: IF pops it and jumps to its label 30. -/
theorem if_instruction_witness :
    dispatch (sample_env code_if) (sample_machine sample_heap sample_frame) (sample_locals 10 1 1)
      = .next (CLEAR_arg (sample_machine sample_heap sample_frame) 0 0 1372)
          { sample_locals 10 1 1 with atop := 0, pc := 30 } :=
  ((if_instruction (sample_env code_if) (sample_machine sample_heap sample_frame)
    (sample_locals 10 1 1) 30 rfl).1 (by decide) (by decide)).2.2.2.1 rfl
/-- Taking the first record of one program out of a list does not change the
first record of another program. -/
theorem find_eraseP_other (P q : Int) (hq : q ≠ P) (L : List localvars) :
    (L.eraseP fun x => decide (x.prog = P)).find? (fun x => decide (x.prog = q))
      = L.find? fun x => decide (x.prog = q) := by
  induction L with
  | nil => rfl
  | cons r rest ih =>
    by_cases hP : r.prog = P
    · have hPq : ¬ P = q := fun hx => hq hx.symm
      simp [List.eraseP_cons, hP, List.find?_cons, hPq]
    · by_cases hrq : r.prog = q
      · have hqP : ¬ q = P := hq
        simp [List.eraseP_cons, List.find?_cons, hrq, hqP]
      · simp [List.eraseP_cons, hP, List.find?_cons, hrq, ih]

/-- The list `localvars_get` leaves starts with a record of the program, and
every slot of every program reads as before. -/
theorem localvars_get_slots (fr : frame) (P : Int) :
    ∃ r rest, (localvars_get fr P).lvars = r :: rest ∧ r.prog = P
      ∧ (∀ q k, local_slot (r :: rest) q k = local_slot fr.lvars q k)
      ∧ (localvars_get fr P).argument_st = fr.argument_st
      ∧ (localvars_get fr P).trys_st = fr.trys_st
      ∧ (localvars_get fr P).trys_top = fr.trys_top := by
  have hf := localvars_find_spec P fr.lvars
  have hfr : ∀ L, (localvars_get fr P).lvars = L →
      (localvars_get fr P).argument_st = fr.argument_st
      ∧ (localvars_get fr P).trys_st = fr.trys_st
      ∧ (localvars_get fr P).trys_top = fr.trys_top := by
    intro L _
    simp only [localvars_get]
    split <;> exact ⟨rfl, rfl, rfl⟩
  cases hfind : fr.lvars.find? (fun x => decide (x.prog = P)) with
  | none =>
    rw [hfind] at hf
    have hl : (localvars_get fr P).lvars
        = { prog := P, lvars := fun _ => { line := 0, data := .PROG_INTEGER 0 } }
            :: fr.lvars := by
      simp [localvars_get, hf]
    refine ⟨_, _, hl, rfl, fun q k => ?_, hfr _ hl⟩
    by_cases hq : q = P
    · subst hq
      simp [local_slot, List.find?_cons, hfind]
    · have hq' : ¬ P = q := fun hx => hq hx.symm
      simp [local_slot, List.find?_cons, hq']
  | some r =>
    rw [hfind] at hf
    have hr : r.prog = P := by
      have := List.find?_some hfind
      simpa using this
    have hl : (localvars_get fr P).lvars
        = r :: fr.lvars.eraseP (fun x => decide (x.prog = P)) := by
      simp [localvars_get, hf]
    refine ⟨_, _, hl, hr, fun q k => ?_, hfr _ hl⟩
    by_cases hq : q = P
    · subst hq
      simp [local_slot, List.find?_cons, hr, hfind]
    · have hq' : ¬ r.prog = q := fun hx => hq (hx.symm.trans hr)
      simp only [local_slot, List.find?_cons, hq', decide_False]
      rw [find_eraseP_other P q hq]

/-- Writing slot `n` of the head record, a record of program `P`: that slot of
`P` reads the value written and every other slot of every program reads as
before. -/
theorem lvars_head_set_slots (r : localvars) (rest : List localvars) (P n : Int) (v : inst)
    (hr : r.prog = P) (q k : Int) :
    local_slot (lvars_head_set (r :: rest) n v) q k
      = if q = P ∧ k = n then v else local_slot (r :: rest) q k := by
  by_cases hq : q = P
  · subst hq
    by_cases hk : k = n
    · simp [local_slot, lvars_head_set, List.find?_cons, hr, setI, hk]
    · simp [local_slot, lvars_head_set, List.find?_cons, hr, setI, hk]
  · have hq' : ¬ r.prog = q := fun hx => hq (hx.symm.trans hr)
    simp [local_slot, lvars_head_set, List.find?_cons, hq', hq]

/-- Reading slot `n` of the head record, a record of program `P`. -/
theorem lvars_head_get_slot (r : localvars) (rest : List localvars) (P n : Int)
    (hr : r.prog = P) : lvars_head_get (r :: rest) n = local_slot (r :: rest) P n := by
  simp [lvars_head_get, local_slot, List.find?_cons, hr]
/-- `PROG_LVAR_BANG` behind its guards, with a slot number in range: the
operand on top is popped into slot `n` of the running program; the operand
stack, the try stack and every other slot are as before. -/
theorem exec_LVAR_BANG_spec (e : env) (m : machine) (l : locals) (n : Int)
    (h1 : 1 ≤ l.atop) (ht : try_protect (m.frames l.fr) l.atop 1 = false)
    (hn0 : 0 ≤ n) (hn1 : n < e.MAX_VAR) :
    ∃ m1, exec_LVAR_BANG e m l n = .next m1 { l with pc := l.pc + 1, atop := l.atop - 1 }
      ∧ (m1.frames l.fr).argument_st = (m.frames l.fr).argument_st
      ∧ (∀ q k, local_slot (m1.frames l.fr).lvars q k
          = if q = l.program ∧ k = n then (m.frames l.fr).argument_st (l.atop - 1)
            else local_slot (m.frames l.fr).lvars q k) := by
  have h1' : ¬ l.atop < 1 := by omega
  have hn : ¬ (n ≥ e.MAX_VAR ∨ n < 0) := by omega
  obtain ⟨r, rest, hl, hr, hslots, hargs, _, _⟩ := localvars_get_slots (m.frames l.fr) l.program
  simp only [exec_LVAR_BANG, h1', ht, hn, if_false, Bool.false_eq_true]
  refine ⟨_, rfl, ?_, ?_⟩
  · simp [set_frame, setN_same, hargs]
  · intro q k
    simp only [set_frame, setN_same, hl, hargs]
    rw [lvars_head_set_slots r rest l.program n _ hr q k, hslots q k]

/-- `PROG_LVAR_AT` and `PROG_LVAR_AT_CLEAR` behind their guards, with a slot
number in range: a copy of slot `n` of the running program is pushed; the other
operands are as before; the CLEAR variant leaves the integer 0 in the slot, and
every other slot reads as before. -/
theorem exec_LVAR_AT_spec (e : env) (m : machine) (l : locals) (n : Int) (is_clear : Bool)
    (ha : l.atop < e.STACK_SIZE) (hn0 : 0 ≤ n) (hn1 : n < e.MAX_VAR) :
    ∃ m1, exec_LVAR_AT e m l n is_clear = .next m1 { l with pc := l.pc + 1, atop := l.atop + 1 }
      ∧ (m1.frames l.fr).argument_st
          = setI (m.frames l.fr).argument_st l.atop
              (copyinst m.mem (local_slot (m.frames l.fr).lvars l.program n)).2
      ∧ (is_clear = true → (local_slot (m1.frames l.fr).lvars l.program n).data = .PROG_INTEGER 0)
      ∧ (is_clear = false → local_slot (m1.frames l.fr).lvars l.program n
          = local_slot (m.frames l.fr).lvars l.program n)
      ∧ (∀ q k, ¬ (q = l.program ∧ k = n) → local_slot (m1.frames l.fr).lvars q k
          = local_slot (m.frames l.fr).lvars q k) := by
  have ha' : ¬ l.atop ≥ e.STACK_SIZE := by omega
  have hn : ¬ (n ≥ e.MAX_VAR ∨ n < 0) := by omega
  obtain ⟨r, rest, hl, hr, hslots, hargs, _, _⟩ := localvars_get_slots (m.frames l.fr) l.program
  have hget : lvars_head_get (localvars_get (m.frames l.fr) l.program).lvars n
      = local_slot (m.frames l.fr).lvars l.program n := by
    rw [hl, lvars_head_get_slot r rest l.program n hr, hslots]
  cases is_clear with
  | false =>
    simp only [exec_LVAR_AT, ha', hn, if_false, Bool.false_eq_true]
    refine ⟨_, rfl, ?_, fun hx => (by cases hx), fun _ => ?_, fun q k _ => ?_⟩
    · simp [set_frame, setN_same, hargs, hget]
    · simp only [set_frame, setN_same, hl]
      exact hslots _ _
    · simp only [set_frame, setN_same, hl]
      exact hslots q k
  | true =>
    simp only [exec_LVAR_AT, ha', hn, if_false, if_true]
    refine ⟨_, rfl, ?_, fun _ => ?_, fun hx => (by cases hx), fun q k hqk => ?_⟩
    · simp [set_frame, setN_same, hargs, hget]
    · simp only [set_frame, setN_same, hl]
      rw [lvars_head_set_slots r rest l.program n _ hr]
      simp
    · simp only [set_frame, setN_same, hl]
      rw [lvars_head_set_slots r rest l.program n _ hr q k, if_neg hqk, hslots q k]
/-- C33: the program-local store.  Slot `k` of program `q` is read through
`local_slot`.  For a slot number `n` in range: `LVAR_BANG n` followed by
`LVAR_AT n`, with an operand on top that may be popped and a stack that is not
over its size, ends with the operand stack as before (the top slot holds the
copy `copyinst` makes of the operand, which is the operand itself unless it is
a procedure header), the height as before, and slot `n` of the running program
holding the operand; `LVAR_AT_CLEAR n` pushes the copy of the slot and leaves
the integer 0 in it; in both cases every other slot of every program reads as
before.  For a slot number out of range each of the three instructions, once
past its stack guards, raises "Scoped variable number out of range." on the
unchanged state: under a try-frame the operand stack and the records are as
before, without one `interp_loop` returns null. -/
theorem local_store_round_trip (e : env) (m : machine) (l : locals) (n : Int) :
    ((e.code l.pc).data = .PROG_LVAR_BANG n → (e.code (l.pc + 1)).data = .PROG_LVAR_AT n →
      0 ≤ n → n < e.MAX_VAR → 1 ≤ l.atop → l.atop ≤ e.STACK_SIZE →
      try_protect (m.frames l.fr) l.atop 1 = false →
      ∃ m1 m2, dispatch e m l = .next m1 { l with pc := l.pc + 1, atop := l.atop - 1 }
        ∧ dispatch e m1 { l with pc := l.pc + 1, atop := l.atop - 1 }
            = .next m2 { l with pc := l.pc + 2, atop := l.atop }
        ∧ (∀ k, k ≠ l.atop - 1 →
            (m2.frames l.fr).argument_st k = (m.frames l.fr).argument_st k)
        ∧ (m2.frames l.fr).argument_st (l.atop - 1)
            = (copyinst m.mem ((m.frames l.fr).argument_st (l.atop - 1))).2
        ∧ ((∀ p, ((m.frames l.fr).argument_st (l.atop - 1)).data ≠ .PROG_FUNCTION (some p)) →
            (m2.frames l.fr).argument_st = (m.frames l.fr).argument_st)
        ∧ local_slot (m2.frames l.fr).lvars l.program n
            = (m.frames l.fr).argument_st (l.atop - 1)
        ∧ ∀ q k, ¬ (q = l.program ∧ k = n) →
            local_slot (m2.frames l.fr).lvars q k = local_slot (m.frames l.fr).lvars q k)
    ∧ ((e.code l.pc).data = .PROG_LVAR_AT_CLEAR n → 0 ≤ n → n < e.MAX_VAR →
      l.atop < e.STACK_SIZE →
      ∃ m1, dispatch e m l = .next m1 { l with pc := l.pc + 1, atop := l.atop + 1 }
        ∧ (m1.frames l.fr).argument_st
            = setI (m.frames l.fr).argument_st l.atop
                (copyinst m.mem (local_slot (m.frames l.fr).lvars l.program n)).2
        ∧ (local_slot (m1.frames l.fr).lvars l.program n).data = .PROG_INTEGER 0
        ∧ ∀ q k, ¬ (q = l.program ∧ k = n) →
            local_slot (m1.frames l.fr).lvars q k = local_slot (m.frames l.fr).lvars q k)
    ∧ ((n < 0 ∨ e.MAX_VAR ≤ n) →
      (((e.code l.pc).data = .PROG_LVAR_BANG n ∧ 1 ≤ l.atop
          ∧ try_protect (m.frames l.fr) l.atop 1 = false)
        ∨ (((e.code l.pc).data = .PROG_LVAR_AT n ∨ (e.code l.pc).data = .PROG_LVAR_AT_CLEAR n)
          ∧ l.atop < e.STACK_SIZE)) →
      dispatch e m l = abort_loop e m l "Scoped variable number out of range." none none
      ∧ ((m.frames l.fr).trys_top ≠ 0 →
          ∃ m', dispatch e m l = .next m' l
            ∧ (m'.frames l.fr).errorstr = some "Scoped variable number out of range."
            ∧ (m'.frames l.fr).argument_st = (m.frames l.fr).argument_st
            ∧ (m'.frames l.fr).lvars = (m.frames l.fr).lvars)
      ∧ ((m.frames l.fr).trys_top = 0 → ∃ m', dispatch e m l = .ret m' .null)) := by
  refine ⟨?_, ?_, ?_⟩
  · intro hi1 hi2 hn0 hn1 h1 hs ht
    obtain ⟨m1, hrun1, hargs1, hslots1⟩ := exec_LVAR_BANG_spec e m l n h1 ht hn0 hn1
    obtain ⟨m2, hrun2, hargs2, _, hsame, hothers⟩ :=
      exec_LVAR_AT_spec e m1 { l with pc := l.pc + 1, atop := l.atop - 1 } n false
        (by simp only; omega) hn0 hn1
    have hv : local_slot (m1.frames l.fr).lvars l.program n
        = (m.frames l.fr).argument_st (l.atop - 1) := by
      rw [hslots1]; simp
    have hloc : ({ l with pc := l.pc + 1 + 1, atop := l.atop - 1 + 1 } : locals)
        = { l with pc := l.pc + 2, atop := l.atop } := by
      simp
    have hargs2' : (m2.frames l.fr).argument_st
        = setI (m.frames l.fr).argument_st (l.atop - 1)
            (copyinst m.mem ((m.frames l.fr).argument_st (l.atop - 1))).2 := by
      have hx := hargs2
      simp only [hv, hargs1] at hx
      rw [hx, copyinst_snd_heap m1.mem m.mem]
    refine ⟨m1, m2, ?_, ?_, fun k hk => ?_, ?_, fun hp => ?_, ?_, fun q k hqk => ?_⟩
    · simp only [dispatch, hi1]
      exact hrun1
    · simp only [dispatch, hi2]
      exact hrun2.trans (congrArg (outcome.next m2) hloc)
    · rw [hargs2']
      simp [setI, hk]
    · rw [hargs2']
      simp [setI]
    · rw [hargs2', copyinst_snd_same _ _ hp]
      funext k
      by_cases hk : k = l.atop - 1
      · simp [setI, hk]
      · simp [setI, hk]
    · exact (hsame rfl).trans hv
    · have h2 := hothers q k hqk
      simp only at h2
      rw [h2, hslots1 q k, if_neg hqk]
  · intro hi hn0 hn1 ha
    obtain ⟨m1, hrun, hargs, hzero, _, hothers⟩ := exec_LVAR_AT_spec e m l n true ha hn0 hn1
    refine ⟨m1, ?_, hargs, hzero rfl, hothers⟩
    simp only [dispatch, hi]
    exact hrun
  · intro hn hcase
    have hout : n ≥ e.MAX_VAR ∨ n < 0 := by omega
    have hd : dispatch e m l
        = abort_loop e m l "Scoped variable number out of range." none none := by
      rcases hcase with ⟨hi, h1, ht⟩ | ⟨hi | hi, ha⟩
      · have h1' : ¬ l.atop < 1 := by omega
        simp [dispatch, hi, exec_LVAR_BANG, h1', ht, hout]
      · have ha' : ¬ l.atop ≥ e.STACK_SIZE := by omega
        simp [dispatch, hi, exec_LVAR_AT, ha', hout]
      · have ha' : ¬ l.atop ≥ e.STACK_SIZE := by omega
        simp [dispatch, hi, exec_LVAR_AT, ha', hout]
    refine ⟨hd, fun ht => ?_, fun ht => ?_⟩
    · rw [hd]
      obtain ⟨m', h1, _, h3, h4, h5⟩ := abort_loop_caught_args e m l _ ht
      exact ⟨m', h1, h3, h4, h5⟩
    · rw [hd]
      exact abort_loop_uncaught e m l _ none none ht

/-- The round trip of C33 on the operand stack `[7, 8]`: after `LVAR_BANG 3`
and `LVAR_AT 3` in program 2 the height is 2 again, the top operand is 8 and
slot 3 of program 2 holds 8. -/
theorem local_store_round_trip_witness :
    ∃ m1 m2, dispatch (sample_env code_lvar) (sample_machine sample_heap function_frame)
          (sample_locals 10 2 1) = .next m1 { sample_locals 10 2 1 with pc := 11, atop := 1 }
      ∧ dispatch (sample_env code_lvar) m1 { sample_locals 10 2 1 with pc := 11, atop := 1 }
          = .next m2 { sample_locals 10 2 1 with pc := 12, atop := 2 }
      ∧ (m2.frames 0).argument_st 1 = { line := 0, data := .PROG_INTEGER 8 }
      ∧ local_slot (m2.frames 0).lvars 2 3 = { line := 0, data := .PROG_INTEGER 8 } :=
  ((local_store_round_trip (sample_env code_lvar) (sample_machine sample_heap function_frame)
      (sample_locals 10 2 1) 3).1 rfl rfl (by decide) (by decide) (by decide) (by decide)
      (by decide)).elim fun m1 h1 => h1.elim fun m2 h =>
    ⟨m1, m2, h.1, h.2.1, h.2.2.2.1, h.2.2.2.2.2.1⟩
/-- C32, against the claim as written: from an empty operand stack `INT 1`
leaves the height 1, and `TRY` pops the 1 as its count of protected operands,
finds no operand left under it and raises "Stack Underflow." with no try-frame
in place: no try-frame is installed and `interp_loop` returns null. -/
theorem try_count_underflows :
    ∃ m1 l1 m2,
      passes (pop_env code_protection) 1 (sample_machine sample_heap sample_frame)
          (sample_locals 10 0 1) = some (m1, l1)
      ∧ l1.atop = 1 ∧ l1.pc = 11 ∧ (pop_env code_protection).code 11 = ⟨2, .PROG_TRY 15⟩
      ∧ ((m1.frames 0).argument_st 0).data = .PROG_INTEGER 1
      ∧ loop_pass (pop_env code_protection) m1 l1 = .ret m2 .null
      ∧ effect.interp_err 1 2 11 2 "" "Stack Underflow." ∈ m2.out
      ∧ (m2.frames 0).trys_st = [] ∧ (m2.frames 0).trys_top = 0 :=
  ⟨_, _, _, rfl, by decide, by decide, by decide, by decide, rfl, by decide, by decide,
    by decide⟩

/-- C32 as amended: the instructions `INT 1, INT 0, TRY handler, INT 2, POP,
POP, handler: CATCH` from an empty operand stack.  After `INT 1, INT 0, TRY`
the frame has one try-frame, of depth 1 and with the handler address; after
`INT 2` and one POP the height is 1; the next POP raises "Stack protection
fault" and the pass ends at the handler with the height still 1; and CATCH
pushes a string with the text "Stack protection fault", leaving the stack
`[1, "Stack protection fault"]` and no try-frame. -/
theorem protection_scenario :
    ∃ m3 l3 m5 l5 m6 l6 m7 l7,
      passes (pop_env code_protection_count) 3 (sample_machine sample_heap sample_frame)
          (sample_locals 10 0 1) = some (m3, l3)
      ∧ (m3.frames 0).trys_st = [{ depth := 1, call_level := 1, for_count := 0, addr := 16 }]
      ∧ l3.atop = 1 ∧ l3.pc = 13
      ∧ passes (pop_env code_protection_count) 2 m3 l3 = some (m5, l5)
      ∧ l5.atop = 1 ∧ l5.pc = 15
      ∧ passes (pop_env code_protection_count) 1 m5 l5 = some (m6, l6)
      ∧ l6.atop = 1 ∧ l6.pc = 16
      ∧ (m6.frames 0).errorstr = some "Stack protection fault"
      ∧ passes (pop_env code_protection_count) 1 m6 l6 = some (m7, l7)
      ∧ l7.atop = 2 ∧ l7.pc = 17
      ∧ ((m7.frames 0).argument_st 0).data = .PROG_INTEGER 1
      ∧ ((m7.frames 0).argument_st 1).data = .PROG_STRING (some 100)
      ∧ (m7.mem.strings 100).data = "Stack protection fault"
      ∧ (m7.frames 0).trys_st = [] :=
  ⟨_, _, _, _, _, _, _, _, rfl, by decide, by decide, by decide, rfl, by decide, by decide,
    rfl, by decide, by decide, by decide, rfl, by decide, by decide, by decide, by decide,
    by decide, by decide⟩
/-- C35 (evaluation of the code at the failing input): `IN_CALL` on the operand
stack `[#5, "f"]`, no slot of which is CLEARED, for a program 5 that has no
public function `f`.  The error "PUBLIC or WIZCALL function not found. (2)" is
raised with the string operand given twice to the abort helper, which clears it
at source line 1001 and again at line 1003: `RCLEAR` meets a CLEARED slot and
logs its warning. -/
theorem call_public_not_found_clears_twice :
    (∀ k, 0 ≤ k → k < 2 → (call_public_frame.argument_st k).type ≠ .PROG_CLEARED)
    ∧ ∃ m l, dispatch (sample_env (code_primitive IN_CALL))
          (sample_machine (sample_heap_string "f") call_public_frame) (sample_locals 10 2 1)
        = .next m l
      ∧ (m.frames 0).errorstr = some "PUBLIC or WIZCALL function not found. (2)"
      ∧ m.mem.status_log
          = [{ file := "interp.c", line := 1003, prev_file := "interp.c", prev_line := 1001 }]
      ∧ ((m.frames 0).argument_st 1).type = .PROG_CLEARED
      ∧ ((m.frames 0).argument_st 0).data = .PROG_OBJECT 5 := by
  refine ⟨fun k h0 h1 => ?_, _, _, rfl, ?_⟩
  · have hk : k = 0 ∨ k = 1 := by omega
    rcases hk with hk | hk <;> subst hk <;> decide
  · decide

/-- The bounds of a try stack under one height hold under every height that is
not below the depth of its innermost try-frame. -/
theorem try_bounds_head (e : env) (a b : Int) (st : List tryvars)
    (h : try_bounds e a st = true) (hb : ∀ t rest, st = t :: rest → t.depth ≤ b) :
    try_bounds e b st = true := by
  cases st with
  | nil => rfl
  | cons t rest =>
    simp only [try_bounds, Bool.and_eq_true, decide_eq_true_eq] at h ⊢
    exact ⟨⟨⟨⟨h.1.1.1.1, h.1.1.1.2⟩, hb t rest rfl⟩, h.1.2⟩, h.2⟩

/-- Within bounds, a pop of `n` operands that passes the underflow test and the
protection test leaves the innermost depth at most the new height. -/
theorem protect_head (e : env) (m : machine) (l : locals) (n : Int)
    (h0 : stack_bounds e m l)
    (ht : try_protect (m.frames l.fr) l.atop n = false) :
    ∀ t rest, (m.frames l.fr).trys_st = t :: rest → t.depth ≤ l.atop - n := by
  intro t rest hst
  obtain ⟨_, _, _, _, htop, _⟩ := h0
  have hne : (m.frames l.fr).trys_top ≠ 0 := by
    rw [htop, hst]; simp; omega
  simp only [try_protect, frame.try_depth, hst, Bool.and_eq_false_imp, bne_iff_ne, ne_eq,
    decide_eq_false_iff_not] at ht
  have := ht hne
  omega

/-- A step that keeps the frame pointer and the try stack, and ends with
heights in their ranges and the innermost depth at most the operand height,
keeps the stack bounds. -/
theorem bounds_step (e : env) (m m' : machine) (l l' : locals)
    (h0 : stack_bounds e m l) (hfr : l'.fr = l.fr)
    (htop : (m'.frames l.fr).trys_top = (m.frames l.fr).trys_top)
    (hst : (m'.frames l.fr).trys_st = (m.frames l.fr).trys_st)
    (ha0 : 0 ≤ l'.atop) (ha1 : l'.atop ≤ e.STACK_SIZE)
    (hs0 : 0 ≤ l'.stop) (hs1 : l'.stop ≤ e.STACK_SIZE)
    (hhead : ∀ t rest, (m.frames l.fr).trys_st = t :: rest → t.depth ≤ l'.atop) :
    stack_bounds e m' l' := by
  obtain ⟨_, _, _, _, h5, h6⟩ := h0
  refine ⟨ha0, ha1, hs0, hs1, ?_, ?_⟩
  · rw [hfr, htop, hst]; exact h5
  · rw [hfr, hst]; exact try_bounds_head e _ _ _ h6 hhead

/-- Within bounds the innermost depth is at most the operand height. -/
theorem bounds_head (e : env) (m : machine) (l : locals) (h0 : stack_bounds e m l) :
    ∀ t rest, (m.frames l.fr).trys_st = t :: rest → t.depth ≤ l.atop := by
  intro t rest hst
  have h6 := h0.2.2.2.2.2
  rw [hst] at h6
  simp only [try_bounds, Bool.and_eq_true, decide_eq_true_eq] at h6
  exact h6.1.1.2

/-- The macro `abort_loop`, when the pass goes on, keeps the stack bounds. -/
theorem abort_loop_bounds (e : env) (m m' : machine) (l l' : locals) (S : String)
    (C1 C2 : Option Int) (h0 : stack_bounds e m l)
    (h : abort_loop e m l S C1 C2 = .next m' l') : stack_bounds e m' l' := by
  obtain ⟨ht, hl, _⟩ := abort_loop_next e m m' l l' S C1 C2 h
  subst hl
  obtain ⟨m2, h2, _, _, hst, htop, _⟩ := abort_loop_caught e m l' S C1 C2 ht
  rw [h2] at h
  injection h with hm _
  subst hm
  exact bounds_step e m m2 l' l' h0 rfl htop hst h0.1 h0.2.1 h0.2.2.1 h0.2.2.2.1
    (bounds_head e m l' h0)

/-- Within bounds, the registers after a pop of one operand that passes the
underflow test and the protection test are within bounds. -/
theorem bounds_pop (e : env) (m : machine) (l : locals) (pc : Nat)
    (h0 : stack_bounds e m l) (h1 : ¬ l.atop < 1)
    (ht : try_protect (m.frames l.fr) l.atop 1 = false) :
    stack_bounds e m { l with atop := l.atop - 1, pc := pc } :=
  bounds_step e m m l _ h0 rfl rfl rfl (by simp only; omega)
    (by have := h0.2.1; simp only; omega) h0.2.2.1 h0.2.2.2.1
    (protect_head e m l 1 h0 ht)
/-- No step writes no slot. -/
theorem stack_writes_within_refl (e : env) (f : frame) : stack_writes_within e f f :=
  fun _ _ => ⟨rfl, rfl⟩

/-- Steps that write within the stacks compose. -/
theorem stack_writes_within_trans (e : env) (f g h : frame)
    (h1 : stack_writes_within e f g) (h2 : stack_writes_within e g h) :
    stack_writes_within e f h :=
  fun k hk => ⟨(h2 k hk).1.trans (h1 k hk).1, (h2 k hk).2.trans (h1 k hk).2⟩

/-- A step that keeps the frame pointer and the try stack, ends with heights in
their ranges and the innermost depth at most the operand height, and writes no
slot outside the stacks, keeps the bounds. -/
theorem frame_step (e : env) (m m' : machine) (l l' : locals)
    (h0 : stack_bounds e m l) (hfr : l'.fr = l.fr)
    (htop : (m'.frames l.fr).trys_top = (m.frames l.fr).trys_top)
    (hst : (m'.frames l.fr).trys_st = (m.frames l.fr).trys_st)
    (ha0 : 0 ≤ l'.atop) (ha1 : l'.atop ≤ e.STACK_SIZE)
    (hs0 : 0 ≤ l'.stop) (hs1 : l'.stop ≤ e.STACK_SIZE)
    (hhead : ∀ t rest, (m.frames l.fr).trys_st = t :: rest → t.depth ≤ l'.atop)
    (hw : stack_writes_within e (m.frames l.fr) (m'.frames l.fr)) :
    bounds_kept e l.fr m m' l' :=
  ⟨bounds_step e m m' l l' h0 hfr htop hst ha0 ha1 hs0 hs1 hhead, hfr, hw⟩

/-- The abort helper with a try-frame in place writes the operand stack at the
operands it clears and leaves the system stack alone. -/
theorem do_abort_loop_stacks (e : env) (m : machine) (player program : Int) (msg : String)
    (fp : Nat) (pc : Nat) (atop stop : Int) (c1 c2 : Option Int)
    (h : (m.frames fp).trys_top ≠ 0) (k : Int)
    (h1 : ∀ i, c1 = some i → k ≠ i) (h2 : ∀ i, c2 = some i → k ≠ i) :
    ((do_abort_loop e m player program msg fp pc atop stop c1 c2).frames fp).argument_st k
        = (m.frames fp).argument_st k
    ∧ ((do_abort_loop e m player program msg fp pc atop stop c1 c2).frames fp).system_st k
        = (m.frames fp).system_st k := by
  cases c1 with
  | none =>
    cases c2 with
    | none => simp [do_abort_loop, h, CLEAR_arg, setN, reload]
    | some j =>
      have := h2 j rfl
      simp [do_abort_loop, h, CLEAR_arg, setN, reload, setI, this]
  | some i =>
    have hi := h1 i rfl
    cases c2 with
    | none => simp [do_abort_loop, h, CLEAR_arg, setN, reload, setI, hi]
    | some j =>
      have := h2 j rfl
      simp [do_abort_loop, h, CLEAR_arg, setN, reload, setI, this, hi]

/-- The macro `abort_loop`, when the pass goes on, keeps the bounds, the
operands it clears being within the stack. -/
theorem abort_loop_kept (e : env) (m m' : machine) (l l' : locals) (S : String)
    (C1 C2 : Option Int) (h0 : stack_bounds e m l)
    (hc1 : ∀ i, C1 = some i → 0 ≤ i ∧ i < e.STACK_SIZE)
    (hc2 : ∀ i, C2 = some i → 0 ≤ i ∧ i < e.STACK_SIZE)
    (h : abort_loop e m l S C1 C2 = .next m' l') : bounds_kept e l.fr m m' l' := by
  have hb := abort_loop_bounds e m m' l l' S C1 C2 h0 h
  obtain ⟨ht, hl, _⟩ := abort_loop_next e m m' l l' S C1 C2 h
  subst hl
  refine ⟨hb, rfl, ?_⟩
  simp only [abort_loop] at h
  split at h
  · injection h with hm _
    subst hm
    intro k hk
    exact do_abort_loop_stacks e m l'.player l'.program S l'.fr l'.pc l'.atop l'.stop C1 C2 ht k
      (fun i hi => by have := hc1 i hi; omega) (fun i hi => by have := hc2 i hi; omega)
  · cases h

/-- The macro `abort_loop` that clears no operand keeps the bounds. -/
theorem abort_loop_kept_none (e : env) (m m' : machine) (l l' : locals) (S : String)
    (h0 : stack_bounds e m l)
    (h : abort_loop e m l S none none = .next m' l') : bounds_kept e l.fr m m' l' :=
  abort_loop_kept e m m' l l' S none none h0 (fun _ hi => by cases hi) (fun _ hi => by cases hi) h

/-- The instructions that push themselves keep the bounds. -/
theorem exec_push_kept (e : env) (m m' : machine) (l l' : locals)
    (h0 : stack_bounds e m l) (h : exec_push e m l = .next m' l') :
    bounds_kept e l.fr m m' l' := by
  simp only [exec_push] at h
  split at h
  · exact abort_loop_kept_none e m m' l l' _ h0 h
  · rename_i hlt
    injection h with hm hl
    subst hm; subst hl
    have hh := bounds_head e m l h0
    obtain ⟨a0, a1, s0, s1, _, _⟩ := h0
    refine frame_step e m _ l _ ⟨a0, a1, s0, s1, ‹_›, ‹_›⟩ rfl ?_ ?_ ?_ ?_ s0 s1 ?_ ?_
    · simp only [setN_same]
    · simp only [setN_same]
    · simp only; omega
    · simp only; omega
    · intro t rest hst; have := hh t rest hst; simp only; omega
    · intro k hk
      have hk1 : k ≠ l.atop := by omega
      simp [setN_same, setI, hk1]
/-- The lookup of the program-local record leaves the stacks of the frame
alone. -/
theorem localvars_get_stacks (fr : frame) (P : Int) :
    (localvars_get fr P).trys_top = fr.trys_top ∧ (localvars_get fr P).trys_st = fr.trys_st
    ∧ (localvars_get fr P).argument_st = fr.argument_st
    ∧ (localvars_get fr P).system_st = fr.system_st := by
  simp only [localvars_get]
  split <;> simp

/-- A push at the operand height, below `STACK_SIZE`, keeps the bounds. -/
theorem push_kept (e : env) (m m' : machine) (l : locals) (pc : Nat)
    (h0 : stack_bounds e m l) (hlt : ¬ l.atop ≥ e.STACK_SIZE)
    (htop : (m'.frames l.fr).trys_top = (m.frames l.fr).trys_top)
    (hst : (m'.frames l.fr).trys_st = (m.frames l.fr).trys_st)
    (ha : ∀ k, k ≠ l.atop → (m'.frames l.fr).argument_st k = (m.frames l.fr).argument_st k)
    (hs : (m'.frames l.fr).system_st = (m.frames l.fr).system_st) :
    bounds_kept e l.fr m m' { l with pc := pc, atop := l.atop + 1 } := by
  have hh := bounds_head e m l h0
  have a0 := h0.1
  refine frame_step e m _ l _ h0 rfl htop hst ?_ ?_ h0.2.2.1 h0.2.2.2.1 ?_ ?_
  · simp only; omega
  · simp only; omega
  · intro t rest hst; have := hh t rest hst; simp only; omega
  · intro k hk
    rw [hs]
    exact ⟨ha k (by omega), rfl⟩

/-- A pop of one operand that passes the underflow test and the protection
test, with no write to the stacks but to the operand popped, keeps the
bounds. -/
theorem pop_kept (e : env) (m m' : machine) (l : locals) (pc : Nat)
    (h0 : stack_bounds e m l) (h1 : ¬ l.atop < 1)
    (ht : try_protect (m.frames l.fr) l.atop 1 = false)
    (htop : (m'.frames l.fr).trys_top = (m.frames l.fr).trys_top)
    (hst : (m'.frames l.fr).trys_st = (m.frames l.fr).trys_st)
    (ha : ∀ k, k ≠ l.atop - 1 → (m'.frames l.fr).argument_st k = (m.frames l.fr).argument_st k)
    (hs : (m'.frames l.fr).system_st = (m.frames l.fr).system_st) :
    bounds_kept e l.fr m m' { l with atop := l.atop - 1, pc := pc } := by
  have a1 := h0.2.1
  refine frame_step e m _ l _ h0 rfl htop hst ?_ ?_ h0.2.2.1 h0.2.2.2.1
    (protect_head e m l 1 h0 ht) ?_
  · simp only; omega
  · simp only; omega
  · intro k hk
    rw [hs]
    exact ⟨ha k (by omega), rfl⟩

/-- The instructions `PROG_LVAR_AT` and `PROG_LVAR_AT_CLEAR` keep the bounds. -/
theorem exec_LVAR_AT_kept (e : env) (m m' : machine) (l l' : locals) (n : Int) (c : Bool)
    (h0 : stack_bounds e m l) (h : exec_LVAR_AT e m l n c = .next m' l') :
    bounds_kept e l.fr m m' l' := by
  obtain ⟨g1, g2, g3, g4⟩ := localvars_get_stacks (m.frames l.fr) l.program
  simp only [exec_LVAR_AT] at h
  split at h
  · exact abort_loop_kept_none e m m' l l' _ h0 h
  · rename_i hlt
    split at h
    · exact abort_loop_kept_none e m m' l l' _ h0 h
    · split at h
      all_goals
        injection h with hm hl
        subst hm; subst hl
        refine push_kept e m _ l _ h0 hlt ?_ ?_ ?_ ?_
        · simp only [set_frame, setN_same, g1]
        · simp only [set_frame, setN_same, g2]
        · intro k hk; simp [set_frame, setN_same, g3, setI, hk]
        · simp only [set_frame, setN_same, g4]

/-- The instruction `PROG_LVAR_BANG` keeps the bounds. -/
theorem exec_LVAR_BANG_kept (e : env) (m m' : machine) (l l' : locals) (n : Int)
    (h0 : stack_bounds e m l) (h : exec_LVAR_BANG e m l n = .next m' l') :
    bounds_kept e l.fr m m' l' := by
  obtain ⟨g1, g2, g3, g4⟩ := localvars_get_stacks (m.frames l.fr) l.program
  simp only [exec_LVAR_BANG] at h
  split at h
  · exact abort_loop_kept_none e m m' l l' _ h0 h
  · rename_i h1
    split at h
    · exact abort_loop_kept_none e m m' l l' _ h0 h
    · rename_i ht
      split at h
      · exact abort_loop_kept_none e m m' l l' _ h0 h
      · injection h with hm hl
        subst hm; subst hl
        have hx := pop_kept e m
          (set_frame { m with mem := (CLEAR m.mem
            (lvars_head_get (localvars_get (m.frames l.fr) l.program).lvars n) 1284).1 } l.fr
            { localvars_get (m.frames l.fr) l.program with
              lvars := lvars_head_set (localvars_get (m.frames l.fr) l.program).lvars n
                ((localvars_get (m.frames l.fr) l.program).argument_st (l.atop - 1)) })
          l (l.pc + 1) h0 h1 (by simpa using ht)
          (by simp only [set_frame, setN_same, g1]) (by simp only [set_frame, setN_same, g2])
          (by intro k _; simp only [set_frame, setN_same, g3])
          (by simp only [set_frame, setN_same, g4])
        exact hx

/-- The instructions `PROG_SVAR_AT` and `PROG_SVAR_AT_CLEAR` keep the bounds. -/
theorem exec_SVAR_AT_kept (e : env) (m m' : machine) (l l' : locals) (n : Int) (c : Bool)
    (h0 : stack_bounds e m l) (h : exec_SVAR_AT e m l n c = .next m' l') :
    bounds_kept e l.fr m m' l' := by
  simp only [exec_SVAR_AT] at h
  split at h
  · exact abort_loop_kept_none e m m' l l' _ h0 h
  · rename_i hlt
    split at h
    · exact abort_loop_kept_none e m m' l l' _ h0 h
    · split at h
      all_goals
        injection h with hm hl
        subst hm; subst hl
        refine push_kept e m _ l _ h0 hlt ?_ ?_ ?_ ?_
        · simp only [set_frame, setN_same]
        · simp only [set_frame, setN_same]
        · intro k hk; simp [set_frame, setN_same, setI, hk]
        · simp only [set_frame, setN_same]

/-- The instruction `PROG_SVAR_BANG` keeps the bounds. -/
theorem exec_SVAR_BANG_kept (e : env) (m m' : machine) (l l' : locals) (n : Int)
    (h0 : stack_bounds e m l) (h : exec_SVAR_BANG e m l n = .next m' l') :
    bounds_kept e l.fr m m' l' := by
  simp only [exec_SVAR_BANG] at h
  split at h
  · exact abort_loop_kept_none e m m' l l' _ h0 h
  · rename_i h1
    split at h
    · exact abort_loop_kept_none e m m' l l' _ h0 h
    · rename_i ht
      split at h
      · exact abort_loop_kept_none e m m' l l' _ h0 h
      · injection h with hm hl
        subst hm; subst hl
        refine pop_kept e m _ l (l.pc + 1) h0 h1 (by simpa using ht) ?_ ?_ ?_ ?_
        · simp only [set_frame, setN_same]
        · simp only [set_frame, setN_same]
        · intro k _; simp only [set_frame, setN_same]
        · simp only [set_frame, setN_same]

/-- The instruction `PROG_IF` keeps the bounds. -/
theorem exec_IF_kept (e : env) (m m' : machine) (l l' : locals) (call : Nat)
    (h0 : stack_bounds e m l) (h : exec_IF e m l call = .next m' l') :
    bounds_kept e l.fr m m' l' := by
  simp only [exec_IF] at h
  split at h
  · exact abort_loop_kept_none e m m' l l' _ h0 h
  · rename_i h1
    split at h
    · exact abort_loop_kept_none e m m' l l' _ h0 h
    · rename_i ht
      injection h with hm hl
      subst hm; subst hl
      have hc := (CLEAR_arg_frame m l.fr (l.atop - 1) 1372).1
      refine pop_kept e m _ l _ h0 h1 (by simpa using ht) ?_ ?_ ?_ ?_
      · rw [hc]
      · rw [hc]
      · intro k hk; rw [hc]; simp [setI, hk]
      · rw [hc]

/-- The instruction `PROG_EXEC` keeps the bounds. -/
theorem exec_EXEC_kept (e : env) (m m' : machine) (l l' : locals) (call : Nat)
    (h0 : stack_bounds e m l) (h : exec_EXEC e m l call = .next m' l') :
    bounds_kept e l.fr m m' l' := by
  simp only [exec_EXEC] at h
  split at h
  · exact abort_loop_kept_none e m m' l l' _ h0 h
  · rename_i hlt
    injection h with hm hl
    subst hm; subst hl
    have s0 := h0.2.2.1
    refine frame_step e m _ l _ h0 rfl ?_ ?_ h0.1 h0.2.1 ?_ ?_ (bounds_head e m l h0) ?_
    · simp only [set_frame, setN_same]
    · simp only [set_frame, setN_same]
    · simp only; omega
    · simp only; omega
    · intro k hk
      have hk1 : k ≠ l.stop := by omega
      simp [set_frame, setN_same, setI, hk1]

/-- The instruction `PROG_JMP` keeps the bounds. -/
theorem exec_PROG_JMP_kept (e : env) (m m' : machine) (l l' : locals) (call : Nat)
    (h0 : stack_bounds e m l) (h : exec_PROG_JMP m l call = .next m' l') :
    bounds_kept e l.fr m m' l' := by
  simp only [exec_PROG_JMP] at h
  injection h with hm hl
  subst hm; subst hl
  exact frame_step e m m l _ h0 rfl rfl rfl h0.1 h0.2.1 h0.2.2.1 h0.2.2.2.1
    (bounds_head e m l h0) (stack_writes_within_refl e _)
/-- The argument loop of `PROG_FUNCTION`, when it ends, has lowered the operand
height by `n`, has written the operand stack at the operands it popped and
nowhere else, and has left the try stack and the system stack alone. -/
theorem function_args_stacks (e : env) :
    ∀ (n : Nat) (m : machine) (l : locals) (m' : machine) (l' : locals),
      function_args e n m l = .next m' l' →
      l'.fr = l.fr ∧ l'.atop = l.atop - n ∧ l'.stop = l.stop
      ∧ (m'.frames l.fr).trys_top = (m.frames l.fr).trys_top
      ∧ (m'.frames l.fr).trys_st = (m.frames l.fr).trys_st
      ∧ (m'.frames l.fr).system_st = (m.frames l.fr).system_st
      ∧ ∀ k, (k < l.atop - n ∨ l.atop ≤ k) →
          (m'.frames l.fr).argument_st k = (m.frames l.fr).argument_st k := by
  intro n
  induction n with
  | zero =>
    intro m l m' l' h
    simp only [function_args] at h
    injection h with hm hl
    subst hm; subst hl
    simp
  | succ n ih =>
    intro m l m' l' h
    simp only [function_args] at h
    split at h
    · simp [abort_loop_hard] at h
    · obtain ⟨h1, h2, h3, h4, h5, h6, h7⟩ := ih _ _ _ _ h
      simp only [set_frame, setN_same] at h1 h2 h3 h4 h5 h6 h7
      refine ⟨h1, ?_, h3, h4, h5, h6, ?_⟩
      · rw [h2]; push_cast; omega
      · intro k hk
        rw [h7 k (by push_cast at hk; omega)]
        have hk1 : k ≠ l.atop - 1 := by push_cast at hk; omega
        simp [setI, hk1]

/-- The instruction `PROG_FUNCTION` keeps the bounds. -/
theorem exec_FUNCTION_kept (e : env) (m m' : machine) (l l' : locals)
    (p : Option muf_proc_data)
    (h0 : stack_bounds e m l) (h : exec_FUNCTION e m l p = .next m' l') :
    bounds_kept e l.fr m m' l' := by
  cases p with
  | none => simp [exec_FUNCTION] at h
  | some p =>
    simp only [exec_FUNCTION] at h
    split at h
    · exact abort_loop_kept_none e m m' l l' _ h0 h
    · rename_i h1
      split at h
      · exact abort_loop_kept_none e m m' l l' _ h0 h
      · rename_i ht
        split at h
        · rename_i m1 l1 hf
          injection h with hm hl
          subst hm; subst hl
          obtain ⟨f1, f2, f3, f4, f5, f6, f7⟩ := function_args_stacks e _ _ _ _ _ hf
          have hh := protect_head e m l p.args h0 (by simpa using ht)
          have hh0 := bounds_head e m l h0
          have hn : ((p.args.toNat : Nat) : Int) = p.args ∨ (p.args.toNat = 0 ∧ p.args < 0) := by
            by_cases hp : 0 ≤ p.args
            · exact Or.inl (Int.toNat_of_nonneg hp)
            · exact Or.inr ⟨Int.toNat_eq_zero.mpr (by omega), by omega⟩
          have g :
              ((set_frame m l.fr
                (if (m.frames l.fr).skip_declare = true then
                  { (m.frames l.fr) with skip_declare := false }
                else scopedvar_addlevel (m.frames l.fr) p.varnames p.vars)).frames l.fr).trys_top
                = (m.frames l.fr).trys_top
              ∧ ((set_frame m l.fr
                (if (m.frames l.fr).skip_declare = true then
                  { (m.frames l.fr) with skip_declare := false }
                else scopedvar_addlevel (m.frames l.fr) p.varnames p.vars)).frames l.fr).trys_st
                = (m.frames l.fr).trys_st
              ∧ ((set_frame m l.fr
                (if (m.frames l.fr).skip_declare = true then
                  { (m.frames l.fr) with skip_declare := false }
                else scopedvar_addlevel (m.frames l.fr) p.varnames p.vars)).frames l.fr).system_st
                = (m.frames l.fr).system_st
              ∧ ((set_frame m l.fr
                (if (m.frames l.fr).skip_declare = true then
                  { (m.frames l.fr) with skip_declare := false }
                else scopedvar_addlevel (m.frames l.fr) p.varnames p.vars)).frames l.fr).argument_st
                = (m.frames l.fr).argument_st := by
            simp only [set_frame, setN_same]
            split <;> simp [scopedvar_addlevel]
          obtain ⟨g1, g2, g3, g4⟩ := g
          have a0 := h0.1
          have a1 := h0.2.1
          refine frame_step e m _ l _ h0 f1 (f4.trans g1) (f5.trans g2) ?_ ?_ ?_ ?_ ?_ ?_
          · show 0 ≤ l1.atop
            rw [f2]; omega
          · show l1.atop ≤ e.STACK_SIZE
            rw [f2]; omega
          · show 0 ≤ l1.stop
            rw [f3]; exact h0.2.2.1
          · show l1.stop ≤ e.STACK_SIZE
            rw [f3]; exact h0.2.2.2.1
          · intro t rest hst
            have := hh t rest hst
            have := hh0 t rest hst
            show t.depth ≤ l1.atop
            rw [f2]; omega
          · intro k hk
            rw [f6, g3, f7 k (by omega), g4]
            exact ⟨rfl, rfl⟩
        · rename_i hnot
          cases hf : function_args e p.args.toNat
            (set_frame m l.fr
              (if (m.frames l.fr).skip_declare = true then
                { (m.frames l.fr) with skip_declare := false }
              else scopedvar_addlevel (m.frames l.fr) p.varnames p.vars)) l with
          | next m1 l1 => exact absurd hf (hnot m1 l1)
          | ret m1 rv => rw [hf] at h; cases h
          | undefined m1 => rw [hf] at h; cases h
/-- The function `push_try` links one node in front of the stack. -/
theorem push_try_cons (st pool : List tryvars) (last : Nat) :
    ∃ t, (push_try st pool last).1 = t :: st := by
  cases pool with
  | nil => exact ⟨_, rfl⟩
  | cons nu rest => exact ⟨nu, rfl⟩

/-- The abort of an instruction that has popped one operand, and clears it,
keeps the bounds. -/
theorem abort_popped_kept (e : env) (m m' : machine) (l l' : locals) (S : String)
    (C1 : Option Int)
    (h0 : stack_bounds e m l) (h1 : ¬ l.atop < 1)
    (ht : try_protect (m.frames l.fr) l.atop 1 = false)
    (hc : ∀ i, C1 = some i → i = l.atop - 1)
    (h : abort_loop e m { l with atop := l.atop - 1 } S C1 none = .next m' l') :
    bounds_kept e l.fr m m' l' := by
  have a1 := h0.2.1
  have hb := bounds_pop e m l l.pc h0 h1 ht
  exact abort_loop_kept e m m' { l with atop := l.atop - 1 } l' S C1 none hb
    (fun i hi => by have := hc i hi; omega) (fun _ hi => by cases hi) h

/-- The instruction `PROG_TRY` keeps the bounds. -/
theorem exec_TRY_kept (e : env) (m m' : machine) (l l' : locals) (call : Nat)
    (h0 : stack_bounds e m l) (h : exec_TRY e m l call = .next m' l') :
    bounds_kept e l.fr m m' l' := by
  simp only [exec_TRY] at h
  split at h
  · exact abort_loop_kept_none e m m' l l' _ h0 h
  · rename_i h1
    split at h
    · exact abort_loop_kept_none e m m' l l' _ h0 h
    · rename_i ht
      have ht1 : try_protect (m.frames l.fr) l.atop 1 = false := by simpa using ht
      have hb := bounds_pop e m l l.pc h0 h1 ht1
      split at h
      · rename_i number hnum
        split at h
        · exact abort_popped_kept e m m' l l' _ _ h0 h1 ht1 (fun i hi => by cases hi; rfl) h
        · rename_i hneg
          split at h
          · exact abort_popped_kept e m m' l l' _ _ h0 h1 ht1 (fun i hi => by cases hi) h
          · rename_i ht2
            split at h
            · exact abort_popped_kept e m m' l l' _ _ h0 h1 ht1 (fun i hi => by cases hi; rfl) h
            · rename_i hund
              injection h with hm hl
              subst hm; subst hl
              have hh := protect_head e m { l with atop := l.atop - 1 } number hb
                (by simpa using ht2)
              obtain ⟨t, hp⟩ := push_try_cons (m.frames l.fr).trys_st m.try_pool m.last_try
              obtain ⟨a0, a1, s0, s1, b1, b2⟩ := h0
              simp only [not_lt, gt_iff_lt] at hneg hund
              have hb2 := try_bounds_head e _ (l.atop - 1 - number) _ b2 hh
              refine ⟨⟨?_, ?_, s0, s1, ?_, ?_⟩, rfl, ?_⟩
              · show 0 ≤ l.atop - 1
                omega
              · show l.atop - 1 ≤ e.STACK_SIZE
                omega
              · simp only [CLEAR_arg, setN_same, hp, b1, List.length_cons]
                push_cast; ring
              · simp only [CLEAR_arg, setN_same, hp, try_bounds, Bool.and_eq_true,
                  decide_eq_true_eq]
                exact ⟨⟨⟨⟨by omega, by omega⟩, by omega⟩, s0⟩, hb2⟩
              · intro k hk
                have hk1 : k ≠ l.atop - 1 := by omega
                simp [CLEAR_arg, setN_same, setI, hk1]
      · exact abort_popped_kept e m m' l l' _ _ h0 h1 ht1 (fun i hi => by cases hi; rfl) h

/-- The primitive `IN_JMP` keeps the bounds. -/
theorem exec_JMP_kept (e : env) (m m' : machine) (l l' : locals)
    (h0 : stack_bounds e m l) (h : exec_JMP e m l = .next m' l') :
    bounds_kept e l.fr m m' l' := by
  simp only [exec_JMP] at h
  split at h
  · exact abort_loop_kept_none e m m' l l' _ h0 h
  · rename_i h1
    split at h
    · exact abort_loop_kept_none e m m' l l' _ h0 h
    · rename_i ht
      have ht1 : try_protect (m.frames l.fr) l.atop 1 = false := by simpa using ht
      split at h
      · split at h
        · simp [abort_loop_hard] at h
        · split at h
          · exact abort_popped_kept e m m' l l' _ _ h0 h1 ht1 (fun i hi => by cases hi; rfl) h
          · injection h with hm hl
            subst hm; subst hl
            rename_i a _ _ _
            have hc := (CLEAR_arg_frame (set_frame m l.fr
              (if (e.code (m.mem.addrs a).data).type = .PROG_FUNCTION then
                { (m.frames l.fr) with skip_declare := true }
              else m.frames l.fr)) l.fr (l.atop - 1) 1439).1
            refine pop_kept e m _ l _ h0 h1 ht1 ?_ ?_ ?_ ?_
            · rw [hc]; simp only [set_frame, setN_same]; split <;> rfl
            · rw [hc]; simp only [set_frame, setN_same]; split <;> rfl
            · intro k hk; rw [hc]; simp only [set_frame, setN_same, setI, hk, if_false]
              split <;> rfl
            · rw [hc]; simp only [set_frame, setN_same]; split <;> rfl
      · exact abort_popped_kept e m m' l l' _ _ h0 h1 ht1 (fun i hi => by cases hi; rfl) h

/-- A pop of one operand with a push on the system stack at the system height,
below `STACK_SIZE`, keeps the bounds. -/
theorem pop_call_kept (e : env) (m m' : machine) (l l' : locals)
    (h0 : stack_bounds e m l) (h1 : ¬ l.atop < 1)
    (ht : try_protect (m.frames l.fr) l.atop 1 = false) (hs : ¬ l.stop ≥ e.STACK_SIZE)
    (hfr : l'.fr = l.fr) (hatop : l'.atop = l.atop - 1) (hstop : l'.stop = l.stop + 1)
    (htop : (m'.frames l.fr).trys_top = (m.frames l.fr).trys_top)
    (hst : (m'.frames l.fr).trys_st = (m.frames l.fr).trys_st)
    (ha : ∀ k, k ≠ l.atop - 1 → (m'.frames l.fr).argument_st k = (m.frames l.fr).argument_st k)
    (hsy : ∀ k, k ≠ l.stop → (m'.frames l.fr).system_st k = (m.frames l.fr).system_st k) :
    bounds_kept e l.fr m m' l' := by
  have a1 := h0.2.1
  have s0 := h0.2.2.1
  have hh := protect_head e m l 1 h0 ht
  refine frame_step e m _ l _ h0 hfr htop hst ?_ ?_ ?_ ?_ ?_ ?_
  · omega
  · omega
  · omega
  · omega
  · intro t rest h; rw [hatop]; exact hh t rest h
  · intro k hk
    exact ⟨ha k (by omega), hsy k (by omega)⟩

/-- The primitive `IN_EXECUTE` keeps the bounds. -/
theorem exec_EXECUTE_kept (e : env) (m m' : machine) (l l' : locals)
    (h0 : stack_bounds e m l) (h : exec_EXECUTE e m l = .next m' l') :
    bounds_kept e l.fr m m' l' := by
  simp only [exec_EXECUTE] at h
  split at h
  · exact abort_loop_kept_none e m m' l l' _ h0 h
  · rename_i h1
    split at h
    · exact abort_loop_kept_none e m m' l l' _ h0 h
    · rename_i ht
      have ht1 : try_protect (m.frames l.fr) l.atop 1 = false := by simpa using ht
      split at h
      · split at h
        · simp [abort_loop_hard] at h
        · split at h
          · exact abort_popped_kept e m m' l l' _ _ h0 h1 ht1 (fun i hi => by cases hi; rfl) h
          · rename_i hs
            split at h
            all_goals
              injection h with hm hl
              subst hm; subst hl
              refine pop_call_kept e m _ l _ h0 h1 ht1 hs rfl rfl rfl ?_ ?_ ?_ ?_
              · simp [CLEAR_arg, set_frame, setN_same]
              · simp [CLEAR_arg, set_frame, setN_same]
              · intro k hk; simp [CLEAR_arg, set_frame, setN_same, setI, hk]
              · intro k hk; simp [CLEAR_arg, set_frame, setN_same, setI, hk]
      · exact abort_popped_kept e m m' l l' _ _ h0 h1 ht1 (fun i hi => by cases hi; rfl) h
/-- A step that keeps the bounds, made after writes within the stacks, keeps
the bounds from the state before those writes. -/
theorem bounds_kept_after (e : env) (fp : Nat) (m m2 m' : machine) (l' : locals)
    (hw : stack_writes_within e (m.frames fp) (m2.frames fp))
    (h : bounds_kept e fp m2 m' l') : bounds_kept e fp m m' l' :=
  ⟨h.1, h.2.1, stack_writes_within_trans e _ _ _ hw h.2.2⟩

/-- The end of `IN_CALL` raises the system height by one, clears the operands
`temp1` and `temp2`, and leaves the rest of the stacks and the try stack
alone. -/
theorem exec_CALL_enter_stacks (e : env) (m m' : machine) (l l' : locals) (objref : Int)
    (pc : Nat) (temp1 : Int) (temp2 : Option Int)
    (h : exec_CALL_enter e m l objref pc temp1 temp2 = .next m' l') :
    l'.fr = l.fr ∧ l'.atop = l.atop ∧ l'.stop = l.stop + 1
    ∧ (m'.frames l.fr).trys_top = (m.frames l.fr).trys_top
    ∧ (m'.frames l.fr).trys_st = (m.frames l.fr).trys_st
    ∧ (m'.frames l.fr).system_st = (m.frames l.fr).system_st
    ∧ ∀ k, k ≠ temp1 → (∀ t2, temp2 = some t2 → k ≠ t2) →
        (m'.frames l.fr).argument_st k = (m.frames l.fr).argument_st k := by
  simp only [exec_CALL_enter] at h
  injection h with hm hl
  subst hm; subst hl
  by_cases hc : objref ≠ l.program <;> cases temp2 <;>
    refine ⟨?_, ?_, ?_, ?_, ?_, ?_, ?_⟩ <;>
    first
    | (simp [hc, CLEAR_arg, setN_same, setN_setN]; done)
    | (intro k hk hk2
       have hk3 := hk2 _ rfl
       simp [hc, CLEAR_arg, setN_same, setN_setN, setI, hk, hk3])
    | (intro k hk _
       simp [hc, CLEAR_arg, setN_same, setN_setN, setI, hk])

/-- The end of `IN_CALL`, entered below `STACK_SIZE` after the push on the
system stack, keeps the bounds. -/
theorem exec_CALL_enter_kept (e : env) (m m' : machine) (l l' : locals) (objref : Int)
    (pc : Nat) (temp1 : Int) (temp2 : Option Int) (v : stack_addr)
    (h0 : stack_bounds e m l) (hs : ¬ l.stop ≥ e.STACK_SIZE)
    (h1 : 0 ≤ temp1 ∧ temp1 < e.STACK_SIZE)
    (h2 : ∀ t2, temp2 = some t2 → 0 ≤ t2 ∧ t2 < e.STACK_SIZE)
    (h : exec_CALL_enter e
      (set_frame m l.fr { (m.frames l.fr) with system_st := setI (m.frames l.fr).system_st l.stop v })
      l objref pc temp1 temp2 = .next m' l') :
    bounds_kept e l.fr m m' l' := by
  obtain ⟨f1, f2, f3, f4, f5, f6, f7⟩ := exec_CALL_enter_stacks e _ m' l l' objref pc temp1 temp2 h
  simp only [set_frame, setN_same] at f4 f5 f6 f7
  have s0 := h0.2.2.1
  refine frame_step e m _ l _ h0 f1 f4 f5 ?_ ?_ ?_ ?_ ?_ ?_
  · rw [f2]; exact h0.1
  · rw [f2]; exact h0.2.1
  · omega
  · omega
  · rw [f2]; exact bounds_head e m l h0
  · intro k hk
    rw [f6, f7 k (by omega) (fun t2 ht2 => by have := h2 t2 ht2; omega)]
    have hk1 : k ≠ l.stop := by omega
    simp [setI, hk1]
/-- The bounds kept from a machine do not depend on its heap. -/
theorem bounds_kept_mem (e : env) (fp : Nat) (m m' : machine) (l' : locals) (H : heap)
    (h : bounds_kept e fp { m with mem := H } m' l') : bounds_kept e fp m m' l' := h

/-- The part of `IN_CALL` behind the pops keeps the bounds, the operands
`temp1` and `temp2` being within the stack. -/
theorem exec_CALL_body_kept (e : env) (m m' : machine) (l l' : locals) (temp1 : Int)
    (temp2 : Option Int) (h0 : stack_bounds e m l)
    (h1 : 0 ≤ temp1 ∧ temp1 < e.STACK_SIZE)
    (h2 : ∀ t2, temp2 = some t2 → 0 ≤ t2 ∧ t2 < e.STACK_SIZE)
    (h : exec_CALL_body e m l temp1 temp2 = .next m' l') :
    bounds_kept e l.fr m m' l' := by
  have hc1 : ∀ i, some temp1 = some i → 0 ≤ i ∧ i < e.STACK_SIZE := by
    intro i hi
    cases hi
    exact h1
  cases hd : ((m.frames l.fr).argument_st temp1).data
  case PROG_OBJECT objref =>
    simp only [exec_CALL_body, hd] at h
    generalize (if (m.mem.progs objref).code = 0 then compile_program e m.mem objref
      else m.mem) = H at h
    have h0H : stack_bounds e { m with mem := H } l := h0
    split at h
    · exact abort_loop_kept e m m' l l' _ _ _ h0 hc1 h2 h
    · split at h
      · exact bounds_kept_mem e l.fr m m' l' H (abort_loop_kept e { m with mem := H } m' l l' _ _ _ h0H hc1 h2 h)
      · split at h
        · exact bounds_kept_mem e l.fr m m' l' H (abort_loop_kept e { m with mem := H } m' l l' _ _ _ h0H hc1 h2 h)
        · split at h
          · exact bounds_kept_mem e l.fr m m' l' H (abort_loop_kept e { m with mem := H } m' l l' _ _ _ h0H hc1 h2 h)
          · split at h
            · exact bounds_kept_mem e l.fr m m' l' H (abort_loop_kept e { m with mem := H } m' l l' _ _ _ h0H hc1 h2 h)
            · rename_i hs
              have s0 := h0.2.2.1
              have hw : stack_writes_within e (m.frames l.fr)
                  ((set_frame { m with mem := H } l.fr
                    { (m.frames l.fr) with
                        system_st := setI (m.frames l.fr).system_st l.stop
                          { progref := l.program, offset := l.pc + 1 } }).frames l.fr) := by
                intro k hk
                have hk1 : k ≠ l.stop := by omega
                simp [set_frame, setN_same, setI, hk1]
              have hb : stack_bounds e
                  (set_frame { m with mem := H } l.fr
                    { (m.frames l.fr) with
                        system_st := setI (m.frames l.fr).system_st l.stop
                          { progref := l.program, offset := l.pc + 1 } }) l :=
                bounds_step e m _ l l h0 rfl (by simp only [set_frame, setN_same])
                  (by simp only [set_frame, setN_same]) h0.1 h0.2.1 h0.2.2.1 h0.2.2.2.1
                  (bounds_head e m l h0)
              cases temp2 with
              | none =>
                simp only [] at h
                exact bounds_kept_mem e l.fr m m' l' H
                  (exec_CALL_enter_kept e { m with mem := H } m' l l' objref _ temp1 none _
                    h0H hs h1 (fun _ hi => by cases hi) h)
              | some t2 =>
                simp only [] at h
                split at h
                · split at h
                  · exact bounds_kept_after e l.fr m _ m' l' hw
                      (abort_loop_kept e (set_frame { m with mem := H } l.fr
                        { (m.frames l.fr) with
                            system_st := setI (m.frames l.fr).system_st l.stop
                              { progref := l.program, offset := l.pc + 1 } })
                        m' l l' _ _ _ hb h2 h2 h)
                  · split at h
                    · exact bounds_kept_after e l.fr m _ m' l' hw
                        (abort_loop_kept e (set_frame { m with mem := H } l.fr
                          { (m.frames l.fr) with
                              system_st := setI (m.frames l.fr).system_st l.stop
                                { progref := l.program, offset := l.pc + 1 } })
                          m' l l' _ _ _ hb h2 h2 h)
                    · exact bounds_kept_mem e l.fr m m' l' H
                        (exec_CALL_enter_kept e { m with mem := H } m' l l' objref _ temp1
                          (some t2) _ h0H hs h1 h2 h)
                · cases h
  all_goals
    simp only [exec_CALL_body, hd] at h
    exact abort_loop_kept e m m' l l' _ _ _ h0 hc1 h2 h

/-- The primitive `IN_CALL` keeps the bounds. -/
theorem exec_CALL_kept (e : env) (m m' : machine) (l l' : locals)
    (h0 : stack_bounds e m l) (h : exec_CALL e m l = .next m' l') :
    bounds_kept e l.fr m m' l' := by
  simp only [exec_CALL] at h
  split at h
  · exact abort_loop_kept_none e m m' l l' _ h0 h
  · rename_i h1
    split at h
    · exact abort_loop_kept_none e m m' l l' _ h0 h
    · rename_i ht
      have ht1 : try_protect (m.frames l.fr) l.atop 1 = false := by simpa using ht
      have hb := bounds_pop e m l l.pc h0 h1 ht1
      have a1 := h0.2.1
      split at h
      · split at h
        · exact abort_popped_kept e m m' l l' _ _ h0 h1 ht1 (fun i hi => by cases hi; rfl) h
        · rename_i h3
          split at h
          · exact abort_popped_kept e m m' l l' _ _ h0 h1 ht1 (fun i hi => by cases hi) h
          · rename_i ht2
            have ht3 : try_protect (m.frames l.fr) (l.atop - 1) 1 = false := by simpa using ht2
            have hb2 : stack_bounds e m { l with atop := l.atop - 1 - 1 } :=
              bounds_pop e m { l with atop := l.atop - 1 } l.pc hb h3 ht3
            have g1 : ∀ i, some (l.atop - 1 - 1) = some i → 0 ≤ i ∧ i < e.STACK_SIZE := by
              intro i hi
              cases hi
              simp only [not_lt] at h3
              omega
            have g2 : ∀ i, some (l.atop - 1) = some i → 0 ≤ i ∧ i < e.STACK_SIZE := by
              intro i hi
              cases hi
              omega
            split at h
            · split at h
              · exact abort_loop_kept e m m' { l with atop := l.atop - 1 - 1 } l' _ _ _ hb2 g1 g2 h
              · exact exec_CALL_body_kept e m m' { l with atop := l.atop - 1 - 1 } l' _ _ hb2
                  (g1 _ rfl) g2 h
            · exact abort_loop_kept e m m' { l with atop := l.atop - 1 - 1 } l' _ _ _ hb2 g1 g2 h
      · exact exec_CALL_body_kept e m m' { l with atop := l.atop - 1 } l' _ _ hb (by omega)
          (fun _ hi => by cases hi) h

/-- The pop of a system level from a system height of at least 1 keeps the
bounds. -/
theorem pop_level_kept (e : env) (m : machine) (l : locals)
    (h0 : stack_bounds e m l) (hstop : 1 ≤ l.stop) :
    bounds_kept e l.fr m (pop_level e m l).1 (pop_level e m l).2 := by
  have s1 := h0.2.2.2.1
  by_cases hc : l.stop > 1 ∧ l.program ≠ ((m.frames l.fr).system_st (l.stop - 1)).progref
  · refine frame_step e m _ l _ h0 ?_ ?_ ?_ ?_ ?_ ?_ ?_ ?_ ?_
    · simp [pop_level, hc]
    · simp [pop_level, hc, set_frame, setN_same]
    · simp [pop_level, hc, set_frame, setN_same]
    · simp only [pop_level, if_pos hc]; exact h0.1
    · simp only [pop_level, if_pos hc]; exact h0.2.1
    · simp only [pop_level, if_pos hc]; omega
    · simp only [pop_level, if_pos hc]; omega
    · simp only [pop_level, if_pos hc]; exact bounds_head e m l h0
    · intro k _
      simp [pop_level, hc, set_frame, setN_same]
  · refine frame_step e m _ l _ h0 ?_ ?_ ?_ ?_ ?_ ?_ ?_ ?_ ?_
    · simp [pop_level, hc]
    · simp [pop_level, hc, setN_same]
    · simp [pop_level, hc, setN_same]
    · simp only [pop_level, if_neg hc]; exact h0.1
    · simp only [pop_level, if_neg hc]; exact h0.2.1
    · simp only [pop_level, if_neg hc]; omega
    · simp only [pop_level, if_neg hc]; omega
    · simp only [pop_level, if_neg hc]; exact bounds_head e m l h0
    · intro k _
      simp [pop_level, hc, setN_same]

/-- The bounds do not depend on `pc`. -/
theorem bounds_kept_pc (e : env) (fp : Nat) (m m' : machine) (l' : locals) (pc : Nat)
    (h : bounds_kept e fp m m' l') : bounds_kept e fp m m' { l' with pc := pc } := h

/-- The primitive `IN_RET` from a system height of at least 1 keeps the
bounds. -/
theorem exec_RET_kept (e : env) (m m' : machine) (l l' : locals)
    (h0 : stack_bounds e m l) (hstop : 1 ≤ l.stop) (h : exec_RET e m l = .next m' l') :
    bounds_kept e l.fr m m' l' := by
  obtain ⟨pc, hm, hl⟩ := exec_RET_pop e m m' l l' h
  rw [hm, hl]
  exact bounds_kept_pc e l.fr m _ _ pc (pop_level_kept e m l h0 hstop)

/-- The for-frame loop of CATCH, when it ends, has left the stacks and the try
stack alone. -/
theorem catch_fors_stacks :
    ∀ (n : Nat) (m m' : machine) (fp : Nat), catch_fors n m fp = some m' →
      (m'.frames fp).trys_top = (m.frames fp).trys_top
      ∧ (m'.frames fp).trys_st = (m.frames fp).trys_st
      ∧ (m'.frames fp).argument_st = (m.frames fp).argument_st
      ∧ (m'.frames fp).system_st = (m.frames fp).system_st := by
  intro n
  induction n with
  | zero =>
    intro m m' fp h
    simp only [catch_fors, Option.some.injEq] at h
    subst h
    exact ⟨rfl, rfl, rfl, rfl⟩
  | succ n ih =>
    intro m m' fp h
    simp only [catch_fors] at h
    split at h
    · cases h
    · obtain ⟨h1, h2, h3, h4⟩ := ih _ _ _ h
      simp only [setN_same] at h1 h2 h3 h4
      exact ⟨h1, h2, h3, h4⟩

/-- The primitives `IN_CATCH` and `IN_CATCH_DETAILED` keep the bounds, and the
value they push is written at the new operand height less one. -/
theorem exec_CATCH_kept (e : env) (m m' : machine) (l l' : locals) (d : Bool)
    (h0 : stack_bounds e m l) (h : exec_CATCH e m l d = .next m' l') :
    bounds_kept e l.fr m m' l'
    ∧ (∀ k, k < (if l.atop > (m.frames l.fr).try_depth then (m.frames l.fr).try_depth
          else l.atop) ∨ l.atop ≤ k → k ≠ l'.atop - 1 →
        (m'.frames l.fr).argument_st k = (m.frames l.fr).argument_st k)
    ∧ ((m'.frames l.fr).argument_st (l'.atop - 1)).type
        = (if d then .PROG_ARRAY else .PROG_STRING) := by
  simp only [exec_CATCH] at h
  split at h
  · simp [abort_loop_hard] at h
  · rename_i htop
    split at h
    · cases h
    · rename_i m2 hcf
      obtain ⟨c1, c2, c3, c4⟩ := catch_fors_stacks _ _ _ _ hcf
      simp only [setN_same] at c1 c2 c3 c4
      injection h with hm hl
      subst hm; subst hl
      obtain ⟨a0, a1, s0, s1, b1, b2⟩ := h0
      cases hst : (m.frames l.fr).trys_st with
      | nil =>
        rw [hst] at b1
        exact absurd b1 htop
      | cons t rest =>
        rw [hst] at b1 b2 c2
        simp only [try_bounds, Bool.and_eq_true, decide_eq_true_eq] at b2
        obtain ⟨⟨⟨⟨t0, t1⟩, t2⟩, t3⟩, t4⟩ := b2
        have hdepth : (m.frames l.fr).try_depth = t.depth := by
          simp [frame.try_depth, hst]
        have hat : (if l.atop > t.depth then t.depth else l.atop) = t.depth := by
          split <;> omega
        obtain ⟨_, hclear⟩ := clear_above_spec (l.atop - t.depth).toNat l.atop m.mem
          (m.frames l.fr).argument_st
        have hnat : ((l.atop - t.depth).toNat : Int) = l.atop - t.depth :=
          Int.toNat_of_nonneg (by omega)
        simp only [hdepth, hat, hst] at hcf c1 c2 c3 c4 ⊢
        refine ⟨⟨⟨?_, ?_, s0, s1, ?_, ?_⟩, rfl, ?_⟩, ?_, ?_⟩
        · show 0 ≤ t.depth + 1
          omega
        · show t.depth + 1 ≤ e.STACK_SIZE
          omega
        · simp only [setN_same, reload, c1, c2, pop_try, b1, List.length_cons]
          push_cast; ring
        · simp only [setN_same, reload, c2, pop_try]
          exact try_bounds_head e _ _ _ t4 (fun r rs hr => by
            rw [hr] at t4
            simp only [try_bounds, Bool.and_eq_true, decide_eq_true_eq] at t4
            have := t4.1.1.2
            omega)
        · intro k hk
          have hk1 : k ≠ t.depth := by omega
          simp only [setN_same, reload, c3, c4, setI, hk1, if_false, and_true]
          exact hclear k (by omega)
        · intro k hk hk2
          have hk1 : k ≠ t.depth := by
            simp only [add_sub_cancel_right] at hk2
            exact hk2
          simp only [setN_same, reload, c3, setI, hk1, if_false]
          exact hclear k (by omega)
        · simp only [setN_same, reload, add_sub_cancel_right, setI, if_true]
          cases d
          · cases (m2.frames l.fr).errorstr <;> simp [inst.type]
          · simp [inst.type]
/-- Steps that keep the bounds compose. -/
theorem bounds_kept_trans (e : env) (fp : Nat) (m m1 m' : machine) (l1 l' : locals)
    (h1 : bounds_kept e fp m m1 l1) (h2 : bounds_kept e l1.fr m1 m' l') :
    bounds_kept e fp m m' l' := by
  obtain ⟨_, hfr, hw⟩ := h1
  rw [hfr] at h2
  exact ⟨h2.1, h2.2.1, stack_writes_within_trans e _ _ _ hw h2.2.2⟩

/-- A state within the bounds keeps them when no step is made. -/
theorem bounds_kept_refl (e : env) (m : machine) (l : locals) (h0 : stack_bounds e m l) :
    bounds_kept e l.fr m m l :=
  ⟨h0, rfl, stack_writes_within_refl e _⟩

/-- Within the bounds the call level of the innermost try-frame is not
negative. -/
theorem bounds_call_level (e : env) (m : machine) (l : locals) (h0 : stack_bounds e m l) :
    0 ≤ (m.frames l.fr).try_call_level := by
  have h6 := h0.2.2.2.2.2
  cases hst : (m.frames l.fr).trys_st with
  | nil => simp [frame.try_call_level, hst]
  | cons t rest =>
    rw [hst] at h6
    simp only [try_bounds, Bool.and_eq_true, decide_eq_true_eq] at h6
    simp only [frame.try_call_level, hst]
    exact h6.1.2

/-- The primitive `IN_EVENT_WAITFOR`, when the pass goes on, keeps the
bounds. -/
theorem exec_EVENT_WAITFOR_kept (e : env) (m m' : machine) (l l' : locals)
    (h0 : stack_bounds e m l) (h : exec_EVENT_WAITFOR e m l = .next m' l') :
    bounds_kept e l.fr m m' l' := by
  simp only [exec_EVENT_WAITFOR] at h
  split at h
  · exact abort_loop_kept_none e m m' l l' _ h0 h
  · rename_i h1
    split at h
    · exact abort_loop_kept_none e m m' l l' _ h0 h
    · rename_i ht
      have ht1 : try_protect (m.frames l.fr) l.atop 1 = false := by simpa using ht
      split at h
      · split at h
        · exact abort_popped_kept e m m' l l' _ _ h0 h1 ht1 (fun i hi => by cases hi; rfl) h
        · split at h
          · exact abort_popped_kept e m m' l l' _ _ h0 h1 ht1 (fun i hi => by cases hi; rfl) h
          · cases h
      · exact abort_popped_kept e m m' l l' _ _ h0 h1 ht1 (fun i hi => by cases hi; rfl) h

/-- The primitive `IN_READ`, when the pass goes on, keeps the bounds. -/
theorem exec_READ_kept (e : env) (m m' : machine) (l l' : locals)
    (h0 : stack_bounds e m l) (h : exec_READ e m l = .next m' l') :
    bounds_kept e l.fr m m' l' := by
  simp only [exec_READ] at h
  split at h
  · exact abort_loop_kept_none e m m' l l' _ h0 h
  · split at h
    · exact abort_loop_kept_none e m m' l l' _ h0 h
    · cases h

/-- The primitive `IN_SLEEP`, when the pass goes on, keeps the bounds. -/
theorem exec_SLEEP_kept (e : env) (m m' : machine) (l l' : locals)
    (h0 : stack_bounds e m l) (h : exec_SLEEP e m l = .next m' l') :
    bounds_kept e l.fr m m' l' := by
  simp only [exec_SLEEP] at h
  split at h
  · exact abort_loop_kept_none e m m' l l' _ h0 h
  · rename_i h1
    split at h
    · exact abort_loop_kept_none e m m' l l' _ h0 h
    · rename_i ht
      have ht1 : try_protect (m.frames l.fr) l.atop 1 = false := by simpa using ht
      have hb := bounds_pop e m l l.pc h0 h1 ht1
      have a1 := h0.2.1
      split at h
      · split at h
        · have hb1 : stack_bounds e
              (set_frame m l.fr
                { reload (m.frames l.fr) (l.atop - 1) l.stop with pc := l.pc + 1 })
              { l with atop := l.atop - 1 } :=
            bounds_step e m _ { l with atop := l.atop - 1 } _ hb rfl
              (by simp only [set_frame, setN_same, reload])
              (by simp only [set_frame, setN_same, reload]) hb.1 hb.2.1 hb.2.2.1 hb.2.2.2.1
              (bounds_head e m _ hb)
          have hw : stack_writes_within e (m.frames l.fr)
              ((set_frame m l.fr
                { reload (m.frames l.fr) (l.atop - 1) l.stop with pc := l.pc + 1 }).frames
                l.fr) := by
            intro k _
            simp [set_frame, setN_same, reload]
          exact bounds_kept_after e l.fr m _ m' l' hw
            (abort_loop_kept e
              (set_frame m l.fr
                { reload (m.frames l.fr) (l.atop - 1) l.stop with pc := l.pc + 1 })
              m' { l with atop := l.atop - 1 } l' _ _ _ hb1
              (fun i hi => by cases hi; omega) (fun _ hi => by cases hi) h)
        · cases h
      · exact abort_popped_kept e m m' l l' _ _ h0 h1 ht1 (fun i hi => by cases hi; rfl) h

/-- The instruction switch, on an instruction the dispatcher handles itself and
with a system height of at least 1, keeps the bounds. -/
theorem dispatch_kept (e : env) (m m' : machine) (l l' : locals)
    (hc : engine_handled (e.code l.pc).data = true) (hstop : 1 ≤ l.stop)
    (h0 : stack_bounds e m l) (h : dispatch e m l = .next m' l') :
    bounds_kept e l.fr m m' l' := by
  cases hi : (e.code l.pc).data
  case PROG_PRIMITIVE n =>
    simp only [dispatch, hi] at h
    simp only [engine_handled, hi, Bool.or_eq_true, decide_eq_true_eq] at hc
    split at h
    · exact exec_JMP_kept e _ _ _ _ h0 h
    · split at h
      · exact exec_EXECUTE_kept e _ _ _ _ h0 h
      · split at h
        · exact exec_CALL_kept e _ _ _ _ h0 h
        · split at h
          · exact exec_RET_kept e _ _ _ _ h0 hstop h
          · split at h
            · exact (exec_CATCH_kept e _ _ _ _ _ h0 h).1
            · split at h
              · exact (exec_CATCH_kept e _ _ _ _ _ h0 h).1
              · split at h
                · exact exec_EVENT_WAITFOR_kept e _ _ _ _ h0 h
                · split at h
                  · exact exec_READ_kept e _ _ _ _ h0 h
                  · split at h
                    · exact exec_SLEEP_kept e _ _ _ _ h0 h
                    · omega
  case PROG_CLEARED f =>
    simp [dispatch, hi, abort_loop_hard] at h
  case PROG_LVAR_AT n =>
    simp only [dispatch, hi] at h
    exact exec_LVAR_AT_kept e _ _ _ _ _ _ h0 h
  case PROG_LVAR_AT_CLEAR n =>
    simp only [dispatch, hi] at h
    exact exec_LVAR_AT_kept e _ _ _ _ _ _ h0 h
  case PROG_LVAR_BANG n =>
    simp only [dispatch, hi] at h
    exact exec_LVAR_BANG_kept e _ _ _ _ _ h0 h
  case PROG_SVAR_AT n =>
    simp only [dispatch, hi] at h
    exact exec_SVAR_AT_kept e _ _ _ _ _ _ h0 h
  case PROG_SVAR_AT_CLEAR n =>
    simp only [dispatch, hi] at h
    exact exec_SVAR_AT_kept e _ _ _ _ _ _ h0 h
  case PROG_SVAR_BANG n =>
    simp only [dispatch, hi] at h
    exact exec_SVAR_BANG_kept e _ _ _ _ _ h0 h
  case PROG_FUNCTION p =>
    simp only [dispatch, hi] at h
    exact exec_FUNCTION_kept e _ _ _ _ _ h0 h
  case PROG_IF call =>
    simp only [dispatch, hi] at h
    exact exec_IF_kept e _ _ _ _ _ h0 h
  case PROG_EXEC call =>
    simp only [dispatch, hi] at h
    exact exec_EXEC_kept e _ _ _ _ _ h0 h
  case PROG_JMP call =>
    simp only [dispatch, hi] at h
    exact exec_PROG_JMP_kept e _ _ _ _ _ h0 h
  case PROG_TRY call =>
    simp only [dispatch, hi] at h
    exact exec_TRY_kept e _ _ _ _ _ h0 h
  all_goals
    simp only [dispatch, hi] at h
    exact exec_push_kept e _ _ _ _ h0 h

/-- The unwind loop, when the pass goes on, keeps the bounds. -/
theorem unwind_loop_kept (e : env) :
    ∀ (fuel : Nat) (m m' : machine) (l l' : locals),
      stack_bounds e m l → unwind_loop e fuel m l = .next m' l' →
      bounds_kept e l.fr m m' l' := by
  intro fuel
  induction fuel with
  | zero =>
    intro m m' l l' h0 h
    simp only [unwind_loop] at h
    injection h with hm hl
    subst hm; subst hl
    exact bounds_kept_refl e m l h0
  | succ fuel ih =>
    intro m m' l l' h0 h
    simp only [unwind_loop] at h
    split at h
    · rename_i hlt
      have hstop : 1 ≤ l.stop := by
        have := bounds_call_level e m l h0
        omega
      split at h
      · simp [abort_loop_hard] at h
      · have hp := pop_level_kept e m l h0 hstop
        exact bounds_kept_trans e l.fr m _ m' _ l' hp (ih (pop_level e m l).1 m' (pop_level e m l).2 l' hp.1 h)
    · injection h with hm hl
      subst hm; subst hl
      exact bounds_kept_refl e m l h0

/-- The bounds do not depend on the error flag. -/
theorem bounds_kept_err (e : env) (fp : Nat) (m m' : machine) (l' : locals) (err : Int)
    (h : bounds_kept e fp m m' l') : bounds_kept e fp m { m' with err := err } l' := h

/-- The error check at the end of a pass, when the pass goes on, keeps the
bounds. -/
theorem error_unwind_kept (e : env) (m m' : machine) (l l' : locals)
    (h0 : stack_bounds e m l) (h : error_unwind e m l = .next m' l') :
    bounds_kept e l.fr m m' l' := by
  simp only [error_unwind] at h
  split at h
  · split at h
    · split at h
      · rename_i m1 l1 hu
        injection h with hm hl
        subst hm; subst hl
        exact bounds_kept_pc e l.fr m _ _ _
          (bounds_kept_err e l.fr m m1 l1 0 (unwind_loop_kept e _ m m1 l l1 h0 hu))
      · rename_i hnot
        cases hu : unwind_loop e (l.stop - (m.frames l.fr).try_call_level).toNat m l with
        | next m1 l1 => exact absurd hu (hnot m1 l1)
        | ret m1 rv => rw [hu] at h; cases h
        | undefined m1 => rw [hu] at h; cases h
    · cases h
  · injection h with hm hl
    subst hm; subst hl
    exact bounds_kept_refl e m l h0

/-- One pass on an instruction the dispatcher handles itself, while the loop
goes on, keeps the bounds. -/
theorem execute_kept (e : env) (m m' : machine) (l l' : locals)
    (hc : engine_handled (e.code l.pc).data = true) (hs : l.stop ≠ 0)
    (h0 : stack_bounds e m l) (h : execute e m l = .next m' l') :
    bounds_kept e l.fr m m' l' := by
  have hstop : 1 ≤ l.stop := by
    have := h0.2.2.1
    omega
  simp only [execute] at h
  cases hd : dispatch e m l with
  | next m1 l1 =>
    rw [hd] at h
    simp only [] at h
    have h1 := dispatch_kept e m m1 l l1 hc hstop h0 hd
    exact bounds_kept_trans e l.fr m m1 m' l1 l' h1 (error_unwind_kept e m1 m' l1 l' h1.1 h)
  | ret m1 rv => rw [hd] at h; cases h
  | undefined m1 => rw [hd] at h; cases h

/-- A step that leaves the heights, the try stack and the two stacks alone
keeps the bounds. -/
theorem quiet_kept (e : env) (m m' : machine) (l l' : locals)
    (h0 : stack_bounds e m l) (hfr : l'.fr = l.fr) (ha : l'.atop = l.atop)
    (hs : l'.stop = l.stop)
    (htop : (m'.frames l.fr).trys_top = (m.frames l.fr).trys_top)
    (hst : (m'.frames l.fr).trys_st = (m.frames l.fr).trys_st)
    (harg : (m'.frames l.fr).argument_st = (m.frames l.fr).argument_st)
    (hsys : (m'.frames l.fr).system_st = (m.frames l.fr).system_st) :
    bounds_kept e l.fr m m' l' := by
  refine frame_step e m m' l l' h0 hfr htop hst ?_ ?_ ?_ ?_ ?_ ?_
  · rw [ha]; exact h0.1
  · rw [ha]; exact h0.2.1
  · rw [hs]; exact h0.2.2.1
  · rw [hs]; exact h0.2.2.2.1
  · rw [ha]; exact bounds_head e m l h0
  · intro k _
    rw [harg, hsys]
    exact ⟨rfl, rfl⟩

/-- The first part of a pass, when the pass goes on, keeps the bounds, `pc` and
the system height. -/
theorem budget_kept (e : env) (m m' : machine) (l l' : locals)
    (h0 : stack_bounds e m l) (h : budget e m l = .next m' l') :
    bounds_kept e l.fr m m' l' ∧ l'.pc = l.pc ∧ l'.stop = l.stop := by
  obtain ⟨hm, k, hl⟩ := budget_next e m m' l l' h
  subst hm; subst hl
  exact ⟨quiet_kept e m _ l _ h0 rfl rfl rfl (by simp [set_frame, setN_same])
    (by simp [set_frame, setN_same]) (by simp [set_frame, setN_same])
    (by simp [set_frame, setN_same]), rfl, rfl⟩

/-- The debugger part of a pass, when the pass goes on, keeps the bounds, `pc`
and the system height. -/
theorem debugger_tick_kept (e : env) (m m' : machine) (l l' : locals)
    (h0 : stack_bounds e m l) (h : debugger_tick e m l = .next m' l') :
    bounds_kept e l.fr m m' l' ∧ l'.pc = l.pc ∧ l'.stop = l.stop := by
  obtain ⟨hm, hl⟩ := debugger_tick_next e m m' l l' h
  have f1 : l'.fr = l.fr := by rw [hl]
  have f2 : l'.atop = l.atop := by rw [hl]
  have f3 : l'.stop = l.stop := by rw [hl]
  have f4 : l'.pc = l.pc := by rw [hl]
  have g : m'.frames l.fr = { (m.frames l.fr) with brkpt := (m'.frames l.fr).brkpt } := by
    have hx := congrArg (fun (x : machine) => x.frames l.fr) hm
    simp only [setN_same] at hx
    exact hx
  refine ⟨quiet_kept e m m' l l' h0 f1 f2 f3 ?_ ?_ ?_ ?_, f4, f3⟩
  · rw [g]
  · rw [g]
  · rw [g]
  · rw [g]

/-- The ceiling on the instruction count, when the pass goes on, changes
nothing. -/
theorem ceiling_next (e : env) (m m' : machine) (l l' : locals)
    (h : ceiling e m l = .next m' l') : m' = m ∧ l' = l := by
  unfold ceiling at h
  by_cases hc : l.mlev < 3
      ∧ (m.frames l.fr).instcnt > e.tp_max_instr_count * (if l.mlev = 2 then 4 else 1)
  · rw [if_pos hc] at h
    simp [abort_loop_hard] at h
  · rw [if_neg hc] at h
    injection h with hm hl
    exact ⟨hm.symm, hl.symm⟩

/-- One pass through the dispatcher loop on an instruction the dispatcher
handles itself, while the loop goes on, keeps the bounds. -/
theorem loop_pass_kept (e : env) (m m' : machine) (l l' : locals)
    (hc : engine_handled (e.code l.pc).data = true) (hs : l.stop ≠ 0)
    (h0 : stack_bounds e m l) (h : loop_pass e m l = .next m' l') :
    bounds_kept e l.fr m m' l' := by
  simp only [loop_pass] at h
  cases hb : budget e m l with
  | next m1 l1 =>
    rw [hb] at h
    simp only [outcome.andThen] at h
    obtain ⟨k1, p1, s1⟩ := budget_kept e m m1 l l1 h0 hb
    cases hd : debugger_tick e m1 l1 with
    | next m2 l2 =>
      rw [hd] at h
      simp only [] at h
      obtain ⟨k2, p2, s2⟩ := debugger_tick_kept e m1 m2 l1 l2 k1.1 hd
      cases hx : ceiling e m2 l2 with
      | next m3 l3 =>
        rw [hx] at h
        simp only [] at h
        obtain ⟨e1, e2⟩ := ceiling_next e m2 m3 l2 l3 hx
        subst e1; subst e2
        have k3 := execute_kept e m3 m' l3 l' (by rw [p2, p1]; exact hc)
          (by rw [s2, s1]; exact hs) k2.1 h
        exact bounds_kept_trans e l.fr m m1 m' l1 l' k1
          (bounds_kept_trans e l1.fr m1 m3 m' l3 l' k2 k3)
      | ret m3 rv => rw [hx] at h; cases h
      | undefined m3 => rw [hx] at h; cases h
    | ret m2 rv => rw [hd] at h; cases h
    | undefined m2 => rw [hd] at h; cases h
  | ret m1 rv => rw [hb] at h; cases h
  | undefined m1 => rw [hb] at h; cases h
/-- Every try-frame of a try stack within bounds under the height `a` has a
depth of at least 0, at most `STACK_SIZE - 1` and at most `a`. -/
theorem try_bounds_mem (e : env) :
    ∀ (st : List tryvars) (a : Int), try_bounds e a st = true →
      ∀ t ∈ st, 0 ≤ t.depth ∧ t.depth ≤ e.STACK_SIZE - 1 ∧ t.depth ≤ a := by
  intro st
  induction st with
  | nil =>
    intro a _ t ht
    cases ht
  | cons x rest ih =>
    intro a h t ht
    simp only [try_bounds, Bool.and_eq_true, decide_eq_true_eq] at h
    obtain ⟨⟨⟨⟨x0, x1⟩, x2⟩, _⟩, x4⟩ := h
    rcases List.mem_cons.mp ht with hx | hr
    · subst hx
      exact ⟨x0, x1, x2⟩
    · obtain ⟨r0, r1, r2⟩ := ih x.depth x4 t hr
      exact ⟨r0, r1, by omega⟩

/-- The frame that `interp` creates, with the registers `interp_loop` loads
from it, is within the stack bounds when `STACK_SIZE` is at least 1. -/
theorem interp_entry_bounds (e : env) (hS : 1 ≤ e.STACK_SIZE) (m m1 : machine)
    (descr player location program source nosleeps whichperms forced_pid rettyp : Int)
    (cmdname args : String) (malloc fp : Nat)
    (h : interp e m descr player location program source nosleeps whichperms forced_pid cmdname
      args malloc = (m1, some fp)) :
    stack_bounds e (interp_loop_entry e m1 player program fp rettyp).1
      (interp_loop_entry e m1 player program fp rettyp).2
    ∧ (interp_loop_entry e m1 player program fp rettyp).2.fr = fp := by
  simp only [interp] at h
  split at h
  · simp at h
  · simp only [Prod.mk.injEq, Option.some.injEq] at h
    obtain ⟨hm, hfp⟩ := h
    subst hm
    subst hfp
    refine ⟨?_, rfl⟩
    simp only [stack_bounds, interp_loop_entry, setN_same, try_bounds, List.length_nil,
      Nat.cast_zero, and_true]
    omega

/-- Passes on instructions the dispatcher handles itself keep the bounds. -/
theorem engine_passes_kept (e : env) :
    ∀ (n : Nat) (m m' : machine) (l l' : locals),
      stack_bounds e m l → engine_passes e n m l = some (m', l') →
      bounds_kept e l.fr m m' l' := by
  intro n
  induction n with
  | zero =>
    intro m m' l l' h0 h
    simp only [engine_passes, Option.some.injEq, Prod.mk.injEq] at h
    rw [← h.1, ← h.2]
    exact bounds_kept_refl e m l h0
  | succ n ih =>
    intro m m' l l' h0 h
    simp only [engine_passes] at h
    split at h
    · rename_i hc
      cases hx : loop_pass e m l with
      | next m1 l1 =>
        rw [hx] at h
        have h1 := loop_pass_kept e m m1 l l1 hc.2 hc.1 h0 hx
        exact bounds_kept_trans e l.fr m m1 m' l1 l' h1 (ih m1 m' l1 l' h1.1 h)
      | ret m1 rv => rw [hx] at h; cases h
      | undefined m1 => rw [hx] at h; cases h
    · cases h

/-- C34: stack bounds, for a `STACK_SIZE` of at least 1.  Take the frame that
`interp` creates, with the registers `interp_loop` loads from it, and make any
number of passes through the dispatcher loop that each meet an instruction the
dispatcher handles itself.  In the state reached the operand height and the
system height lie between 0 and `STACK_SIZE`; the depth of every try-frame is
at least 0, at most `STACK_SIZE - 1` and at most the operand height; and no
slot of the operand stack or of the system stack below index 0 or from index
`STACK_SIZE` on has been written.  When CATCH runs in that state and the pass
goes on, the value it pushes, a string and for `IN_CATCH_DETAILED` an array,
lies at the index below the new operand height, which is at least 0 and less
than `STACK_SIZE`, and no operand slot from the old height on but that one has
been written. -/
theorem stack_bounds_invariant (e : env) (hS : 1 ≤ e.STACK_SIZE) (m m1 : machine)
    (descr player location program source nosleeps whichperms forced_pid rettyp : Int)
    (cmdname args : String) (malloc fp : Nat)
    (hfr : interp e m descr player location program source nosleeps whichperms forced_pid
      cmdname args malloc = (m1, some fp))
    (n : Nat) (m' : machine) (l' : locals)
    (hrun : engine_passes e n (interp_loop_entry e m1 player program fp rettyp).1
      (interp_loop_entry e m1 player program fp rettyp).2 = some (m', l')) :
    (0 ≤ l'.atop ∧ l'.atop ≤ e.STACK_SIZE)
    ∧ (0 ≤ l'.stop ∧ l'.stop ≤ e.STACK_SIZE)
    ∧ (∀ t ∈ (m'.frames l'.fr).trys_st,
        0 ≤ t.depth ∧ t.depth ≤ e.STACK_SIZE - 1 ∧ t.depth ≤ l'.atop)
    ∧ l'.fr = fp
    ∧ stack_writes_within e ((interp_loop_entry e m1 player program fp rettyp).1.frames fp)
        (m'.frames fp)
    ∧ ∀ (d : Bool) (m2 : machine) (l2 : locals), exec_CATCH e m' l' d = .next m2 l2 →
        (0 ≤ l2.atop - 1 ∧ l2.atop - 1 < e.STACK_SIZE)
        ∧ ((m2.frames fp).argument_st (l2.atop - 1)).type
            = (if d then .PROG_ARRAY else .PROG_STRING)
        ∧ (∀ k, l'.atop ≤ k → k ≠ l2.atop - 1 →
            (m2.frames fp).argument_st k = (m'.frames fp).argument_st k)
        ∧ stack_writes_within e (m'.frames fp) (m2.frames fp) := by
  obtain ⟨hb0, hfp0⟩ := interp_entry_bounds e hS m m1 descr player location program source
    nosleeps whichperms forced_pid rettyp cmdname args malloc fp hfr
  have hk := engine_passes_kept e n _ m' _ l' hb0 hrun
  rw [hfp0] at hk
  obtain ⟨hb, hfp, hw⟩ := hk
  have hb' := hb
  obtain ⟨a0, a1, s0, s1, _, b2⟩ := hb
  refine ⟨⟨a0, a1⟩, ⟨s0, s1⟩, try_bounds_mem e _ _ b2, hfp, hw, ?_⟩
  intro d m2 l2 hc
  obtain ⟨⟨c1, _, c3⟩, c4, c5⟩ := exec_CATCH_kept e m' m2 l' l2 d hb' hc
  rw [hfp] at c3 c4 c5
  have c0 := c1.1
  have c2 := c1.2.1
  refine ⟨?_, c5, fun k hk1 hk2 => c4 k (Or.inr hk1) hk2, c3⟩
  have hidx : 1 ≤ l2.atop := by
    simp only [exec_CATCH] at hc
    split at hc
    · simp [abort_loop_hard] at hc
    · split at hc
      · cases hc
      · injection hc with _ hl
        subst hl
        have hd : 0 ≤ (m'.frames l'.fr).try_depth := by
          cases hst : (m'.frames l'.fr).trys_st with
          | nil => simp [frame.try_depth, hst]
          | cons t rest =>
            have := (try_bounds_mem e _ _ b2 t (by rw [hst]; exact List.mem_cons_self _ _)).1
            simp [frame.try_depth, hst, this]
        show 1 ≤ (if l'.atop > (m'.frames l'.fr).try_depth then (m'.frames l'.fr).try_depth
          else l'.atop) + 1
        split <;> omega
  omega

/-- The bounds of C34 on a run of the sample machine: the frame that `interp`
creates for program 2 runs `INT 0, TRY 5, IF 9`, where `IF` meets a protection
fault, and the handler `CATCH`; after the four passes the operand height is 2,
the error string pushed by CATCH lies at index 1, the try stack is empty, and
the heights are within 0 and `STACK_SIZE`, which is 512. -/
theorem stack_bounds_invariant_witness :
    (1 : Int) ≤ (sample_env code_catch_push).STACK_SIZE
    ∧ ∃ m1 m' l',
      interp (sample_env code_catch_push) (sample_machine sample_heap sample_frame)
          0 1 0 2 1 0 0 0 "" "" 0 = (m1, some 0)
      ∧ engine_passes (sample_env code_catch_push) 4
          (interp_loop_entry (sample_env code_catch_push) m1 1 2 0 0).1
          (interp_loop_entry (sample_env code_catch_push) m1 1 2 0 0).2 = some (m', l')
      ∧ l'.pc = 6 ∧ l'.atop = 2 ∧ (m'.frames 0).trys_st = []
      ∧ ((m'.frames 0).argument_st 1).data = .PROG_STRING (some 100)
      ∧ (0 ≤ l'.atop ∧ l'.atop ≤ 512) ∧ (0 ≤ l'.stop ∧ l'.stop ≤ 512) :=
  ⟨by decide, _, _, _, rfl, rfl, by decide, by decide, by decide, by decide,
    (stack_bounds_invariant (sample_env code_catch_push) (by decide)
      (sample_machine sample_heap sample_frame) _ 0 1 0 2 1 0 0 0 0 "" "" 0 0 rfl 4 _ _ rfl).1,
    (stack_bounds_invariant (sample_env code_catch_push) (by decide)
      (sample_machine sample_heap sample_frame) _ 0 1 0 2 1 0 0 0 0 "" "" 0 0 rfl 4 _ _
      rfl).2.1⟩

end Interp
